import Mathlib

/-! HwcLayerList: per-frame plane assignment.

A shallow embedding of `common/base/HwcLayerList.cpp`.

* `HwcLayer*` pointers are indices into `mLayers` (the list owns the layer objects);
  dereferencing an index that is not there, reading a vector out of range or
  dereferencing a null `mFrameBufferTarget` is undefined behaviour in the source
  and is `none` here.
* The Plane Pool Manager (`DisplayPlaneManager`) is an external collaborator; it is
  the record `Env`, parameterised by the type of the manager's own state, so that
  a manager whose answers depend only on the configuration is `Env Unit`.
* Functions that return `bool` and mutate the list return `Option (Bool × State)`.
-/

set_option autoImplicit false

namespace HwcLayerList

/-! ## Data model -/

/-- Display rectangle `hwc_rect_t`. -/
structure hwc_rect_t where
  left : Int
  top : Int
  right : Int
  bottom : Int
deriving DecidableEq, Repr

/-- The fields of a raw frame layer `hwc_layer_1_t` that this file reads or writes. -/
structure hwc_layer_1_t where
  compositionType : Int
  flags : Nat
  handle : Nat
  displayFrame : hwc_rect_t
deriving DecidableEq, Repr

/-- Composition roles of a layer, the `HwcLayer::LAYER_*` values used by the source. -/
inductive LayerType where
  | LAYER_FB
  | LAYER_FORCE_FB
  | LAYER_OVERLAY
  | LAYER_SKIPPED
  | LAYER_FRAMEBUFFER_TARGET
deriving DecidableEq, Repr

/-- Plane classes, the `DisplayPlane::PLANE_*` values used by the source. -/
inductive PlaneType where
  | PLANE_SPRITE
  | PLANE_OVERLAY
  | PLANE_PRIMARY
deriving DecidableEq, Repr

/-- A hardware plane object as far as this file touches it: its class, its index in the
pool and the z-order written by `setZOrder`. -/
structure DisplayPlane where
  mType : PlaneType
  mIndex : Nat
  mZOrder : Int
deriving DecidableEq, Repr

/-- One layer object. `mIndex` is `getIndex()`, `mZOrder` is `getZOrder()`, `mLayer` is
the raw layer behind `getLayer()`, `mUsage` is `getUsage()`, `mUpdated` is `isUpdated()`,
`mPlane` is the attached plane (`none` when no plane is attached). -/
structure HwcLayer where
  mIndex : Nat
  mZOrder : Int
  mType : LayerType
  mPlaneCandidate : Bool
  mLayer : hwc_layer_1_t
  mUsage : Nat
  mUpdated : Bool
  mPlane : Option DisplayPlane
deriving DecidableEq, Repr

/-- An assignment record `ZOrderLayer`; `hwcLayer` is the pointer to the layer, that is
its index in `mLayers`; `plane` is `none` while the record is tentative. -/
structure ZOrderLayer where
  planeType : PlaneType
  hwcLayer : Nat
  zorder : Int
  plane : Option DisplayPlane
deriving DecidableEq, Repr

/-- The aggregate `HwcLayerList`. `mList` is the stored frame (`none` for a null
pointer), `planeManager` is the current state of the external Plane Pool Manager. -/
structure State (σ : Type) where
  mList : Option (List hwc_layer_1_t)
  mLayerCount : Nat
  mLayers : List HwcLayer
  mFBLayers : List Nat
  mSpriteCandidates : List Nat
  mOverlayCandidates : List Nat
  mZOrderConfig : List ZOrderLayer
  mFrameBufferTarget : Option Nat
  planeManager : σ
deriving DecidableEq

/-- The external collaborators, none of which is defined in this file of the source.

* `getFreePlanes t` is `planeManager->getFreePlanes(mDisplayIndex, t)`.
* `isValidZOrder` and `assignPlanes` take the manager's state and the configuration
  and give the answer and the manager's next state.
* `planeAt m cfg i` is the plane that a successful `assignPlanes` stores in the record
  at position `i` (a successful call leaves no record without a plane).
* `addPos cfg r` is the position at which the container `mZOrderConfig`, whose type is
  declared outside this file, places a record handed to `add`.
* `layerUpdate` is `HwcLayer::update`. -/
structure Env (σ : Type) where
  getFreePlanes : PlaneType → Int
  isValidZOrder : σ → List ZOrderLayer → Bool × σ
  assignPlanes : σ → List ZOrderLayer → Bool × σ
  planeAt : σ → List ZOrderLayer → Nat → DisplayPlane
  addPos : List ZOrderLayer → ZOrderLayer → Nat
  layerUpdate : HwcLayer → hwc_layer_1_t → HwcLayer

/-! ## Geometry -/

/-- `HwcLayerList::hasIntersection` on the two display rectangles. -/
def rectIntersect (aRect bRect : hwc_rect_t) : Bool :=
  if bRect.right ≤ aRect.left ∨ bRect.left ≥ aRect.right ∨
      bRect.top ≥ aRect.bottom ∨ bRect.bottom ≤ aRect.top then
    false
  else
    true

/-- `HwcLayerList::hasIntersection(la, lb)`. -/
def hasIntersection (la lb : HwcLayer) : Bool :=
  rectIntersect la.mLayer.displayFrame lb.mLayer.displayFrame

/-! ## Z-order configuration bookkeeping -/

/-- Insertion of `a` at position `k` of a list (at the end when `k` is past the end). -/
def insertAt {α : Type} (a : α) : Nat → List α → List α
  | 0, l => a :: l
  | _ + 1, [] => [a]
  | k + 1, x :: xs => x :: insertAt a k xs

/-- `HwcLayerList::addZOrderLayer(type, hwcLayer, zorder)`; the source's default argument
is `zorder = -1`. The two `ETRACE` branches only log. -/
def addZOrderLayer {σ : Type} (env : Env σ) (type : PlaneType) (hwcLayer : Nat) (zorder : Int)
    (s : State σ) : Option (ZOrderLayer × State σ) :=
  match s.mLayers[hwcLayer]? with
  | none => none
  | some l =>
    let layer : ZOrderLayer :=
      { planeType := type, hwcLayer := hwcLayer,
        zorder := if zorder ≠ -1 then zorder else l.mZOrder, plane := none }
    some (layer,
      { s with
        mLayers := s.mLayers.set hwcLayer { l with mPlaneCandidate := true },
        mZOrderConfig := insertAt layer (env.addPos s.mZOrderConfig layer) s.mZOrderConfig })

/-- `HwcLayerList::removeZOrderLayer(layer)`. The two `ETRACE` branches only log. -/
def removeZOrderLayer {σ : Type} (layer : ZOrderLayer) (s : State σ) : Option (State σ) :=
  match s.mLayers[layer.hwcLayer]? with
  | none => none
  | some l =>
    some { s with
      mZOrderConfig := s.mZOrderConfig.erase layer,
      mLayers := s.mLayers.set layer.hwcLayer { l with mPlaneCandidate := false } }

/-- Body of the loop of `attachPlanes` for the record `zlayer` at position `i`; `m` and
`cfg` are the manager state and the configuration that `assignPlanes` was called with. -/
def attachOne {σ : Type} (env : Env σ) (m : σ) (cfg : List ZOrderLayer) (i : Nat)
    (zlayer : ZOrderLayer) (s : State σ) : Option (State σ) :=
  match s.mLayers[zlayer.hwcLayer]? with
  | none => none
  | some l =>
    let plane : DisplayPlane := { env.planeAt m cfg i with mZOrder := (i : Int) }
    if some zlayer.hwcLayer ≠ s.mFrameBufferTarget then
      some { s with
        mLayers := s.mLayers.set zlayer.hwcLayer
          { l with mType := LayerType.LAYER_OVERLAY, mPlane := some plane },
        mFBLayers := s.mFBLayers.erase zlayer.hwcLayer }
    else
      some { s with mLayers := s.mLayers.set zlayer.hwcLayer { l with mPlane := some plane } }

/-- The loop `for (i = 0; i < mZOrderConfig.size(); i++)` of `attachPlanes`, over the
records from position `i` on. -/
def attachLoop {σ : Type} (env : Env σ) (m : σ) (cfg : List ZOrderLayer) :
    Nat → List ZOrderLayer → State σ → Option (State σ)
  | _, [], s => some s
  | i, zlayer :: rest, s =>
    match attachOne env m cfg i zlayer s with
    | none => none
    | some s1 => attachLoop env m cfg (i + 1) rest s1

/-- `HwcLayerList::attachPlanes()`. -/
def attachPlanes {σ : Type} (env : Env σ) (s : State σ) : Option (Bool × State σ) :=
  let v := env.isValidZOrder s.planeManager s.mZOrderConfig
  if v.1 = false then
    some (false, { s with planeManager := v.2 })
  else
    let a := env.assignPlanes v.2 s.mZOrderConfig
    if a.1 = false then
      some (false, { s with planeManager := a.2 })
    else
      match attachLoop env v.2 s.mZOrderConfig 0 s.mZOrderConfig
          { s with planeManager := a.2 } with
      | none => none
      | some s1 => some (true, { s1 with mZOrderConfig := [] })

/-- `HwcLayerList::assignPrimaryPlaneHelper(hwcLayer, zorder)`; the source's default
argument is `zorder = -1`. -/
def assignPrimaryPlaneHelper {σ : Type} (env : Env σ) (hwcLayer : Nat) (zorder : Int)
    (s : State σ) : Option (Bool × State σ) :=
  match addZOrderLayer env PlaneType.PLANE_PRIMARY hwcLayer zorder s with
  | none => none
  | some (zlayer, s1) =>
    match attachPlanes env s1 with
    | none => none
    | some (true, s2) => some (true, s2)
    | some (false, s2) =>
      match removeZOrderLayer zlayer s2 with
      | none => none
      | some s3 => some (false, s3)

/-! ## Geometric eligibility -/

/-- The layer behind `mFBLayers[i]`; `none` when `i` is out of range. -/
def fbLayerAt {σ : Type} (s : State σ) (i : Nat) : Option HwcLayer :=
  match s.mFBLayers[i]? with
  | none => none
  | some p => s.mLayers[p]?

/-- The two inner loops of `useAsFrameBufferTarget`: `cnt` iterations from position `j`
on; a layer that is not a plane candidate is skipped, `test` is the call of
`hasIntersection`. The result `false` is the `return false` of the source. -/
def intersectScan {σ : Type} (s : State σ) (test : HwcLayer → Bool) :
    Nat → Nat → Option Bool
  | 0, _ => some true
  | cnt + 1, j =>
    match fbLayerAt s j with
    | none => none
    | some lj =>
      if lj.mPlaneCandidate = false then intersectScan s test cnt (j + 1)
      else if test lj then some false
      else intersectScan s test cnt (j + 1)

/-- First outer loop of `useAsFrameBufferTarget`:
`for (below = 0; below < targetLayerIndex; below++)`, `cnt` iterations left. -/
def belowScan {σ : Type} (s : State σ) (targetLayerIndex : Nat) : Nat → Nat → Option Bool
  | 0, _ => some true
  | cnt + 1, below =>
    match fbLayerAt s below with
    | none => none
    | some lb =>
      if lb.mPlaneCandidate then belowScan s targetLayerIndex cnt (below + 1)
      else
        match intersectScan s (fun la => hasIntersection la lb)
            (targetLayerIndex - (below + 1)) (below + 1) with
        | none => none
        | some false => some false
        | some true => belowScan s targetLayerIndex cnt (below + 1)

/-- Second outer loop of `useAsFrameBufferTarget`:
`for (above = targetLayerIndex + 1; above < mLayerCount - 1; above++)`. -/
def aboveScan {σ : Type} (s : State σ) (targetLayerIndex : Nat) : Nat → Nat → Option Bool
  | 0, _ => some true
  | cnt + 1, above =>
    match fbLayerAt s above with
    | none => none
    | some la =>
      if la.mPlaneCandidate then aboveScan s targetLayerIndex cnt (above + 1)
      else
        match intersectScan s (fun lb => hasIntersection la lb)
            (above - (targetLayerIndex + 1)) (targetLayerIndex + 1) with
        | none => none
        | some false => some false
        | some true => aboveScan s targetLayerIndex cnt (above + 1)

/-- `HwcLayerList::useAsFrameBufferTarget(target)`; `none` when a read of `mFBLayers` is
out of range. -/
def useAsFrameBufferTarget {σ : Type} (s : State σ) (target : HwcLayer) : Option Bool :=
  let targetLayerIndex := target.mIndex
  match belowScan s targetLayerIndex targetLayerIndex 0 with
  | none => none
  | some false => some false
  | some true =>
    aboveScan s targetLayerIndex (s.mLayerCount - 1 - (targetLayerIndex + 1))
      (targetLayerIndex + 1)

/-! ## Primary plane placement -/

/-- The first loop of `assignPrimaryPlane`:
`for (i = size - 1; i >= 0; i--) { if (candidates[i] is in use) break; spriteLayer = candidates[i]; }`.
The first argument is `i + 1`; the second is the current value of `spriteLayer`. -/
def spriteLayerScan {σ : Type} (s : State σ) : Nat → Option Nat → Option (Option Nat)
  | 0, spriteLayer => some spriteLayer
  | i + 1, spriteLayer =>
    match s.mSpriteCandidates[i]? with
    | none => none
    | some p =>
      match s.mLayers[p]? with
      | none => none
      | some l =>
        if l.mPlaneCandidate then some spriteLayer
        else spriteLayerScan s i (some p)

/-- The last branch of `assignPrimaryPlane`: `for (i = 0; i < layers && !ok; i++)`, with
`cnt` iterations left from position `i` on. -/
def fbTargetScan {σ : Type} (env : Env σ) : Nat → Nat → State σ → Option (Bool × State σ)
  | 0, _, s => some (false, s)
  | cnt + 1, i, s =>
    match fbLayerAt s i with
    | none => none
    | some l =>
      if l.mPlaneCandidate then fbTargetScan env cnt (i + 1) s
      else
        match useAsFrameBufferTarget s l with
        | none => none
        | some false => fbTargetScan env cnt (i + 1) s
        | some true =>
          match s.mFrameBufferTarget with
          | none => none
          | some fbt =>
            match assignPrimaryPlaneHelper env fbt l.mZOrder s with
            | none => none
            | some (true, s1) => some (true, s1)
            | some (false, s1) => fbTargetScan env cnt (i + 1) s1

/-- `HwcLayerList::assignPrimaryPlane()`. -/
def assignPrimaryPlane {σ : Type} (env : Env σ) (s : State σ) : Option (Bool × State σ) :=
  match spriteLayerScan s s.mSpriteCandidates.length none with
  | none => none
  | some spriteLayer =>
    let candidates : Int := (s.mZOrderConfig.length : Int)
    let layers : Int := (s.mFBLayers.length : Int)
    if candidates = layers - 1 ∧ spriteLayer ≠ none then
      match spriteLayer with
      | none => none
      | some p => assignPrimaryPlaneHelper env p (-1) s
    else if candidates = 0 then
      match s.mFrameBufferTarget with
      | none => none
      | some fbt => assignPrimaryPlaneHelper env fbt 0 s
    else if candidates = layers then
      attachPlanes env s
    else
      fbTargetScan env s.mFBLayers.length 0 s

/-! ## Sprite phase -/

/-- The loop of `assignSpritePlanes(index, planeNumber)`:
`for (i = index; i <= spriteCandidates - planeNumber; i++)`, with `cnt` iterations left;
`next i` is the recursive call `assignSpritePlanes(i, planeNumber - 1)`. -/
def assignSpritePlanesLoop {σ : Type} (env : Env σ)
    (next : Nat → State σ → Option (Bool × State σ)) :
    Nat → Nat → State σ → Option (Bool × State σ)
  | 0, _, s => some (false, s)
  | cnt + 1, i, s =>
    match s.mSpriteCandidates[i]? with
    | none => none
    | some c =>
      match addZOrderLayer env PlaneType.PLANE_SPRITE c (-1) s with
      | none => none
      | some (zlayer, s1) =>
        match next (i + 1) s1 with
        | none => none
        | some (true, s2) => some (true, s2)
        | some (false, s2) =>
          match removeZOrderLayer zlayer s2 with
          | none => none
          | some s3 => assignSpritePlanesLoop env next cnt (i + 1) s3

/-- `HwcLayerList::assignSpritePlanes(int index, int planeNumber)`. -/
def assignSpritePlanesFrom {σ : Type} (env : Env σ) (index : Nat) :
    Nat → State σ → Option (Bool × State σ)
  | 0, s => assignPrimaryPlane env s
  | planeNumber + 1, s =>
    assignSpritePlanesLoop env (fun i => assignSpritePlanesFrom env i planeNumber)
      (s.mSpriteCandidates.length + 1 - (index + (planeNumber + 1))) index s

/-- The loop `for (i = planeNumber; i >= 0; i--)` of `assignSpritePlanes()`, from `i` down. -/
def assignSpritePlanesDown {σ : Type} (env : Env σ) :
    Nat → State σ → Option (Bool × State σ)
  | 0, s => assignSpritePlanesFrom env 0 0 s
  | i + 1, s =>
    match assignSpritePlanesFrom env 0 (i + 1) s with
    | none => none
    | some (true, s1) => some (true, s1)
    | some (false, s1) => assignSpritePlanesDown env i s1

/-- `HwcLayerList::assignSpritePlanes()`. -/
def assignSpritePlanes {σ : Type} (env : Env σ) (s : State σ) : Option (Bool × State σ) :=
  let spriteCandidates : Int := (s.mSpriteCandidates.length : Int)
  if spriteCandidates = 0 then assignPrimaryPlane env s
  else
    let planeNumber : Int := env.getFreePlanes PlaneType.PLANE_SPRITE
    if planeNumber = 0 then assignPrimaryPlane env s
    else
      let planeNumber : Int := if planeNumber > spriteCandidates then spriteCandidates else planeNumber
      if planeNumber < 0 then some (false, s)
      else assignSpritePlanesDown env planeNumber.toNat s

/-! ## Overlay phase -/

/-- The loop of `assignOverlayPlanes(index, planeNumber)`:
`for (i = index; i <= overlayCandidates - planeNumber; i++)`, with `cnt` iterations left;
`next i` is the recursive call `assignOverlayPlanes(i, planeNumber - 1)`. -/
def assignOverlayPlanesLoop {σ : Type} (env : Env σ)
    (next : Nat → State σ → Option (Bool × State σ)) :
    Nat → Nat → State σ → Option (Bool × State σ)
  | 0, _, s => some (false, s)
  | cnt + 1, i, s =>
    match s.mOverlayCandidates[i]? with
    | none => none
    | some c =>
      match addZOrderLayer env PlaneType.PLANE_OVERLAY c (-1) s with
      | none => none
      | some (zlayer, s1) =>
        match next (i + 1) s1 with
        | none => none
        | some (true, s2) => some (true, s2)
        | some (false, s2) =>
          match removeZOrderLayer zlayer s2 with
          | none => none
          | some s3 => assignOverlayPlanesLoop env next cnt (i + 1) s3

/-- `HwcLayerList::assignOverlayPlanes(int index, int planeNumber)`. -/
def assignOverlayPlanesFrom {σ : Type} (env : Env σ) (index : Nat) :
    Nat → State σ → Option (Bool × State σ)
  | 0, s => assignSpritePlanes env s
  | planeNumber + 1, s =>
    assignOverlayPlanesLoop env (fun i => assignOverlayPlanesFrom env i planeNumber)
      (s.mOverlayCandidates.length + 1 - (index + (planeNumber + 1))) index s

/-- The loop `for (i = planeNumber; i >= 0; i--)` of `assignOverlayPlanes()`, from `i` down. -/
def assignOverlayPlanesDown {σ : Type} (env : Env σ) :
    Nat → State σ → Option (Bool × State σ)
  | 0, s => assignOverlayPlanesFrom env 0 0 s
  | i + 1, s =>
    match assignOverlayPlanesFrom env 0 (i + 1) s with
    | none => none
    | some (true, s1) => some (true, s1)
    | some (false, s1) => assignOverlayPlanesDown env i s1

/-- `HwcLayerList::assignOverlayPlanes()`. -/
def assignOverlayPlanes {σ : Type} (env : Env σ) (s : State σ) : Option (Bool × State σ) :=
  let overlayCandidates : Int := (s.mOverlayCandidates.length : Int)
  if overlayCandidates = 0 then assignSpritePlanes env s
  else
    let planeNumber : Int := env.getFreePlanes PlaneType.PLANE_OVERLAY
    if planeNumber = 0 then assignSpritePlanes env s
    else
      let planeNumber : Int := if planeNumber > overlayCandidates then overlayCandidates else planeNumber
      if planeNumber < 0 then some (false, s)
      else assignOverlayPlanesDown env planeNumber.toNat s

/-- `HwcLayerList::allocatePlanesV2()`. -/
def allocatePlanesV2 {σ : Type} (env : Env σ) (s : State σ) : Option (Bool × State σ) :=
  assignOverlayPlanes env s

/-! ## Frame update and smart composition -/

/-- The value `HWC_FRAMEBUFFER` of the platform header `hwcomposer_defs.h`. -/
def HWC_FRAMEBUFFER : Int := 0

/-- The value `HWC_OVERLAY` of the platform header `hwcomposer_defs.h`. -/
def HWC_OVERLAY : Int := 1

/-- Modelled from the spec: `HwcLayer::setCompositionType` is defined outside this file;
it marks the layer by writing the composition type of its raw layer. -/
def setCompositionType (l : HwcLayer) (type : Int) : HwcLayer :=
  { l with mLayer := { l.mLayer with compositionType := type } }

/-- First loop of `setupSmartComposition` over the members of `mFBLayers` still to visit;
the last argument is the current value of `compositionType`. -/
def smartCompositionType {σ : Type} (s : State σ) : List Nat → Int → Option Int
  | [], compositionType => some compositionType
  | p :: rest, compositionType =>
    match s.mLayers[p]? with
    | none => none
    | some hwcLayer =>
      smartCompositionType s rest
        (if hwcLayer.mUpdated then HWC_FRAMEBUFFER else compositionType)

/-- Second loop of `setupSmartComposition` over the members of `mFBLayers` still to
visit. The `default` branch of the `switch` only logs. -/
def applyCompositionType {σ : Type} (compositionType : Int) :
    List Nat → State σ → Option (State σ)
  | [], s => some s
  | p :: rest, s =>
    match s.mLayers[p]? with
    | none => none
    | some hwcLayer =>
      match hwcLayer.mType with
      | LayerType.LAYER_FB | LayerType.LAYER_FORCE_FB =>
        applyCompositionType compositionType rest
          { s with mLayers := s.mLayers.set p (setCompositionType hwcLayer compositionType) }
      | _ => applyCompositionType compositionType rest s

/-- `HwcLayerList::setupSmartComposition()`. -/
def setupSmartComposition {σ : Type} (s : State σ) : Option (State σ) :=
  match smartCompositionType s s.mFBLayers HWC_OVERLAY with
  | none => none
  | some compositionType => applyCompositionType compositionType s.mFBLayers s

/-- The loop `for (i = 0; i < mLayerCount; i++)` of `update`, with `cnt` iterations left
from position `i` on; `list` is the new frame. -/
def updateLayers {σ : Type} (env : Env σ) (list : List hwc_layer_1_t) :
    Nat → Nat → State σ → Option (State σ)
  | 0, _, s => some s
  | cnt + 1, i, s =>
    match s.mLayers[i]?, list[i]? with
    | some hwcLayer, some raw =>
      updateLayers env list cnt (i + 1)
        { s with mLayers := s.mLayers.set i (env.layerUpdate hwcLayer raw) }
    | _, _ => none

/-- The conversion `(int)n` of a `size_t` value `n` to the 32-bit `int`: the low 32 bits of
`n`, read as a two's complement number. -/
def toInt32 (n : Nat) : Int :=
  (((n + 2 ^ 31) % 2 ^ 32 : Nat) : Int) - 2 ^ 31

/-- `HwcLayerList::update(list)`; `list = none` is the null pointer and `numHwLayers` is
the length of the frame; the test is `(int)list->numHwLayers != mLayerCount`. -/
def update {σ : Type} (env : Env σ) (list : Option (List hwc_layer_1_t)) (s : State σ) :
    Option (Bool × State σ) :=
  match list with
  | none => some (false, s)
  | some l =>
    if toInt32 l.length ≠ (s.mLayerCount : Int) then some (false, s)
    else
      match updateLayers env l s.mLayerCount 0 { s with mList := some l } with
      | none => none
      | some s1 =>
        match setupSmartComposition s1 with
        | none => none
        | some s2 => some (true, s2)

/-! ## States of the search -/

/-- The list `s` with the manager's state replaced by `m`. -/
def withPM {σ : Type} (s : State σ) (m : σ) : State σ :=
  { s with planeManager := m }

/-- The layer `p` exists and is not in use (`mPlaneCandidate` is false). -/
def Fresh {σ : Type} (s : State σ) (p : Nat) : Prop :=
  ∃ l, s.mLayers[p]? = some l ∧ l.mPlaneCandidate = false

/-- The candidacy-flag invariant: no two records of the configuration reference the
same layer, and a layer's `mPlaneCandidate` flag is true exactly when some record of the
configuration references it. -/
structure InUseInv {σ : Type} (s : State σ) : Prop where
  nodup : (s.mZOrderConfig.map (fun r => r.hwcLayer)).Nodup
  flag_iff : ∀ p l, s.mLayers[p]? = some l →
    (l.mPlaneCandidate = true ↔ ∃ r ∈ s.mZOrderConfig, r.hwcLayer = p)

/-- The value of `getZOrder()` of the layer `p`, when it exists. -/
def zorderAt {σ : Type} (s : State σ) (p : Nat) : Option Int :=
  match s.mLayers[p]? with
  | none => none
  | some l => some l.mZOrder

/-- What the classification loop of the constructor establishes about the layer sets and
what the search relies on: the framebuffer target exists and is not a GPU layer; the
GPU-layer set points into `mLayers` without repetition; the two candidate sets are
order-preserving subsets of the GPU-layer set with no common member; no GPU layer has the
hardware-overlay role yet; `getZOrder()` is different for different GPU layers and is
never `-1`. -/
structure WellFormed {σ : Type} (s : State σ) : Prop where
  fbt : ∃ f, s.mFrameBufferTarget = some f ∧ f < s.mLayers.length ∧ f ∉ s.mFBLayers
  fb_valid : ∀ p ∈ s.mFBLayers, p < s.mLayers.length
  fb_nodup : s.mFBLayers.Nodup
  ov_sub : s.mOverlayCandidates.Sublist s.mFBLayers
  sp_sub : s.mSpriteCandidates.Sublist s.mFBLayers
  disj : ∀ p ∈ s.mOverlayCandidates, p ∉ s.mSpriteCandidates
  role : ∀ l ∈ s.mLayers, l.mType ≠ LayerType.LAYER_OVERLAY
  zorder_inj : (s.mFBLayers.map (zorderAt s)).Nodup
  zorder_ne : ∀ p ∈ s.mFBLayers, zorderAt s p ≠ some (-1)

/-- A freshly classified list, as `allocatePlanesV2` finds it: well formed, with an empty
configuration and every `mPlaneCandidate` flag false. -/
structure Classified {σ : Type} (s : State σ) : Prop where
  wf : WellFormed s
  config_empty : s.mZOrderConfig = []
  flags_false : ∀ l ∈ s.mLayers, l.mPlaneCandidate = false

/-- The list after `addZOrderLayer(type, c)` for each `c` of `cs` in turn: the
configuration with exactly those candidates added in that order. -/
def addCandidates {σ : Type} (env : Env σ) (type : PlaneType) :
    List Nat → State σ → Option (State σ)
  | [], s => some s
  | c :: cs, s =>
    match addZOrderLayer env type c (-1) s with
    | none => none
    | some (_, s1) => addCandidates env type cs s1

/-- The role of the layer `p`, when it exists. -/
def layerTypeAt {σ : Type} (s : State σ) (p : Nat) : Option LayerType :=
  match s.mLayers[p]? with
  | none => none
  | some l => some l.mType

/-- Number of overlay candidates whose role is hardware-overlay: the overlay candidates
that were committed. -/
def committedOverlays {σ : Type} (s : State σ) : Nat :=
  s.mOverlayCandidates.countP
    (fun p => decide (layerTypeAt s p = some LayerType.LAYER_OVERLAY))

/-- The z-order of the plane attached to layer `p`, when there is one. -/
def attachedZOrder {σ : Type} (s : State σ) (p : Nat) : Option Int :=
  match s.mLayers[p]? with
  | none => none
  | some l =>
    match l.mPlane with
    | none => none
    | some plane => some plane.mZOrder

/-- States reachable from `s0` through the bookkeeping operations as the search uses
them before a commit: `addZOrderLayer` on a layer that is not in use,
`removeZOrderLayer` on a record of the configuration (which is also how
`assignPrimaryPlaneHelper` undoes its record), and a failed `attachPlanes`, which changes
nothing but the manager's state. -/
inductive Reach {σ : Type} (env : Env σ) (s0 : State σ) : State σ → Prop where
  | start : Reach env s0 s0
  | add (s s1 : State σ) (type : PlaneType) (p : Nat) (zorder : Int) (r : ZOrderLayer) :
      Reach env s0 s → Fresh s p → addZOrderLayer env type p zorder s = some (r, s1) →
      Reach env s0 s1
  | remove (s s1 : State σ) (r : ZOrderLayer) :
      Reach env s0 s → r ∈ s.mZOrderConfig → removeZOrderLayer r s = some s1 →
      Reach env s0 s1
  | failedAttach (s s1 : State σ) :
      Reach env s0 s → attachPlanes env s = some (false, s1) → Reach env s0 s1

/-! ## The common shape of the two candidate loops -/

/-- The loop shared by `assignSpritePlanes(index, planeNumber)` and
`assignOverlayPlanes(index, planeNumber)`; `cands` selects the candidate set and `type`
is the plane class. -/
def candLoop {σ : Type} (env : Env σ) (type : PlaneType) (cands : State σ → List Nat)
    (next : Nat → State σ → Option (Bool × State σ)) :
    Nat → Nat → State σ → Option (Bool × State σ)
  | 0, _, s => some (false, s)
  | cnt + 1, i, s =>
    match (cands s)[i]? with
    | none => none
    | some c =>
      match addZOrderLayer env type c (-1) s with
      | none => none
      | some (zlayer, s1) =>
        match next (i + 1) s1 with
        | none => none
        | some (true, s2) => some (true, s2)
        | some (false, s2) =>
          match removeZOrderLayer zlayer s2 with
          | none => none
          | some s3 => candLoop env type cands next cnt (i + 1) s3

/-- The recursion shared by the two functions; `last` is the phase entered when
`planeNumber` reaches zero. -/
def candFrom {σ : Type} (env : Env σ) (type : PlaneType) (cands : State σ → List Nat)
    (last : State σ → Option (Bool × State σ)) (index : Nat) :
    Nat → State σ → Option (Bool × State σ)
  | 0, s => last s
  | planeNumber + 1, s =>
    candLoop env type cands (fun i => candFrom env type cands last i planeNumber)
      ((cands s).length + 1 - (index + (planeNumber + 1))) index s

/-- The countdown shared by `assignSpritePlanes()` and `assignOverlayPlanes()`. -/
def candDown {σ : Type} (env : Env σ) (type : PlaneType) (cands : State σ → List Nat)
    (last : State σ → Option (Bool × State σ)) :
    Nat → State σ → Option (Bool × State σ)
  | 0, s => candFrom env type cands last 0 0 s
  | i + 1, s =>
    match candFrom env type cands last 0 (i + 1) s with
    | none => none
    | some (true, s1) => some (true, s1)
    | some (false, s1) => candDown env type cands last i s1

/-- A layer with its in-use flag cleared. -/
def clearFlag (l : HwcLayer) : HwcLayer :=
  { l with mPlaneCandidate := false }

/-- The lists `s` and `s1` hold the same frame: they differ at most in the in-use flags
of the layers, in the configuration and in the manager's state. -/
structure SameFrame {σ : Type} (s s1 : State σ) : Prop where
  list : s1.mList = s.mList
  count : s1.mLayerCount = s.mLayerCount
  layers : s1.mLayers.map clearFlag = s.mLayers.map clearFlag
  fb : s1.mFBLayers = s.mFBLayers
  sp : s1.mSpriteCandidates = s.mSpriteCandidates
  ov : s1.mOverlayCandidates = s.mOverlayCandidates
  fbt : s1.mFrameBufferTarget = s.mFrameBufferTarget

/-- How `assignPrimaryPlane`, entered in the list `s`, arrives at the list `sp` that it
hands to a successful `attachPlanes`; `m` is the manager's state at that moment.

* `allAssigned`: every GPU layer already has a record, nothing is added;
* `overflow` (Case A): the configuration holds all GPU layers but one, the last sprite
  candidate is not in use, and the sprite candidate `p`, not in use, gets the primary
  record at its own z-order;
* `noneAssigned` (Case B): the configuration is empty and the framebuffer target gets the
  primary record at z-order 0;
* `partialOffload` (Case C): the framebuffer target gets the primary record at the
  z-order of the free GPU layer `l` found at position `i` of `mFBLayers`. -/
inductive PrimaryPlaced {σ : Type} (env : Env σ) (s : State σ) : State σ → Prop where
  | allAssigned (m : σ) :
      s.mZOrderConfig.length = s.mFBLayers.length → s.mZOrderConfig ≠ [] →
      PrimaryPlaced env s (withPM s m)
  | overflow (m : σ) (p : Nat) (r : ZOrderLayer) (sp : State σ) :
      p ∈ s.mSpriteCandidates → Fresh s p →
      (∀ c, s.mSpriteCandidates[s.mSpriteCandidates.length - 1]? = some c → Fresh s c) →
      s.mZOrderConfig.length + 1 = s.mFBLayers.length →
      addZOrderLayer env PlaneType.PLANE_PRIMARY p (-1) (withPM s m) = some (r, sp) →
      PrimaryPlaced env s sp
  | noneAssigned (m : σ) (fbt : Nat) (r : ZOrderLayer) (sp : State σ) :
      s.mFrameBufferTarget = some fbt → s.mZOrderConfig = [] →
      addZOrderLayer env PlaneType.PLANE_PRIMARY fbt 0 (withPM s m) = some (r, sp) →
      PrimaryPlaced env s sp
  | partialOffload (m : σ) (fbt i : Nat) (l : HwcLayer) (r : ZOrderLayer) (sp : State σ) :
      s.mFrameBufferTarget = some fbt → s.mZOrderConfig ≠ [] →
      fbLayerAt s i = some l → l.mPlaneCandidate = false →
      useAsFrameBufferTarget s l = some true →
      addZOrderLayer env PlaneType.PLANE_PRIMARY fbt l.mZOrder (withPM s m) = some (r, sp) →
      PrimaryPlaced env s sp

/-- What the analysis of a candidate loop needs to know about the phase that follows it:
`P` holds of the lists in which the loop runs; it implies the candidacy invariant, is
kept when the manager's state changes and when a candidate that is not in use is added,
the candidate set has no repetition and depends on the frame only, and the following
phase `last`, when it fails in a list satisfying `P`, changes nothing but the manager's
state. -/
structure Phase {σ : Type} (env : Env σ) (type : PlaneType) (cands : State σ → List Nat)
    (last : State σ → Option (Bool × State σ)) (P : State σ → Prop) : Prop where
  inv : ∀ s, P s → InUseInv s
  nodup : ∀ s, P s → (cands s).Nodup
  pm : ∀ s m, P s → P (withPM s m)
  add : ∀ s c r s1, P s → c ∈ cands s → Fresh s c →
    addZOrderLayer env type c (-1) s = some (r, s1) → P s1
  frame : ∀ s s1, SameFrame s s1 → cands s1 = cands s
  last_false : ∀ s s1, P s → last s = some (false, s1) → s1 = withPM s s1.planeManager

/-- The lists in which the sprite phase and primary placement run: well formed, with the
candidacy invariant, the framebuffer target not in use, and every record of the
configuration a sprite or overlay record of a GPU layer at that layer's own z-order. -/
structure SearchState {σ : Type} (s : State σ) : Prop where
  wf : WellFormed s
  inv : InUseInv s
  fbtFresh : ∀ f, s.mFrameBufferTarget = some f → Fresh s f
  records : ∀ r ∈ s.mZOrderConfig, r.planeType ≠ PlaneType.PLANE_PRIMARY ∧
    r.hwcLayer ∈ s.mFBLayers ∧ zorderAt s r.hwcLayer = some r.zorder

/-- The lists in which the overlay phase runs: as `SearchState`, with no sprite
candidate in use. -/
structure OverlayState {σ : Type} (s : State σ) : Prop where
  search : SearchState s
  spritesFresh : ∀ c ∈ s.mSpriteCandidates, Fresh s c

/-! ## Capability check and classification -/

/-- The value `HWC_FRAMEBUFFER_TARGET` of the platform header `hwcomposer_defs.h`. -/
def HWC_FRAMEBUFFER_TARGET : Int := 3

/-- The value `HWC_FORCE_FRAMEBUFFER` of the project's own header, which is not among the
platform's composition types. -/
def HWC_FORCE_FRAMEBUFFER : Int := 255

/-- The layer flag `HWC_SKIP_LAYER` of the platform header `hwcomposer_defs.h`. -/
def HWC_SKIP_LAYER : Nat := 1

/-- The usage bit `GRALLOC_USAGE_HW_COMPOSER` of the platform header `gralloc.h`. -/
def GRALLOC_USAGE_HW_COMPOSER : Nat := 0x800

/-- Collaborators of the classifier and of the teardown, none of which is defined in
this file of the source: the five answers of `PlaneCapabilities`, the answer of
`getDisplayAnalyzer()->isOverlayAllowed()`, the usage that the constructor of `HwcLayer`
reads off the buffer of a raw layer, and `planeManager->reclaimPlane`. -/
structure Caps (σ : Type) where
  isTransformSupported : PlaneType → HwcLayer → Bool
  isFormatSupported : PlaneType → HwcLayer → Bool
  isSizeSupported : PlaneType → HwcLayer → Bool
  isBlendingSupported : PlaneType → HwcLayer → Bool
  isScalingSupported : PlaneType → HwcLayer → Bool
  isOverlayAllowed : Bool
  usageOf : hwc_layer_1_t → Nat
  reclaimPlane : σ → DisplayPlane → σ

/-- `HwcLayerList::checkSupported(planeType, hwcLayer)`. In the usage check `!getUsage()`
is 1 when the usage is 0 and 0 otherwise, and that number is and-ed with the flag. -/
def checkSupported {σ : Type} (caps : Caps σ) (planeType : PlaneType) (hwcLayer : HwcLayer) :
    Bool :=
  if hwcLayer.mType = LayerType.LAYER_FORCE_FB then false
  else if hwcLayer.mLayer.flags &&& HWC_SKIP_LAYER ≠ 0 then false
  else if hwcLayer.mLayer.handle = 0 then false
  else if (if hwcLayer.mUsage = 0 then 1 else 0) &&& GRALLOC_USAGE_HW_COMPOSER ≠ 0 then false
  else if caps.isTransformSupported planeType hwcLayer = false then false
  else if caps.isFormatSupported planeType hwcLayer = false then false
  else if caps.isSizeSupported planeType hwcLayer = false then false
  else if caps.isBlendingSupported planeType hwcLayer = false then false
  else if caps.isScalingSupported planeType hwcLayer = false then false
  else true

/-- Modelled from the spec: the constructor `HwcLayer(index, layer)` is defined outside
this file. The layer's index is its position in the frame and is its z-order position,
it is not a plane candidate in use, no plane is attached, it is not marked updated; the
role is set by `setType` right after. -/
def newHwcLayer {σ : Type} (caps : Caps σ) (index : Nat) (layer : hwc_layer_1_t) : HwcLayer :=
  { mIndex := index, mZOrder := (index : Int), mType := LayerType.LAYER_FB,
    mPlaneCandidate := false, mLayer := layer, mUsage := caps.usageOf layer,
    mUpdated := false, mPlane := none }

/-- `HwcLayer::setType(type)` as far as this file depends on it: the role of the layer. -/
def setType (l : HwcLayer) (type : LayerType) : HwcLayer :=
  { l with mType := type }

/-- The loop of `deinitialize`: `for (i = 0; i < mLayerCount; i++)`, with `cnt` iterations
left; an attached plane is detached and handed to `reclaimPlane`. -/
def deinitializeLoop {σ : Type} (caps : Caps σ) : Nat → Nat → State σ → Option (State σ)
  | 0, _, s => some s
  | cnt + 1, i, s =>
    match s.mLayers[i]? with
    | none => none
    | some hwcLayer =>
      match hwcLayer.mPlane with
      | none => deinitializeLoop caps cnt (i + 1) s
      | some plane =>
        deinitializeLoop caps cnt (i + 1)
          { s with
            mLayers := s.mLayers.set i { hwcLayer with mPlane := none },
            planeManager := caps.reclaimPlane s.planeManager plane }

/-- `HwcLayerList::deinitialize()`. -/
def deinitialize {σ : Type} (caps : Caps σ) (s : State σ) : Option (State σ) :=
  if s.mLayerCount = 0 then some s
  else
    match deinitializeLoop caps s.mLayerCount 0 s with
    | none => none
    | some s1 =>
      some { s1 with
        mLayers := [], mFBLayers := [], mOverlayCandidates := [], mSpriteCandidates := [],
        mZOrderConfig := [], mFrameBufferTarget := none, mLayerCount := 0 }

/-- The macro `DEINIT_AND_RETURN_FALSE`, defined in a header outside this file; by its
name: `deinitialize(); return false;`. -/
def deinitAndReturnFalse {σ : Type} (caps : Caps σ) (s : State σ) : Option (Bool × State σ) :=
  match deinitialize caps s with
  | none => none
  | some s1 => some (false, s1)

/-- The body of the classification loop of `initialize` for the raw layer `layer` at
position `i` of the frame `list`, as far as the chain of tests on the composition type
goes; `none` is its last `else` branch (invalid composition type). The new layer object
is stored at the end of `mLayers`, so its pointer is the length of `mLayers`. For a forced
layer the object is made before the composition type of the raw layer is rewritten, and
sees the rewritten raw layer through its pointer. -/
def classifyLayer {σ : Type} (caps : Caps σ) (i : Nat) (list : List hwc_layer_1_t)
    (layer : hwc_layer_1_t) (s : State σ) : Option (State σ) :=
  let hwcLayer := newHwcLayer caps i layer
  let p := s.mLayers.length
  if layer.compositionType = HWC_FRAMEBUFFER_TARGET then
    some { s with
      mFrameBufferTarget := some p,
      mLayers := s.mLayers ++ [setType hwcLayer LayerType.LAYER_FRAMEBUFFER_TARGET] }
  else if layer.compositionType = HWC_OVERLAY then
    some { s with mLayers := s.mLayers ++ [setType hwcLayer LayerType.LAYER_SKIPPED] }
  else if layer.compositionType = HWC_FORCE_FRAMEBUFFER then
    let layer1 := { layer with compositionType := HWC_FRAMEBUFFER }
    some { s with
      mList := some (list.set i layer1),
      mFBLayers := s.mFBLayers ++ [p],
      mLayers := s.mLayers ++
        [setType { hwcLayer with mLayer := layer1 } LayerType.LAYER_FORCE_FB] }
  else if layer.compositionType = HWC_FRAMEBUFFER then
    let fbLayer := setType hwcLayer LayerType.LAYER_FB
    if checkSupported caps PlaneType.PLANE_SPRITE fbLayer then
      some { s with
        mFBLayers := s.mFBLayers ++ [p],
        mSpriteCandidates := s.mSpriteCandidates ++ [p],
        mLayers := s.mLayers ++ [fbLayer] }
    else if caps.isOverlayAllowed ∧ checkSupported caps PlaneType.PLANE_OVERLAY fbLayer then
      some { s with
        mFBLayers := s.mFBLayers ++ [p],
        mOverlayCandidates := s.mOverlayCandidates ++ [p],
        mLayers := s.mLayers ++ [fbLayer] }
    else
      some { s with
        mFBLayers := s.mFBLayers ++ [p],
        mLayers := s.mLayers ++ [fbLayer] }
  else none

/-- The classification loop of `initialize`: `for (i = 0; i < mLayerCount; i++)`, with
`cnt` iterations left. The result `(true, s)` is the end of the loop, `(false, s)` is a
`return false` from inside the loop. -/
def classifyLoop {σ : Type} (caps : Caps σ) : Nat → Nat → State σ → Option (Bool × State σ)
  | 0, _, s => some (true, s)
  | cnt + 1, i, s =>
    match s.mList with
    | none => none
    | some list =>
      match list[i]? with
      | none => none
      | some layer =>
        match classifyLayer caps i list layer s with
        | none => deinitAndReturnFalse caps s
        | some s1 => classifyLoop caps cnt (i + 1) s1

/-- The part of `initialize` before the call of `allocatePlanesV2`: the checks of the
frame, the classification loop and the check of the framebuffer target. The result
`(true, s)` means that `allocatePlanesV2` is called next, in the list `s`. -/
def classify {σ : Type} (caps : Caps σ) (s : State σ) : Option (Bool × State σ) :=
  match s.mList with
  | none => some (false, s)
  | some list =>
    if list.length = 0 then some (false, s)
    else
      match classifyLoop caps list.length 0 { s with mLayerCount := list.length } with
      | none => none
      | some (false, s1) => some (false, s1)
      | some (true, s1) =>
        match s1.mFrameBufferTarget with
        | none => some (false, s1)
        | some _ => some (true, s1)

/-- `HwcLayerList::initialize()`; the result of `allocatePlanesV2()` is not looked at. -/
def initializeList {σ : Type} (env : Env σ) (caps : Caps σ) (s : State σ) :
    Option (Bool × State σ) :=
  match classify caps s with
  | none => none
  | some (false, s1) => some (false, s1)
  | some (true, s1) =>
    match allocatePlanesV2 env s1 with
    | none => none
    | some (_, s2) => some (true, s2)

/-- The constructor `HwcLayerList(list, disp)`: the member initialisers, then
`initialize()`; `m` is the state of the Plane Pool Manager at that moment. -/
def construct {σ : Type} (env : Env σ) (caps : Caps σ) (list : Option (List hwc_layer_1_t))
    (m : σ) : Option (Bool × State σ) :=
  initializeList env caps
    { mList := list, mLayerCount := 0, mLayers := [], mFBLayers := [],
      mSpriteCandidates := [], mOverlayCandidates := [], mZOrderConfig := [],
      mFrameBufferTarget := none, planeManager := m }

/-- The list as the constructor's member initialisers leave it, for the frame `list` and
the manager's state `m`. -/
def emptyList {σ : Type} (list : Option (List hwc_layer_1_t)) (m : σ) : State σ :=
  { mList := list, mLayerCount := 0, mLayers := [], mFBLayers := [],
    mSpriteCandidates := [], mOverlayCandidates := [], mZOrderConfig := [],
    mFrameBufferTarget := none, planeManager := m }

/-- The composition type is one of the four that the classification loop knows. -/
def recognised (layer : hwc_layer_1_t) : Prop :=
  layer.compositionType = HWC_FRAMEBUFFER_TARGET ∨ layer.compositionType = HWC_OVERLAY ∨
  layer.compositionType = HWC_FORCE_FRAMEBUFFER ∨ layer.compositionType = HWC_FRAMEBUFFER

instance (layer : hwc_layer_1_t) : Decidable (recognised layer) := by
  unfold recognised; infer_instance

/-- The layer object that the classification loop stores for the raw layer `raw` at
position `p` of the frame, when its composition type is one of the four. -/
def layerObject {σ : Type} (caps : Caps σ) (p : Nat) (raw : hwc_layer_1_t) : HwcLayer :=
  if raw.compositionType = HWC_FRAMEBUFFER_TARGET then
    setType (newHwcLayer caps p raw) LayerType.LAYER_FRAMEBUFFER_TARGET
  else if raw.compositionType = HWC_OVERLAY then
    setType (newHwcLayer caps p raw) LayerType.LAYER_SKIPPED
  else if raw.compositionType = HWC_FORCE_FRAMEBUFFER then
    setType { (newHwcLayer caps p raw) with
        mLayer := { raw with compositionType := HWC_FRAMEBUFFER } }
      LayerType.LAYER_FORCE_FB
  else setType (newHwcLayer caps p raw) LayerType.LAYER_FB

/-- Proof device: the list after one pass of the classification loop that stores the
layer object `l`; `fb`, `sp`, `ov` say to which of the three sets its pointer is added,
`tgt` whether it becomes the framebuffer target, `mlist` is the frame afterwards. -/
def pushLayer {σ : Type} (s : State σ) (l : HwcLayer) (fb sp ov tgt : Bool)
    (mlist : Option (List hwc_layer_1_t)) : State σ :=
  { s with
    mList := mlist,
    mLayers := s.mLayers ++ [l],
    mFBLayers := if fb then s.mFBLayers ++ [s.mLayers.length] else s.mFBLayers,
    mSpriteCandidates :=
      if sp then s.mSpriteCandidates ++ [s.mLayers.length] else s.mSpriteCandidates,
    mOverlayCandidates :=
      if ov then s.mOverlayCandidates ++ [s.mLayers.length] else s.mOverlayCandidates,
    mFrameBufferTarget := if tgt then some s.mLayers.length else s.mFrameBufferTarget }

/-- What holds of the list during and after the classification loop over the frame
`list`: the configuration is empty; the object at position `p` has index and z-order
`p`, is not in use, has no plane and is the object made of the raw layer of that
position; the GPU-layer set is increasing and
holds exactly the layers with the role default-GPU or forced-GPU; the sprite set holds
exactly the default-GPU layers that `checkSupported` takes for a sprite plane, the
overlay set exactly those it does not take for a sprite plane but, overlay being
allowed, takes for an overlay plane; the framebuffer target has that role. -/
structure ClassInv {σ : Type} (caps : Caps σ) (list : List hwc_layer_1_t) (s : State σ) :
    Prop where
  config : s.mZOrderConfig = []
  frame : ∃ cur, s.mList = some cur ∧ cur.length = list.length ∧
    ∀ j, s.mLayers.length ≤ j → cur[j]? = list[j]?
  layer : ∀ (p : Nat) (l : HwcLayer), s.mLayers[p]? = some l →
    l.mIndex = p ∧ l.mZOrder = (p : Int) ∧ l.mPlaneCandidate = false ∧ l.mPlane = none ∧
    l.mType ≠ LayerType.LAYER_OVERLAY ∧
    ∃ raw, list[p]? = some raw ∧ recognised raw ∧ l = layerObject caps p raw
  fb_sorted : s.mFBLayers.Pairwise (fun a b => a < b)
  fb_valid : ∀ p ∈ s.mFBLayers, p < s.mLayers.length
  fb_role : ∀ (p : Nat) (l : HwcLayer), s.mLayers[p]? = some l →
    (p ∈ s.mFBLayers ↔
      l.mType = LayerType.LAYER_FB ∨ l.mType = LayerType.LAYER_FORCE_FB)
  sp_sub : s.mSpriteCandidates.Sublist s.mFBLayers
  ov_sub : s.mOverlayCandidates.Sublist s.mFBLayers
  sp_iff : ∀ (p : Nat) (l : HwcLayer), s.mLayers[p]? = some l →
    (p ∈ s.mSpriteCandidates ↔
      l.mType = LayerType.LAYER_FB ∧ checkSupported caps PlaneType.PLANE_SPRITE l = true)
  ov_iff : ∀ (p : Nat) (l : HwcLayer), s.mLayers[p]? = some l →
    (p ∈ s.mOverlayCandidates ↔
      l.mType = LayerType.LAYER_FB ∧ checkSupported caps PlaneType.PLANE_SPRITE l = false ∧
      caps.isOverlayAllowed = true ∧ checkSupported caps PlaneType.PLANE_OVERLAY l = true)
  fbt : ∀ f, s.mFrameBufferTarget = some f →
    ∃ l, s.mLayers[f]? = some l ∧ l.mType = LayerType.LAYER_FRAMEBUFFER_TARGET

/-! ## The GPU-layer set after construction -/

/-- The role of the layer is default-GPU or forced-GPU: it is composited by the GPU. -/
def isGpuRole (l : HwcLayer) : Bool :=
  decide (l.mType = LayerType.LAYER_FB) || decide (l.mType = LayerType.LAYER_FORCE_FB)

/-- What the constructor establishes and `update` keeps: the list holds `mLayerCount`
layers, `mFBLayers` points into `mLayers` without repetition and holds exactly the layers
whose role is default-GPU or forced-GPU, and the framebuffer target has the
framebuffer-target role. -/
structure GpuSet {σ : Type} (s : State σ) : Prop where
  length : s.mLayers.length = s.mLayerCount
  nodup : s.mFBLayers.Nodup
  valid : ∀ p ∈ s.mFBLayers, p < s.mLayers.length
  role : ∀ (p : Nat) (l : HwcLayer), s.mLayers[p]? = some l →
    (p ∈ s.mFBLayers ↔ isGpuRole l = true)
  target : ∀ f, s.mFrameBufferTarget = some f →
    ∃ l, s.mLayers[f]? = some l ∧ l.mType = LayerType.LAYER_FRAMEBUFFER_TARGET

/-- The lists reached from `s0` by any number of successful calls of `update`. -/
inductive Updated {σ : Type} (env : Env σ) (s0 : State σ) : State σ → Prop where
  | start : Updated env s0 s0
  | step (s s1 : State σ) (list : List hwc_layer_1_t) :
      Updated env s0 s → update env (some list) s = some (true, s1) → Updated env s0 s1

/-- Some layer composited by the GPU reports `isUpdated()`. -/
def anyGpuLayerUpdated {σ : Type} (s : State σ) : Bool :=
  s.mLayers.any (fun l => isGpuRole l && l.mUpdated)

/-- The composition type that smart composition is to write, in the spec's words:
`HWC_OVERLAY` (reusable) if no layer composited by the GPU reports `isUpdated()`,
`HWC_FRAMEBUFFER` (fresh GPU composition) if at least one does. -/
def smartType {σ : Type} (s : State σ) : Int :=
  if anyGpuLayerUpdated s then HWC_FRAMEBUFFER else HWC_OVERLAY

/-! ## Eligibility as the specification words it -/

/-- Geometric eligibility of the layer at original position `p`, following the words of
the specification: positions are indices of the frame's original layer sequence
(`mLayers`); for every GPU layer (member of `mFBLayers`) that is not in use at a position
`b` other than `p`, no in-use layer at a position strictly between `b` and `p` has a
display rectangle that intersects the rectangle of the layer at `b`. -/
def eligibleByPosition {σ : Type} (s : State σ) (p : Nat) : Bool :=
  (List.range s.mLayers.length).all fun b =>
    (List.range s.mLayers.length).all fun c =>
      match s.mLayers[b]?, s.mLayers[c]? with
      | some lb, some lc =>
        !(decide (b ∈ s.mFBLayers) && !lb.mPlaneCandidate && lc.mPlaneCandidate &&
          (decide (b < c ∧ c < p) || decide (p < c ∧ c < b)) && hasIntersection lc lb)
      | _, _ => true

/-! ## Example frames -/

/-- A layer at index `i` with role `t`, in-use flag `c` and display rectangle `r`; its
z-order is its index. -/
def exLayer (i : Nat) (t : LayerType) (c : Bool) (r : hwc_rect_t) : HwcLayer :=
  { mIndex := i, mZOrder := (i : Int), mType := t, mPlaneCandidate := c,
    mLayer := { compositionType := 0, flags := 0, handle := 1, displayFrame := r },
    mUsage := 0, mUpdated := false, mPlane := none }

/-- The rectangle `[0,0,10,10]`. -/
def exRect : hwc_rect_t := { left := 0, top := 0, right := 10, bottom := 10 }

/-- A stateless manager with `ns` free sprite planes and `no` free overlay planes that
accepts the configurations for which `ok` holds; records are appended to the
configuration. -/
def exEnv (ns no : Int) (ok : List ZOrderLayer → Bool) : Env Unit :=
  { getFreePlanes := fun t =>
      match t with
      | PlaneType.PLANE_SPRITE => ns
      | PlaneType.PLANE_OVERLAY => no
      | PlaneType.PLANE_PRIMARY => 1,
    isValidZOrder := fun m cfg => (ok cfg, m),
    assignPlanes := fun m _ => (true, m),
    planeAt := fun _ cfg i =>
      { mType := match cfg[i]? with
          | some r => r.planeType
          | none => PlaneType.PLANE_PRIMARY,
        mIndex := i, mZOrder := 0 },
    addPos := fun cfg _ => cfg.length,
    layerUpdate := fun l raw => { l with mLayer := raw } }

/-- The frame `[skipped, a, b, c, framebuffer target]` in the middle of the search:
`a` is in use on a sprite plane, `b` and `c` are not. -/
def exSkipState : State Unit :=
  { mList := none, mLayerCount := 5,
    mLayers :=
      [exLayer 0 LayerType.LAYER_SKIPPED false exRect,
       exLayer 1 LayerType.LAYER_FB true exRect,
       exLayer 2 LayerType.LAYER_FB false exRect,
       exLayer 3 LayerType.LAYER_FB false exRect,
       exLayer 4 LayerType.LAYER_FRAMEBUFFER_TARGET false exRect],
    mFBLayers := [1, 2, 3], mSpriteCandidates := [1, 2, 3], mOverlayCandidates := [],
    mZOrderConfig :=
      [{ planeType := PlaneType.PLANE_SPRITE, hwcLayer := 1, zorder := 1, plane := none }],
    mFrameBufferTarget := some 4, planeManager := () }

/-- The frame `[skipped, a, b, c, framebuffer target]`, freshly classified, with `a`, `b`
and `c` sprite candidates. -/
def exSkipStart : State Unit :=
  { mList := none, mLayerCount := 5,
    mLayers :=
      [exLayer 0 LayerType.LAYER_SKIPPED false exRect,
       exLayer 1 LayerType.LAYER_FB false exRect,
       exLayer 2 LayerType.LAYER_FB false exRect,
       exLayer 3 LayerType.LAYER_FB false exRect,
       exLayer 4 LayerType.LAYER_FRAMEBUFFER_TARGET false exRect],
    mFBLayers := [1, 2, 3], mSpriteCandidates := [1, 2, 3], mOverlayCandidates := [],
    mZOrderConfig := [], mFrameBufferTarget := some 4, planeManager := () }

/-- The frame `[framebuffer target, a, b, c, d]` with `c` in use and `d` not. -/
def exTargetFirstState : State Unit :=
  { mList := none, mLayerCount := 5,
    mLayers :=
      [exLayer 0 LayerType.LAYER_FRAMEBUFFER_TARGET false exRect,
       exLayer 1 LayerType.LAYER_FB false exRect,
       exLayer 2 LayerType.LAYER_FB false exRect,
       exLayer 3 LayerType.LAYER_FB true exRect,
       exLayer 4 LayerType.LAYER_FB false exRect],
    mFBLayers := [1, 2, 3, 4], mSpriteCandidates := [1, 2, 3, 4], mOverlayCandidates := [],
    mZOrderConfig :=
      [{ planeType := PlaneType.PLANE_SPRITE, hwcLayer := 3, zorder := 3, plane := none }],
    mFrameBufferTarget := some 0, planeManager := () }

/-- The frame `[a, framebuffer target]`, freshly classified, with `a` a sprite
candidate. -/
def exPairState : State Unit :=
  { mList := none, mLayerCount := 2,
    mLayers :=
      [exLayer 0 LayerType.LAYER_FB false exRect,
       exLayer 1 LayerType.LAYER_FRAMEBUFFER_TARGET false exRect],
    mFBLayers := [0], mSpriteCandidates := [0], mOverlayCandidates := [],
    mZOrderConfig := [], mFrameBufferTarget := some 1, planeManager := () }

/-- The list `exPairState` after `addZOrderLayer(PLANE_SPRITE, a)`. -/
def exPairAdded : State Unit :=
  { mList := none, mLayerCount := 2,
    mLayers :=
      [exLayer 0 LayerType.LAYER_FB true exRect,
       exLayer 1 LayerType.LAYER_FRAMEBUFFER_TARGET false exRect],
    mFBLayers := [0], mSpriteCandidates := [0], mOverlayCandidates := [],
    mZOrderConfig :=
      [{ planeType := PlaneType.PLANE_SPRITE, hwcLayer := 0, zorder := 0, plane := none }],
    mFrameBufferTarget := some 1, planeManager := () }

/-- The list `exPairAdded` after a successful `attachPlanes`: `a` has the
hardware-overlay role and a sprite plane of z-order 0, the framebuffer target has no
plane. -/
def exPairCommitted : State Unit :=
  { mList := none, mLayerCount := 2,
    mLayers :=
      [{ exLayer 0 LayerType.LAYER_OVERLAY true exRect with
          mPlane := some { mType := PlaneType.PLANE_SPRITE, mIndex := 0, mZOrder := 0 } },
       exLayer 1 LayerType.LAYER_FRAMEBUFFER_TARGET false exRect],
    mFBLayers := [], mSpriteCandidates := [0], mOverlayCandidates := [],
    mZOrderConfig := [], mFrameBufferTarget := some 1, planeManager := () }

/-- The list `exPairState` after a search without free sprite planes (Case A): `a` is
carried by the primary plane. -/
def exPairPrimary : State Unit :=
  { mList := none, mLayerCount := 2,
    mLayers :=
      [{ exLayer 0 LayerType.LAYER_OVERLAY true exRect with
          mPlane := some { mType := PlaneType.PLANE_PRIMARY, mIndex := 0, mZOrder := 0 } },
       exLayer 1 LayerType.LAYER_FRAMEBUFFER_TARGET false exRect],
    mFBLayers := [], mSpriteCandidates := [0], mOverlayCandidates := [],
    mZOrderConfig := [], mFrameBufferTarget := some 1, planeManager := () }

/-- A manager with one free overlay plane and no free sprite plane that rejects every
configuration holding an overlay record. -/
def exNoOverlayEnv : Env Unit :=
  exEnv 0 1 (fun cfg => cfg.all (fun r => decide (r.planeType ≠ PlaneType.PLANE_OVERLAY)))

/-- The frame `[o, framebuffer target]`, freshly classified, with `o` an overlay
candidate. -/
def exOvState : State Unit :=
  { mList := none, mLayerCount := 2,
    mLayers :=
      [exLayer 0 LayerType.LAYER_FB false exRect,
       exLayer 1 LayerType.LAYER_FRAMEBUFFER_TARGET false exRect],
    mFBLayers := [0], mSpriteCandidates := [], mOverlayCandidates := [0],
    mZOrderConfig := [], mFrameBufferTarget := some 1, planeManager := () }

/-- The list `exOvState` after a search that offloaded nothing: the framebuffer target is
on the primary plane at z-order 0. -/
def exOvCommitted : State Unit :=
  { mList := none, mLayerCount := 2,
    mLayers :=
      [exLayer 0 LayerType.LAYER_FB false exRect,
       { exLayer 1 LayerType.LAYER_FRAMEBUFFER_TARGET true exRect with
          mPlane := some { mType := PlaneType.PLANE_PRIMARY, mIndex := 0, mZOrder := 0 } }],
    mFBLayers := [0], mSpriteCandidates := [], mOverlayCandidates := [0],
    mZOrderConfig := [], mFrameBufferTarget := some 1, planeManager := () }

/-- The frame `[o1, o2, sp, framebuffer target]`, freshly classified: `o1` and `o2` are
overlay candidates, `sp` is a sprite candidate; the rectangles do not overlap. -/
def exPickyState : State Unit :=
  { mList := none, mLayerCount := 4,
    mLayers :=
      [exLayer 0 LayerType.LAYER_FB false { left := 0, top := 0, right := 10, bottom := 10 },
       exLayer 1 LayerType.LAYER_FB false { left := 10, top := 0, right := 20, bottom := 10 },
       exLayer 2 LayerType.LAYER_FB false { left := 20, top := 0, right := 30, bottom := 10 },
       exLayer 3 LayerType.LAYER_FRAMEBUFFER_TARGET false exRect],
    mFBLayers := [0, 1, 2], mSpriteCandidates := [2], mOverlayCandidates := [0, 1],
    mZOrderConfig := [], mFrameBufferTarget := some 3, planeManager := () }

/-- A raw layer of a frame with the given composition type and display frame, with a
buffer handle and no flag. -/
def exRawLayer (c : Int) (r : hwc_rect_t) : hwc_layer_1_t :=
  { compositionType := c, flags := 0, handle := 1, displayFrame := r }

/-- Capabilities for the examples: `sprite` and `overlay` say which raw layers have a
format the sprite and the overlay planes take, everything else is supported; every
buffer has the hardware-composer usage. -/
def exCaps (sprite overlay : hwc_layer_1_t → Bool) (allowed : Bool) : Caps Unit :=
  { isTransformSupported := fun _ _ => true,
    isFormatSupported := fun t l =>
      match t with
      | PlaneType.PLANE_SPRITE => sprite l.mLayer
      | PlaneType.PLANE_OVERLAY => overlay l.mLayer
      | PlaneType.PLANE_PRIMARY => false,
    isSizeSupported := fun _ _ => true,
    isBlendingSupported := fun _ _ => true,
    isScalingSupported := fun _ _ => true,
    isOverlayAllowed := allowed,
    usageOf := fun _ => GRALLOC_USAGE_HW_COMPOSER,
    reclaimPlane := fun m _ => m }

/-- A frame of a default-GPU layer and the framebuffer target. -/
def exBothFrame : List hwc_layer_1_t :=
  [exRawLayer HWC_FRAMEBUFFER exRect, exRawLayer HWC_FRAMEBUFFER_TARGET exRect]

/-- A frame with two layers of the framebuffer-target composition type. -/
def exTwoTargets : List hwc_layer_1_t :=
  [exRawLayer HWC_FRAMEBUFFER_TARGET exRect, exRawLayer HWC_FRAMEBUFFER exRect,
   exRawLayer HWC_FRAMEBUFFER_TARGET exRect]

/-- The frame of a pre-skipped layer, a default-GPU layer and the framebuffer target. -/
def exThreeFrame : List hwc_layer_1_t :=
  [exRawLayer HWC_OVERLAY exRect, exRawLayer HWC_FRAMEBUFFER exRect,
   exRawLayer HWC_FRAMEBUFFER_TARGET exRect]

/-- Capabilities that take every layer for a sprite and for an overlay plane, with
overlay use allowed. -/
def exAllCaps : Caps Unit := exCaps (fun _ => true) (fun _ => true) true

/-- Capabilities that take no layer for any plane. -/
def exNoCaps : Caps Unit := exCaps (fun _ => false) (fun _ => false) false

/-- The list that the constructor builds for `exThreeFrame` with `exNoCaps` and no free
plane: the default-GPU layer stays with the GPU and the framebuffer target is carried by
the primary plane. -/
def exSmartStart : State Unit :=
  { mList := some exThreeFrame, mLayerCount := 3,
    mLayers :=
      [setType (newHwcLayer exNoCaps 0 (exRawLayer HWC_OVERLAY exRect))
         LayerType.LAYER_SKIPPED,
       setType (newHwcLayer exNoCaps 1 (exRawLayer HWC_FRAMEBUFFER exRect))
         LayerType.LAYER_FB,
       { (newHwcLayer exNoCaps 2 (exRawLayer HWC_FRAMEBUFFER_TARGET exRect)) with
         mType := LayerType.LAYER_FRAMEBUFFER_TARGET, mPlaneCandidate := true,
         mPlane := some { mType := PlaneType.PLANE_PRIMARY, mIndex := 0, mZOrder := 0 } }],
    mFBLayers := [1], mSpriteCandidates := [], mOverlayCandidates := [],
    mZOrderConfig := [], mFrameBufferTarget := some 2, planeManager := () }

/-- The list `exSmartStart` after `update` with the same frame: no layer is marked
updated, so the default-GPU layer gets the composition type `HWC_OVERLAY`. -/
def exSmartDone : State Unit :=
  { exSmartStart with
    mLayers :=
      [setType (newHwcLayer exNoCaps 0 (exRawLayer HWC_OVERLAY exRect))
         LayerType.LAYER_SKIPPED,
       setType (newHwcLayer exNoCaps 1 (exRawLayer HWC_OVERLAY exRect))
         LayerType.LAYER_FB,
       { (newHwcLayer exNoCaps 2 (exRawLayer HWC_FRAMEBUFFER_TARGET exRect)) with
         mType := LayerType.LAYER_FRAMEBUFFER_TARGET, mPlaneCandidate := true,
         mPlane := some { mType := PlaneType.PLANE_PRIMARY, mIndex := 0, mZOrder := 0 } }] }

/-- The list after the classification of `exThreeFrame` with `exAllCaps`. -/
def exThreeClassified : State Unit :=
  { mList := some exThreeFrame, mLayerCount := 3,
    mLayers :=
      [setType (newHwcLayer exAllCaps 0 (exRawLayer HWC_OVERLAY exRect))
         LayerType.LAYER_SKIPPED,
       setType (newHwcLayer exAllCaps 1 (exRawLayer HWC_FRAMEBUFFER exRect))
         LayerType.LAYER_FB,
       setType (newHwcLayer exAllCaps 2 (exRawLayer HWC_FRAMEBUFFER_TARGET exRect))
         LayerType.LAYER_FRAMEBUFFER_TARGET],
    mFBLayers := [1], mSpriteCandidates := [1], mOverlayCandidates := [],
    mZOrderConfig := [], mFrameBufferTarget := some 2, planeManager := () }

/-- The frame of a pre-skipped layer, three default-GPU layers and the framebuffer
target. -/
def exSkipFrame : List hwc_layer_1_t :=
  [exRawLayer HWC_OVERLAY exRect, exRawLayer HWC_FRAMEBUFFER exRect,
   exRawLayer HWC_FRAMEBUFFER exRect, exRawLayer HWC_FRAMEBUFFER exRect,
   exRawLayer HWC_FRAMEBUFFER_TARGET exRect]

/-- A manager without free sprite plane that rejects every configuration in which the
primary record has z-order 1. -/
def exCaseCEnv : Env Unit :=
  exEnv 0 1 (fun cfg =>
    !(cfg.any (fun r =>
      decide (r.planeType = PlaneType.PLANE_PRIMARY) && decide (r.zorder = 1))))

/-- The list `exPickyState` after `addZOrderLayer(PLANE_OVERLAY, o1)`. -/
def exCaseCState : State Unit :=
  { exPickyState with
    mLayers :=
      [exLayer 0 LayerType.LAYER_FB true { left := 0, top := 0, right := 10, bottom := 10 },
       exLayer 1 LayerType.LAYER_FB false { left := 10, top := 0, right := 20, bottom := 10 },
       exLayer 2 LayerType.LAYER_FB false { left := 20, top := 0, right := 30, bottom := 10 },
       exLayer 3 LayerType.LAYER_FRAMEBUFFER_TARGET false exRect],
    mZOrderConfig :=
      [{ planeType := PlaneType.PLANE_OVERLAY, hwcLayer := 0, zorder := 0, plane := none }] }

/-- The list that primary placement commits from `exCaseCState` with `exCaseCEnv`: the
framebuffer target is carried by the primary plane at the z-order 2 of `sp`. -/
def exCaseCDone : State Unit :=
  { exPickyState with
    mLayers :=
      [{ exLayer 0 LayerType.LAYER_OVERLAY true
           { left := 0, top := 0, right := 10, bottom := 10 } with
         mPlane := some { mType := PlaneType.PLANE_OVERLAY, mIndex := 0, mZOrder := 0 } },
       exLayer 1 LayerType.LAYER_FB false { left := 10, top := 0, right := 20, bottom := 10 },
       exLayer 2 LayerType.LAYER_FB false { left := 20, top := 0, right := 30, bottom := 10 },
       { exLayer 3 LayerType.LAYER_FRAMEBUFFER_TARGET true exRect with
         mPlane := some { mType := PlaneType.PLANE_PRIMARY, mIndex := 1, mZOrder := 1 } }],
    mFBLayers := [1, 2] }

/-! ## The search with the internal-consistency branches watched -/

/-- Outcome of a step of the search in which the four internal-consistency branches of
`addZOrderLayer` and `removeZOrderLayer` are watched: `undefined` is a read out of range,
`inconsistent` says that one of the four branches was taken, `done` is a normal return. -/
inductive Run (α : Type) where
  | undefined : Run α
  | inconsistent : Run α
  | done : α → Run α

/-- Sequencing: the first outcome that is not a normal return ends the run. -/
def Run.bind {α β : Type} (r : Run α) (f : α → Run β) : Run β :=
  match r with
  | Run.undefined => Run.undefined
  | Run.inconsistent => Run.inconsistent
  | Run.done a => f a

/-- A result of the search as an outcome in which no consistency branch was taken. -/
def Run.ofOption {α : Type} : Option α → Run α
  | none => Run.undefined
  | some a => Run.done a

/-- The test `mZOrderConfig.indexOf(layer) >= 0` of `addZOrderLayer`, read in the way that
finds most: some record of the configuration has the z-order of `layer` (a record that is
in the configuration has its own z-order, so this covers the record itself). -/
def recordPresent (cfg : List ZOrderLayer) (layer : ZOrderLayer) : Bool :=
  cfg.any (fun r => decide (r.zorder = layer.zorder))

/-- `addZOrderLayer` with its two `ETRACE` branches watched: "plane is candidate!" when
the layer's flag is already true, "layer exists!" when the record is found in the
configuration. -/
def addZOrderLayerChecked {σ : Type} (env : Env σ) (type : PlaneType) (hwcLayer : Nat)
    (zorder : Int) (s : State σ) : Run (ZOrderLayer × State σ) :=
  match s.mLayers[hwcLayer]? with
  | none => Run.undefined
  | some l =>
    let layer : ZOrderLayer :=
      { planeType := type, hwcLayer := hwcLayer,
        zorder := if zorder ≠ -1 then zorder else l.mZOrder, plane := none }
    if l.mPlaneCandidate = true then Run.inconsistent
    else if recordPresent s.mZOrderConfig layer = true then Run.inconsistent
    else
      Run.done (layer,
        { s with
          mLayers := s.mLayers.set hwcLayer { l with mPlaneCandidate := true },
          mZOrderConfig :=
            insertAt layer (env.addPos s.mZOrderConfig layer) s.mZOrderConfig })

/-- `removeZOrderLayer` with its two `ETRACE` branches watched: "layer does not exist!"
when the record is not in the configuration, "plane is not candidate!" when the flag of
its layer is false. -/
def removeZOrderLayerChecked {σ : Type} (layer : ZOrderLayer) (s : State σ) :
    Run (State σ) :=
  if layer ∉ s.mZOrderConfig then Run.inconsistent
  else
    match s.mLayers[layer.hwcLayer]? with
    | none => Run.undefined
    | some l =>
      if l.mPlaneCandidate = false then Run.inconsistent
      else
        Run.done { s with
          mZOrderConfig := s.mZOrderConfig.erase layer,
          mLayers := s.mLayers.set layer.hwcLayer { l with mPlaneCandidate := false } }

/-- `assignPrimaryPlaneHelper` over the watched bookkeeping operations. -/
def assignPrimaryPlaneHelperChecked {σ : Type} (env : Env σ) (hwcLayer : Nat) (zorder : Int)
    (s : State σ) : Run (Bool × State σ) :=
  (addZOrderLayerChecked env PlaneType.PLANE_PRIMARY hwcLayer zorder s).bind fun r =>
    match attachPlanes env r.2 with
    | none => Run.undefined
    | some (true, s2) => Run.done (true, s2)
    | some (false, s2) =>
      (removeZOrderLayerChecked r.1 s2).bind fun s3 => Run.done (false, s3)

/-- The last branch of `assignPrimaryPlane` over the watched operations. -/
def fbTargetScanChecked {σ : Type} (env : Env σ) : Nat → Nat → State σ → Run (Bool × State σ)
  | 0, _, s => Run.done (false, s)
  | cnt + 1, i, s =>
    match fbLayerAt s i with
    | none => Run.undefined
    | some l =>
      if l.mPlaneCandidate then fbTargetScanChecked env cnt (i + 1) s
      else
        match useAsFrameBufferTarget s l with
        | none => Run.undefined
        | some false => fbTargetScanChecked env cnt (i + 1) s
        | some true =>
          match s.mFrameBufferTarget with
          | none => Run.undefined
          | some fbt =>
            (assignPrimaryPlaneHelperChecked env fbt l.mZOrder s).bind fun r =>
              if r.1 = true then Run.done (true, r.2)
              else fbTargetScanChecked env cnt (i + 1) r.2

/-- `assignPrimaryPlane` over the watched operations. -/
def assignPrimaryPlaneChecked {σ : Type} (env : Env σ) (s : State σ) : Run (Bool × State σ) :=
  match spriteLayerScan s s.mSpriteCandidates.length none with
  | none => Run.undefined
  | some spriteLayer =>
    let candidates : Int := (s.mZOrderConfig.length : Int)
    let layers : Int := (s.mFBLayers.length : Int)
    if candidates = layers - 1 ∧ spriteLayer ≠ none then
      match spriteLayer with
      | none => Run.undefined
      | some p => assignPrimaryPlaneHelperChecked env p (-1) s
    else if candidates = 0 then
      match s.mFrameBufferTarget with
      | none => Run.undefined
      | some fbt => assignPrimaryPlaneHelperChecked env fbt 0 s
    else if candidates = layers then
      Run.ofOption (attachPlanes env s)
    else
      fbTargetScanChecked env s.mFBLayers.length 0 s

/-- The loop shared by `assignSpritePlanes(index, planeNumber)` and
`assignOverlayPlanes(index, planeNumber)`, over the watched operations. -/
def candLoopChecked {σ : Type} (env : Env σ) (type : PlaneType) (cands : State σ → List Nat)
    (next : Nat → State σ → Run (Bool × State σ)) :
    Nat → Nat → State σ → Run (Bool × State σ)
  | 0, _, s => Run.done (false, s)
  | cnt + 1, i, s =>
    match (cands s)[i]? with
    | none => Run.undefined
    | some c =>
      (addZOrderLayerChecked env type c (-1) s).bind fun r =>
        (next (i + 1) r.2).bind fun n =>
          if n.1 = true then Run.done (true, n.2)
          else
            (removeZOrderLayerChecked r.1 n.2).bind fun s3 =>
              candLoopChecked env type cands next cnt (i + 1) s3

/-- The recursion shared by the two functions, over the watched operations. -/
def candFromChecked {σ : Type} (env : Env σ) (type : PlaneType) (cands : State σ → List Nat)
    (last : State σ → Run (Bool × State σ)) (index : Nat) :
    Nat → State σ → Run (Bool × State σ)
  | 0, s => last s
  | planeNumber + 1, s =>
    candLoopChecked env type cands
      (fun i => candFromChecked env type cands last i planeNumber)
      ((cands s).length + 1 - (index + (planeNumber + 1))) index s

/-- The countdown shared by `assignSpritePlanes()` and `assignOverlayPlanes()`, over the
watched operations. -/
def candDownChecked {σ : Type} (env : Env σ) (type : PlaneType) (cands : State σ → List Nat)
    (last : State σ → Run (Bool × State σ)) :
    Nat → State σ → Run (Bool × State σ)
  | 0, s => candFromChecked env type cands last 0 0 s
  | i + 1, s =>
    (candFromChecked env type cands last 0 (i + 1) s).bind fun r =>
      if r.1 = true then Run.done (true, r.2)
      else candDownChecked env type cands last i r.2

/-- `assignSpritePlanes()` over the watched operations. -/
def assignSpritePlanesChecked {σ : Type} (env : Env σ) (s : State σ) :
    Run (Bool × State σ) :=
  let spriteCandidates : Int := (s.mSpriteCandidates.length : Int)
  if spriteCandidates = 0 then assignPrimaryPlaneChecked env s
  else
    let planeNumber : Int := env.getFreePlanes PlaneType.PLANE_SPRITE
    if planeNumber = 0 then assignPrimaryPlaneChecked env s
    else
      let planeNumber : Int :=
        if planeNumber > spriteCandidates then spriteCandidates else planeNumber
      if planeNumber < 0 then Run.done (false, s)
      else
        candDownChecked env PlaneType.PLANE_SPRITE (fun s => s.mSpriteCandidates)
          (assignPrimaryPlaneChecked env) planeNumber.toNat s

/-- `assignOverlayPlanes()` over the watched operations. -/
def assignOverlayPlanesChecked {σ : Type} (env : Env σ) (s : State σ) :
    Run (Bool × State σ) :=
  let overlayCandidates : Int := (s.mOverlayCandidates.length : Int)
  if overlayCandidates = 0 then assignSpritePlanesChecked env s
  else
    let planeNumber : Int := env.getFreePlanes PlaneType.PLANE_OVERLAY
    if planeNumber = 0 then assignSpritePlanesChecked env s
    else
      let planeNumber : Int :=
        if planeNumber > overlayCandidates then overlayCandidates else planeNumber
      if planeNumber < 0 then Run.done (false, s)
      else
        candDownChecked env PlaneType.PLANE_OVERLAY (fun s => s.mOverlayCandidates)
          (assignSpritePlanesChecked env) planeNumber.toNat s

/-- `allocatePlanesV2()` over the watched operations. -/
def allocatePlanesV2Checked {σ : Type} (env : Env σ) (s : State σ) : Run (Bool × State σ) :=
  assignOverlayPlanesChecked env s

/-! ## Enumeration of the selections -/

/-- The order-preserving selections of `k` members of `l`, listed in lexicographic order
of the positions selected. -/
def selections {α : Type} : Nat → List α → List (List α)
  | 0, _ => [[]]
  | _ + 1, [] => []
  | k + 1, c :: cs => (selections k cs).map (fun T => c :: T) ++ selections (k + 1) cs

/-- The strictly increasing tuples of `k` indices below `n`, in lexicographic order. -/
def indexTuples (k n : Nat) : List (List Nat) :=
  selections k (List.range n)

/-- The candidates at the positions of the index tuple `t`. -/
def pick (cands : List Nat) (t : List Nat) : List Nat :=
  t.map (fun i => cands.getD i 0)

/-- In the spec's words, for a manager without state: try the selections in the order
given, each from the list `s`: add its candidates in order and enter the following phase
`last`; the first selection with which `last` succeeds ends the enumeration. -/
def firstSuccess (env : Env Unit) (type : PlaneType)
    (last : State Unit → Option (Bool × State Unit)) :
    List (List Nat) → State Unit → Option (Bool × State Unit)
  | [], s => some (false, s)
  | T :: rest, s =>
    match addCandidates env type T s with
    | none => none
    | some sT =>
      match last sT with
      | none => none
      | some (true, s1) => some (true, s1)
      | some (false, _) => firstSuccess env type last rest s

/-- What it means that `result` is the outcome of the exhaustive enumeration of the
selections of `k` of the candidates `cands` from the list `s`, by index tuples in
lexicographic order: it is the outcome of `firstSuccess`; it is a success with `s1`
exactly when some tuple `t` succeeds with `s1` and the following phase fails for every
tuple before `t`; and, provided the following phase returns an answer for every tuple,
it is a success exactly when the following phase succeeds for some tuple. -/
def Enumerates (env : Env Unit) (type : PlaneType)
    (last : State Unit → Option (Bool × State Unit)) (cands : List Nat) (k : Nat)
    (s : State Unit) (result : Option (Bool × State Unit)) : Prop :=
  result = firstSuccess env type last ((indexTuples k cands.length).map (pick cands)) s ∧
  (∀ s1, result = some (true, s1) ↔
    ∃ L1 t L2 sT, indexTuples k cands.length = L1 ++ t :: L2 ∧
      (∀ u ∈ L1, ∃ sU s2, addCandidates env type (pick cands u) s = some sU ∧
        last sU = some (false, s2)) ∧
      addCandidates env type (pick cands t) s = some sT ∧ last sT = some (true, s1)) ∧
  ((∀ t ∈ indexTuples k cands.length, ∃ sT r,
      addCandidates env type (pick cands t) s = some sT ∧ last sT = some r) →
    ((∃ s1, result = some (true, s1)) ↔
      ∃ t ∈ indexTuples k cands.length, ∃ sT s1,
        addCandidates env type (pick cands t) s = some sT ∧ last sT = some (true, s1)))

/-! ## Reads of the eligibility test -/

/-- Every read of `mFBLayers` by `useAsFrameBufferTarget` is in range, whatever GPU layer
it is called for: the bound `mLayerCount - 1` of its second loop and the frame index of
every GPU layer are at most the size of `mFBLayers`. A frame without pre-skipped layers
whose last layer is the framebuffer target is of this kind. -/
def ReadsInRange {σ : Type} (s : State σ) : Prop :=
  s.mLayerCount - 1 ≤ s.mFBLayers.length ∧
  ∀ p ∈ s.mFBLayers, ∀ l, s.mLayers[p]? = some l → l.mIndex ≤ s.mFBLayers.length

/-- The eligibility test returns an answer for every GPU layer, in every list that holds
the same frame as `s`: none of its reads of `mFBLayers` is out of range. -/
def EligibilityAnswers {σ : Type} (s : State σ) : Prop :=
  ∀ s1, SameFrame s s1 → ∀ q ∈ s1.mFBLayers, ∀ l, s1.mLayers[q]? = some l →
    ∃ b, useAsFrameBufferTarget s1 l = some b

/-! ## Case C of primary placement -/

/-- Position `j` of `mFBLayers` is workable in the list `s`, with the committed list `s1`:
the GPU layer there is not in use, the eligibility test answers true for it, and the
configuration extended by the primary record of the framebuffer target at that layer's
z-order is accepted (`assignPrimaryPlaneHelper` returns true). -/
def WorkablePosition (env : Env Unit) (s : State Unit) (j : Nat) (s1 : State Unit) : Prop :=
  ∃ l f, fbLayerAt s j = some l ∧ l.mPlaneCandidate = false ∧
    useAsFrameBufferTarget s l = some true ∧ s.mFrameBufferTarget = some f ∧
    assignPrimaryPlaneHelper env f l.mZOrder s = some (true, s1)
/-! ## The all-GPU fallback -/

/-- The record of Case B of `assignPrimaryPlane`: the primary record that carries the
framebuffer target `f` at z-order 0. -/
def fallbackRecord (f : Nat) : ZOrderLayer :=
  { planeType := PlaneType.PLANE_PRIMARY, hwcLayer := f, zorder := 0, plane := none }

/-- The manager accepts, in whatever state it is, the configuration that consists of the
single primary record carrying the framebuffer target at z-order 0: both `isValidZOrder`
and `assignPlanes` answer true for it. -/
def AcceptsFallback {σ : Type} (env : Env σ) (s : State σ) : Prop :=
  ∃ f, s.mFrameBufferTarget = some f ∧
    ∀ m, (env.isValidZOrder m [fallbackRecord f]).1 = true ∧
      (env.assignPlanes m [fallbackRecord f]).1 = true

/-- A manager with `ns` free sprite planes and `no` free overlay planes that accepts one
configuration only: the single primary record carrying layer `f` at z-order 0. -/
def exFallbackEnv (ns no : Int) (f : Nat) : Env Unit :=
  exEnv ns no (fun cfg => decide (cfg = [fallbackRecord f]))

/-- The list after the classification of `exBothFrame` with `exAllCaps`: the default-GPU
layer is a sprite candidate. -/
def exBothClassified : State Unit :=
  { mList := some exBothFrame, mLayerCount := 2,
    mLayers :=
      [setType (newHwcLayer exAllCaps 0 (exRawLayer HWC_FRAMEBUFFER exRect))
         LayerType.LAYER_FB,
       setType (newHwcLayer exAllCaps 1 (exRawLayer HWC_FRAMEBUFFER_TARGET exRect))
         LayerType.LAYER_FRAMEBUFFER_TARGET],
    mFBLayers := [0], mSpriteCandidates := [0], mOverlayCandidates := [],
    mZOrderConfig := [], mFrameBufferTarget := some 1, planeManager := () }

/-! ## The positions of `mFBLayers` that the eligibility test reads -/

/-- The positions of `mFBLayers` read by an inner loop of `useAsFrameBufferTarget`, in
the order of the reads, up to the `return false` or to the first read that is out of
range; it follows `intersectScan` step by step. -/
def intersectScanReads {σ : Type} (s : State σ) (test : HwcLayer → Bool) :
    Nat → Nat → List Nat
  | 0, _ => []
  | cnt + 1, j =>
    j :: (match fbLayerAt s j with
      | none => []
      | some lj =>
        if lj.mPlaneCandidate = false then intersectScanReads s test cnt (j + 1)
        else if test lj then []
        else intersectScanReads s test cnt (j + 1))

/-- The positions of `mFBLayers` read by the first outer loop of
`useAsFrameBufferTarget` and its inner loop; it follows `belowScan` step by step. -/
def belowScanReads {σ : Type} (s : State σ) (targetLayerIndex : Nat) :
    Nat → Nat → List Nat
  | 0, _ => []
  | cnt + 1, below =>
    below :: (match fbLayerAt s below with
      | none => []
      | some lb =>
        if lb.mPlaneCandidate then belowScanReads s targetLayerIndex cnt (below + 1)
        else
          intersectScanReads s (fun la => hasIntersection la lb)
              (targetLayerIndex - (below + 1)) (below + 1) ++
            (match intersectScan s (fun la => hasIntersection la lb)
                (targetLayerIndex - (below + 1)) (below + 1) with
              | some true => belowScanReads s targetLayerIndex cnt (below + 1)
              | _ => []))

/-- The positions of `mFBLayers` read by the second outer loop of
`useAsFrameBufferTarget` and its inner loop; it follows `aboveScan` step by step. -/
def aboveScanReads {σ : Type} (s : State σ) (targetLayerIndex : Nat) :
    Nat → Nat → List Nat
  | 0, _ => []
  | cnt + 1, above =>
    above :: (match fbLayerAt s above with
      | none => []
      | some la =>
        if la.mPlaneCandidate then aboveScanReads s targetLayerIndex cnt (above + 1)
        else
          intersectScanReads s (fun lb => hasIntersection la lb)
              (above - (targetLayerIndex + 1)) (targetLayerIndex + 1) ++
            (match intersectScan s (fun lb => hasIntersection la lb)
                (above - (targetLayerIndex + 1)) (targetLayerIndex + 1) with
              | some true => aboveScanReads s targetLayerIndex cnt (above + 1)
              | _ => []))

/-- The positions of `mFBLayers` read by `useAsFrameBufferTarget(target)`, in the order
of the reads, up to its return or to the first read that is out of range. -/
def useAsFrameBufferTargetReads {σ : Type} (s : State σ) (target : HwcLayer) : List Nat :=
  let targetLayerIndex := target.mIndex
  belowScanReads s targetLayerIndex targetLayerIndex 0 ++
    (match belowScan s targetLayerIndex targetLayerIndex 0 with
      | some true =>
        aboveScanReads s targetLayerIndex (s.mLayerCount - 1 - (targetLayerIndex + 1))
          (targetLayerIndex + 1)
      | _ => [])

/-- The list after the classification of `exSkipFrame` with `exAllCaps`: the three
default-GPU layers are sprite candidates. -/
def exSkipClassified : State Unit :=
  { mList := some exSkipFrame, mLayerCount := 5,
    mLayers :=
      [setType (newHwcLayer exAllCaps 0 (exRawLayer HWC_OVERLAY exRect))
         LayerType.LAYER_SKIPPED,
       setType (newHwcLayer exAllCaps 1 (exRawLayer HWC_FRAMEBUFFER exRect))
         LayerType.LAYER_FB,
       setType (newHwcLayer exAllCaps 2 (exRawLayer HWC_FRAMEBUFFER exRect))
         LayerType.LAYER_FB,
       setType (newHwcLayer exAllCaps 3 (exRawLayer HWC_FRAMEBUFFER exRect))
         LayerType.LAYER_FB,
       setType (newHwcLayer exAllCaps 4 (exRawLayer HWC_FRAMEBUFFER_TARGET exRect))
         LayerType.LAYER_FRAMEBUFFER_TARGET],
    mFBLayers := [1, 2, 3], mSpriteCandidates := [1, 2, 3], mOverlayCandidates := [],
    mZOrderConfig := [], mFrameBufferTarget := some 4, planeManager := () }

/-- The frame of three default-GPU layers `a`, `b`, `c` and the framebuffer target; the
rectangles of `a` and `b` overlap, the one of `c` overlaps neither. -/
def exWideFrame : List hwc_layer_1_t :=
  [exRawLayer HWC_FRAMEBUFFER { left := 0, top := 0, right := 10, bottom := 10 },
   exRawLayer HWC_FRAMEBUFFER { left := 5, top := 0, right := 15, bottom := 10 },
   exRawLayer HWC_FRAMEBUFFER { left := 20, top := 0, right := 30, bottom := 10 },
   exRawLayer HWC_FRAMEBUFFER_TARGET exRect]

/-- The list after the classification of `exWideFrame` with `exAllCaps`. -/
def exWideClassified : State Unit :=
  { mList := some exWideFrame, mLayerCount := 4,
    mLayers :=
      [setType (newHwcLayer exAllCaps 0
          (exRawLayer HWC_FRAMEBUFFER { left := 0, top := 0, right := 10, bottom := 10 }))
         LayerType.LAYER_FB,
       setType (newHwcLayer exAllCaps 1
          (exRawLayer HWC_FRAMEBUFFER { left := 5, top := 0, right := 15, bottom := 10 }))
         LayerType.LAYER_FB,
       setType (newHwcLayer exAllCaps 2
          (exRawLayer HWC_FRAMEBUFFER { left := 20, top := 0, right := 30, bottom := 10 }))
         LayerType.LAYER_FB,
       setType (newHwcLayer exAllCaps 3 (exRawLayer HWC_FRAMEBUFFER_TARGET exRect))
         LayerType.LAYER_FRAMEBUFFER_TARGET],
    mFBLayers := [0, 1, 2], mSpriteCandidates := [0, 1, 2], mOverlayCandidates := [],
    mZOrderConfig := [], mFrameBufferTarget := some 3, planeManager := () }

/-- The list `exWideClassified` after `addZOrderLayer(PLANE_SPRITE, b)`: `b` is in use. -/
def exWideMarked : State Unit :=
  { exWideClassified with
    mLayers :=
      [setType (newHwcLayer exAllCaps 0
          (exRawLayer HWC_FRAMEBUFFER { left := 0, top := 0, right := 10, bottom := 10 }))
         LayerType.LAYER_FB,
       { (setType (newHwcLayer exAllCaps 1
            (exRawLayer HWC_FRAMEBUFFER { left := 5, top := 0, right := 15, bottom := 10 }))
           LayerType.LAYER_FB) with mPlaneCandidate := true },
       setType (newHwcLayer exAllCaps 2
          (exRawLayer HWC_FRAMEBUFFER { left := 20, top := 0, right := 30, bottom := 10 }))
         LayerType.LAYER_FB,
       setType (newHwcLayer exAllCaps 3 (exRawLayer HWC_FRAMEBUFFER_TARGET exRect))
         LayerType.LAYER_FRAMEBUFFER_TARGET],
    mZOrderConfig :=
      [{ planeType := PlaneType.PLANE_SPRITE, hwcLayer := 1, zorder := 1, plane := none }] }

/-- The layer object of `c` in `exWideClassified` and `exWideMarked`. -/
def exWideLayerC : HwcLayer :=
  setType (newHwcLayer exAllCaps 2
      (exRawLayer HWC_FRAMEBUFFER { left := 20, top := 0, right := 30, bottom := 10 }))
    LayerType.LAYER_FB

/-! ## Lists of the search on the frame of `exPickyState` -/

/-- The list that the search commits from `exPickyState` with one free overlay plane, one
free sprite plane and a manager that accepts everything: `o1` is on an overlay plane,
`sp` on a sprite plane, and the framebuffer target on the primary plane at the z-order 1
of `o2`, which stays with the GPU. -/
def exPickyCommitted : State Unit :=
  { exPickyState with
    mLayers :=
      [{ exLayer 0 LayerType.LAYER_OVERLAY true
           { left := 0, top := 0, right := 10, bottom := 10 } with
         mPlane := some { mType := PlaneType.PLANE_OVERLAY, mIndex := 0, mZOrder := 0 } },
       exLayer 1 LayerType.LAYER_FB false { left := 10, top := 0, right := 20, bottom := 10 },
       { exLayer 2 LayerType.LAYER_OVERLAY true
           { left := 20, top := 0, right := 30, bottom := 10 } with
         mPlane := some { mType := PlaneType.PLANE_SPRITE, mIndex := 1, mZOrder := 1 } },
       { exLayer 3 LayerType.LAYER_FRAMEBUFFER_TARGET true exRect with
         mPlane := some { mType := PlaneType.PLANE_PRIMARY, mIndex := 2, mZOrder := 2 } }],
    mFBLayers := [1] }

/-- The list `exPickyState` in the middle of the search, where the sprite record and the
primary record have been added to the overlay record of `o1`: the list handed to the
commit that gives `exPickyCommitted`. -/
def exPickyPlaced : State Unit :=
  { exPickyState with
    mLayers :=
      [exLayer 0 LayerType.LAYER_FB true { left := 0, top := 0, right := 10, bottom := 10 },
       exLayer 1 LayerType.LAYER_FB false { left := 10, top := 0, right := 20, bottom := 10 },
       exLayer 2 LayerType.LAYER_FB true { left := 20, top := 0, right := 30, bottom := 10 },
       exLayer 3 LayerType.LAYER_FRAMEBUFFER_TARGET true exRect],
    mZOrderConfig :=
      [{ planeType := PlaneType.PLANE_OVERLAY, hwcLayer := 0, zorder := 0, plane := none },
       { planeType := PlaneType.PLANE_SPRITE, hwcLayer := 2, zorder := 2, plane := none },
       { planeType := PlaneType.PLANE_PRIMARY, hwcLayer := 3, zorder := 1, plane := none }] }

/-- The list `exPickyState` after `addZOrderLayer(PLANE_OVERLAY, o1)` and
`addZOrderLayer(PLANE_OVERLAY, o2)`: both overlay candidates are in use, the sprite
candidate `sp` is not. -/
def exPickyBoth : State Unit :=
  { exPickyState with
    mLayers :=
      [exLayer 0 LayerType.LAYER_FB true { left := 0, top := 0, right := 10, bottom := 10 },
       exLayer 1 LayerType.LAYER_FB true { left := 10, top := 0, right := 20, bottom := 10 },
       exLayer 2 LayerType.LAYER_FB false { left := 20, top := 0, right := 30, bottom := 10 },
       exLayer 3 LayerType.LAYER_FRAMEBUFFER_TARGET false exRect],
    mZOrderConfig :=
      [{ planeType := PlaneType.PLANE_OVERLAY, hwcLayer := 0, zorder := 0, plane := none },
       { planeType := PlaneType.PLANE_OVERLAY, hwcLayer := 1, zorder := 1, plane := none }] }

/-- The list that primary placement commits from `exPickyBoth` with a manager that
accepts everything: the sprite candidate `sp` is carried by the primary plane and every
GPU layer has a plane. -/
def exPickyBothDone : State Unit :=
  { exPickyState with
    mLayers :=
      [{ exLayer 0 LayerType.LAYER_OVERLAY true
           { left := 0, top := 0, right := 10, bottom := 10 } with
         mPlane := some { mType := PlaneType.PLANE_OVERLAY, mIndex := 0, mZOrder := 0 } },
       { exLayer 1 LayerType.LAYER_OVERLAY true
           { left := 10, top := 0, right := 20, bottom := 10 } with
         mPlane := some { mType := PlaneType.PLANE_OVERLAY, mIndex := 1, mZOrder := 1 } },
       { exLayer 2 LayerType.LAYER_OVERLAY true
           { left := 20, top := 0, right := 30, bottom := 10 } with
         mPlane := some { mType := PlaneType.PLANE_PRIMARY, mIndex := 2, mZOrder := 2 } },
       exLayer 3 LayerType.LAYER_FRAMEBUFFER_TARGET false exRect],
    mFBLayers := [] }

/-- The frame of a framebuffer target alone, freshly classified: there is no GPU layer. -/
def exAloneState : State Unit :=
  { mList := none, mLayerCount := 1,
    mLayers := [exLayer 0 LayerType.LAYER_FRAMEBUFFER_TARGET false exRect],
    mFBLayers := [], mSpriteCandidates := [], mOverlayCandidates := [],
    mZOrderConfig := [], mFrameBufferTarget := some 0, planeManager := () }

/-! ## A frame with a pre-skipped layer and four sprite candidates -/

/-- The frame of a pre-skipped layer, four default-GPU layers `a`, `b`, `c`, `d` and the
framebuffer target; the rectangles of `c` and `d` overlap, no other two do. -/
def exLongFrame : List hwc_layer_1_t :=
  [exRawLayer HWC_OVERLAY exRect,
   exRawLayer HWC_FRAMEBUFFER { left := 0, top := 0, right := 10, bottom := 10 },
   exRawLayer HWC_FRAMEBUFFER { left := 20, top := 0, right := 30, bottom := 10 },
   exRawLayer HWC_FRAMEBUFFER { left := 40, top := 0, right := 50, bottom := 10 },
   exRawLayer HWC_FRAMEBUFFER { left := 45, top := 0, right := 55, bottom := 10 },
   exRawLayer HWC_FRAMEBUFFER_TARGET exRect]

/-- The list after the classification of `exLongFrame` with `exAllCaps`: the four
default-GPU layers are sprite candidates. -/
def exLongClassified : State Unit :=
  { mList := some exLongFrame, mLayerCount := 6,
    mLayers :=
      [setType (newHwcLayer exAllCaps 0 (exRawLayer HWC_OVERLAY exRect))
         LayerType.LAYER_SKIPPED,
       setType (newHwcLayer exAllCaps 1
          (exRawLayer HWC_FRAMEBUFFER { left := 0, top := 0, right := 10, bottom := 10 }))
         LayerType.LAYER_FB,
       setType (newHwcLayer exAllCaps 2
          (exRawLayer HWC_FRAMEBUFFER { left := 20, top := 0, right := 30, bottom := 10 }))
         LayerType.LAYER_FB,
       setType (newHwcLayer exAllCaps 3
          (exRawLayer HWC_FRAMEBUFFER { left := 40, top := 0, right := 50, bottom := 10 }))
         LayerType.LAYER_FB,
       setType (newHwcLayer exAllCaps 4
          (exRawLayer HWC_FRAMEBUFFER { left := 45, top := 0, right := 55, bottom := 10 }))
         LayerType.LAYER_FB,
       setType (newHwcLayer exAllCaps 5 (exRawLayer HWC_FRAMEBUFFER_TARGET exRect))
         LayerType.LAYER_FRAMEBUFFER_TARGET],
    mFBLayers := [1, 2, 3, 4], mSpriteCandidates := [1, 2, 3, 4], mOverlayCandidates := [],
    mZOrderConfig := [], mFrameBufferTarget := some 5, planeManager := () }

/-- A manager with two free sprite planes and no free overlay plane that rejects exactly
the configurations holding a record of layer 0. -/
def exRejectFirstEnv : Env Unit :=
  exEnv 2 0 (fun cfg => !(cfg.any (fun r => decide (r.hwcLayer = 0))))


/-! # Theorems -/

/-! ## Rectangle intersection -/

theorem rectIntersect_iff (a b : hwc_rect_t) :
    rectIntersect a b = true ↔
      a.left < b.right ∧ b.left < a.right ∧ b.top < a.bottom ∧ a.top < b.bottom := by
  unfold rectIntersect
  split_ifs with h
  · simp only [Bool.false_eq_true, false_iff]
    intro hc
    omega
  · simp only [true_iff]
    omega

/-- C6: for display rectangles with `left < right` and `top < bottom`, `hasIntersection`
is true exactly when the maximum of the left edges is below the minimum of the right edges
and the maximum of the top edges is below the minimum of the bottom edges; rectangles that
only touch along an edge do not intersect; `[0,0,10,10]` with `[10,0,20,10]` gives false
and with `[5,0,20,10]` gives true. -/
theorem hasIntersection_strict_overlap (la lb : HwcLayer)
    (ha1 : la.mLayer.displayFrame.left < la.mLayer.displayFrame.right)
    (ha2 : la.mLayer.displayFrame.top < la.mLayer.displayFrame.bottom)
    (hb1 : lb.mLayer.displayFrame.left < lb.mLayer.displayFrame.right)
    (hb2 : lb.mLayer.displayFrame.top < lb.mLayer.displayFrame.bottom) :
    (hasIntersection la lb = true ↔
      max la.mLayer.displayFrame.left lb.mLayer.displayFrame.left
          < min la.mLayer.displayFrame.right lb.mLayer.displayFrame.right ∧
        max la.mLayer.displayFrame.top lb.mLayer.displayFrame.top
          < min la.mLayer.displayFrame.bottom lb.mLayer.displayFrame.bottom) ∧
    ((la.mLayer.displayFrame.right = lb.mLayer.displayFrame.left ∨
        lb.mLayer.displayFrame.right = la.mLayer.displayFrame.left ∨
        la.mLayer.displayFrame.bottom = lb.mLayer.displayFrame.top ∨
        lb.mLayer.displayFrame.bottom = la.mLayer.displayFrame.top) →
      hasIntersection la lb = false) ∧
    hasIntersection (exLayer 0 LayerType.LAYER_FB false exRect)
      (exLayer 1 LayerType.LAYER_FB false { left := 10, top := 0, right := 20, bottom := 10 })
        = false ∧
    hasIntersection (exLayer 0 LayerType.LAYER_FB false exRect)
      (exLayer 1 LayerType.LAYER_FB false { left := 5, top := 0, right := 20, bottom := 10 })
        = true := by
  refine ⟨?_, ?_, by decide, by decide⟩
  · unfold hasIntersection
    rw [rectIntersect_iff]
    simp only [max_lt_iff, lt_min_iff]
    omega
  · intro h
    have hn : ¬ hasIntersection la lb = true := by
      unfold hasIntersection
      rw [rectIntersect_iff]
      omega
    simpa using hn

theorem hasIntersection_strict_overlap_witness :
    (hasIntersection (exLayer 0 LayerType.LAYER_FB false exRect)
        (exLayer 1 LayerType.LAYER_FB false { left := 5, top := 0, right := 20, bottom := 10 })
          = true ↔
      max (0 : Int) 5 < min (10 : Int) 20 ∧ max (0 : Int) 0 < min (10 : Int) 10) :=
  (hasIntersection_strict_overlap (exLayer 0 LayerType.LAYER_FB false exRect)
    (exLayer 1 LayerType.LAYER_FB false { left := 5, top := 0, right := 20, bottom := 10 })
    (by decide) (by decide) (by decide) (by decide)).1

/-- C7: `hasIntersection` is symmetric for arbitrary integer display rectangles,
degenerate and inverted ones included. -/
theorem hasIntersection_symmetric (la lb : HwcLayer) :
    hasIntersection la lb = hasIntersection lb la := by
  have h : hasIntersection la lb = true ↔ hasIntersection lb la = true := by
    unfold hasIntersection
    rw [rectIntersect_iff, rectIntersect_iff]
    omega
  cases h1 : hasIntersection la lb <;> cases h2 : hasIntersection lb la <;> simp_all

/-! ## Geometric eligibility against its definition -/

/-- C5: the eligibility test of the source does not agree with the definition over
original positions. On the frame `[skipped, a, b, c, framebuffer target]` with `a` in
use, a list that the search with one free sprite plane reaches by adding `a`, the test
for `b` reads `mFBLayers` out of range although `b` is eligible by the definition, and
the whole search runs into that read; on the frame `[framebuffer target, a, b, c, d]`
with `c` in use and overlapping `d`, the test for `b` answers true although `b` is not
eligible. -/
theorem useAsFrameBufferTarget_differs_from_definition :
    (useAsFrameBufferTarget exSkipState (exLayer 2 LayerType.LAYER_FB false exRect) = none ∧
      exSkipState.mLayers[2]? = some (exLayer 2 LayerType.LAYER_FB false exRect) ∧
      eligibleByPosition exSkipState 2 = true ∧
      (addZOrderLayer (exEnv 1 0 (fun _ => true)) PlaneType.PLANE_SPRITE 1 (-1)
        exSkipStart).map (fun r => r.2) = some exSkipState ∧
      allocatePlanesV2 (exEnv 1 0 (fun _ => true)) exSkipStart = none) ∧
    (useAsFrameBufferTarget exTargetFirstState (exLayer 2 LayerType.LAYER_FB false exRect)
        = some true ∧
      exTargetFirstState.mLayers[2]? = some (exLayer 2 LayerType.LAYER_FB false exRect) ∧
      eligibleByPosition exTargetFirstState 2 = false) := by
  refine ⟨⟨by decide, by decide, by decide, by decide, by decide⟩,
    ⟨by decide, by decide, by decide⟩⟩

/-! ## Frame update -/

theorem getElem?_some_of_lt {α : Type} (l : List α) (i : Nat) (h : i < l.length) :
    ∃ a, l[i]? = some a :=
  ⟨l[i], List.getElem?_eq_getElem h⟩

theorem withPM_unit (s : State Unit) (m : Unit) : withPM s m = s := rfl

theorem withPM_self {σ : Type} (s : State σ) : withPM s s.planeManager = s := rfl

theorem withPM_withPM {σ : Type} (s : State σ) (m m1 : σ) :
    withPM (withPM s m) m1 = withPM s m1 := rfl

theorem insertAt_perm {α : Type} (a : α) :
    ∀ (k : Nat) (l : List α), (insertAt a k l).Perm (a :: l)
  | 0, _ => List.Perm.refl _
  | _ + 1, [] => List.Perm.refl _
  | k + 1, x :: xs => ((insertAt_perm a k xs).cons x).trans (List.Perm.swap a x xs)

theorem mem_insertAt {α : Type} (a x : α) (k : Nat) (l : List α) :
    x ∈ insertAt a k l ↔ x = a ∨ x ∈ l := by
  rw [(insertAt_perm a k l).mem_iff, List.mem_cons]

theorem length_insertAt {α : Type} (a : α) (k : Nat) (l : List α) :
    (insertAt a k l).length = l.length + 1 := by
  rw [(insertAt_perm a k l).length_eq, List.length_cons]

theorem erase_insertAt {α : Type} [DecidableEq α] (a : α) :
    ∀ (l : List α) (k : Nat), a ∉ l → (insertAt a k l).erase a = l := by
  intro l
  induction l with
  | nil =>
    intro k _
    cases k <;> simp [insertAt]
  | cons x xs ih =>
    intro k h
    have hx : x ≠ a := fun e => h (e ▸ List.mem_cons_self _ _)
    have hxs : a ∉ xs := fun e => h (List.mem_cons_of_mem _ e)
    cases k with
    | zero => simp [insertAt]
    | succ k =>
      simp only [insertAt]
      rw [List.erase_cons_tail (by simpa using hx), ih k hxs]

theorem set_same {α : Type} (l : List α) (p : Nat) (a : α) (h : l[p]? = some a) :
    l.set p a = l := by
  induction l generalizing p with
  | nil => rfl
  | cons x xs ih =>
    cases p with
    | zero => simp at h; simp [h]
    | succ p => simp at h; simp [ih p h]

/-- The record that `addZOrderLayer(type, p, zorder)` creates for the layer `l`. -/
theorem addZOrderLayer_some {σ : Type} {env : Env σ} {type : PlaneType} {p : Nat}
    {zorder : Int} {s s1 : State σ} {r : ZOrderLayer}
    (h : addZOrderLayer env type p zorder s = some (r, s1)) :
    ∃ l, s.mLayers[p]? = some l ∧
      r = { planeType := type, hwcLayer := p,
            zorder := if zorder ≠ -1 then zorder else l.mZOrder, plane := none } ∧
      s1 = { s with
        mLayers := s.mLayers.set p { l with mPlaneCandidate := true },
        mZOrderConfig := insertAt r (env.addPos s.mZOrderConfig r) s.mZOrderConfig } := by
  unfold addZOrderLayer at h
  split at h
  · exact absurd h (by simp)
  · rename_i l hl
    simp only [Option.some.injEq, Prod.mk.injEq] at h
    obtain ⟨h1, h2⟩ := h
    subst h1
    exact ⟨l, hl, rfl, h2.symm⟩

theorem addZOrderLayer_of_layer {σ : Type} (env : Env σ) (type : PlaneType) (p : Nat)
    (zorder : Int) (s : State σ) (l : HwcLayer) (hl : s.mLayers[p]? = some l) :
    ∃ r s1, addZOrderLayer env type p zorder s = some (r, s1) := by
  simp only [addZOrderLayer, hl]
  exact ⟨_, _, rfl⟩

theorem addZOrderLayer_withPM {σ : Type} {env : Env σ} {type : PlaneType} {p : Nat}
    {zorder : Int} {s s1 : State σ} {r : ZOrderLayer} (m : σ)
    (h : addZOrderLayer env type p zorder s = some (r, s1)) :
    addZOrderLayer env type p zorder (withPM s m) = some (r, withPM s1 m) := by
  obtain ⟨l, hl, hr, hs1⟩ := addZOrderLayer_some h
  subst hs1
  have hl2 : (withPM s m).mLayers[p]? = some l := hl
  simp only [addZOrderLayer, hl2]
  rw [hr]
  rfl

theorem addZOrderLayer_record {σ : Type} {env : Env σ} {type : PlaneType} {p : Nat}
    {zorder : Int} {s s1 : State σ} {r : ZOrderLayer}
    (h : addZOrderLayer env type p zorder s = some (r, s1)) :
    r.planeType = type ∧ r.hwcLayer = p ∧ r.plane = none := by
  obtain ⟨l, _, hr, _⟩ := addZOrderLayer_some h
  subst hr
  exact ⟨rfl, rfl, rfl⟩

theorem addZOrderLayer_config {σ : Type} {env : Env σ} {type : PlaneType} {p : Nat}
    {zorder : Int} {s s1 : State σ} {r : ZOrderLayer}
    (h : addZOrderLayer env type p zorder s = some (r, s1)) :
    s1.mZOrderConfig.Perm (r :: s.mZOrderConfig) := by
  obtain ⟨l, _, _, hs1⟩ := addZOrderLayer_some h
  subst hs1
  exact insertAt_perm _ _ _

theorem addZOrderLayer_sameFrame {σ : Type} {env : Env σ} {type : PlaneType} {p : Nat}
    {zorder : Int} {s s1 : State σ} {r : ZOrderLayer}
    (h : addZOrderLayer env type p zorder s = some (r, s1)) : SameFrame s s1 := by
  obtain ⟨l, hl, _, hs1⟩ := addZOrderLayer_some h
  subst hs1
  refine ⟨rfl, rfl, ?_, rfl, rfl, rfl, rfl⟩
  show (s.mLayers.set p { l with mPlaneCandidate := true }).map clearFlag
    = s.mLayers.map clearFlag
  rw [List.map_set]
  exact set_same _ _ _ (by rw [List.getElem?_map, hl]; rfl)

/-- The layers of `s1` after `addZOrderLayer` on `p`: `p` is in use, the others are as
before. -/
theorem addZOrderLayer_layers {σ : Type} {env : Env σ} {type : PlaneType} {p : Nat}
    {zorder : Int} {s s1 : State σ} {r : ZOrderLayer}
    (h : addZOrderLayer env type p zorder s = some (r, s1)) :
    (∃ l, s.mLayers[p]? = some l ∧
      s1.mLayers[p]? = some { l with mPlaneCandidate := true }) ∧
    ∀ q, q ≠ p → s1.mLayers[q]? = s.mLayers[q]? := by
  obtain ⟨l, hl, _, hs1⟩ := addZOrderLayer_some h
  subst hs1
  have hp : p < s.mLayers.length := (List.getElem?_eq_some.mp hl).1
  refine ⟨⟨l, hl, ?_⟩, ?_⟩
  · show (s.mLayers.set p _)[p]? = _
    rw [List.getElem?_set_self hp]
  · intro q hq
    show (s.mLayers.set p _)[q]? = _
    rw [List.getElem?_set_ne (Ne.symm hq)]

/-! ## Frames, freshness and the candidacy invariant -/

theorem SameFrame.refl {σ : Type} (s : State σ) : SameFrame s s :=
  ⟨rfl, rfl, rfl, rfl, rfl, rfl, rfl⟩

theorem SameFrame.trans {σ : Type} {a b c : State σ} (h1 : SameFrame a b)
    (h2 : SameFrame b c) : SameFrame a c :=
  ⟨h2.list.trans h1.list, h2.count.trans h1.count, h2.layers.trans h1.layers,
    h2.fb.trans h1.fb, h2.sp.trans h1.sp, h2.ov.trans h1.ov, h2.fbt.trans h1.fbt⟩

theorem SameFrame.symm {σ : Type} {a b : State σ} (h : SameFrame a b) : SameFrame b a :=
  ⟨h.list.symm, h.count.symm, h.layers.symm, h.fb.symm, h.sp.symm, h.ov.symm, h.fbt.symm⟩

theorem sameFrame_withPM {σ : Type} (s : State σ) (m : σ) : SameFrame s (withPM s m) :=
  ⟨rfl, rfl, rfl, rfl, rfl, rfl, rfl⟩

theorem SameFrame.length {σ : Type} {s s1 : State σ} (h : SameFrame s s1) :
    s1.mLayers.length = s.mLayers.length := by
  have := congrArg List.length h.layers
  simpa using this

theorem SameFrame.layer {σ : Type} {s s1 : State σ} (h : SameFrame s s1) {q : Nat}
    {lq : HwcLayer} (hq : s1.mLayers[q]? = some lq) :
    ∃ lq0, s.mLayers[q]? = some lq0 ∧ clearFlag lq0 = clearFlag lq := by
  have h1 : (s1.mLayers.map clearFlag)[q]? = some (clearFlag lq) := by
    rw [List.getElem?_map, hq]; rfl
  rw [h.layers, List.getElem?_map] at h1
  cases h2 : s.mLayers[q]? with
  | none => rw [h2] at h1; exact absurd h1 (by simp)
  | some lq0 =>
    rw [h2] at h1
    exact ⟨lq0, rfl, by simpa using h1⟩

theorem clearFlag_fields {a b : HwcLayer} (h : clearFlag a = clearFlag b) :
    a.mType = b.mType ∧ a.mZOrder = b.mZOrder ∧ a.mIndex = b.mIndex ∧ a.mLayer = b.mLayer :=
  ⟨congrArg (fun l => l.mType) h, congrArg (fun l => l.mZOrder) h,
    congrArg (fun l => l.mIndex) h, congrArg (fun l => l.mLayer) h⟩

theorem SameFrame.zorderAt {σ : Type} {s s1 : State σ} (h : SameFrame s s1) :
    zorderAt s1 = zorderAt s := by
  funext p
  unfold HwcLayerList.zorderAt
  cases h1 : s1.mLayers[p]? with
  | none =>
    have : s.mLayers[p]? = none := by
      rw [List.getElem?_eq_none_iff] at h1 ⊢
      rw [← h.length]; exact h1
    rw [this]
  | some l1 =>
    obtain ⟨l0, hl0, hc⟩ := h.layer h1
    rw [hl0]
    simp only [Option.some.injEq]
    exact ((clearFlag_fields hc).2.1).symm

theorem WellFormed.of_sameFrame {σ : Type} {s s1 : State σ} (h : SameFrame s s1)
    (w : WellFormed s) : WellFormed s1 := by
  obtain ⟨f, hf, hlt, hnot⟩ := w.fbt
  refine ⟨⟨f, by rw [h.fbt]; exact hf, by rw [h.length]; exact hlt, by rw [h.fb]; exact hnot⟩,
    ?_, by rw [h.fb]; exact w.fb_nodup, by rw [h.ov, h.fb]; exact w.ov_sub,
    by rw [h.sp, h.fb]; exact w.sp_sub, by rw [h.ov, h.sp]; exact w.disj, ?_, ?_, ?_⟩
  · intro p hp
    rw [h.length]
    exact w.fb_valid p (by rw [← h.fb]; exact hp)
  · intro l hl
    obtain ⟨q, hq⟩ := List.mem_iff_getElem?.mp hl
    obtain ⟨l0, hl0, hc⟩ := h.layer hq
    rw [← (clearFlag_fields hc).1]
    exact w.role l0 (List.mem_iff_getElem?.mpr ⟨q, hl0⟩)
  · rw [h.fb, h.zorderAt]
    exact w.zorder_inj
  · intro p hp
    rw [h.fb] at hp
    rw [h.zorderAt]
    exact w.zorder_ne p hp

theorem Fresh.atPM {σ : Type} {s : State σ} {p : Nat} (h : Fresh s p) (m : σ) :
    Fresh (withPM s m) p := h

theorem InUseInv.underPM {σ : Type} {s : State σ} (h : InUseInv s) (m : σ) :
    InUseInv (withPM s m) :=
  ⟨h.nodup, h.flag_iff⟩

theorem Fresh.no_record {σ : Type} {s : State σ} {p : Nat} (hinv : InUseInv s)
    (hf : Fresh s p) : ∀ r ∈ s.mZOrderConfig, r.hwcLayer ≠ p := by
  intro r hr he
  obtain ⟨l, hl, hfl⟩ := hf
  have := (hinv.flag_iff p l hl).mpr ⟨r, hr, he⟩
  rw [hfl] at this
  exact absurd this (by simp)

theorem Fresh.add_ne {σ : Type} {env : Env σ} {type : PlaneType} {p q : Nat}
    {zorder : Int} {s s1 : State σ} {r : ZOrderLayer}
    (h : addZOrderLayer env type p zorder s = some (r, s1)) (hq : q ≠ p)
    (hf : Fresh s q) : Fresh s1 q := by
  obtain ⟨l, hl, hfl⟩ := hf
  exact ⟨l, by rw [(addZOrderLayer_layers h).2 q hq]; exact hl, hfl⟩

theorem InUseInv.add {σ : Type} {env : Env σ} {type : PlaneType} {p : Nat}
    {zorder : Int} {s s1 : State σ} {r : ZOrderLayer} (hinv : InUseInv s)
    (hf : Fresh s p) (h : addZOrderLayer env type p zorder s = some (r, s1)) :
    InUseInv s1 := by
  have hperm := addZOrderLayer_config h
  have hrec := addZOrderLayer_record h
  obtain ⟨⟨l, hl, hl1⟩, hother⟩ := addZOrderLayer_layers h
  constructor
  · rw [(hperm.map _).nodup_iff, List.map_cons, List.nodup_cons]
    refine ⟨?_, hinv.nodup⟩
    intro hm
    obtain ⟨r2, hr2, he⟩ := List.mem_map.mp hm
    exact hf.no_record hinv r2 hr2 (he.trans hrec.2.1)
  · intro q lq hq
    by_cases hqp : q = p
    · subst hqp
      rw [hl1] at hq
      have : lq.mPlaneCandidate = true := by
        rw [← Option.some.inj hq]
      simp only [this, true_iff]
      exact ⟨r, hperm.mem_iff.mpr (List.mem_cons_self _ _), hrec.2.1⟩
    · rw [hother q hqp] at hq
      rw [hinv.flag_iff q lq hq]
      constructor
      · rintro ⟨r2, hr2, he⟩
        exact ⟨r2, hperm.mem_iff.mpr (List.mem_cons_of_mem _ hr2), he⟩
      · rintro ⟨r2, hr2, he⟩
        rcases List.mem_cons.mp (hperm.mem_iff.mp hr2) with h1 | h1
        · exact absurd (he.symm.trans (h1 ▸ hrec.2.1)) hqp
        · exact ⟨r2, h1, he⟩

/-- Removing the record that was just added, whatever happened to the manager's state in
between, gives back the list as it was before the record was added. -/
theorem remove_add_restore {σ : Type} {env : Env σ} {type : PlaneType} {p : Nat}
    {zorder : Int} {s s1 : State σ} {r : ZOrderLayer} (hinv : InUseInv s)
    (hf : Fresh s p) (h : addZOrderLayer env type p zorder s = some (r, s1)) (m : σ) :
    removeZOrderLayer r (withPM s1 m) = some (withPM s m) := by
  have hno := hf.no_record hinv
  obtain ⟨l0, hl0, hfl⟩ := hf
  obtain ⟨l, hl, hr, hs1⟩ := addZOrderLayer_some h
  have hll : l = l0 := Option.some.inj (hl.symm.trans hl0)
  subst hll
  have hp : p < s.mLayers.length := (List.getElem?_eq_some.mp hl).1
  have hrp : r.hwcLayer = p := by rw [hr]
  have hnot : r ∉ s.mZOrderConfig := fun hm => hno r hm hrp
  subst hs1
  have hget : (withPM { s with
        mLayers := s.mLayers.set p { l with mPlaneCandidate := true },
        mZOrderConfig := insertAt r (env.addPos s.mZOrderConfig r) s.mZOrderConfig }
      m).mLayers[r.hwcLayer]? = some { l with mPlaneCandidate := true } := by
    rw [hrp]
    show (s.mLayers.set p _)[p]? = _
    rw [List.getElem?_set_self hp]
  simp only [removeZOrderLayer, hget]
  have hcfg : (insertAt r (env.addPos s.mZOrderConfig r) s.mZOrderConfig).erase r
      = s.mZOrderConfig := erase_insertAt r _ _ hnot
  have hlay : (s.mLayers.set p { l with mPlaneCandidate := true }).set r.hwcLayer
      { l with mPlaneCandidate := false } = s.mLayers := by
    rw [hrp, List.set_set]
    apply set_same
    rw [hl, ← hfl]
  simp only [withPM]
  rw [hcfg, hlay]

/-! ## Commit and primary placement: what a call leaves behind -/

theorem attachPlanes_false {σ : Type} {env : Env σ} {s s1 : State σ}
    (h : attachPlanes env s = some (false, s1)) : s1 = withPM s s1.planeManager := by
  unfold attachPlanes at h
  simp only at h
  split_ifs at h with h1 h2
  · simp only [Option.some.injEq, Prod.mk.injEq, true_and] at h
    subst h; rfl
  · simp only [Option.some.injEq, Prod.mk.injEq, true_and] at h
    subst h; rfl
  · split at h
    · exact absurd h (by simp)
    · simp at h

theorem attachPlanes_withPM_of {σ : Type} {env : Env σ} {s s1 : State σ} {b : Bool}
    (h : attachPlanes env (withPM s s.planeManager) = some (b, s1)) :
    attachPlanes env s = some (b, s1) := h

theorem assignPrimaryPlaneHelper_false {σ : Type} {env : Env σ} {p : Nat} {zorder : Int}
    {s s1 : State σ} (hinv : InUseInv s) (hf : Fresh s p)
    (h : assignPrimaryPlaneHelper env p zorder s = some (false, s1)) :
    s1 = withPM s s1.planeManager := by
  unfold assignPrimaryPlaneHelper at h
  split at h
  · exact absurd h (by simp)
  · rename_i zlayer sa hadd
    split at h
    · exact absurd h (by simp)
    · simp at h
    · rename_i s2 hatt
      have h2 := attachPlanes_false hatt
      have hrem := remove_add_restore hinv hf hadd s2.planeManager
      rw [← h2] at hrem
      rw [hrem] at h
      simp only [Option.some.injEq, Prod.mk.injEq, true_and] at h
      subst h
      rfl

theorem assignPrimaryPlaneHelper_true {σ : Type} {env : Env σ} {p : Nat} {zorder : Int}
    {s s1 : State σ} (h : assignPrimaryPlaneHelper env p zorder s = some (true, s1)) :
    ∃ r sa, addZOrderLayer env PlaneType.PLANE_PRIMARY p zorder s = some (r, sa) ∧
      attachPlanes env sa = some (true, s1) := by
  unfold assignPrimaryPlaneHelper at h
  split at h
  · exact absurd h (by simp)
  · rename_i zlayer sa hadd
    split at h
    · exact absurd h (by simp)
    · rename_i s2 hatt
      simp only [Option.some.injEq, Prod.mk.injEq, true_and] at h
      subst h
      exact ⟨zlayer, sa, hadd, hatt⟩
    · split at h
      · exact absurd h (by simp)
      · simp at h

theorem fbLayerAt_withPM {σ : Type} (s : State σ) (m : σ) (i : Nat) :
    fbLayerAt (withPM s m) i = fbLayerAt s i := rfl

theorem intersectScan_withPM {σ : Type} (s : State σ) (m : σ) (test : HwcLayer → Bool) :
    ∀ cnt j, intersectScan (withPM s m) test cnt j = intersectScan s test cnt j := by
  intro cnt
  induction cnt with
  | zero => intro j; rfl
  | succ k ih =>
    intro j
    simp only [intersectScan, fbLayerAt_withPM, ih]

theorem belowScan_withPM {σ : Type} (s : State σ) (m : σ) (t : Nat) :
    ∀ cnt j, belowScan (withPM s m) t cnt j = belowScan s t cnt j := by
  intro cnt
  induction cnt with
  | zero => intro j; rfl
  | succ k ih =>
    intro j
    simp only [belowScan, fbLayerAt_withPM, ih, intersectScan_withPM]

theorem aboveScan_withPM {σ : Type} (s : State σ) (m : σ) (t : Nat) :
    ∀ cnt j, aboveScan (withPM s m) t cnt j = aboveScan s t cnt j := by
  intro cnt
  induction cnt with
  | zero => intro j; rfl
  | succ k ih =>
    intro j
    simp only [aboveScan, fbLayerAt_withPM, ih, intersectScan_withPM]

theorem useAsFrameBufferTarget_withPM {σ : Type} (s : State σ) (m : σ) (l : HwcLayer) :
    useAsFrameBufferTarget (withPM s m) l = useAsFrameBufferTarget s l := by
  simp only [useAsFrameBufferTarget, belowScan_withPM, aboveScan_withPM]
  rfl

/-- A failed scan for a z-order of the framebuffer target changes nothing but the
manager's state; a successful one committed the framebuffer target at the z-order of a
free, eligible GPU layer. -/
theorem fbTargetScan_result {σ : Type} {env : Env σ} :
    ∀ (cnt i : Nat) (s s1 : State σ) (b : Bool), InUseInv s →
      (∀ f, s.mFrameBufferTarget = some f → Fresh s f) →
      fbTargetScan env cnt i s = some (b, s1) →
      (b = false → s1 = withPM s s1.planeManager) ∧
      (b = true → ∃ m fbt j l r sp, s.mFrameBufferTarget = some fbt ∧
        fbLayerAt s j = some l ∧ l.mPlaneCandidate = false ∧
        useAsFrameBufferTarget s l = some true ∧
        addZOrderLayer env PlaneType.PLANE_PRIMARY fbt l.mZOrder (withPM s m)
          = some (r, sp) ∧
        attachPlanes env sp = some (true, s1)) := by
  intro cnt
  induction cnt with
  | zero =>
    intro i s s1 b _ _ h
    simp only [fbTargetScan, Option.some.injEq, Prod.mk.injEq] at h
    obtain ⟨hb, hs⟩ := h
    subst hb hs
    exact ⟨fun _ => rfl, fun hc => absurd hc (by simp)⟩
  | succ k ih =>
    intro i s s1 b hinv hfbt h
    unfold fbTargetScan at h
    split at h
    · exact absurd h (by simp)
    · rename_i l hl
      split_ifs at h with hflag
      · exact ih (i + 1) s s1 b hinv hfbt h
      · split at h
        · exact absurd h (by simp)
        · exact ih (i + 1) s s1 b hinv hfbt h
        · rename_i huse
          split at h
          · exact absurd h (by simp)
          · rename_i fbt hf
            split at h
            · exact absurd h (by simp)
            · rename_i s2 hhelp
              simp only [Option.some.injEq, Prod.mk.injEq] at h
              obtain ⟨hb, hs⟩ := h
              subst hb hs
              refine ⟨fun hc => absurd hc (by simp), fun _ => ?_⟩
              obtain ⟨r, sa, hadd, hatt⟩ := assignPrimaryPlaneHelper_true hhelp
              exact ⟨s.planeManager, fbt, i, l, r, sa, hf, hl, by simpa using hflag,
                huse, hadd, hatt⟩
            · rename_i s2 hhelp
              have hres := assignPrimaryPlaneHelper_false hinv (hfbt fbt hf) hhelp
              rw [hres] at h
              obtain ⟨h1, h2⟩ := ih (i + 1) (withPM s s2.planeManager) s1 b
                (hinv.underPM _) (fun f hf2 => (hfbt f hf2).atPM _) h
              refine ⟨fun hb => ?_, fun hb => ?_⟩
              · exact h1 hb
              · obtain ⟨m, fbt2, j, l2, r, sp, e1, e2, e3, e4, e5, e6⟩ := h2 hb
                rw [useAsFrameBufferTarget_withPM] at e4
                exact ⟨m, fbt2, j, l2, r, sp, e1, e2, e3, e4, e5, e6⟩

theorem spriteLayerScan_some {σ : Type} (s : State σ) (p : Nat) :
    ∀ (i : Nat) (acc : Option Nat), spriteLayerScan s i acc = some (some p) →
      acc = some p ∨ (p ∈ s.mSpriteCandidates ∧ Fresh s p) := by
  intro i
  induction i with
  | zero =>
    intro acc h
    simp only [spriteLayerScan, Option.some.injEq] at h
    exact Or.inl h
  | succ k ih =>
    intro acc h
    unfold spriteLayerScan at h
    split at h
    · exact absurd h (by simp)
    · rename_i c hc
      split at h
      · exact absurd h (by simp)
      · rename_i l hl
        split_ifs at h with hflag
        · simp only [Option.some.injEq] at h
          exact Or.inl h
        · rcases ih (some c) h with h1 | h1
          · simp only [Option.some.injEq] at h1
            subst h1
            exact Or.inr ⟨List.mem_iff_getElem?.mpr ⟨k, hc⟩, l, hl, by simpa using hflag⟩
          · exact Or.inr h1

theorem spriteLayerScan_last {σ : Type} (s : State σ) (p k : Nat) (acc : Option Nat)
    (h : spriteLayerScan s (k + 1) acc = some (some p)) :
    acc = some p ∨ ∀ c, s.mSpriteCandidates[k]? = some c → Fresh s c := by
  unfold spriteLayerScan at h
  split at h
  · exact absurd h (by simp)
  · rename_i c hc
    split at h
    · exact absurd h (by simp)
    · rename_i l hl
      split_ifs at h with hflag
      · simp only [Option.some.injEq] at h
        exact Or.inl h
      · right
        intro c2 hc2
        rw [hc] at hc2
        rw [← Option.some.inj hc2]
        exact ⟨l, hl, by simpa using hflag⟩

/-- A failed primary placement changes nothing but the manager's state; a successful one
ends in a successful `attachPlanes` on a list reached in one of the four ways of
`PrimaryPlaced`. -/
theorem assignPrimaryPlane_result {σ : Type} {env : Env σ} {s s1 : State σ} {b : Bool}
    (hinv : InUseInv s) (hfbt : ∀ f, s.mFrameBufferTarget = some f → Fresh s f)
    (h : assignPrimaryPlane env s = some (b, s1)) :
    (b = false → s1 = withPM s s1.planeManager) ∧
    (b = true → ∃ sp, PrimaryPlaced env s sp ∧ attachPlanes env sp = some (true, s1)) := by
  unfold assignPrimaryPlane at h
  split at h
  · exact absurd h (by simp)
  · rename_i spriteLayer hscan
    simp only at h
    split_ifs at h with hA hB hall
    · cases spriteLayer with
      | none => exact absurd h (by simp)
      | some p =>
        simp only at h
        have hp : p ∈ s.mSpriteCandidates ∧ Fresh s p := by
          rcases spriteLayerScan_some s p _ _ hscan with h1 | h1
          · exact absurd h1 (by simp)
          · exact h1
        cases b with
        | false =>
          exact ⟨fun _ => assignPrimaryPlaneHelper_false hinv hp.2 h,
            fun hc => absurd hc (by simp)⟩
        | true =>
          refine ⟨fun hc => absurd hc (by simp), fun _ => ?_⟩
          obtain ⟨r, sa, hadd, hatt⟩ := assignPrimaryPlaneHelper_true h
          have hlast : ∀ c, s.mSpriteCandidates[s.mSpriteCandidates.length - 1]? = some c →
              Fresh s c := by
            cases hn : s.mSpriteCandidates.length with
            | zero =>
              rw [hn] at hscan
              simp [spriteLayerScan] at hscan
            | succ k =>
              rw [hn] at hscan
              rcases spriteLayerScan_last s p k none hscan with h1 | h1
              · exact absurd h1 (by simp)
              · simpa using h1
          exact ⟨sa, PrimaryPlaced.overflow s.planeManager p r sa hp.1 hp.2 hlast
            (by have := hA.1; omega) hadd, hatt⟩
    · have hnil : s.mZOrderConfig = [] := by
        apply List.eq_nil_of_length_eq_zero
        exact_mod_cast hB
      split at h
      · exact absurd h (by simp)
      · rename_i fbt hf
        cases b with
        | false =>
          exact ⟨fun _ => assignPrimaryPlaneHelper_false hinv (hfbt fbt hf) h,
            fun hc => absurd hc (by simp)⟩
        | true =>
          refine ⟨fun hc => absurd hc (by simp), fun _ => ?_⟩
          obtain ⟨r, sa, hadd, hatt⟩ := assignPrimaryPlaneHelper_true h
          exact ⟨sa, PrimaryPlaced.noneAssigned s.planeManager fbt r sa hf hnil hadd, hatt⟩
    · have hne : s.mZOrderConfig ≠ [] := by
        intro he
        apply hB
        rw [he]; rfl
      cases b with
      | false => exact ⟨fun _ => attachPlanes_false h, fun hc => absurd hc (by simp)⟩
      | true =>
        refine ⟨fun hc => absurd hc (by simp), fun _ => ?_⟩
        exact ⟨s, PrimaryPlaced.allAssigned s.planeManager (by exact_mod_cast hall) hne, h⟩
    · have hne : s.mZOrderConfig ≠ [] := by
        intro he
        apply hB
        rw [he]; rfl
      obtain ⟨h1, h2⟩ := fbTargetScan_result _ _ _ _ _ hinv hfbt h
      refine ⟨h1, fun hb => ?_⟩
      obtain ⟨m, fbt, j, l, r, sp, e1, e2, e3, e4, e5, e6⟩ := h2 hb
      exact ⟨sp, PrimaryPlaced.partialOffload m fbt j l r sp e1 hne e2 e3 e4 e5, e6⟩

/-! ## The candidate loops -/

theorem assignSpritePlanesLoop_eq {σ : Type} (env : Env σ)
    (next : Nat → State σ → Option (Bool × State σ)) :
    ∀ (cnt i : Nat) (s : State σ), assignSpritePlanesLoop env next cnt i s
      = candLoop env PlaneType.PLANE_SPRITE (fun s => s.mSpriteCandidates) next cnt i s := by
  intro cnt
  induction cnt with
  | zero => intro i s; rfl
  | succ k ih => intro i s; simp only [assignSpritePlanesLoop, candLoop, ih]

theorem assignSpritePlanesFrom_eq {σ : Type} (env : Env σ) :
    ∀ (n index : Nat) (s : State σ), assignSpritePlanesFrom env index n s
      = candFrom env PlaneType.PLANE_SPRITE (fun s => s.mSpriteCandidates)
          (assignPrimaryPlane env) index n s := by
  intro n
  induction n with
  | zero => intro index s; rfl
  | succ k ih =>
    intro index s
    simp only [assignSpritePlanesFrom, candFrom, assignSpritePlanesLoop_eq]
    congr 1
    funext i s2
    exact ih i s2

theorem assignSpritePlanesDown_eq {σ : Type} (env : Env σ) :
    ∀ (k : Nat) (s : State σ), assignSpritePlanesDown env k s
      = candDown env PlaneType.PLANE_SPRITE (fun s => s.mSpriteCandidates)
          (assignPrimaryPlane env) k s := by
  intro k
  induction k with
  | zero => intro s; simp only [assignSpritePlanesDown, candDown, assignSpritePlanesFrom_eq]
  | succ k ih =>
    intro s
    simp only [assignSpritePlanesDown, candDown, assignSpritePlanesFrom_eq, ih]

theorem assignOverlayPlanesLoop_eq {σ : Type} (env : Env σ)
    (next : Nat → State σ → Option (Bool × State σ)) :
    ∀ (cnt i : Nat) (s : State σ), assignOverlayPlanesLoop env next cnt i s
      = candLoop env PlaneType.PLANE_OVERLAY (fun s => s.mOverlayCandidates) next cnt i s := by
  intro cnt
  induction cnt with
  | zero => intro i s; rfl
  | succ k ih => intro i s; simp only [assignOverlayPlanesLoop, candLoop, ih]

theorem assignOverlayPlanesFrom_eq {σ : Type} (env : Env σ) :
    ∀ (n index : Nat) (s : State σ), assignOverlayPlanesFrom env index n s
      = candFrom env PlaneType.PLANE_OVERLAY (fun s => s.mOverlayCandidates)
          (assignSpritePlanes env) index n s := by
  intro n
  induction n with
  | zero => intro index s; rfl
  | succ k ih =>
    intro index s
    simp only [assignOverlayPlanesFrom, candFrom, assignOverlayPlanesLoop_eq]
    congr 1
    funext i s2
    exact ih i s2

theorem assignOverlayPlanesDown_eq {σ : Type} (env : Env σ) :
    ∀ (k : Nat) (s : State σ), assignOverlayPlanesDown env k s
      = candDown env PlaneType.PLANE_OVERLAY (fun s => s.mOverlayCandidates)
          (assignSpritePlanes env) k s := by
  intro k
  induction k with
  | zero => intro s; simp only [assignOverlayPlanesDown, candDown, assignOverlayPlanesFrom_eq]
  | succ k ih =>
    intro s
    simp only [assignOverlayPlanesDown, candDown, assignOverlayPlanesFrom_eq, ih]

theorem addCandidates_cons_withPM {σ : Type} {env : Env σ} {type : PlaneType} {c : Nat}
    {s sa : State σ} {r : ZOrderLayer} (T : List Nat) (m : σ)
    (hadd : addZOrderLayer env type c (-1) s = some (r, sa)) :
    addCandidates env type (c :: T) (withPM s m) = addCandidates env type T (withPM sa m) := by
  simp only [addCandidates, addZOrderLayer_withPM m hadd]

/-- One run of a candidate loop. When it fails, nothing but the manager's state has
changed; when it succeeds, the following phase succeeded in the list obtained by adding
an order-preserving selection `T` of the candidates from position `i` on. -/
theorem candLoop_result {σ : Type} {env : Env σ} {type : PlaneType}
    {cands : State σ → List Nat} {last : State σ → Option (Bool × State σ)}
    {P : State σ → Prop} (ph : Phase env type cands last P) (n : Nat)
    (next : Nat → State σ → Option (Bool × State σ))
    (hnext : ∀ (index : Nat) (s s1 : State σ) (b : Bool), P s →
      (∀ c ∈ (cands s).drop index, Fresh s c) → next index s = some (b, s1) →
      (b = false → s1 = withPM s s1.planeManager) ∧
      (b = true → ∃ T m sT, T.Sublist ((cands s).drop index) ∧ T.length = n ∧
        addCandidates env type T (withPM s m) = some sT ∧ P sT ∧
        last sT = some (true, s1))) :
    ∀ (cnt i : Nat) (s s1 : State σ) (b : Bool), P s →
      (∀ c ∈ (cands s).drop i, Fresh s c) →
      candLoop env type cands next cnt i s = some (b, s1) →
      (b = false → s1 = withPM s s1.planeManager) ∧
      (b = true → ∃ T m sT, T.Sublist ((cands s).drop i) ∧ T.length = n + 1 ∧
        addCandidates env type T (withPM s m) = some sT ∧ P sT ∧
        last sT = some (true, s1)) := by
  intro cnt
  induction cnt with
  | zero =>
    intro i s s1 b _ _ h
    simp only [candLoop, Option.some.injEq, Prod.mk.injEq] at h
    obtain ⟨hb, hs⟩ := h
    subst hb hs
    exact ⟨fun _ => rfl, fun hc => absurd hc (by simp)⟩
  | succ k ih =>
    intro i s s1 b hP hfresh h
    unfold candLoop at h
    split at h
    · exact absurd h (by simp)
    · rename_i c hc
      have hi : i < (cands s).length := (List.getElem?_eq_some.mp hc).1
      have hci : (cands s)[i] = c := (List.getElem?_eq_some.mp hc).2
      have hdrop : (cands s).drop i = c :: (cands s).drop (i + 1) := by
        rw [List.drop_eq_getElem_cons hi, hci]
      have hcmem : c ∈ cands s := List.mem_iff_getElem?.mpr ⟨i, hc⟩
      have hcf : Fresh s c := hfresh c (by rw [hdrop]; exact List.mem_cons_self _ _)
      have hnd : (c :: (cands s).drop (i + 1)).Nodup := by
        rw [← hdrop]
        exact (ph.nodup s hP).sublist (List.drop_sublist _ _)
      have hcnot : c ∉ (cands s).drop (i + 1) := (List.nodup_cons.mp hnd).1
      split at h
      · exact absurd h (by simp)
      · rename_i zlayer sa hadd
        have hPa : P sa := ph.add s c zlayer sa hP hcmem hcf hadd
        have hca : cands sa = cands s := ph.frame s sa (addZOrderLayer_sameFrame hadd)
        have hfa : ∀ c2 ∈ (cands sa).drop (i + 1), Fresh sa c2 := by
          intro c2 hc2
          rw [hca] at hc2
          have hne : c2 ≠ c := fun e => hcnot (e ▸ hc2)
          exact Fresh.add_ne hadd hne
            (hfresh c2 (by rw [hdrop]; exact List.mem_cons_of_mem _ hc2))
        split at h
        · exact absurd h (by simp)
        · rename_i s2 hn
          simp only [Option.some.injEq, Prod.mk.injEq] at h
          obtain ⟨hb, hs⟩ := h
          subst hb hs
          refine ⟨fun hc => absurd hc (by simp), fun _ => ?_⟩
          obtain ⟨T, m, sT, hT, hlen, haddT, hPT, hlast⟩ :=
            (hnext (i + 1) sa s2 true hPa hfa hn).2 rfl
          refine ⟨c :: T, m, sT, ?_, by simp [hlen], ?_, hPT, hlast⟩
          · rw [hdrop]
            rw [hca] at hT
            exact hT.cons₂ c
          · rw [addCandidates_cons_withPM T m hadd]
            exact haddT
        · rename_i s2 hn
          have hres := (hnext (i + 1) sa s2 false hPa hfa hn).1 rfl
          have hrem := remove_add_restore (ph.inv s hP) hcf hadd s2.planeManager
          rw [← hres] at hrem
          rw [hrem] at h
          simp only at h
          have hcs : cands (withPM s s2.planeManager) = cands s :=
            ph.frame s _ (sameFrame_withPM s _)
          obtain ⟨h1, h2⟩ := ih (i + 1) (withPM s s2.planeManager) s1 b (ph.pm s _ hP)
            (by
              intro c2 hc2
              rw [hcs] at hc2
              exact (hfresh c2 (by rw [hdrop]; exact List.mem_cons_of_mem _ hc2)).atPM _)
            h
          refine ⟨h1, fun hb => ?_⟩
          obtain ⟨T, m, sT, hT, hlen, haddT, hPT, hlast⟩ := h2 hb
          refine ⟨T, m, sT, ?_, hlen, haddT, hPT, hlast⟩
          rw [hdrop]
          rw [hcs] at hT
          exact hT.cons c

/-- The recursion `assign...Planes(index, planeNumber)`: failure changes nothing but the
manager's state; success means that the following phase succeeded with an
order-preserving selection of exactly `planeNumber` candidates from position `index` on. -/
theorem candFrom_result {σ : Type} {env : Env σ} {type : PlaneType}
    {cands : State σ → List Nat} {last : State σ → Option (Bool × State σ)}
    {P : State σ → Prop} (ph : Phase env type cands last P) :
    ∀ (n index : Nat) (s s1 : State σ) (b : Bool), P s →
      (∀ c ∈ (cands s).drop index, Fresh s c) →
      candFrom env type cands last index n s = some (b, s1) →
      (b = false → s1 = withPM s s1.planeManager) ∧
      (b = true → ∃ T m sT, T.Sublist ((cands s).drop index) ∧ T.length = n ∧
        addCandidates env type T (withPM s m) = some sT ∧ P sT ∧
        last sT = some (true, s1)) := by
  intro n
  induction n with
  | zero =>
    intro index s s1 b hP _ h
    simp only [candFrom] at h
    cases b with
    | false => exact ⟨fun _ => ph.last_false s s1 hP h, fun hc => absurd hc (by simp)⟩
    | true =>
      refine ⟨fun hc => absurd hc (by simp), fun _ => ?_⟩
      exact ⟨[], s.planeManager, s, List.nil_sublist _, rfl, rfl, hP, h⟩
  | succ k ih =>
    intro index s s1 b hP hfresh h
    simp only [candFrom] at h
    exact candLoop_result ph k _ ih _ index s s1 b hP hfresh h

/-- The countdown `for (i = planeNumber; i >= 0; i--)`: failure changes nothing but the
manager's state; success means that the following phase succeeded with an
order-preserving selection of at most `k` candidates. -/
theorem candDown_result {σ : Type} {env : Env σ} {type : PlaneType}
    {cands : State σ → List Nat} {last : State σ → Option (Bool × State σ)}
    {P : State σ → Prop} (ph : Phase env type cands last P) :
    ∀ (k : Nat) (s s1 : State σ) (b : Bool), P s → (∀ c ∈ cands s, Fresh s c) →
      candDown env type cands last k s = some (b, s1) →
      (b = false → s1 = withPM s s1.planeManager) ∧
      (b = true → ∃ T m sT, T.Sublist (cands s) ∧ T.length ≤ k ∧
        addCandidates env type T (withPM s m) = some sT ∧ P sT ∧
        last sT = some (true, s1)) := by
  intro k
  induction k with
  | zero =>
    intro s s1 b hP hfresh h
    simp only [candDown] at h
    obtain ⟨h1, h2⟩ := candFrom_result ph 0 0 s s1 b hP (by simpa using hfresh) h
    refine ⟨h1, fun hb => ?_⟩
    obtain ⟨T, m, sT, hT, hlen, hadd, hPT, hlast⟩ := h2 hb
    exact ⟨T, m, sT, by simpa using hT, by omega, hadd, hPT, hlast⟩
  | succ k ih =>
    intro s s1 b hP hfresh h
    unfold candDown at h
    split at h
    · exact absurd h (by simp)
    · rename_i s2 hfrom
      simp only [Option.some.injEq, Prod.mk.injEq] at h
      obtain ⟨hb, hs⟩ := h
      subst hb hs
      refine ⟨fun hc => absurd hc (by simp), fun _ => ?_⟩
      obtain ⟨T, m, sT, hT, hlen, hadd, hPT, hlast⟩ :=
        (candFrom_result ph (k + 1) 0 s s2 true hP (by simpa using hfresh) hfrom).2 rfl
      exact ⟨T, m, sT, by simpa using hT, by omega, hadd, hPT, hlast⟩
    · rename_i s2 hfrom
      have hres := (candFrom_result ph (k + 1) 0 s s2 false hP
        (by simpa using hfresh) hfrom).1 rfl
      rw [hres] at h
      have hcs : cands (withPM s s2.planeManager) = cands s :=
        ph.frame s _ (sameFrame_withPM s _)
      obtain ⟨h1, h2⟩ := ih (withPM s s2.planeManager) s1 b (ph.pm s _ hP)
        (by intro c hc; rw [hcs] at hc; exact (hfresh c hc).atPM _) h
      refine ⟨h1, fun hb => ?_⟩
      obtain ⟨T, m, sT, hT, hlen, hadd, hPT, hlast⟩ := h2 hb
      exact ⟨T, m, sT, by rw [hcs] at hT; exact hT, by omega, hadd, hPT, hlast⟩


/-! ## The two phases -/

theorem SearchState.changePM {σ : Type} {s : State σ} (h : SearchState s) (m : σ) :
    SearchState (withPM s m) :=
  ⟨h.wf.of_sameFrame (sameFrame_withPM s m), h.inv.underPM m,
    fun f hf => (h.fbtFresh f hf).atPM m, h.records⟩

theorem addZOrderLayer_zorder {σ : Type} {env : Env σ} {type : PlaneType} {p : Nat}
    {zorder : Int} {s s1 : State σ} {r : ZOrderLayer}
    (h : addZOrderLayer env type p zorder s = some (r, s1)) :
    (zorder ≠ -1 → r.zorder = zorder) ∧ (zorder = -1 → zorderAt s p = some r.zorder) := by
  obtain ⟨l, hl, hr, _⟩ := addZOrderLayer_some h
  subst hr
  constructor
  · intro hz
    simp only [hz, ne_eq, not_false_eq_true, if_true]
  · intro hz
    simp only [zorderAt, hl, hz, ne_eq, not_true_eq_false, if_false]

theorem SearchState.addFresh {σ : Type} {env : Env σ} {type : PlaneType} {c : Nat}
    {s s1 : State σ} {r : ZOrderLayer} (h : SearchState s)
    (htype : type ≠ PlaneType.PLANE_PRIMARY) (hc : c ∈ s.mFBLayers) (hf : Fresh s c)
    (hadd : addZOrderLayer env type c (-1) s = some (r, s1)) : SearchState s1 := by
  have hsf := addZOrderLayer_sameFrame hadd
  refine ⟨h.wf.of_sameFrame hsf, h.inv.add hf hadd, ?_, ?_⟩
  · intro f hf2
    rw [hsf.fbt] at hf2
    obtain ⟨f0, hf0, _, hnot⟩ := h.wf.fbt
    have hff : f = f0 := Option.some.inj (hf2.symm.trans hf0)
    have hne : f ≠ c := fun e => hnot (hff ▸ e ▸ hc)
    exact Fresh.add_ne hadd hne (h.fbtFresh f hf2)
  · intro r2 hr2
    rw [hsf.fb, hsf.zorderAt]
    rcases List.mem_cons.mp ((addZOrderLayer_config hadd).mem_iff.mp hr2) with h1 | h1
    · subst h1
      have hrec := addZOrderLayer_record hadd
      rw [hrec.1, hrec.2.1]
      exact ⟨htype, hc, (addZOrderLayer_zorder hadd).2 rfl⟩
    · exact h.records r2 h1

theorem spritePhase {σ : Type} (env : Env σ) :
    Phase env PlaneType.PLANE_SPRITE (fun s => s.mSpriteCandidates)
      (assignPrimaryPlane env) SearchState where
  inv := fun _ h => h.inv
  nodup := fun _ h => h.wf.fb_nodup.sublist h.wf.sp_sub
  pm := fun _ m h => h.changePM m
  add := fun _ _ _ _ h hc hf hadd => h.addFresh (by decide) (h.wf.sp_sub.subset hc) hf hadd
  frame := fun _ _ h => h.sp
  last_false := fun _ _ h hl => (assignPrimaryPlane_result h.inv h.fbtFresh hl).1 rfl

/-- The sprite phase `assignSpritePlanes()`: failure changes nothing but the manager's
state; success means that primary placement succeeded after adding an order-preserving
selection `T` of the sprite candidates, within the number of free sprite planes. -/
theorem assignSpritePlanes_result {σ : Type} {env : Env σ} {s s1 : State σ} {b : Bool}
    (hs : SearchState s) (hfresh : ∀ c ∈ s.mSpriteCandidates, Fresh s c)
    (h : assignSpritePlanes env s = some (b, s1)) :
    (b = false → s1 = withPM s s1.planeManager) ∧
    (b = true → ∃ T m sT, T.Sublist s.mSpriteCandidates ∧
      (T = [] ∨ (T.length : Int) ≤ env.getFreePlanes PlaneType.PLANE_SPRITE) ∧
      addCandidates env PlaneType.PLANE_SPRITE T (withPM s m) = some sT ∧ SearchState sT ∧
      assignPrimaryPlane env sT = some (true, s1)) := by
  have hprim : assignPrimaryPlane env s = some (b, s1) →
      (b = false → s1 = withPM s s1.planeManager) ∧
      (b = true → ∃ T m sT, T.Sublist s.mSpriteCandidates ∧
        (T = [] ∨ (T.length : Int) ≤ env.getFreePlanes PlaneType.PLANE_SPRITE) ∧
        addCandidates env PlaneType.PLANE_SPRITE T (withPM s m) = some sT ∧ SearchState sT ∧
        assignPrimaryPlane env sT = some (true, s1)) := by
    intro hp
    refine ⟨(assignPrimaryPlane_result hs.inv hs.fbtFresh hp).1, fun hb => ?_⟩
    subst hb
    exact ⟨[], s.planeManager, s, List.nil_sublist _, Or.inl rfl, rfl, hs, hp⟩
  unfold assignSpritePlanes at h
  simp only at h
  split_ifs at h
  · exact hprim h
  · exact hprim h
  all_goals first
    | (simp only [Option.some.injEq, Prod.mk.injEq] at h
       obtain ⟨hb, hs1⟩ := h
       subst hb hs1
       exact ⟨fun _ => rfl, fun hc => absurd hc (by simp)⟩)
    | (rw [assignSpritePlanesDown_eq] at h
       obtain ⟨r1, r2⟩ := candDown_result (spritePhase env) _ s s1 b hs hfresh h
       refine ⟨r1, fun hb => ?_⟩
       obtain ⟨T, m, sT, hT, hlen, hadd, hPT, hlast⟩ := r2 hb
       refine ⟨T, m, sT, hT, Or.inr ?_, hadd, hPT, hlast⟩
       omega)

theorem OverlayState.swapPM {σ : Type} {s : State σ} (h : OverlayState s) (m : σ) :
    OverlayState (withPM s m) :=
  ⟨h.search.changePM m, fun c hc => (h.spritesFresh c hc).atPM m⟩

theorem overlayPhase {σ : Type} (env : Env σ) :
    Phase env PlaneType.PLANE_OVERLAY (fun s => s.mOverlayCandidates)
      (assignSpritePlanes env) OverlayState where
  inv := fun _ h => h.search.inv
  nodup := fun _ h => h.search.wf.fb_nodup.sublist h.search.wf.ov_sub
  pm := fun _ m h => h.swapPM m
  add := by
    intro s c r s1 h hc hf hadd
    refine ⟨h.search.addFresh (by decide) (h.search.wf.ov_sub.subset hc) hf hadd, ?_⟩
    intro c2 hc2
    rw [(addZOrderLayer_sameFrame hadd).sp] at hc2
    have hne : c2 ≠ c := fun e => h.search.wf.disj c hc (e ▸ hc2)
    exact Fresh.add_ne hadd hne (h.spritesFresh c2 hc2)
  frame := fun _ _ h => h.ov
  last_false := fun _ _ h hl =>
    (assignSpritePlanes_result h.search h.spritesFresh hl).1 rfl

/-- The overlay phase `assignOverlayPlanes()`, that is `allocatePlanesV2`: failure
changes nothing but the manager's state; success means that the sprite phase succeeded
after adding an order-preserving selection `S` of the overlay candidates, within the
number of free overlay planes. -/
theorem assignOverlayPlanes_result {σ : Type} {env : Env σ} {s s1 : State σ} {b : Bool}
    (hs : OverlayState s) (hfresh : ∀ c ∈ s.mOverlayCandidates, Fresh s c)
    (h : assignOverlayPlanes env s = some (b, s1)) :
    (b = false → s1 = withPM s s1.planeManager) ∧
    (b = true → ∃ S m sS, S.Sublist s.mOverlayCandidates ∧
      (S = [] ∨ (S.length : Int) ≤ env.getFreePlanes PlaneType.PLANE_OVERLAY) ∧
      addCandidates env PlaneType.PLANE_OVERLAY S (withPM s m) = some sS ∧
      OverlayState sS ∧ assignSpritePlanes env sS = some (true, s1)) := by
  have hsprite : assignSpritePlanes env s = some (b, s1) →
      (b = false → s1 = withPM s s1.planeManager) ∧
      (b = true → ∃ S m sS, S.Sublist s.mOverlayCandidates ∧
        (S = [] ∨ (S.length : Int) ≤ env.getFreePlanes PlaneType.PLANE_OVERLAY) ∧
        addCandidates env PlaneType.PLANE_OVERLAY S (withPM s m) = some sS ∧
        OverlayState sS ∧ assignSpritePlanes env sS = some (true, s1)) := by
    intro hp
    refine ⟨(assignSpritePlanes_result hs.search hs.spritesFresh hp).1, fun hb => ?_⟩
    subst hb
    exact ⟨[], s.planeManager, s, List.nil_sublist _, Or.inl rfl, rfl, hs, hp⟩
  unfold assignOverlayPlanes at h
  simp only at h
  split_ifs at h
  · exact hsprite h
  · exact hsprite h
  all_goals first
    | (simp only [Option.some.injEq, Prod.mk.injEq] at h
       obtain ⟨hb, hs1⟩ := h
       subst hb hs1
       exact ⟨fun _ => rfl, fun hc => absurd hc (by simp)⟩)
    | (rw [assignOverlayPlanesDown_eq] at h
       obtain ⟨r1, r2⟩ := candDown_result (overlayPhase env) _ s s1 b hs hfresh h
       refine ⟨r1, fun hb => ?_⟩
       obtain ⟨T, m, sT, hT, hlen, hadd, hPT, hlast⟩ := r2 hb
       refine ⟨T, m, sT, hT, Or.inr ?_, hadd, hPT, hlast⟩
       omega)

theorem Classified.fresh {σ : Type} {s : State σ} (h : Classified s) (p : Nat)
    (hp : p < s.mLayers.length) : Fresh s p :=
  ⟨s.mLayers[p], List.getElem?_eq_getElem hp, h.flags_false _ (List.getElem_mem _)⟩

theorem Classified.inUseInv {σ : Type} {s : State σ} (h : Classified s) : InUseInv s := by
  constructor
  · rw [h.config_empty]; exact List.nodup_nil
  · intro p l hl
    have hfl : l.mPlaneCandidate = false :=
      h.flags_false l (List.mem_iff_getElem?.mpr ⟨p, hl⟩)
    rw [h.config_empty, hfl]
    simp

theorem Classified.overlayState {σ : Type} {s : State σ} (h : Classified s) :
    OverlayState s := by
  refine ⟨⟨h.wf, h.inUseInv, ?_, ?_⟩, ?_⟩
  · intro f hf
    obtain ⟨f0, hf0, hlt, _⟩ := h.wf.fbt
    have : f = f0 := Option.some.inj (hf.symm.trans hf0)
    subst this
    exact h.fresh f hlt
  · intro r hr
    rw [h.config_empty] at hr
    exact absurd hr (by simp)
  · intro c hc
    exact h.fresh c (h.wf.fb_valid c (h.wf.sp_sub.subset hc))

theorem Classified.overlaysFresh {σ : Type} {s : State σ} (h : Classified s) :
    ∀ c ∈ s.mOverlayCandidates, Fresh s c :=
  fun c hc => h.fresh c (h.wf.fb_valid c (h.wf.ov_sub.subset hc))

/-! ## No leakage -/

theorem exPairState_classified : Classified exPairState :=
  ⟨⟨⟨1, rfl, by decide, by decide⟩, by decide, by decide, by decide, by decide, by decide,
      by decide, by decide, by decide⟩, rfl, by decide⟩

theorem exPickyState_classified : Classified exPickyState :=
  ⟨⟨⟨3, rfl, by decide, by decide⟩, by decide, by decide, by decide, by decide,
    by decide, by decide, by decide, by decide⟩, rfl, by decide⟩

/-- C3: in a list of the search (well formed, candidacy invariant, framebuffer target not
in use): if the configuration is empty and every `mPlaneCandidate` flag is false when
`allocatePlanesV2` starts and it returns false, the configuration is empty and every
flag is false on return; and each of `assignOverlayPlanes(index, n)`,
`assignSpritePlanes(index, n)`, `assignPrimaryPlane` and `assignPrimaryPlaneHelper`,
called as the search calls it (the candidates still to be visited and the layer given to
the helper are not in use), leaves the whole list as on entry, the manager's state
apart, whenever it returns false. -/
theorem failed_search_leaves_list_as_on_entry {σ : Type} (env : Env σ) (s : State σ)
    (hs : SearchState s) :
    (∀ s1, s.mZOrderConfig = [] → (∀ l ∈ s.mLayers, l.mPlaneCandidate = false) →
      allocatePlanesV2 env s = some (false, s1) →
      s1.mZOrderConfig = [] ∧ ∀ l ∈ s1.mLayers, l.mPlaneCandidate = false) ∧
    (∀ index planeNumber s1, (∀ c ∈ s.mSpriteCandidates, Fresh s c) →
      (∀ c ∈ s.mOverlayCandidates.drop index, Fresh s c) →
      assignOverlayPlanesFrom env index planeNumber s = some (false, s1) →
      s1 = withPM s s1.planeManager) ∧
    (∀ index planeNumber s1, (∀ c ∈ s.mSpriteCandidates.drop index, Fresh s c) →
      assignSpritePlanesFrom env index planeNumber s = some (false, s1) →
      s1 = withPM s s1.planeManager) ∧
    (∀ s1, assignPrimaryPlane env s = some (false, s1) → s1 = withPM s s1.planeManager) ∧
    (∀ p zorder s1, Fresh s p →
      assignPrimaryPlaneHelper env p zorder s = some (false, s1) →
      s1 = withPM s s1.planeManager) := by
  refine ⟨?_, ?_, ?_, ?_, ?_⟩
  · intro s1 hcfg hflags h
    have hc : Classified s := ⟨hs.wf, hcfg, hflags⟩
    have hres := (assignOverlayPlanes_result hc.overlayState hc.overlaysFresh h).1 rfl
    rw [hres]
    exact ⟨hcfg, hflags⟩
  · intro index planeNumber s1 hsp hov h
    rw [assignOverlayPlanesFrom_eq] at h
    exact (candFrom_result (overlayPhase env) planeNumber index s s1 false ⟨hs, hsp⟩
      hov h).1 rfl
  · intro index planeNumber s1 hsp h
    rw [assignSpritePlanesFrom_eq] at h
    exact (candFrom_result (spritePhase env) planeNumber index s s1 false hs hsp h).1 rfl
  · intro s1 h
    exact (assignPrimaryPlane_result hs.inv hs.fbtFresh h).1 rfl
  · intro p zorder s1 hp h
    exact assignPrimaryPlaneHelper_false hs.inv hp h

theorem failed_search_leaves_list_as_on_entry_witness :
    allocatePlanesV2 (exEnv 1 0 (fun _ => false)) exPairState = some (false, exPairState) ∧
    ∀ s1, allocatePlanesV2 (exEnv 1 0 (fun _ => false)) exPairState = some (false, s1) →
      s1.mZOrderConfig = [] ∧ ∀ l ∈ s1.mLayers, l.mPlaneCandidate = false :=
  ⟨by decide, fun s1 h =>
    (failed_search_leaves_list_as_on_entry (exEnv 1 0 (fun _ => false)) exPairState
      exPairState_classified.overlayState.search).1 s1 rfl (by decide) h⟩

/-! ## The candidacy-flag invariant -/

theorem removeZOrderLayer_some {σ : Type} {r : ZOrderLayer} {s s1 : State σ}
    (h : removeZOrderLayer r s = some s1) :
    ∃ l, s.mLayers[r.hwcLayer]? = some l ∧
      s1 = { s with
        mZOrderConfig := s.mZOrderConfig.erase r,
        mLayers := s.mLayers.set r.hwcLayer { l with mPlaneCandidate := false } } := by
  unfold removeZOrderLayer at h
  split at h
  · exact absurd h (by simp)
  · rename_i l hl
    simp only [Option.some.injEq] at h
    exact ⟨l, hl, h.symm⟩

theorem InUseInv.remove {σ : Type} {r : ZOrderLayer} {s s1 : State σ} (hinv : InUseInv s)
    (hr : r ∈ s.mZOrderConfig) (h : removeZOrderLayer r s = some s1) : InUseInv s1 := by
  obtain ⟨l, hl, hs1⟩ := removeZOrderLayer_some h
  subst hs1
  have hp : r.hwcLayer < s.mLayers.length := (List.getElem?_eq_some.mp hl).1
  have hnd : s.mZOrderConfig.Nodup := List.Nodup.of_map _ hinv.nodup
  constructor
  · exact hinv.nodup.sublist ((List.erase_sublist r s.mZOrderConfig).map _)
  · intro q lq hq
    have hq2 : (s.mLayers.set r.hwcLayer { l with mPlaneCandidate := false })[q]?
        = some lq := hq
    show lq.mPlaneCandidate = true ↔ ∃ r2 ∈ s.mZOrderConfig.erase r, r2.hwcLayer = q
    by_cases hqr : q = r.hwcLayer
    · subst hqr
      rw [List.getElem?_set_self hp] at hq2
      have hfl : lq.mPlaneCandidate = false := by rw [← Option.some.inj hq2]
      rw [hfl]
      simp only [Bool.false_eq_true, false_iff, not_exists, not_and]
      intro r2 hr2 he
      have hmem := (hnd.mem_erase_iff).mp hr2
      have hr2r : r2 = r := List.inj_on_of_nodup_map hinv.nodup hmem.2 hr he
      exact hmem.1 hr2r
    · rw [List.getElem?_set_ne (Ne.symm hqr)] at hq2
      rw [hinv.flag_iff q lq hq2]
      constructor
      · rintro ⟨r2, hr2, he⟩
        refine ⟨r2, (hnd.mem_erase_iff).mpr ⟨?_, hr2⟩, he⟩
        intro e
        exact hqr (by rw [← he, e])
      · rintro ⟨r2, hr2, he⟩
        exact ⟨r2, ((hnd.mem_erase_iff).mp hr2).2, he⟩

/-- C9, before the commit: in every list reachable from a list with an empty
configuration and all flags false through `addZOrderLayer` on a layer not in use,
`removeZOrderLayer` on a record of the configuration and a failed `attachPlanes` (hence
also a failed `assignPrimaryPlaneHelper`), no two records reference the same layer and a
layer's `mPlaneCandidate` flag is true exactly when a record of the configuration
references it. -/
theorem candidacy_flag_invariant_before_commit {σ : Type} (env : Env σ) (s0 s : State σ)
    (hcfg : s0.mZOrderConfig = []) (hflags : ∀ l ∈ s0.mLayers, l.mPlaneCandidate = false)
    (hr : Reach env s0 s) :
    (s.mZOrderConfig.map (fun r => r.hwcLayer)).Nodup ∧
    ∀ p l, s.mLayers[p]? = some l →
      (l.mPlaneCandidate = true ↔ ∃ r ∈ s.mZOrderConfig, r.hwcLayer = p) := by
  have hinv : InUseInv s := by
    induction hr with
    | start =>
      constructor
      · rw [hcfg]; exact List.nodup_nil
      · intro p l hl
        have hfl : l.mPlaneCandidate = false :=
          hflags l (List.mem_iff_getElem?.mpr ⟨p, hl⟩)
        rw [hcfg, hfl]
        simp
    | add s s1 type p zorder r _ hf hadd ih => exact ih.add hf hadd
    | remove s s1 r _ hmem hrem ih => exact ih.remove hmem hrem
    | failedAttach s s1 _ hatt ih =>
      rw [attachPlanes_false hatt]
      exact ih.underPM _
  exact ⟨hinv.nodup, hinv.flag_iff⟩

theorem candidacy_flag_invariant_before_commit_witness :
    (exPairAdded.mZOrderConfig.map (fun r => r.hwcLayer)).Nodup ∧
    ∀ p l, exPairAdded.mLayers[p]? = some l →
      (l.mPlaneCandidate = true ↔ ∃ r ∈ exPairAdded.mZOrderConfig, r.hwcLayer = p) :=
  candidacy_flag_invariant_before_commit (exEnv 1 0 (fun _ => true)) exPairState exPairAdded
    rfl (by decide)
    (Reach.add exPairState exPairAdded PlaneType.PLANE_SPRITE 0 (-1)
      { planeType := PlaneType.PLANE_SPRITE, hwcLayer := 0, zorder := 0, plane := none }
      Reach.start ⟨_, rfl, rfl⟩ (by decide))

/-- C9, after the commit: on the frame `[a, framebuffer target]` with one free sprite
plane and a manager that accepts everything, the search commits `a`; `attachPlanes` then
clears the configuration and leaves the flag of `a` set, so the flag is true although no
record references the layer. -/
theorem candidacy_flag_set_without_record_after_commit :
    ∃ s1, allocatePlanesV2 (exEnv 1 0 (fun _ => true)) exPairState = some (true, s1) ∧
      attachPlanes (exEnv 1 0 (fun _ => true)) exPairAdded = some (true, s1) ∧
      Reach (exEnv 1 0 (fun _ => true)) exPairState exPairAdded ∧
      s1.mZOrderConfig = [] ∧
      (∃ l, s1.mLayers[0]? = some l ∧ l.mPlaneCandidate = true) ∧
      ¬ (∀ p l, s1.mLayers[p]? = some l →
        (l.mPlaneCandidate = true ↔ ∃ r ∈ s1.mZOrderConfig, r.hwcLayer = p)) := by
  have h : (allocatePlanesV2 (exEnv 1 0 (fun _ => true)) exPairState).isSome = true := by
    decide
  obtain ⟨⟨b, s1⟩, hs1⟩ := Option.isSome_iff_exists.mp h
  have hb : (allocatePlanesV2 (exEnv 1 0 (fun _ => true)) exPairState).map (fun r => r.1)
      = some true := by decide
  have hatt : attachPlanes (exEnv 1 0 (fun _ => true)) exPairAdded
      = allocatePlanesV2 (exEnv 1 0 (fun _ => true)) exPairState := by decide
  have hcfg : (allocatePlanesV2 (exEnv 1 0 (fun _ => true)) exPairState).map
      (fun r => r.2.mZOrderConfig) = some [] := by decide
  have hlay : (allocatePlanesV2 (exEnv 1 0 (fun _ => true)) exPairState).map
      (fun r => r.2.mLayers[0]?.map (fun l => l.mPlaneCandidate)) = some (some true) := by
    decide
  rw [hs1] at hb hcfg hlay hatt
  simp only [Option.map_some', Option.some.injEq] at hb hcfg hlay
  subst hb
  have hl : ∃ l, s1.mLayers[0]? = some l ∧ l.mPlaneCandidate = true := by
    cases h0 : s1.mLayers[0]? with
    | none => rw [h0] at hlay; exact absurd hlay (by simp)
    | some l =>
      rw [h0] at hlay
      exact ⟨l, rfl, by simpa using hlay⟩
  refine ⟨s1, hs1, hatt, ?_, hcfg, hl, ?_⟩
  · exact Reach.add exPairState exPairAdded PlaneType.PLANE_SPRITE 0 (-1)
      { planeType := PlaneType.PLANE_SPRITE, hwcLayer := 0, zorder := 0, plane := none }
      Reach.start ⟨_, rfl, rfl⟩ (by decide)
  · intro hall
    obtain ⟨l, hl0, hfl⟩ := hl
    obtain ⟨r, hr, _⟩ := (hall 0 l hl0).mp hfl
    rw [hcfg] at hr
    exact absurd hr (by simp)

/-! ## What a successful commit does -/

/-- The layer written by `attachPlanes` for the record at position `i`. -/
theorem attachOne_some {σ : Type} {env : Env σ} {m : σ} {cfg : List ZOrderLayer} {i : Nat}
    {z : ZOrderLayer} {s s1 : State σ} (h : attachOne env m cfg i z s = some s1) :
    ∃ l l1, s.mLayers[z.hwcLayer]? = some l ∧
      s1.mLayers = s.mLayers.set z.hwcLayer l1 ∧
      l1.mPlane = some { env.planeAt m cfg i with mZOrder := (i : Int) } ∧
      l1.mType = (if some z.hwcLayer ≠ s.mFrameBufferTarget then LayerType.LAYER_OVERLAY
        else l.mType) ∧
      l1.mPlaneCandidate = l.mPlaneCandidate ∧
      s1.mFrameBufferTarget = s.mFrameBufferTarget ∧
      s1.mOverlayCandidates = s.mOverlayCandidates ∧
      s1.mSpriteCandidates = s.mSpriteCandidates ∧
      s1.mZOrderConfig = s.mZOrderConfig := by
  unfold attachOne at h
  split at h
  · exact absurd h (by simp)
  · rename_i l hl
    simp only at h
    split_ifs at h with hf
    · simp only [Option.some.injEq] at h
      subst h
      exact ⟨l, _, hl, rfl, rfl, by rw [if_pos hf], rfl, rfl, rfl, rfl, rfl⟩
    · simp only [Option.some.injEq] at h
      subst h
      exact ⟨l, _, hl, rfl, rfl, by rw [if_neg hf], rfl, rfl, rfl, rfl, rfl⟩

/-- The loop of `attachPlanes` over records of pairwise different layers: layers without
a record are untouched; the layer of the record at position `i + j` gets a plane with
z-order `i + j` and, unless it is the framebuffer target, the hardware-overlay role. -/
theorem attachLoop_effect {σ : Type} {env : Env σ} {m : σ} {cfg : List ZOrderLayer} :
    ∀ (rest : List ZOrderLayer) (i : Nat) (s s1 : State σ),
      attachLoop env m cfg i rest s = some s1 → (rest.map (fun r => r.hwcLayer)).Nodup →
      (s1.mFrameBufferTarget = s.mFrameBufferTarget ∧
        s1.mOverlayCandidates = s.mOverlayCandidates ∧
        s1.mSpriteCandidates = s.mSpriteCandidates ∧
        s1.mZOrderConfig = s.mZOrderConfig) ∧
      (∀ q, q ∉ rest.map (fun r => r.hwcLayer) → s1.mLayers[q]? = s.mLayers[q]?) ∧
      (∀ j z, rest[j]? = some z → ∃ l l1, s.mLayers[z.hwcLayer]? = some l ∧
        s1.mLayers[z.hwcLayer]? = some l1 ∧
        l1.mPlane = some { env.planeAt m cfg (i + j) with mZOrder := ((i + j : Nat) : Int) } ∧
        l1.mType = (if some z.hwcLayer ≠ s.mFrameBufferTarget then LayerType.LAYER_OVERLAY
          else l.mType)) := by
  intro rest
  induction rest with
  | nil =>
    intro i s s1 h _
    simp only [attachLoop, Option.some.injEq] at h
    subst h
    exact ⟨⟨rfl, rfl, rfl, rfl⟩, fun _ _ => rfl, fun j z hj => absurd hj (by simp)⟩
  | cons z0 rest ih =>
    intro i s s1 h hnd
    unfold attachLoop at h
    split at h
    · exact absurd h (by simp)
    · rename_i sa ha
      obtain ⟨l, l1, hl, hlay, hplane, htype, _, hfbt, hov, hsp, hcfg⟩ := attachOne_some ha
      have hp : z0.hwcLayer < s.mLayers.length := (List.getElem?_eq_some.mp hl).1
      simp only [List.map_cons, List.nodup_cons] at hnd
      obtain ⟨⟨e1, e2, e3, e4⟩, hun, hrec⟩ := ih (i + 1) sa s1 h hnd.2
      refine ⟨⟨e1.trans hfbt, e2.trans hov, e3.trans hsp, e4.trans hcfg⟩, ?_, ?_⟩
      · intro q hq
        simp only [List.map_cons, List.mem_cons, not_or] at hq
        rw [hun q hq.2, hlay, List.getElem?_set_ne (Ne.symm hq.1)]
      · intro j z hj
        cases j with
        | zero =>
          simp only [List.getElem?_cons_zero, Option.some.injEq] at hj
          subst hj
          refine ⟨l, l1, hl, ?_, by simpa using hplane, htype⟩
          rw [hun _ hnd.1, hlay, List.getElem?_set_self hp]
        | succ j =>
          simp only [List.getElem?_cons_succ] at hj
          obtain ⟨la, lb, h1, h2, h3, h4⟩ := hrec j z hj
          have hne : z.hwcLayer ≠ z0.hwcLayer := by
            intro e
            apply hnd.1
            rw [← e]
            exact List.mem_map.mpr ⟨z, List.mem_iff_getElem?.mpr ⟨j, hj⟩, rfl⟩
          rw [hlay, List.getElem?_set_ne (Ne.symm hne)] at h1
          refine ⟨la, lb, h1, h2, ?_, ?_⟩
          · rw [h3]
            have : i + 1 + j = i + (j + 1) := by omega
            rw [this]
          · rw [h4, hfbt]

theorem attachPlanes_true {σ : Type} {env : Env σ} {s s1 : State σ}
    (h : attachPlanes env s = some (true, s1)) :
    ∃ m m2 s2, attachLoop env m s.mZOrderConfig 0 s.mZOrderConfig (withPM s m2) = some s2 ∧
      s1 = { s2 with mZOrderConfig := [] } := by
  unfold attachPlanes at h
  simp only at h
  split_ifs at h with h1 h2
  · simp at h
  · simp at h
  · split at h
    · exact absurd h (by simp)
    · rename_i s2 hloop
      simp only [Option.some.injEq, Prod.mk.injEq, true_and] at h
      exact ⟨_, _, s2, hloop, h.symm⟩

/-- A successful `attachPlanes` on a configuration whose records reference pairwise
different layers: the candidate sets and the framebuffer target stay, layers without a
record are untouched, the layer of the record at position `j` has a plane of z-order `j`
and, unless it is the framebuffer target, the hardware-overlay role. -/
theorem attachPlanes_effect {σ : Type} {env : Env σ} {s s1 : State σ}
    (h : attachPlanes env s = some (true, s1))
    (hnd : (s.mZOrderConfig.map (fun r => r.hwcLayer)).Nodup) :
    (s1.mFrameBufferTarget = s.mFrameBufferTarget ∧
      s1.mOverlayCandidates = s.mOverlayCandidates ∧
      s1.mSpriteCandidates = s.mSpriteCandidates ∧ s1.mZOrderConfig = []) ∧
    (∀ q, q ∉ s.mZOrderConfig.map (fun r => r.hwcLayer) → s1.mLayers[q]? = s.mLayers[q]?) ∧
    (∀ (j : Nat) (z : ZOrderLayer), s.mZOrderConfig[j]? = some z →
      attachedZOrder s1 z.hwcLayer = some (j : Int) ∧
      (some z.hwcLayer ≠ s.mFrameBufferTarget →
        layerTypeAt s1 z.hwcLayer = some LayerType.LAYER_OVERLAY)) := by
  obtain ⟨m, m2, s2, hloop, hs1⟩ := attachPlanes_true h
  obtain ⟨⟨e1, e2, e3, _⟩, hun, hrec⟩ := attachLoop_effect _ _ _ _ hloop hnd
  subst hs1
  refine ⟨⟨e1, e2, e3, rfl⟩, hun, ?_⟩
  intro j z hj
  obtain ⟨l, l1, _, h2, h3, h4⟩ := hrec j z hj
  have h2b : ({ s2 with mZOrderConfig := [] } : State σ).mLayers[z.hwcLayer]? = some l1 := h2
  constructor
  · simp only [attachedZOrder, h2b, h3, Nat.zero_add]
  · intro hne
    have hne2 : some z.hwcLayer ≠ (withPM s m2).mFrameBufferTarget := hne
    simp only [layerTypeAt, h2b, h4, if_pos hne2]

theorem addCandidates_effect {σ : Type} {env : Env σ} {type : PlaneType} :
    ∀ (T : List Nat) (s sT : State σ), addCandidates env type T s = some sT →
      SameFrame s sT ∧ sT.mZOrderConfig.length = s.mZOrderConfig.length + T.length ∧
      (∀ p, p ∈ sT.mZOrderConfig.map (fun r => r.hwcLayer) ↔
        p ∈ T ∨ p ∈ s.mZOrderConfig.map (fun r => r.hwcLayer)) ∧
      sT.planeManager = s.planeManager := by
  intro T
  induction T with
  | nil =>
    intro s sT h
    simp only [addCandidates, Option.some.injEq] at h
    subst h
    exact ⟨SameFrame.refl _, by simp, by simp, rfl⟩
  | cons c T ih =>
    intro s sT h
    unfold addCandidates at h
    split at h
    · exact absurd h (by simp)
    · rename_i r s1 hadd
      obtain ⟨hsf, hlen, hmem, hpm⟩ := ih s1 sT h
      have hperm := addZOrderLayer_config hadd
      have hrec := addZOrderLayer_record hadd
      refine ⟨(addZOrderLayer_sameFrame hadd).trans hsf, ?_, ?_, ?_⟩
      · rw [hlen, hperm.length_eq]; simp only [List.length_cons]; omega
      · intro p
        rw [hmem p, (hperm.map _).mem_iff, List.map_cons, List.mem_cons, List.mem_cons,
          hrec.2.1]
        tauto
      · rw [hpm]
        obtain ⟨_, _, _, hs1⟩ := addZOrderLayer_some hadd
        rw [hs1]

/-! ## The committed configuration -/

theorem SearchState.zorderAt_inj {σ : Type} {s : State σ} (hs : SearchState s) :
    ∀ p ∈ s.mFBLayers, ∀ q ∈ s.mFBLayers, zorderAt s p = zorderAt s q → p = q :=
  fun _ hp _ hq h => List.inj_on_of_nodup_map hs.wf.zorder_inj hp hq h

theorem SearchState.zorder_nodup {σ : Type} {s : State σ} (hs : SearchState s) :
    (s.mZOrderConfig.map (fun r => r.zorder)).Nodup := by
  apply List.Nodup.map_on _ (List.Nodup.of_map _ hs.inv.nodup)
  intro x hx y hy hxy
  have h1 := (hs.records x hx).2
  have h2 := (hs.records y hy).2
  have hl : x.hwcLayer = y.hwcLayer :=
    hs.zorderAt_inj _ h1.1 _ h2.1 (by rw [h1.2, h2.2, hxy])
  exact List.inj_on_of_nodup_map hs.inv.nodup hx hy hl

/-- The z-order of a GPU layer that is not in use is the z-order of no record. -/
theorem SearchState.zorder_free {σ : Type} {s : State σ} (hs : SearchState s) {q : Nat}
    {z : Int} (hq : q ∈ s.mFBLayers) (hf : Fresh s q) (hz : zorderAt s q = some z) :
    z ∉ s.mZOrderConfig.map (fun r => r.zorder) := by
  intro hm
  obtain ⟨r, hr, he⟩ := List.mem_map.mp hm
  have h1 := (hs.records r hr).2
  have hl : r.hwcLayer = q := hs.zorderAt_inj _ h1.1 _ hq (by rw [h1.2, hz, he])
  exact hf.no_record hs.inv r hr hl

theorem fbLayerAt_some {σ : Type} {s : State σ} {i : Nat} {l : HwcLayer}
    (h : fbLayerAt s i = some l) : ∃ q, q ∈ s.mFBLayers ∧ s.mLayers[q]? = some l := by
  unfold fbLayerAt at h
  split at h
  · exact absurd h (by simp)
  · rename_i q hq
    exact ⟨q, List.mem_iff_getElem?.mpr ⟨i, hq⟩, h⟩

/-- The list handed to the successful `attachPlanes` by primary placement: it holds the
same frame, satisfies the candidacy invariant, its records carry pairwise different
z-orders, and its configuration is the one of the list in which primary placement was
entered, either unchanged (all GPU layers assigned) or with one more record, of class
PRIMARY, for the framebuffer target or for a sprite candidate that was not in use while
all other GPU layers had a record. -/
theorem primaryPlaced_facts {σ : Type} {env : Env σ} {s sp : State σ} (hs : SearchState s)
    (hp : PrimaryPlaced env s sp) :
    SameFrame s sp ∧ InUseInv sp ∧ (sp.mZOrderConfig.map (fun r => r.zorder)).Nodup ∧
    ((sp.mZOrderConfig = s.mZOrderConfig ∧ s.mZOrderConfig.length = s.mFBLayers.length ∧
        s.mZOrderConfig ≠ []) ∨
      ∃ r, sp.mZOrderConfig.Perm (r :: s.mZOrderConfig) ∧
        r.planeType = PlaneType.PLANE_PRIMARY ∧
        (s.mFrameBufferTarget = some r.hwcLayer ∨
          (r.hwcLayer ∈ s.mSpriteCandidates ∧ Fresh s r.hwcLayer ∧
            s.mZOrderConfig.length + 1 = s.mFBLayers.length))) := by
  have key : ∀ (m : σ) (p : Nat) (zorder : Int) (r : ZOrderLayer), Fresh s p →
      addZOrderLayer env PlaneType.PLANE_PRIMARY p zorder (withPM s m) = some (r, sp) →
      r.zorder ∉ s.mZOrderConfig.map (fun r => r.zorder) →
      SameFrame s sp ∧ InUseInv sp ∧ (sp.mZOrderConfig.map (fun r => r.zorder)).Nodup ∧
        sp.mZOrderConfig.Perm (r :: s.mZOrderConfig) ∧
        r.planeType = PlaneType.PLANE_PRIMARY ∧ r.hwcLayer = p := by
    intro m p zorder r hf hadd hz
    have hperm0 := addZOrderLayer_config hadd
    have hperm : sp.mZOrderConfig.Perm (r :: s.mZOrderConfig) := hperm0
    have hrec := addZOrderLayer_record hadd
    refine ⟨(sameFrame_withPM s m).trans (addZOrderLayer_sameFrame hadd),
      (hs.inv.underPM m).add (hf.atPM m) hadd, ?_, hperm, hrec.1, hrec.2.1⟩
    rw [(hperm.map _).nodup_iff, List.map_cons, List.nodup_cons]
    exact ⟨hz, hs.zorder_nodup⟩
  cases hp with
  | allAssigned m hlen hne =>
    exact ⟨sameFrame_withPM s m, hs.inv.underPM m, hs.zorder_nodup, Or.inl ⟨rfl, hlen, hne⟩⟩
  | overflow m p r sp hmem hf _ hlen hadd =>
    have hz : r.zorder ∉ s.mZOrderConfig.map (fun r => r.zorder) :=
      hs.zorder_free (hs.wf.sp_sub.subset hmem) hf ((addZOrderLayer_zorder hadd).2 rfl)
    obtain ⟨h1, h2, h3, h4, h5, h6⟩ := key m p (-1) r hf hadd hz
    exact ⟨h1, h2, h3, Or.inr ⟨r, h4, h5, Or.inr ⟨h6 ▸ hmem, h6 ▸ hf, hlen⟩⟩⟩
  | noneAssigned m fbt r sp hfbt hnil hadd =>
    have hz : r.zorder ∉ s.mZOrderConfig.map (fun r => r.zorder) := by
      rw [hnil]; simp
    obtain ⟨h1, h2, h3, h4, h5, h6⟩ := key m fbt 0 r (hs.fbtFresh fbt hfbt) hadd hz
    exact ⟨h1, h2, h3, Or.inr ⟨r, h4, h5, Or.inl (h6 ▸ hfbt)⟩⟩
  | partialOffload m fbt i l r sp hfbt hne hl hflag huse hadd =>
    obtain ⟨q, hq, hlq⟩ := fbLayerAt_some hl
    have hzq : zorderAt s q = some l.mZOrder := by
      simp only [zorderAt, hlq]
    have hne1 : l.mZOrder ≠ -1 := by
      intro e
      exact hs.wf.zorder_ne q hq (by rw [hzq, e])
    have hrz : r.zorder = l.mZOrder := (addZOrderLayer_zorder hadd).1 hne1
    have hz : r.zorder ∉ s.mZOrderConfig.map (fun r => r.zorder) := by
      rw [hrz]
      exact hs.zorder_free hq ⟨l, hlq, hflag⟩ hzq
    obtain ⟨h1, h2, h3, h4, h5, h6⟩ := key m fbt l.mZOrder r (hs.fbtFresh fbt hfbt) hadd hz
    exact ⟨h1, h2, h3, Or.inr ⟨r, h4, h5, Or.inl (h6 ▸ hfbt)⟩⟩

/-- A successful search: an order-preserving selection `S` of the overlay candidates and
`T` of the sprite candidates were added, primary placement led to the list `sp`, and the
result is the successful `attachPlanes` on `sp`. -/
theorem search_success {σ : Type} {env : Env σ} {s0 s1 : State σ} (hc : Classified s0)
    (h : allocatePlanesV2 env s0 = some (true, s1)) :
    ∃ S T m1 sS m2 sT sp, S.Sublist s0.mOverlayCandidates ∧
      T.Sublist s0.mSpriteCandidates ∧
      addCandidates env PlaneType.PLANE_OVERLAY S (withPM s0 m1) = some sS ∧
      addCandidates env PlaneType.PLANE_SPRITE T (withPM sS m2) = some sT ∧
      SearchState sT ∧ PrimaryPlaced env sT sp ∧ attachPlanes env sp = some (true, s1) := by
  obtain ⟨S, m1, sS, hS, _, haddS, hoS, hsprite⟩ :=
    (assignOverlayPlanes_result hc.overlayState hc.overlaysFresh h).2 rfl
  obtain ⟨T, m2, sT, hT, _, haddT, hsT, hprim⟩ :=
    (assignSpritePlanes_result hoS.search hoS.spritesFresh hsprite).2 rfl
  obtain ⟨sp, hpl, hatt⟩ := (assignPrimaryPlane_result hsT.inv hsT.fbtFresh hprim).2 rfl
  have hfS := (addCandidates_effect S _ _ haddS).1
  refine ⟨S, T, m1, sS, m2, sT, sp, hS, ?_, haddS, haddT, hsT, hpl, hatt⟩
  rw [hfS.sp] at hT
  exact hT

/-! ## Shape of the committed configuration and the primary record -/

theorem search_sameFrame {σ : Type} {env : Env σ} {s0 sS sT sp : State σ} {S T : List Nat}
    {m1 m2 : σ}
    (haddS : addCandidates env PlaneType.PLANE_OVERLAY S (withPM s0 m1) = some sS)
    (haddT : addCandidates env PlaneType.PLANE_SPRITE T (withPM sS m2) = some sT)
    (hsp : SameFrame sT sp) : SameFrame s0 sT ∧ SameFrame s0 sp := by
  have h1 : SameFrame s0 sS :=
    (sameFrame_withPM s0 m1).trans (addCandidates_effect S _ _ haddS).1
  have h2 : SameFrame s0 sT :=
    h1.trans ((sameFrame_withPM sS m2).trans (addCandidates_effect T _ _ haddT).1)
  exact ⟨h2, h2.trans hsp⟩

/-- C8: a successful assignment is the commit, by `attachPlanes`, of a list `sp` holding
the same frame whose records reference pairwise different layers and carry pairwise
different z-order values; `attachPlanes` gives the plane of the record at position `i`
the z-order `i`, so the plane z-orders along the configuration are `0, 1, ..., n-1`. -/
theorem committed_configuration_shape {σ : Type} (env : Env σ) (s0 s1 : State σ)
    (hc : Classified s0) (h : allocatePlanesV2 env s0 = some (true, s1)) :
    ∃ sp, SameFrame s0 sp ∧ attachPlanes env sp = some (true, s1) ∧
      (sp.mZOrderConfig.map (fun r => r.hwcLayer)).Nodup ∧
      (sp.mZOrderConfig.map (fun r => r.zorder)).Nodup ∧
      (∀ (i : Nat) (r : ZOrderLayer), sp.mZOrderConfig[i]? = some r →
        attachedZOrder s1 r.hwcLayer = some (i : Int)) ∧
      sp.mZOrderConfig.map (fun r => attachedZOrder s1 r.hwcLayer)
        = (List.range sp.mZOrderConfig.length).map (fun (i : Nat) => some (i : Int)) := by
  obtain ⟨S, T, m1, sS, m2, sT, sp, _, _, haddS, haddT, hsT, hpl, hatt⟩ :=
    search_success hc h
  obtain ⟨hsf, hinv, hz, _⟩ := primaryPlaced_facts hsT hpl
  have hpos := (attachPlanes_effect hatt hinv.nodup).2.2
  refine ⟨sp, (search_sameFrame haddS haddT hsf).2, hatt, hinv.nodup, hz,
    fun i r hi => (hpos i r hi).1, ?_⟩
  apply List.ext_getElem?
  intro i
  rw [List.getElem?_map, List.getElem?_map]
  cases hi : sp.mZOrderConfig[i]? with
  | none =>
    have hle : sp.mZOrderConfig.length ≤ i := List.getElem?_eq_none_iff.mp hi
    rw [List.getElem?_eq_none (by simpa using hle)]
    rfl
  | some r =>
    have hlt : i < sp.mZOrderConfig.length := (List.getElem?_eq_some.mp hi).1
    rw [List.getElem?_range hlt]
    simp only [Option.map_some', Option.some.injEq]
    exact (hpos i r hi).1

theorem committed_configuration_shape_witness :
    (∃ sp, SameFrame exPickyState sp ∧
      attachPlanes (exEnv 1 1 (fun _ => true)) sp = some (true, exPickyCommitted) ∧
      (sp.mZOrderConfig.map (fun r => r.hwcLayer)).Nodup ∧
      (sp.mZOrderConfig.map (fun r => r.zorder)).Nodup ∧
      (∀ (i : Nat) (r : ZOrderLayer), sp.mZOrderConfig[i]? = some r →
        attachedZOrder exPickyCommitted r.hwcLayer = some (i : Int)) ∧
      sp.mZOrderConfig.map (fun r => attachedZOrder exPickyCommitted r.hwcLayer)
        = (List.range sp.mZOrderConfig.length).map (fun (i : Nat) => some (i : Int))) ∧
    attachPlanes (exEnv 1 1 (fun _ => true)) exPickyPlaced = some (true, exPickyCommitted) ∧
    exPickyPlaced.mZOrderConfig.map (fun r => r.hwcLayer) = [0, 2, 3] ∧
    exPickyPlaced.mZOrderConfig.map (fun r => r.zorder) = [0, 2, 1] ∧
    exPickyPlaced.mZOrderConfig.map (fun r => attachedZOrder exPickyCommitted r.hwcLayer)
      = [some 0, some 1, some 2] :=
  ⟨committed_configuration_shape (exEnv 1 1 (fun _ => true)) exPickyState exPickyCommitted
    exPickyState_classified (by decide), by decide, by decide, by decide, by decide⟩

/-- A successful search, with the list `sT` in which primary placement was entered: as
`search_success`, with the successful call itself. -/
theorem search_entry {σ : Type} {env : Env σ} {s0 s1 : State σ} (hc : Classified s0)
    (h : allocatePlanesV2 env s0 = some (true, s1)) :
    ∃ S T m1 sS m2 sT sp, S.Sublist s0.mOverlayCandidates ∧
      T.Sublist s0.mSpriteCandidates ∧
      addCandidates env PlaneType.PLANE_OVERLAY S (withPM s0 m1) = some sS ∧
      addCandidates env PlaneType.PLANE_SPRITE T (withPM sS m2) = some sT ∧
      SameFrame s0 sT ∧ SearchState sT ∧
      assignPrimaryPlane env sT = some (true, s1) ∧
      PrimaryPlaced env sT sp ∧ attachPlanes env sp = some (true, s1) := by
  obtain ⟨S, m1, sS, hS, _, haddS, hoS, hsprite⟩ :=
    (assignOverlayPlanes_result hc.overlayState hc.overlaysFresh h).2 rfl
  obtain ⟨T, m2, sT, hT, _, haddT, hsT, hprim⟩ :=
    (assignSpritePlanes_result hoS.search hoS.spritesFresh hsprite).2 rfl
  obtain ⟨sp, hpl, hatt⟩ := (assignPrimaryPlane_result hsT.inv hsT.fbtFresh hprim).2 rfl
  have h1 : SameFrame s0 sS :=
    (sameFrame_withPM s0 m1).trans (addCandidates_effect S _ _ haddS).1
  have h2 : SameFrame s0 sT :=
    h1.trans ((sameFrame_withPM sS m2).trans (addCandidates_effect T _ _ haddT).1)
  refine ⟨S, T, m1, sS, m2, sT, sp, hS, ?_, haddS, haddT, h2, hsT, hprim, hpl, hatt⟩
  rw [h1.sp] at hT
  exact hT

/-- In a list of the search whose configuration has as many records as there are GPU
layers, every GPU layer has a record. -/
theorem SearchState.all_assigned {σ : Type} {s : State σ} (hs : SearchState s)
    (hlen : s.mZOrderConfig.length = s.mFBLayers.length) :
    ∀ q ∈ s.mFBLayers, ∃ r ∈ s.mZOrderConfig, r.hwcLayer = q := by
  have hsub : (s.mZOrderConfig.map (fun r => r.hwcLayer)) ⊆ s.mFBLayers := by
    intro q hq
    obtain ⟨r, hr, he⟩ := List.mem_map.mp hq
    rw [← he]
    exact (hs.records r hr).2.1
  have hperm := (List.subperm_of_subset hs.inv.nodup hsub).perm_of_length_le
    (by simp [hlen])
  intro q hq
  obtain ⟨r, hr, he⟩ := List.mem_map.mp (hperm.mem_iff.mpr hq)
  exact ⟨r, hr, he⟩

/-- The list handed to the commit by primary placement has no record of class PRIMARY
exactly when primary placement was entered with a configuration that is not empty and
holds as many records as there are GPU layers. -/
theorem primaryPlaced_no_primary {σ : Type} {env : Env σ} {s sp : State σ}
    (hs : SearchState s) (hp : PrimaryPlaced env s sp) :
    sp.mZOrderConfig.filter (fun r => decide (r.planeType = PlaneType.PLANE_PRIMARY)) = [] ↔
      (s.mZOrderConfig.length = s.mFBLayers.length ∧ s.mZOrderConfig ≠ []) := by
  have hnone : s.mZOrderConfig.filter
      (fun r => decide (r.planeType = PlaneType.PLANE_PRIMARY)) = [] := by
    rw [List.filter_eq_nil_iff]
    intro r hr
    simpa using (hs.records r hr).1
  have hadd : ∀ (m : σ) (p : Nat) (zorder : Int) (r : ZOrderLayer),
      addZOrderLayer env PlaneType.PLANE_PRIMARY p zorder (withPM s m) = some (r, sp) →
      sp.mZOrderConfig.filter
        (fun r => decide (r.planeType = PlaneType.PLANE_PRIMARY)) ≠ [] := by
    intro m p zorder r h hnil
    have hmem : r ∈ sp.mZOrderConfig :=
      (addZOrderLayer_config h).mem_iff.mpr (List.mem_cons_self _ _)
    have := (List.filter_eq_nil_iff.mp hnil) r hmem
    simp [(addZOrderLayer_record h).1] at this
  cases hp with
  | allAssigned m hlen hne =>
    exact ⟨fun _ => ⟨hlen, hne⟩, fun _ => hnone⟩
  | overflow m p r sp hmem hf _ hlen h =>
    exact ⟨fun h1 => absurd h1 (hadd m p _ r h), fun h1 => by omega⟩
  | noneAssigned m fbt r sp hfbt hnil h =>
    exact ⟨fun h1 => absurd h1 (hadd m fbt _ r h), fun h1 => absurd hnil h1.2⟩
  | partialOffload m fbt i l r sp hfbt hne hl hflag huse h =>
    refine ⟨fun h1 => absurd h1 (hadd m fbt _ r h), fun h1 => ?_⟩
    exfalso
    obtain ⟨q, hq, hlq⟩ := fbLayerAt_some hl
    obtain ⟨r2, hr2, he⟩ := hs.all_assigned h1.1 q hq
    have hfresh : Fresh s q := ⟨l, hlq, hflag⟩
    exact hfresh.no_record hs.inv r2 hr2 he

/-- With no GPU layer at all the configuration on entry is empty and holds as many records
as there are GPU layers; primary placement takes its second branch and the commit has the
primary record of the framebuffer target. -/
theorem target_alone_commits_primary_record :
    exAloneState.mZOrderConfig.length = exAloneState.mFBLayers.length ∧
    assignPrimaryPlane (exEnv 0 0 (fun _ => true)) exAloneState =
      assignPrimaryPlaneHelper (exEnv 0 0 (fun _ => true)) 0 0 exAloneState ∧
    (allocatePlanesV2 (exEnv 0 0 (fun _ => true)) exAloneState).map
      (fun r => (r.1, r.2.mLayers.map (fun l => l.mPlane.map (fun p => p.mType)))) =
      some (true, [some PlaneType.PLANE_PRIMARY]) := by
  refine ⟨by decide, by decide, by decide⟩

/-- C4, as the code has it: a successful search added an order-preserving selection `S`
of the overlay candidates and `T` of the sprite candidates, entered primary placement in
the list `sT` so reached, and is the commit of a list `sp` holding the same frame. The
configuration of `sp` has at most one record of class PRIMARY. When it has one, the record
carries the framebuffer target or (Case A) a sprite candidate, and then every GPU layer
has a record. It has none exactly when primary placement was entered with a configuration
that is not empty and holds as many records as there are GPU layers
(`candidates == layers` and `candidates != 0`): then `attachPlanes` runs without a primary
record. -/
theorem primary_record_of_committed_configuration {σ : Type} (env : Env σ)
    (s0 s1 : State σ) (hc : Classified s0)
    (h : allocatePlanesV2 env s0 = some (true, s1)) :
    ∃ S T m1 sS m2 sT sp, S.Sublist s0.mOverlayCandidates ∧
      T.Sublist s0.mSpriteCandidates ∧
      addCandidates env PlaneType.PLANE_OVERLAY S (withPM s0 m1) = some sS ∧
      addCandidates env PlaneType.PLANE_SPRITE T (withPM sS m2) = some sT ∧
      assignPrimaryPlane env sT = some (true, s1) ∧
      SameFrame s0 sp ∧ attachPlanes env sp = some (true, s1) ∧
      (sp.mZOrderConfig.filter (fun r => decide (r.planeType = PlaneType.PLANE_PRIMARY))
          = [] ↔
        (sT.mZOrderConfig.length = sT.mFBLayers.length ∧ sT.mZOrderConfig.length ≠ 0)) ∧
      ((sp.mZOrderConfig.filter (fun r => decide (r.planeType = PlaneType.PLANE_PRIMARY))
            = [] ∧
          sp.mZOrderConfig.length = s0.mFBLayers.length ∧ sp.mZOrderConfig ≠ []) ∨
        ∃ r, sp.mZOrderConfig.filter
              (fun r => decide (r.planeType = PlaneType.PLANE_PRIMARY)) = [r] ∧
          (s0.mFrameBufferTarget = some r.hwcLayer ∨
            (r.hwcLayer ∈ s0.mSpriteCandidates ∧
              sp.mZOrderConfig.length = s0.mFBLayers.length))) := by
  obtain ⟨S, T, m1, sS, m2, sT, sp, hS, hT, haddS, haddT, hf0, hsT, hprim, hpl, hatt⟩ :=
    search_entry hc h
  obtain ⟨hsf, _, _, hshape⟩ := primaryPlaced_facts hsT hpl
  have hf1 : SameFrame s0 sp := hf0.trans hsf
  have hnone : sT.mZOrderConfig.filter
      (fun r => decide (r.planeType = PlaneType.PLANE_PRIMARY)) = [] := by
    rw [List.filter_eq_nil_iff]
    intro r hr
    simpa using (hsT.records r hr).1
  have hiff := primaryPlaced_no_primary hsT hpl
  refine ⟨S, T, m1, sS, m2, sT, sp, hS, hT, haddS, haddT, hprim, hf1, hatt, ?_, ?_⟩
  · rw [hiff]
    constructor
    · rintro ⟨h1, h2⟩
      exact ⟨h1, fun h0 => h2 (List.length_eq_zero.mp h0)⟩
    · rintro ⟨h1, h2⟩
      exact ⟨h1, fun h0 => h2 (by rw [h0]; rfl)⟩
  · rcases hshape with ⟨hcfg, hlen, hne⟩ | ⟨r, hperm, htype, hwho⟩
    · left
      rw [hcfg]
      exact ⟨hnone, by rw [hlen, hf0.fb], hne⟩
    · right
      refine ⟨r, ?_, ?_⟩
      · have hp2 := hperm.filter (fun r => decide (r.planeType = PlaneType.PLANE_PRIMARY))
        rw [List.filter_cons_of_pos (by simpa using htype), hnone] at hp2
        exact List.perm_singleton.mp hp2
      · rcases hwho with hfbt | ⟨hmem, _, hlen⟩
        · left
          rw [← hf0.fbt]
          exact hfbt
        · right
          refine ⟨by rw [← hf0.sp]; exact hmem, ?_⟩
          rw [hperm.length_eq, List.length_cons, hlen, hf0.fb]

theorem primary_record_of_committed_configuration_witness :
    ∃ S T m1 sS m2 sT sp, S.Sublist exPickyState.mOverlayCandidates ∧
      T.Sublist exPickyState.mSpriteCandidates ∧
      addCandidates (exEnv 1 1 (fun _ => true)) PlaneType.PLANE_OVERLAY S
        (withPM exPickyState m1) = some sS ∧
      addCandidates (exEnv 1 1 (fun _ => true)) PlaneType.PLANE_SPRITE T
        (withPM sS m2) = some sT ∧
      assignPrimaryPlane (exEnv 1 1 (fun _ => true)) sT = some (true, exPickyCommitted) ∧
      SameFrame exPickyState sp ∧
      attachPlanes (exEnv 1 1 (fun _ => true)) sp = some (true, exPickyCommitted) ∧
      (sp.mZOrderConfig.filter (fun r => decide (r.planeType = PlaneType.PLANE_PRIMARY))
          = [] ↔
        (sT.mZOrderConfig.length = sT.mFBLayers.length ∧ sT.mZOrderConfig.length ≠ 0)) ∧
      ((sp.mZOrderConfig.filter (fun r => decide (r.planeType = PlaneType.PLANE_PRIMARY))
            = [] ∧
          sp.mZOrderConfig.length = exPickyState.mFBLayers.length ∧
          sp.mZOrderConfig ≠ []) ∨
        ∃ r, sp.mZOrderConfig.filter
              (fun r => decide (r.planeType = PlaneType.PLANE_PRIMARY)) = [r] ∧
          (exPickyState.mFrameBufferTarget = some r.hwcLayer ∨
            (r.hwcLayer ∈ exPickyState.mSpriteCandidates ∧
              sp.mZOrderConfig.length = exPickyState.mFBLayers.length))) :=
  primary_record_of_committed_configuration (exEnv 1 1 (fun _ => true)) exPickyState
    exPickyCommitted exPickyState_classified (by decide)

/-- C4, as stated: on the frame `[a, framebuffer target]` with one free sprite plane and a
manager that accepts everything the search succeeds by committing the configuration that
holds the sprite record of `a` only; it has no record of class PRIMARY, and afterwards
the framebuffer target has no plane attached. -/
theorem committed_configuration_without_primary :
    allocatePlanesV2 (exEnv 1 0 (fun _ => true)) exPairState = some (true, exPairCommitted) ∧
    attachPlanes (exEnv 1 0 (fun _ => true)) exPairAdded = some (true, exPairCommitted) ∧
    addZOrderLayer (exEnv 1 0 (fun _ => true)) PlaneType.PLANE_SPRITE 0 (-1) exPairState
      = some ({ planeType := PlaneType.PLANE_SPRITE, hwcLayer := 0, zorder := 0,
                plane := none }, exPairAdded) ∧
    exPairAdded.mZOrderConfig.filter
      (fun r => decide (r.planeType = PlaneType.PLANE_PRIMARY)) = [] ∧
    exPairCommitted.mLayers.map (fun l => l.mPlane.map (fun p => p.mType))
      = [some PlaneType.PLANE_SPRITE, none] := by
  refine ⟨by decide, by decide, by decide, by decide, by decide⟩

/-! ## What a failed candidate loop has tried -/

/-- A failed run of a candidate loop with the iteration count of the source has tried,
for every order-preserving selection `T` of `n + 1` candidates from position `i` on, the
following phase on the list with `T` added, and that phase returned false. -/
theorem candLoop_enum {σ : Type} {env : Env σ} {type : PlaneType}
    {cands : State σ → List Nat} {last : State σ → Option (Bool × State σ)}
    {P : State σ → Prop} (ph : Phase env type cands last P) (n : Nat)
    (next : Nat → State σ → Option (Bool × State σ))
    (hnext : ∀ (index : Nat) (s s1 : State σ), P s →
      (∀ c ∈ (cands s).drop index, Fresh s c) → next index s = some (false, s1) →
      s1 = withPM s s1.planeManager ∧
      ∀ T : List Nat, T.Sublist ((cands s).drop index) → T.length = n →
        ∃ m sT s2, addCandidates env type T (withPM s m) = some sT ∧
          last sT = some (false, s2)) :
    ∀ (cnt i : Nat) (s s1 : State σ), P s → (∀ c ∈ (cands s).drop i, Fresh s c) →
      cnt = (cands s).length + 1 - (i + (n + 1)) →
      candLoop env type cands next cnt i s = some (false, s1) →
      ∀ T : List Nat, T.Sublist ((cands s).drop i) → T.length = n + 1 →
        ∃ m sT s2, addCandidates env type T (withPM s m) = some sT ∧
          last sT = some (false, s2) := by
  intro cnt
  induction cnt with
  | zero =>
    intro i s s1 _ _ hcnt _ T hT hlen
    have := hT.length_le
    rw [List.length_drop] at this
    omega
  | succ k ih =>
    intro i s s1 hP hfresh hcnt h T hT hlen
    unfold candLoop at h
    split at h
    · exact absurd h (by simp)
    · rename_i c hc
      have hi : i < (cands s).length := (List.getElem?_eq_some.mp hc).1
      have hci : (cands s)[i] = c := (List.getElem?_eq_some.mp hc).2
      have hdrop : (cands s).drop i = c :: (cands s).drop (i + 1) := by
        rw [List.drop_eq_getElem_cons hi, hci]
      have hcmem : c ∈ cands s := List.mem_iff_getElem?.mpr ⟨i, hc⟩
      have hcf : Fresh s c := hfresh c (by rw [hdrop]; exact List.mem_cons_self _ _)
      have hnd : (c :: (cands s).drop (i + 1)).Nodup := by
        rw [← hdrop]
        exact (ph.nodup s hP).sublist (List.drop_sublist _ _)
      have hcnot : c ∉ (cands s).drop (i + 1) := (List.nodup_cons.mp hnd).1
      split at h
      · exact absurd h (by simp)
      · rename_i zlayer sa hadd
        have hPa : P sa := ph.add s c zlayer sa hP hcmem hcf hadd
        have hca : cands sa = cands s := ph.frame s sa (addZOrderLayer_sameFrame hadd)
        have hfa : ∀ c2 ∈ (cands sa).drop (i + 1), Fresh sa c2 := by
          intro c2 hc2
          rw [hca] at hc2
          have hne : c2 ≠ c := fun e => hcnot (e ▸ hc2)
          exact Fresh.add_ne hadd hne
            (hfresh c2 (by rw [hdrop]; exact List.mem_cons_of_mem _ hc2))
        split at h
        · exact absurd h (by simp)
        · simp at h
        · rename_i s2 hn
          obtain ⟨hres, hen⟩ := hnext (i + 1) sa s2 hPa hfa hn
          have hrem := remove_add_restore (ph.inv s hP) hcf hadd s2.planeManager
          rw [← hres] at hrem
          rw [hrem] at h
          simp only at h
          have hcs : cands (withPM s s2.planeManager) = cands s :=
            ph.frame s _ (sameFrame_withPM s _)
          rw [hdrop] at hT
          cases hT with
          | cons _ hT2 =>
            obtain ⟨m, sT, s3, h1, h2⟩ := ih (i + 1) (withPM s s2.planeManager) s1
              (ph.pm s _ hP)
              (by
                intro c2 hc2
                rw [hcs] at hc2
                exact (hfresh c2
                  (by rw [hdrop]; exact List.mem_cons_of_mem _ hc2)).atPM _)
              (by rw [hcs]; omega) h T (by rw [hcs]; exact hT2) hlen
            exact ⟨m, sT, s3, h1, h2⟩
          | cons₂ _ hT2 =>
            rename_i T2
            obtain ⟨m, sT, s3, h1, h2⟩ := hen T2 (by rw [hca]; exact hT2)
              (by simpa using hlen)
            exact ⟨m, sT, s3, by rw [addCandidates_cons_withPM T2 m hadd]; exact h1, h2⟩

/-- A failed `assign...Planes(index, planeNumber)` has tried every order-preserving
selection of `planeNumber` candidates from position `index` on. -/
theorem candFrom_enum {σ : Type} {env : Env σ} {type : PlaneType}
    {cands : State σ → List Nat} {last : State σ → Option (Bool × State σ)}
    {P : State σ → Prop} (ph : Phase env type cands last P) :
    ∀ (n index : Nat) (s s1 : State σ), P s → (∀ c ∈ (cands s).drop index, Fresh s c) →
      candFrom env type cands last index n s = some (false, s1) →
      ∀ T : List Nat, T.Sublist ((cands s).drop index) → T.length = n →
        ∃ m sT s2, addCandidates env type T (withPM s m) = some sT ∧
          last sT = some (false, s2) := by
  intro n
  induction n with
  | zero =>
    intro index s s1 _ _ h T _ hlen
    simp only [candFrom] at h
    have hT : T = [] := List.eq_nil_of_length_eq_zero hlen
    subst hT
    exact ⟨s.planeManager, s, s1, rfl, h⟩
  | succ k ih =>
    intro index s s1 hP hfresh h T hT hlen
    simp only [candFrom] at h
    refine candLoop_enum ph k _ ?_ _ index s s1 hP hfresh rfl h T hT hlen
    intro i2 s2 s3 hP2 hf2 h2
    exact ⟨(candFrom_result ph k i2 s2 s3 false hP2 hf2 h2).1 rfl, ih i2 s2 s3 hP2 hf2 h2⟩

/-- A successful countdown succeeded with a selection `T` of some size `k`, after every
order-preserving selection of more than `k` and at most `K` candidates had failed. -/
theorem candDown_enum {σ : Type} {env : Env σ} {type : PlaneType}
    {cands : State σ → List Nat} {last : State σ → Option (Bool × State σ)}
    {P : State σ → Prop} (ph : Phase env type cands last P) :
    ∀ (K : Nat) (s s1 : State σ), P s → (∀ c ∈ cands s, Fresh s c) →
      candDown env type cands last K s = some (true, s1) →
      ∃ T m0 m sT, T.Sublist (cands s) ∧ T.length ≤ K ∧
        candFrom env type cands last 0 T.length (withPM s m0) = some (true, s1) ∧
        addCandidates env type T (withPM s m) = some sT ∧ P sT ∧
        last sT = some (true, s1) ∧
        ∀ U : List Nat, U.Sublist (cands s) → T.length < U.length → U.length ≤ K →
          ∃ m2 sU s2, addCandidates env type U (withPM s m2) = some sU ∧
            last sU = some (false, s2) := by
  intro K
  induction K with
  | zero =>
    intro s s1 hP hfresh h
    simp only [candDown] at h
    obtain ⟨T, m, sT, hT, hlen, hadd, hPT, hlast⟩ :=
      (candFrom_result ph 0 0 s s1 true hP (by simpa using hfresh) h).2 rfl
    have hT0 : T = [] := List.eq_nil_of_length_eq_zero hlen
    subst hT0
    simp only [addCandidates, Option.some.injEq] at hadd
    subst hadd
    refine ⟨[], m, m, withPM s m, List.nil_sublist _, by simp, ?_, rfl, hPT, hlast, ?_⟩
    · simp only [List.length_nil, candFrom]
      exact hlast
    · intro U _ h1 h2
      omega
  | succ k ih =>
    intro s s1 hP hfresh h
    unfold candDown at h
    split at h
    · exact absurd h (by simp)
    · rename_i s2 hfrom
      simp only [Option.some.injEq, Prod.mk.injEq, true_and] at h
      subst h
      obtain ⟨T, m, sT, hT, hlen, hadd, hPT, hlast⟩ :=
        (candFrom_result ph (k + 1) 0 s s2 true hP (by simpa using hfresh) hfrom).2 rfl
      refine ⟨T, s.planeManager, m, sT, by simpa using hT, by omega, ?_, hadd, hPT,
        hlast, ?_⟩
      · rw [hlen]; exact hfrom
      · intro U _ h1 h2
        omega
    · rename_i s2 hfrom
      have hres := (candFrom_result ph (k + 1) 0 s s2 false hP
        (by simpa using hfresh) hfrom).1 rfl
      have hen := candFrom_enum ph (k + 1) 0 s s2 hP (by simpa using hfresh) hfrom
      rw [hres] at h
      have hcs : cands (withPM s s2.planeManager) = cands s :=
        ph.frame s _ (sameFrame_withPM s _)
      obtain ⟨T, m0, m, sT, hT, hlen, hfromT, hadd, hPT, hlast, hU⟩ :=
        ih (withPM s s2.planeManager) s1 (ph.pm s _ hP)
          (by intro c hc; rw [hcs] at hc; exact (hfresh c hc).atPM _) h
      refine ⟨T, m0, m, sT, by rw [hcs] at hT; exact hT, by omega, hfromT, hadd, hPT,
        hlast, ?_⟩
      intro U hUs h1 h2
      by_cases hk : U.length = k + 1
      · exact hen U (by simpa using hUs) hk
      · exact hU U (by rw [hcs]; exact hUs) h1 (by omega)

/-! ## Maximal number of overlay planes -/

/-- A successful overlay phase committed a selection `S` after the sprite phase had
failed for every order-preserving selection of more overlay candidates, up to the
smaller of the number of free overlay planes and the number of candidates. -/
theorem assignOverlayPlanes_enum {σ : Type} {env : Env σ} {s s1 : State σ}
    (hs : OverlayState s) (hfresh : ∀ c ∈ s.mOverlayCandidates, Fresh s c)
    (h : assignOverlayPlanes env s = some (true, s1)) :
    ∃ S m sS, S.Sublist s.mOverlayCandidates ∧
      addCandidates env PlaneType.PLANE_OVERLAY S (withPM s m) = some sS ∧
      OverlayState sS ∧ assignSpritePlanes env sS = some (true, s1) ∧
      ∀ U : List Nat, U.Sublist s.mOverlayCandidates → S.length < U.length →
        (U.length : Int) ≤ min (env.getFreePlanes PlaneType.PLANE_OVERLAY)
          (s.mOverlayCandidates.length : Int) →
        ∃ m2 sU s2, addCandidates env PlaneType.PLANE_OVERLAY U (withPM s m2) = some sU ∧
          assignSpritePlanes env sU = some (false, s2) := by
  have hshort : assignSpritePlanes env s = some (true, s1) →
      ((s.mOverlayCandidates.length : Int) = 0 ∨
        env.getFreePlanes PlaneType.PLANE_OVERLAY = 0) →
      ∃ S m sS, S.Sublist s.mOverlayCandidates ∧
        addCandidates env PlaneType.PLANE_OVERLAY S (withPM s m) = some sS ∧
        OverlayState sS ∧ assignSpritePlanes env sS = some (true, s1) ∧
        ∀ U : List Nat, U.Sublist s.mOverlayCandidates → S.length < U.length →
          (U.length : Int) ≤ min (env.getFreePlanes PlaneType.PLANE_OVERLAY)
            (s.mOverlayCandidates.length : Int) →
          ∃ m2 sU s2, addCandidates env PlaneType.PLANE_OVERLAY U (withPM s m2) = some sU ∧
            assignSpritePlanes env sU = some (false, s2) := by
    intro hp hz
    refine ⟨[], s.planeManager, s, List.nil_sublist _, rfl, hs, hp, ?_⟩
    intro U _ h1 h2
    simp only [List.length_nil] at h1
    rcases hz with hz | hz <;> omega
  unfold assignOverlayPlanes at h
  simp only at h
  split_ifs at h with h0 h1
  · exact hshort h (Or.inl h0)
  · exact hshort h (Or.inr h1)
  all_goals first
    | (simp only [Option.some.injEq, Prod.mk.injEq, Bool.false_eq_true, false_and] at h)
    | (rw [assignOverlayPlanesDown_eq] at h
       obtain ⟨T, m0, m, sT, hT, hlen, _, hadd, hPT, hlast, hU⟩ :=
         candDown_enum (overlayPhase env) _ s s1 hs hfresh h
       refine ⟨T, m, sT, hT, hadd, hPT, hlast, ?_⟩
       intro U hUs hlt hle
       exact hU U hUs hlt (by omega))

theorem sublist_countP_mem {α : Type} [DecidableEq α] {S L : List α} (h : S.Sublist L)
    (hnd : L.Nodup) : L.countP (fun x => decide (x ∈ S)) = S.length := by
  induction h with
  | slnil => rfl
  | cons a hsub ih =>
    rename_i S2 L2
    have hnd2 := List.nodup_cons.mp hnd
    have ha : a ∉ S2 := fun hm => hnd2.1 (hsub.subset hm)
    rw [List.countP_cons, ih hnd2.2]
    simp [ha]
  | cons₂ a hsub ih =>
    rename_i S2 L2
    have hnd2 := List.nodup_cons.mp hnd
    have hcongr : L2.countP (fun x => decide (x ∈ a :: S2))
        = L2.countP (fun x => decide (x ∈ S2)) := by
      apply List.countP_congr
      intro x hx
      have hne : x ≠ a := fun e => hnd2.1 (e ▸ hx)
      simp [hne]
    rw [List.countP_cons, hcongr, ih hnd2.2]
    simp

/-- After a successful search the overlay candidates with the hardware-overlay role are
exactly the members of the committed selection `S`. -/
theorem committedOverlays_eq {σ : Type} {env : Env σ} {s0 sS sT sp s1 : State σ}
    {S T : List Nat} {m1 m2 : σ} (hc : Classified s0)
    (hS : S.Sublist s0.mOverlayCandidates) (hT : T.Sublist s0.mSpriteCandidates)
    (haddS : addCandidates env PlaneType.PLANE_OVERLAY S (withPM s0 m1) = some sS)
    (haddT : addCandidates env PlaneType.PLANE_SPRITE T (withPM sS m2) = some sT)
    (hsT : SearchState sT) (hpl : PrimaryPlaced env sT sp)
    (hatt : attachPlanes env sp = some (true, s1)) :
    committedOverlays s1 = S.length := by
  obtain ⟨hsf, hinv, _, hshape⟩ := primaryPlaced_facts hsT hpl
  obtain ⟨hf0, hf1⟩ := search_sameFrame haddS haddT hsf
  obtain ⟨⟨e1, e2, _, _⟩, hun, hrec⟩ := attachPlanes_effect hatt hinv.nodup
  obtain ⟨f, hf, _, hfnot⟩ := hc.wf.fbt
  have hmemS := (addCandidates_effect S _ _ haddS).2.2.1
  have hmemT := (addCandidates_effect T _ _ haddT).2.2.1
  have hcfg0 : (withPM s0 m1).mZOrderConfig = [] := hc.config_empty
  have hlayers : ∀ p ∈ s0.mOverlayCandidates,
      (p ∈ sp.mZOrderConfig.map (fun r => r.hwcLayer) ↔ p ∈ S) := by
    intro p hp
    have hpT : p ∉ T := fun hm => hc.wf.disj p hp (hT.subset hm)
    have hpf : p ≠ f := fun e => hfnot (e ▸ hc.wf.ov_sub.subset hp)
    have hsTp : p ∈ sT.mZOrderConfig.map (fun r => r.hwcLayer) ↔ p ∈ S := by
      rw [hmemT p]
      have h2 : p ∈ (withPM sS m2).mZOrderConfig.map (fun r => r.hwcLayer) ↔ p ∈ S := by
        show p ∈ sS.mZOrderConfig.map (fun r => r.hwcLayer) ↔ p ∈ S
        rw [hmemS p, hcfg0]
        simp
      rw [h2]
      tauto
    rcases hshape with ⟨hcfg, _, _⟩ | ⟨r, hperm, _, hwho⟩
    · rw [hcfg]; exact hsTp
    · rw [(hperm.map _).mem_iff, List.map_cons, List.mem_cons, hsTp]
      have hpr : p ≠ r.hwcLayer := by
        rcases hwho with hfbt | ⟨hmem, _, _⟩
        · rw [hf0.fbt, hf] at hfbt
          intro e
          exact hpf (by rw [e]; exact (Option.some.inj hfbt).symm)
        · intro e
          rw [hf0.sp] at hmem
          exact hc.wf.disj p hp (e ▸ hmem)
      tauto
  have htype : ∀ p ∈ s0.mOverlayCandidates,
      (layerTypeAt s1 p = some LayerType.LAYER_OVERLAY ↔ p ∈ S) := by
    intro p hp
    have hpf : some p ≠ sp.mFrameBufferTarget := by
      rw [hf1.fbt, hf]
      intro e
      exact hfnot ((Option.some.inj e) ▸ hc.wf.ov_sub.subset hp)
    constructor
    · intro hty
      by_contra hnS
      have hnot : p ∉ sp.mZOrderConfig.map (fun r => r.hwcLayer) :=
        fun hm => hnS ((hlayers p hp).mp hm)
      have hsame := hun p hnot
      unfold layerTypeAt at hty
      rw [hsame] at hty
      cases hl : sp.mLayers[p]? with
      | none => rw [hl] at hty; exact absurd hty (by simp)
      | some l =>
        rw [hl] at hty
        obtain ⟨l0, hl0, hcl⟩ := hf1.layer hl
        have hrole := hc.wf.role l0 (List.mem_iff_getElem?.mpr ⟨p, hl0⟩)
        rw [(clearFlag_fields hcl).1] at hrole
        simp only [Option.some.injEq] at hty
        exact hrole hty
    · intro hpS
      obtain ⟨z, hz, hzp⟩ := List.mem_map.mp ((hlayers p hp).mpr hpS)
      obtain ⟨j, hj⟩ := List.mem_iff_getElem?.mp hz
      have := (hrec j z hj).2
      rw [hzp] at this
      exact this hpf
  unfold committedOverlays
  rw [e2, hf1.ov, ← sublist_countP_mem hS (hc.wf.fb_nodup.sublist hc.wf.ov_sub)]
  apply List.countP_congr
  intro p hp
  simp only [decide_eq_true_eq]
  exact htype p hp

/-- C1: for a manager whose answers depend only on the configuration, when the search on
a freshly classified list succeeds with `committedOverlays` overlay candidates committed,
then for every order-preserving selection `S` of more overlay candidates, up to the
smaller of the number of free overlay planes and the number of candidates, the sprite
phase started on the configuration holding exactly `S` returns false. -/
theorem overlay_count_is_maximal (env : Env Unit) (s0 s1 : State Unit)
    (hc : Classified s0) (h : allocatePlanesV2 env s0 = some (true, s1)) (k : Nat)
    (hk : committedOverlays s1 < k)
    (hk2 : (k : Int) ≤ min (env.getFreePlanes PlaneType.PLANE_OVERLAY)
      (s0.mOverlayCandidates.length : Int))
    (S : List Nat) (hS : S.Sublist s0.mOverlayCandidates) (hlen : S.length = k) :
    ∃ sS s2, addCandidates env PlaneType.PLANE_OVERLAY S s0 = some sS ∧
      assignSpritePlanes env sS = some (false, s2) := by
  obtain ⟨S0, m1, sS0, hS0, haddS0, hoS0, hsprite, hU⟩ :=
    assignOverlayPlanes_enum hc.overlayState hc.overlaysFresh h
  obtain ⟨T, m2, sT, hT, _, haddT, hsT, hprim⟩ :=
    (assignSpritePlanes_result hoS0.search hoS0.spritesFresh hsprite).2 rfl
  obtain ⟨sp, hpl, hatt⟩ := (assignPrimaryPlane_result hsT.inv hsT.fbtFresh hprim).2 rfl
  have hT0 : T.Sublist s0.mSpriteCandidates := by
    rw [(addCandidates_effect S0 _ _ haddS0).1.sp] at hT
    exact hT
  have hcount := committedOverlays_eq hc hS0 hT0 haddS0 haddT hsT hpl hatt
  obtain ⟨m3, sU, s2, h1, h2⟩ := hU S hS (by omega) (by rw [hlen]; exact hk2)
  exact ⟨sU, s2, h1, h2⟩

theorem exOvState_classified : Classified exOvState :=
  ⟨⟨⟨1, rfl, by decide, by decide⟩, by decide, by decide, by decide, by decide, by decide,
      by decide, by decide, by decide⟩, rfl, by decide⟩

theorem overlay_count_is_maximal_witness :
    ∃ sS s2, addCandidates exNoOverlayEnv PlaneType.PLANE_OVERLAY [0] exOvState = some sS ∧
      assignSpritePlanes exNoOverlayEnv sS = some (false, s2) :=
  overlay_count_is_maximal exNoOverlayEnv exOvState exOvCommitted exOvState_classified
    (by decide) 1 (by decide) (by decide) [0] (by decide) rfl

/-! ## Total offload for the committed overlay selection -/

theorem addCandidates_searchState {σ : Type} {env : Env σ} {type : PlaneType}
    (htype : type ≠ PlaneType.PLANE_PRIMARY) :
    ∀ (T : List Nat) (s sT : State σ), SearchState s → T.Nodup →
      (∀ c ∈ T, c ∈ s.mFBLayers ∧ Fresh s c) → addCandidates env type T s = some sT →
      SearchState sT := by
  intro T
  induction T with
  | nil =>
    intro s sT hs _ _ h
    simp only [addCandidates, Option.some.injEq] at h
    subst h
    exact hs
  | cons c T ih =>
    intro s sT hs hnd hall h
    unfold addCandidates at h
    split at h
    · exact absurd h (by simp)
    · rename_i r sa hadd
      have hc := hall c (List.mem_cons_self _ _)
      have hnd2 := List.nodup_cons.mp hnd
      refine ih sa sT (hs.addFresh htype hc.1 hc.2 hadd) hnd2.2 ?_ h
      intro c2 hc2
      have h2 := hall c2 (List.mem_cons_of_mem _ hc2)
      have hne : c2 ≠ c := fun e => hnd2.1 (e ▸ hc2)
      exact ⟨by rw [(addZOrderLayer_sameFrame hadd).fb]; exact h2.1,
        Fresh.add_ne hadd hne h2.2⟩

theorem getElem?_snoc {α : Type} (xs : List α) (a b : α) (p : Nat) :
    (xs ++ [a])[p]? = some b ↔ xs[p]? = some b ∨ (p = xs.length ∧ b = a) := by
  rcases Nat.lt_trichotomy p xs.length with h | h | h
  · rw [List.getElem?_append_left h]
    constructor
    · intro h1; exact Or.inl h1
    · rintro (h1 | ⟨h1, _⟩)
      · exact h1
      · omega
  · subst h
    rw [List.getElem?_append_right (le_refl _)]
    have h2 : xs[xs.length]? = none := List.getElem?_eq_none (le_refl _)
    rw [h2]
    simp
    exact eq_comm
  · rw [List.getElem?_append_right (le_of_lt h)]
    have h2 : xs[p]? = none := List.getElem?_eq_none (le_of_lt h)
    have h3 : p - xs.length ≠ 0 := by omega
    obtain ⟨k, hk⟩ := Nat.exists_eq_succ_of_ne_zero h3
    rw [hk, h2]
    simp
    omega

theorem classifyLayer_push {σ : Type} (caps : Caps σ) (i : Nat) (list : List hwc_layer_1_t)
    (layer : hwc_layer_1_t) (s s1 : State σ)
    (h : classifyLayer caps i list layer s = some s1) :
    recognised layer ∧
    ∃ (l : HwcLayer) (fb sp ov tgt : Bool) (mlist : Option (List hwc_layer_1_t)),
      s1 = pushLayer s l fb sp ov tgt mlist ∧
      l.mIndex = i ∧ l.mZOrder = (i : Int) ∧ l.mPlaneCandidate = false ∧ l.mPlane = none ∧
      l.mType ≠ LayerType.LAYER_OVERLAY ∧
      l = layerObject caps i layer ∧
      (fb = true ↔ l.mType = LayerType.LAYER_FB ∨ l.mType = LayerType.LAYER_FORCE_FB) ∧
      (sp = true ↔
        l.mType = LayerType.LAYER_FB ∧ checkSupported caps PlaneType.PLANE_SPRITE l = true) ∧
      (ov = true ↔
        l.mType = LayerType.LAYER_FB ∧ checkSupported caps PlaneType.PLANE_SPRITE l = false ∧
        caps.isOverlayAllowed = true ∧ checkSupported caps PlaneType.PLANE_OVERLAY l = true) ∧
      (tgt = true ↔ l.mType = LayerType.LAYER_FRAMEBUFFER_TARGET) ∧
      (mlist = s.mList ∨ mlist = some (list.set i { layer with compositionType := HWC_FRAMEBUFFER })) := by
  have c1 : ¬ HWC_FORCE_FRAMEBUFFER = HWC_FRAMEBUFFER_TARGET := by decide
  have c2 : ¬ HWC_FRAMEBUFFER = HWC_FRAMEBUFFER_TARGET := by decide
  have c3 : ¬ HWC_OVERLAY = HWC_FRAMEBUFFER_TARGET := by decide
  have c4 : ¬ HWC_FORCE_FRAMEBUFFER = HWC_OVERLAY := by decide
  have c5 : ¬ HWC_FRAMEBUFFER = HWC_OVERLAY := by decide
  have c6 : ¬ HWC_FRAMEBUFFER = HWC_FORCE_FRAMEBUFFER := by decide
  unfold classifyLayer at h
  simp only at h
  split_ifs at h with h1 h2 h3 h4 h5 h6
  · injection h with h; subst h
    refine ⟨Or.inl h1, setType (newHwcLayer caps i layer) LayerType.LAYER_FRAMEBUFFER_TARGET,
      false, false, false, true, s.mList, ?_, ?_⟩
    · simp [pushLayer]
    · simp [setType, newHwcLayer, layerObject, *]
  · injection h with h; subst h
    refine ⟨Or.inr (Or.inl h2), setType (newHwcLayer caps i layer) LayerType.LAYER_SKIPPED,
      false, false, false, false, s.mList, ?_, ?_⟩
    · simp [pushLayer]
    · simp [setType, newHwcLayer, layerObject, *]
  · injection h with h; subst h
    refine ⟨Or.inr (Or.inr (Or.inl h3)),
      setType { (newHwcLayer caps i layer) with
          mLayer := { layer with compositionType := HWC_FRAMEBUFFER } }
        LayerType.LAYER_FORCE_FB,
      true, false, false, false,
      some (list.set i { layer with compositionType := HWC_FRAMEBUFFER }), ?_, ?_⟩
    · simp [pushLayer]
    · simp [setType, newHwcLayer, layerObject, *]
  · injection h with h; subst h
    refine ⟨Or.inr (Or.inr (Or.inr h4)), setType (newHwcLayer caps i layer) LayerType.LAYER_FB, true, true, false, false, s.mList, ?_, ?_⟩
    · simp [pushLayer]
    · simp [setType, newHwcLayer, layerObject, h1, h2, h3, h4, c2, c5, c6] at h5 ⊢
      exact ⟨h5, fun h => by rw [h5] at h; cases h⟩
  · injection h with h; subst h
    refine ⟨Or.inr (Or.inr (Or.inr h4)), setType (newHwcLayer caps i layer) LayerType.LAYER_FB, true, false, true, false, s.mList, ?_, ?_⟩
    · simp [pushLayer]
    · simp [setType, newHwcLayer, layerObject, h1, h2, h3, h4, c2, c5, c6] at h5 h6 ⊢
      exact ⟨h5, h6⟩
  · injection h with h; subst h
    refine ⟨Or.inr (Or.inr (Or.inr h4)), setType (newHwcLayer caps i layer) LayerType.LAYER_FB, true, false, false, false, s.mList, ?_, ?_⟩
    · simp [pushLayer]
    · simp [setType, newHwcLayer, layerObject, h1, h2, h3, h4, c2, c5, c6] at h5 h6 ⊢
      exact ⟨h5, fun _ => h6⟩
theorem ClassInv.push {σ : Type} (caps : Caps σ) (list : List hwc_layer_1_t) (s : State σ)
    (l : HwcLayer) (fb sp ov tgt : Bool) (mlist : Option (List hwc_layer_1_t))
    (raw : hwc_layer_1_t) (x : hwc_layer_1_t)
    (hinv : ClassInv caps list s) (hraw : list[s.mLayers.length]? = some raw)
    (hrec : recognised raw)
    (hfacts : l.mIndex = s.mLayers.length ∧ l.mZOrder = (s.mLayers.length : Int) ∧
      l.mPlaneCandidate = false ∧ l.mPlane = none ∧
      l.mType ≠ LayerType.LAYER_OVERLAY ∧
      l = layerObject caps s.mLayers.length raw)
    (hfb : fb = true ↔ l.mType = LayerType.LAYER_FB ∨ l.mType = LayerType.LAYER_FORCE_FB)
    (hsp : sp = true ↔
        l.mType = LayerType.LAYER_FB ∧ checkSupported caps PlaneType.PLANE_SPRITE l = true)
    (hov : ov = true ↔
        l.mType = LayerType.LAYER_FB ∧ checkSupported caps PlaneType.PLANE_SPRITE l = false ∧
        caps.isOverlayAllowed = true ∧ checkSupported caps PlaneType.PLANE_OVERLAY l = true)
    (htgt : tgt = true ↔ l.mType = LayerType.LAYER_FRAMEBUFFER_TARGET)
    (hml : mlist = s.mList ∨
      ∃ cur, s.mList = some cur ∧ mlist = some (cur.set s.mLayers.length x)) :
    ClassInv caps list (pushLayer s l fb sp ov tgt mlist) := by
  have hlen : (pushLayer s l fb sp ov tgt mlist).mLayers.length = s.mLayers.length + 1 := by
    simp [pushLayer]
  have hnot : ∀ p, p ∈ s.mFBLayers → p ≠ s.mLayers.length := fun p hp =>
    Nat.ne_of_lt (hinv.fb_valid p hp)
  have hold : ∀ p (l1 : HwcLayer), s.mLayers[p]? = some l1 → p ≠ s.mLayers.length := by
    intro p l1 h1 h2
    rw [h2, List.getElem?_eq_none (le_refl _)] at h1; cases h1
  have hmemfb : ∀ p, p ∈ (pushLayer s l fb sp ov tgt mlist).mFBLayers ↔
      p ∈ s.mFBLayers ∨ (fb = true ∧ p = s.mLayers.length) := by
    intro p; cases fb <;> simp [pushLayer]
  have hmemsp : ∀ p, p ∈ (pushLayer s l fb sp ov tgt mlist).mSpriteCandidates ↔
      p ∈ s.mSpriteCandidates ∨ (sp = true ∧ p = s.mLayers.length) := by
    intro p; cases sp <;> simp [pushLayer]
  have hmemov : ∀ p, p ∈ (pushLayer s l fb sp ov tgt mlist).mOverlayCandidates ↔
      p ∈ s.mOverlayCandidates ∨ (ov = true ∧ p = s.mLayers.length) := by
    intro p; cases ov <;> simp [pushLayer]
  have hget : ∀ p (l1 : HwcLayer), (pushLayer s l fb sp ov tgt mlist).mLayers[p]? = some l1 ↔
      s.mLayers[p]? = some l1 ∨ (p = s.mLayers.length ∧ l1 = l) := by
    intro p l1; exact getElem?_snoc s.mLayers l l1 p
  have hspfb : sp = true → fb = true := fun h => hfb.2 (Or.inl (hsp.1 h).1)
  have hovfb : ov = true → fb = true := fun h => hfb.2 (Or.inl (hov.1 h).1)
  refine ⟨hinv.config, ?_, ?_, ?_, ?_, ?_, ?_, ?_, ?_, ?_, ?_⟩
  · obtain ⟨cur, hc1, hc2, hc3⟩ := hinv.frame
    rcases hml with hml | ⟨cur1, hc4, hml⟩
    · refine ⟨cur, ?_, hc2, ?_⟩
      · show mlist = some cur
        rw [hml, hc1]
      · intro j hj
        rw [hlen] at hj
        exact hc3 j (by omega)
    · rw [hc1] at hc4; injection hc4 with hc4; subst hc4
      refine ⟨cur.set s.mLayers.length x, hml, ?_, ?_⟩
      · simp [hc2]
      · intro j hj
        rw [hlen] at hj
        rw [List.getElem?_set_ne (by omega)]
        exact hc3 j (by omega)
  · intro p l1 h1
    rcases (hget p l1).1 h1 with h2 | ⟨h2, h3⟩
    · exact hinv.layer p l1 h2
    · subst h2; subst h3
      obtain ⟨f1, f2, f3, f4, f5, f6⟩ := hfacts
      exact ⟨f1, f2, f3, f4, f5, raw, hraw, hrec, f6⟩
  · show List.Pairwise _ (if fb = true then s.mFBLayers ++ [s.mLayers.length] else s.mFBLayers)
    split_ifs
    · rw [List.pairwise_append]
      refine ⟨hinv.fb_sorted, List.pairwise_singleton _ _, ?_⟩
      intro a ha b hb
      rw [List.mem_singleton] at hb; subst hb
      exact hinv.fb_valid a ha
    · exact hinv.fb_sorted
  · intro p hp
    rw [hlen]
    rcases (hmemfb p).1 hp with h2 | ⟨_, h2⟩
    · exact Nat.lt_succ_of_lt (hinv.fb_valid p h2)
    · omega
  · intro p l1 h1
    rw [hmemfb]
    rcases (hget p l1).1 h1 with h2 | ⟨h2, h3⟩
    · rw [← hinv.fb_role p l1 h2]
      constructor
      · rintro (h | ⟨_, h⟩)
        · exact h
        · exact absurd h (hold p l1 h2)
      · exact Or.inl
    · subst h2; subst h3
      rw [← hfb]
      constructor
      · rintro (h | ⟨h, _⟩)
        · exact absurd rfl (hnot _ h)
        · exact h
      · intro h; exact Or.inr ⟨h, rfl⟩
  · show List.Sublist (if sp = true then _ else _) (if fb = true then _ else _)
    by_cases h1 : sp = true
    · rw [if_pos h1, if_pos (hspfb h1)]
      exact List.Sublist.append hinv.sp_sub (List.Sublist.refl _)
    · rw [if_neg h1]
      split_ifs
      · exact hinv.sp_sub.trans (List.sublist_append_left _ _)
      · exact hinv.sp_sub
  · show List.Sublist (if ov = true then _ else _) (if fb = true then _ else _)
    by_cases h1 : ov = true
    · rw [if_pos h1, if_pos (hovfb h1)]
      exact List.Sublist.append hinv.ov_sub (List.Sublist.refl _)
    · rw [if_neg h1]
      split_ifs
      · exact hinv.ov_sub.trans (List.sublist_append_left _ _)
      · exact hinv.ov_sub
  · intro p l1 h1
    rw [hmemsp]
    rcases (hget p l1).1 h1 with h2 | ⟨h2, h3⟩
    · rw [← hinv.sp_iff p l1 h2]
      constructor
      · rintro (h | ⟨_, h⟩)
        · exact h
        · exact absurd h (hold p l1 h2)
      · exact Or.inl
    · subst h2; subst h3
      rw [← hsp]
      constructor
      · rintro (h | ⟨h, _⟩)
        · exact absurd rfl (hnot _ (hinv.sp_sub.subset h))
        · exact h
      · intro h; exact Or.inr ⟨h, rfl⟩
  · intro p l1 h1
    rw [hmemov]
    rcases (hget p l1).1 h1 with h2 | ⟨h2, h3⟩
    · rw [← hinv.ov_iff p l1 h2]
      constructor
      · rintro (h | ⟨_, h⟩)
        · exact h
        · exact absurd h (hold p l1 h2)
      · exact Or.inl
    · subst h2; subst h3
      rw [← hov]
      constructor
      · rintro (h | ⟨h, _⟩)
        · exact absurd rfl (hnot _ (hinv.ov_sub.subset h))
        · exact h
      · intro h; exact Or.inr ⟨h, rfl⟩
  · intro f hf
    have hf1 : (if tgt = true then some s.mLayers.length else s.mFrameBufferTarget) = some f := hf
    by_cases h1 : tgt = true
    · rw [if_pos h1] at hf1
      injection hf1 with hf1; subst hf1
      exact ⟨l, (hget _ l).2 (Or.inr ⟨rfl, rfl⟩), htgt.1 h1⟩
    · rw [if_neg h1] at hf1
      obtain ⟨l1, h2, h3⟩ := hinv.fbt f hf1
      exact ⟨l1, (hget f l1).2 (Or.inl h2), h3⟩
theorem classifyLayer_inv {σ : Type} (caps : Caps σ) (list cur : List hwc_layer_1_t)
    (raw : hwc_layer_1_t) (s s1 : State σ)
    (hinv : ClassInv caps list s) (hcur : s.mList = some cur)
    (hraw : cur[s.mLayers.length]? = some raw)
    (h : classifyLayer caps s.mLayers.length cur raw s = some s1) :
    ClassInv caps list s1 ∧ s1.mLayers.length = s.mLayers.length + 1 ∧
    s1.planeManager = s.planeManager ∧ s1.mLayerCount = s.mLayerCount ∧
    recognised raw ∧ list[s.mLayers.length]? = some raw ∧
    (raw.compositionType = HWC_FRAMEBUFFER_TARGET →
      s1.mFrameBufferTarget = some s.mLayers.length) ∧
    (raw.compositionType ≠ HWC_FRAMEBUFFER_TARGET →
      s1.mFrameBufferTarget = s.mFrameBufferTarget) := by
  obtain ⟨hrec, l, fb, sp, ov, tgt, mlist, hs1, f1, f2, f3, f4, f5, f6, hfb, hsp, hov,
    htgt, hml⟩ := classifyLayer_push caps _ cur raw s s1 h
  have f7 : l.mType = LayerType.LAYER_FRAMEBUFFER_TARGET ↔
      raw.compositionType = HWC_FRAMEBUFFER_TARGET := by
    rw [f6]; unfold layerObject
    split_ifs with a1 a2 a3 <;> simp [setType, a1]
  have hraw0 : list[s.mLayers.length]? = some raw := by
    obtain ⟨cur1, hc1, _, hc3⟩ := hinv.frame
    rw [hcur] at hc1; injection hc1 with hc1; subst hc1
    rw [← hc3 _ (le_refl _)]; exact hraw
  subst hs1
  refine ⟨?_, by simp [pushLayer], rfl, rfl, hrec, hraw0, ?_, ?_⟩
  · refine ClassInv.push caps list s l fb sp ov tgt mlist raw
      { raw with compositionType := HWC_FRAMEBUFFER } hinv hraw0 hrec
      ⟨f1, f2, f3, f4, f5, f6⟩ hfb hsp hov htgt ?_
    rcases hml with hml | hml
    · exact Or.inl hml
    · exact Or.inr ⟨cur, hcur, hml⟩
  · intro hc
    have : tgt = true := htgt.2 (f7.2 hc)
    simp [pushLayer, this]
  · intro hc
    have : tgt = false := by
      cases htg : tgt
      · rfl
      · exact absurd (f7.1 (htgt.1 htg)) hc
    simp [pushLayer, this]

theorem classifyLoop_true {σ : Type} (caps : Caps σ) (list : List hwc_layer_1_t) :
    ∀ (cnt i : Nat) (s s1 : State σ), ClassInv caps list s → s.mLayers.length = i →
      classifyLoop caps cnt i s = some (true, s1) →
      ClassInv caps list s1 ∧ s1.mLayers.length = i + cnt ∧
      s1.planeManager = s.planeManager ∧ s1.mLayerCount = s.mLayerCount ∧
      (s1.mFrameBufferTarget = none →
        s.mFrameBufferTarget = none ∧
        ∀ (j : Nat) (raw : hwc_layer_1_t), i ≤ j → j < i + cnt → list[j]? = some raw →
          raw.compositionType ≠ HWC_FRAMEBUFFER_TARGET) ∧
      (∀ f, s1.mFrameBufferTarget = some f →
        (s.mFrameBufferTarget = some f ∨ i ≤ f) ∧
        ∀ (j : Nat) (raw : hwc_layer_1_t), i ≤ j → f < j → j < i + cnt →
          list[j]? = some raw → raw.compositionType ≠ HWC_FRAMEBUFFER_TARGET) := by
  intro cnt
  induction cnt with
  | zero =>
    intro i s s1 hinv hlen h
    simp only [classifyLoop, Option.some.injEq, Prod.mk.injEq, true_and] at h
    subst h
    refine ⟨hinv, by simpa using hlen, rfl, rfl, ?_, ?_⟩
    · intro hf
      exact ⟨hf, fun j raw h1 h2 => by omega⟩
    · intro f hf
      exact ⟨Or.inl hf, fun j raw h1 _ h2 => by omega⟩
  | succ cnt ih =>
    intro i s s1 hinv hlen h
    subst hlen
    unfold classifyLoop at h
    split at h
    · cases h
    · rename_i cur hcur
      split at h
      · cases h
      · rename_i raw hraw
        split at h
        · simp only [deinitAndReturnFalse] at h
          split at h
          · cases h
          · simp at h
        · rename_i s2 hstep
          obtain ⟨hinv2, hlen2, hpm2, hcnt2, _, hraw0, ht1, ht2⟩ :=
            classifyLayer_inv caps list cur raw s s2 hinv hcur hraw hstep
          obtain ⟨r1, r2, r3, r4, r5, r6⟩ := ih _ s2 s1 hinv2 hlen2 h
          refine ⟨r1, by omega, by rw [r3, hpm2], by rw [r4, hcnt2], ?_, ?_⟩
          · intro hf
            obtain ⟨h1, h2⟩ := r5 hf
            have hne : raw.compositionType ≠ HWC_FRAMEBUFFER_TARGET := by
              intro hc; rw [ht1 hc] at h1; cases h1
            refine ⟨by rw [← ht2 hne]; exact h1, ?_⟩
            intro j raw1 hj1 hj2 hj3
            rcases Nat.eq_or_lt_of_le hj1 with hj | hj
            · subst hj
              rw [hraw0] at hj3; injection hj3 with hj3; subst hj3
              exact hne
            · exact h2 j raw1 hj (by omega) hj3
          · intro f hf
            obtain ⟨h1, h2⟩ := r6 f hf
            constructor
            · rcases h1 with h1 | h1
              · by_cases hc : raw.compositionType = HWC_FRAMEBUFFER_TARGET
                · rw [ht1 hc] at h1; injection h1 with h1
                  exact Or.inr (by omega)
                · rw [ht2 hc] at h1; exact Or.inl h1
              · exact Or.inr (by omega)
            · intro j raw1 hj1 hj2 hj3 hj4
              rcases Nat.eq_or_lt_of_le hj1 with hj | hj
              · subst hj
                rw [hraw0] at hj4; injection hj4 with hj4; subst hj4
                intro hc
                rcases h1 with h1 | h1
                · rw [ht1 hc] at h1; injection h1 with h1
                  omega
                · omega
              · exact h2 j raw1 (by omega) hj2 (by omega) hj4
theorem classifyLayer_some {σ : Type} (caps : Caps σ) (i : Nat) (list : List hwc_layer_1_t)
    (raw : hwc_layer_1_t) (s : State σ) (hrec : recognised raw) :
    ∃ s1, classifyLayer caps i list raw s = some s1 := by
  unfold classifyLayer
  simp only
  split_ifs with h1 h2 h3 h4 h5 h6
  all_goals first
    | exact ⟨_, rfl⟩
    | (exfalso; rcases hrec with h | h | h | h <;> contradiction)

theorem classifyLoop_some {σ : Type} (caps : Caps σ) (list : List hwc_layer_1_t) :
    ∀ (cnt i : Nat) (s : State σ), ClassInv caps list s → s.mLayers.length = i →
      i + cnt ≤ list.length →
      (∀ (j : Nat) (raw : hwc_layer_1_t), i ≤ j → j < i + cnt → list[j]? = some raw →
        recognised raw) →
      ∃ s1, classifyLoop caps cnt i s = some (true, s1) := by
  intro cnt
  induction cnt with
  | zero => intro i s _ _ _ _; exact ⟨s, rfl⟩
  | succ cnt ih =>
    intro i s hinv hlen hle hrec
    subst hlen
    obtain ⟨cur, hc1, hc2, hc3⟩ := hinv.frame
    obtain ⟨raw, hraw⟩ := getElem?_some_of_lt list s.mLayers.length (by omega)
    have hraw1 : cur[s.mLayers.length]? = some raw := by rw [hc3 _ (le_refl _)]; exact hraw
    obtain ⟨s2, hstep⟩ := classifyLayer_some caps s.mLayers.length cur raw s
      (hrec _ raw (le_refl _) (by omega) hraw)
    obtain ⟨hinv2, hlen2, _⟩ := classifyLayer_inv caps list cur raw s s2 hinv hc1 hraw1 hstep
    obtain ⟨s1, h1⟩ := ih _ s2 hinv2 hlen2 (by omega)
      (fun j raw1 hj1 hj2 hj3 => hrec j raw1 (by omega) (by omega) hj3)
    refine ⟨s1, ?_⟩
    unfold classifyLoop
    simp only [hc1, hraw1, hstep]
    exact h1

theorem classInv_emptyList {σ : Type} (caps : Caps σ) (list : List hwc_layer_1_t) (m : σ)
    (n : Nat) :
    ClassInv caps list { emptyList (some list) m with mLayerCount := n } := by
  refine ⟨rfl, ⟨list, rfl, rfl, fun _ _ => rfl⟩, ?_, List.Pairwise.nil, ?_, ?_,
    List.Sublist.refl _, List.Sublist.refl _, ?_, ?_, ?_⟩
  · intro p l h; simp [emptyList] at h
  · intro p h; simp [emptyList] at h
  · intro p l h; simp [emptyList] at h
  · intro p l h; simp [emptyList] at h
  · intro p l h; simp [emptyList] at h
  · intro f h; simp [emptyList] at h

theorem ClassInv.classified {σ : Type} (caps : Caps σ) (list : List hwc_layer_1_t)
    (s : State σ) (hinv : ClassInv caps list s) (f : Nat)
    (hf : s.mFrameBufferTarget = some f) : Classified s := by
  have hz : ∀ p ∈ s.mFBLayers, zorderAt s p = some (p : Int) := by
    intro p hp
    obtain ⟨l, hl⟩ := getElem?_some_of_lt s.mLayers p (hinv.fb_valid p hp)
    simp only [zorderAt, hl]
    rw [(hinv.layer p l hl).2.1]
  have hmem : ∀ l ∈ s.mLayers, ∃ p : Nat, s.mLayers[p]? = some l := by
    intro l hl
    obtain ⟨p, hp, h⟩ := List.getElem_of_mem hl
    exact ⟨p, by rw [List.getElem?_eq_getElem hp, h]⟩
  refine ⟨⟨?_, hinv.fb_valid, ?_, hinv.ov_sub, hinv.sp_sub, ?_, ?_, ?_, ?_⟩, hinv.config, ?_⟩
  · obtain ⟨l, hl, ht⟩ := hinv.fbt f hf
    refine ⟨f, hf, ?_, ?_⟩
    · by_contra hlt
      rw [List.getElem?_eq_none (by omega)] at hl; cases hl
    · intro hmem1
      rcases (hinv.fb_role f l hl).1 hmem1 with h | h <;> rw [ht] at h <;> cases h
  · exact hinv.fb_sorted.imp (fun h => Nat.ne_of_lt h)
  · intro p hp hp2
    obtain ⟨l, hl⟩ := getElem?_some_of_lt s.mLayers p (hinv.fb_valid p (hinv.ov_sub.subset hp))
    have h1 := ((hinv.ov_iff p l hl).1 hp).2.1
    have h2 := ((hinv.sp_iff p l hl).1 hp2).2
    rw [h1] at h2; cases h2
  · intro l hl
    obtain ⟨p, hp⟩ := hmem l hl
    exact (hinv.layer p l hp).2.2.2.2.1
  · refine List.Nodup.map_on ?_ (hinv.fb_sorted.imp (fun h => Nat.ne_of_lt h))
    intro x hx y hy hxy
    rw [hz x hx, hz y hy] at hxy
    injection hxy with hxy
    exact_mod_cast hxy
  · intro p hp
    rw [hz p hp]
    intro h; injection h with h
    omega
  · intro l hl
    obtain ⟨p, hp⟩ := hmem l hl
    exact (hinv.layer p l hp).2.2.1
theorem deinitializeLoop_none {σ : Type} (caps : Caps σ) :
    ∀ (cnt i : Nat) (s : State σ), i ≤ s.mLayers.length → s.mLayers.length < i + cnt →
      deinitializeLoop caps cnt i s = none := by
  intro cnt
  induction cnt with
  | zero => intro i s h1 h2; omega
  | succ cnt ih =>
    intro i s h1 h2
    unfold deinitializeLoop
    split
    · rfl
    · rename_i l hl
      have hlt : i < s.mLayers.length := by
        by_contra hc
        rw [List.getElem?_eq_none (by omega)] at hl; cases hl
      split
      · exact ih _ _ (by omega) (by omega)
      · exact ih _ _ (by simp; omega) (by simp; omega)

theorem deinitAndReturnFalse_none {σ : Type} (caps : Caps σ) (s : State σ)
    (h : s.mLayers.length < s.mLayerCount) : deinitAndReturnFalse caps s = none := by
  unfold deinitAndReturnFalse deinitialize
  rw [if_neg (by omega), deinitializeLoop_none caps _ 0 s (Nat.zero_le _) (by omega)]

theorem classifyLayer_count {σ : Type} (caps : Caps σ) (i : Nat) (list : List hwc_layer_1_t)
    (layer : hwc_layer_1_t) (s s1 : State σ)
    (h : classifyLayer caps i list layer s = some s1) :
    s1.mLayers.length = s.mLayers.length + 1 ∧ s1.mLayerCount = s.mLayerCount := by
  obtain ⟨_, l, fb, sp, ov, tgt, mlist, hs1, _⟩ := classifyLayer_push caps i list layer s s1 h
  subst hs1
  exact ⟨by simp [pushLayer], rfl⟩

theorem classifyLoop_not_false {σ : Type} (caps : Caps σ) :
    ∀ (cnt i : Nat) (s s2 : State σ), s.mLayers.length = i → i + cnt ≤ s.mLayerCount →
      classifyLoop caps cnt i s ≠ some (false, s2) := by
  intro cnt
  induction cnt with
  | zero => intro i s s2 _ _ h; simp [classifyLoop] at h
  | succ cnt ih =>
    intro i s s2 hi hle hl
    unfold classifyLoop at hl
    split at hl
    · cases hl
    · split at hl
      · cases hl
      · split at hl
        · rw [deinitAndReturnFalse_none caps s (by omega)] at hl; cases hl
        · rename_i s1 hstep
          obtain ⟨h1, h2⟩ := classifyLayer_count caps _ _ _ s s1 hstep
          exact ih _ s1 s2 (by omega) (by omega) hl

theorem classify_inv {σ : Type} (caps : Caps σ) (list : List hwc_layer_1_t) (m : σ)
    (b : Bool) (s1 : State σ) (hne : list ≠ [])
    (h : classify caps (emptyList (some list) m) = some (b, s1)) :
    classifyLoop caps list.length 0
      { emptyList (some list) m with mLayerCount := list.length } = some (true, s1) ∧
    ClassInv caps list s1 ∧ s1.mLayers.length = list.length ∧ s1.planeManager = m ∧
    s1.mLayerCount = list.length ∧
    (b = true ↔ s1.mFrameBufferTarget ≠ none) := by
  have hlen : list.length ≠ 0 := fun h0 => hne (List.length_eq_zero.1 h0)
  unfold classify at h
  simp only [emptyList, if_neg hlen] at h
  split at h
  · cases h
  · rename_i s2 hloop
    exact absurd hloop (classifyLoop_not_false caps _ 0 _ s2 rfl (by simp))
  · rename_i s2 hloop
    obtain ⟨r1, r2, r3, r4, _⟩ := classifyLoop_true caps list _ 0 _ s2
      (classInv_emptyList caps list m list.length) rfl hloop
    split at h
    · rename_i hf
      simp only [Option.some.injEq, Prod.mk.injEq] at h
      obtain ⟨hb, hs⟩ := h
      subst hs; subst hb
      exact ⟨hloop, r1, by simpa using r2, r3, r4, by simp [hf]⟩
    · rename_i f hf
      simp only [Option.some.injEq, Prod.mk.injEq] at h
      obtain ⟨hb, hs⟩ := h
      subst hs; subst hb
      exact ⟨hloop, r1, by simpa using r2, r3, r4, by simp [hf]⟩
theorem classify_some {σ : Type} (caps : Caps σ) (list : List hwc_layer_1_t) (m : σ)
    (hne : list ≠ []) (hrec : ∀ raw ∈ list, recognised raw) :
    ∃ s1, classifyLoop caps list.length 0
        { emptyList (some list) m with mLayerCount := list.length } = some (true, s1) ∧
      classify caps (emptyList (some list) m) =
        some (decide (∃ raw ∈ list, raw.compositionType = HWC_FRAMEBUFFER_TARGET), s1) ∧
      ∀ f, s1.mFrameBufferTarget = some f →
        (∃ raw, list[f]? = some raw ∧ raw.compositionType = HWC_FRAMEBUFFER_TARGET) ∧
        ∀ (j : Nat) (raw : hwc_layer_1_t), f < j → list[j]? = some raw →
          raw.compositionType ≠ HWC_FRAMEBUFFER_TARGET := by
  have hlen : list.length ≠ 0 := fun h0 => hne (List.length_eq_zero.1 h0)
  obtain ⟨s1, hloop⟩ := classifyLoop_some caps list list.length 0 _
    (classInv_emptyList caps list m list.length) rfl (by omega)
    (fun j raw _ _ hj => hrec raw (List.getElem?_mem hj))
  obtain ⟨r1, r2, r3, r4, r5, r6⟩ := classifyLoop_true caps list _ 0 _ s1
    (classInv_emptyList caps list m list.length) rfl hloop
  have hlast : ∀ f, s1.mFrameBufferTarget = some f →
      (∃ raw, list[f]? = some raw ∧ raw.compositionType = HWC_FRAMEBUFFER_TARGET) ∧
      ∀ (j : Nat) (raw : hwc_layer_1_t), f < j → list[j]? = some raw →
        raw.compositionType ≠ HWC_FRAMEBUFFER_TARGET := by
    intro f hf
    obtain ⟨l, hl, ht⟩ := r1.fbt f hf
    obtain ⟨_, _, _, _, _, raw, hraw, _, hobj⟩ := r1.layer f l hl
    refine ⟨⟨raw, hraw, ?_⟩, ?_⟩
    · by_contra hc
      rw [hobj] at ht
      unfold layerObject at ht
      rw [if_neg hc] at ht
      split_ifs at ht <;> simp [setType] at ht
    · intro j raw1 hj hraw1
      have hjlt : j < list.length := by
        by_contra hc
        rw [List.getElem?_eq_none (by omega)] at hraw1; cases hraw1
      exact (r6 f hf).2 j raw1 (Nat.zero_le _) hj (by omega) hraw1
  refine ⟨s1, hloop, ?_, hlast⟩
  unfold classify
  simp only [emptyList, if_neg hlen]
  simp only [emptyList] at hloop
  rw [hloop]
  simp only
  split
  · rename_i hf
    have h2 := (r5 hf).2
    have : ¬ ∃ raw ∈ list, raw.compositionType = HWC_FRAMEBUFFER_TARGET := by
      rintro ⟨raw, hmem, hc⟩
      obtain ⟨j, hj, hget⟩ := List.getElem_of_mem hmem
      exact h2 j raw (Nat.zero_le _) (by omega) (by rw [List.getElem?_eq_getElem hj, hget]) hc
    rw [decide_eq_false this]
  · rename_i f hf
    obtain ⟨⟨raw, hraw, hc⟩, _⟩ := hlast f hf
    have : ∃ raw ∈ list, raw.compositionType = HWC_FRAMEBUFFER_TARGET :=
      ⟨raw, List.getElem?_mem hraw, hc⟩
    rw [decide_eq_true this]

theorem classify_unrecognised {σ : Type} (caps : Caps σ) (list : List hwc_layer_1_t) (m : σ)
    (raw : hwc_layer_1_t) (hmem : raw ∈ list) (hraw : ¬ recognised raw) :
    classify caps (emptyList (some list) m) = none := by
  have hne : list ≠ [] := List.ne_nil_of_mem hmem
  cases hc : classify caps (emptyList (some list) m) with
  | none => rfl
  | some r =>
    exfalso
    obtain ⟨b, s1⟩ := r
    obtain ⟨_, hinv, hlen, _⟩ := classify_inv caps list m b s1 hne hc
    obtain ⟨j, hj, hget⟩ := List.getElem_of_mem hmem
    obtain ⟨l, hl⟩ := getElem?_some_of_lt s1.mLayers j (by omega)
    obtain ⟨_, _, _, _, _, raw1, hraw1, hrec1, _⟩ := hinv.layer j l hl
    rw [List.getElem?_eq_getElem hj, hget] at hraw1
    injection hraw1 with hraw1
    subst hraw1
    exact hraw hrec1

/-! ## The capability check -/

theorem usage_test_zero (usage : Nat) :
    (if usage = 0 then 1 else 0) &&& GRALLOC_USAGE_HW_COMPOSER = 0 := by
  split_ifs <;> decide

/-- C13 (code defect): `checkSupported` is the conjunction of eight conditions only, for
every layer and plane type: not forced-GPU, skip flag clear, buffer handle non-zero, and
the five answers of the capability oracle. The usage of the buffer never matters, because
the test `!getUsage() & GRALLOC_USAGE_HW_COMPOSER` is never true; a layer whose usage is 0,
so lacks the hardware-composer flag, is taken for a sprite and for an overlay plane. -/
theorem checkSupported_never_rejects_for_usage :
    (∀ {σ : Type} (caps : Caps σ) (t : PlaneType) (l : HwcLayer),
      checkSupported caps t l =
        (decide (l.mType ≠ LayerType.LAYER_FORCE_FB) &&
         decide (l.mLayer.flags &&& HWC_SKIP_LAYER = 0) &&
         decide (l.mLayer.handle ≠ 0) &&
         caps.isTransformSupported t l && caps.isFormatSupported t l &&
         caps.isSizeSupported t l && caps.isBlendingSupported t l &&
         caps.isScalingSupported t l)) ∧
    (exLayer 0 LayerType.LAYER_FB false exRect).mUsage &&& GRALLOC_USAGE_HW_COMPOSER = 0 ∧
    checkSupported exAllCaps PlaneType.PLANE_SPRITE
      (exLayer 0 LayerType.LAYER_FB false exRect) = true ∧
    checkSupported exAllCaps PlaneType.PLANE_OVERLAY
      (exLayer 0 LayerType.LAYER_FB false exRect) = true := by
  refine ⟨?_, by decide, by decide, by decide⟩
  intro σ caps t l
  unfold checkSupported
  simp only [usage_test_zero, ne_eq, not_true_eq_false, if_false]
  by_cases h1 : l.mType = LayerType.LAYER_FORCE_FB
  · simp [h1]
  · by_cases h2 : l.mLayer.flags &&& HWC_SKIP_LAYER = 0
    · by_cases h3 : l.mLayer.handle = 0
      · simp [h1, h2, h3]
      · cases h4 : caps.isTransformSupported t l <;> cases h5 : caps.isFormatSupported t l <;>
        cases h6 : caps.isSizeSupported t l <;> cases h7 : caps.isBlendingSupported t l <;>
        cases h8 : caps.isScalingSupported t l <;> simp [h1, h2, h3]
    · simp [h1, h2]

/-! ## Candidacy -/

theorem layerObject_fb {σ : Type} (caps : Caps σ) (p : Nat) (raw : hwc_layer_1_t)
    (hct : raw.compositionType = HWC_FRAMEBUFFER) :
    layerObject caps p raw = setType (newHwcLayer caps p raw) LayerType.LAYER_FB := by
  have c2 : ¬ HWC_FRAMEBUFFER = HWC_FRAMEBUFFER_TARGET := by decide
  have c5 : ¬ HWC_FRAMEBUFFER = HWC_OVERLAY := by decide
  have c6 : ¬ HWC_FRAMEBUFFER = HWC_FORCE_FRAMEBUFFER := by decide
  unfold layerObject
  rw [hct, if_neg c2, if_neg c5, if_neg c6]

theorem ClassInv.object {σ : Type} (caps : Caps σ) (list : List hwc_layer_1_t)
    (s : State σ) (hinv : ClassInv caps list s) (hlen : s.mLayers.length = list.length)
    (p : Nat) (raw : hwc_layer_1_t) (hraw : list[p]? = some raw) :
    s.mLayers[p]? = some (layerObject caps p raw) := by
  have hp : p < list.length := by
    by_contra hc
    rw [List.getElem?_eq_none (by omega)] at hraw; cases hraw
  obtain ⟨l, hl⟩ := getElem?_some_of_lt s.mLayers p (by omega)
  obtain ⟨_, _, _, _, _, raw1, hraw1, _, hobj⟩ := hinv.layer p l hl
  rw [hraw] at hraw1; injection hraw1 with hraw1; subst hraw1
  rw [hl, hobj]

/-- C12, as the code has it: after the classification of a frame, a default-GPU layer
(composition type `HWC_FRAMEBUFFER` at position `p`, stored as the object `L` with the
role default-GPU) is in the sprite candidate set exactly when `checkSupported` takes it
for the sprite plane type, and it is in the overlay candidate set exactly when
`checkSupported` does not take it for the sprite plane type, overlay use is allowed and
`checkSupported` takes it for the overlay plane type; it is never in both sets. -/
theorem candidacy_sprite_before_overlay {σ : Type} (caps : Caps σ)
    (list : List hwc_layer_1_t) (m : σ) (b : Bool) (s1 : State σ) (p : Nat)
    (raw : hwc_layer_1_t)
    (h : classify caps (emptyList (some list) m) = some (b, s1))
    (hraw : list[p]? = some raw) (hct : raw.compositionType = HWC_FRAMEBUFFER) :
    s1.mLayers[p]? = some (setType (newHwcLayer caps p raw) LayerType.LAYER_FB) ∧
    (p ∈ s1.mSpriteCandidates ↔
      checkSupported caps PlaneType.PLANE_SPRITE
        (setType (newHwcLayer caps p raw) LayerType.LAYER_FB) = true) ∧
    (p ∈ s1.mOverlayCandidates ↔
      checkSupported caps PlaneType.PLANE_SPRITE
        (setType (newHwcLayer caps p raw) LayerType.LAYER_FB) = false ∧
      caps.isOverlayAllowed = true ∧
      checkSupported caps PlaneType.PLANE_OVERLAY
        (setType (newHwcLayer caps p raw) LayerType.LAYER_FB) = true) ∧
    ¬ (p ∈ s1.mSpriteCandidates ∧ p ∈ s1.mOverlayCandidates) := by
  have hne : list ≠ [] := by
    intro hc; rw [hc] at hraw; simp at hraw
  obtain ⟨_, hinv, hlen, _⟩ := classify_inv caps list m b s1 hne h
  have hobj := ClassInv.object caps list s1 hinv hlen p raw hraw
  rw [layerObject_fb caps p raw hct] at hobj
  have hsp := hinv.sp_iff p _ hobj
  have hov := hinv.ov_iff p _ hobj
  have hty : (setType (newHwcLayer caps p raw) LayerType.LAYER_FB).mType =
      LayerType.LAYER_FB := rfl
  refine ⟨hobj, ?_, ?_, ?_⟩
  · rw [hsp]; simp [hty]
  · rw [hov]; simp [hty]
  · rintro ⟨h1, h2⟩
    have a := (hsp.1 h1).2
    have c := (hov.1 h2).2.1
    rw [a] at c; cases c

theorem candidacy_sprite_before_overlay_witness :
    (0 ∈ ([0] : List Nat) ↔
      checkSupported exAllCaps PlaneType.PLANE_SPRITE
        (setType (newHwcLayer exAllCaps 0 (exRawLayer HWC_FRAMEBUFFER exRect))
          LayerType.LAYER_FB) = true) :=
  (candidacy_sprite_before_overlay exAllCaps exBothFrame () true
    { emptyList (some exBothFrame) () with
      mLayerCount := 2,
      mLayers := [setType (newHwcLayer exAllCaps 0 (exRawLayer HWC_FRAMEBUFFER exRect))
          LayerType.LAYER_FB,
        setType (newHwcLayer exAllCaps 1 (exRawLayer HWC_FRAMEBUFFER_TARGET exRect))
          LayerType.LAYER_FRAMEBUFFER_TARGET],
      mFBLayers := [0], mSpriteCandidates := [0], mFrameBufferTarget := some 1 }
    0 (exRawLayer HWC_FRAMEBUFFER exRect) (by decide) (by decide) (by decide)).2.1

/-- C12, counterexample: in the frame of one default-GPU layer and the framebuffer target,
with overlay use allowed and a capability check that takes the layer for both plane
types, the layer is a sprite candidate and is not an overlay candidate. -/
theorem candidacy_not_independent :
    exAllCaps.isOverlayAllowed = true ∧
    checkSupported exAllCaps PlaneType.PLANE_SPRITE
      (setType (newHwcLayer exAllCaps 0 (exRawLayer HWC_FRAMEBUFFER exRect))
        LayerType.LAYER_FB) = true ∧
    checkSupported exAllCaps PlaneType.PLANE_OVERLAY
      (setType (newHwcLayer exAllCaps 0 (exRawLayer HWC_FRAMEBUFFER exRect))
        LayerType.LAYER_FB) = true ∧
    (classify exAllCaps (emptyList (some exBothFrame) ())).map
        (fun r => (r.1, r.2.mLayers[0]?, r.2.mSpriteCandidates, r.2.mOverlayCandidates)) =
      some (true,
        some (setType (newHwcLayer exAllCaps 0 (exRawLayer HWC_FRAMEBUFFER exRect))
          LayerType.LAYER_FB), [0], []) := by
  decide

/-! ## Acceptance of a frame -/

/-- C14, as the code has it: `initialize` returns false for a null frame and for a frame
of zero layers. For a frame of at least one layer whose composition types are all among
the four known ones: if no layer has the framebuffer-target composition type,
`initialize` returns false, and no plane assignment was run (the configuration is empty,
the manager's state is untouched, no layer is in use or has a plane); if at least one
layer has it, the frame passes the checks with the last such layer as the framebuffer
target, `allocatePlanesV2` is run, and `initialize` returns true whatever the search
returned. -/
theorem initialize_rejects_frame_without_target {σ : Type} (env : Env σ) (caps : Caps σ)
    (m : σ) :
    construct env caps none m = some (false, emptyList none m) ∧
    construct env caps (some []) m = some (false, emptyList (some []) m) ∧
    ∀ list : List hwc_layer_1_t, list ≠ [] → (∀ raw ∈ list, recognised raw) →
      ((∀ raw ∈ list, raw.compositionType ≠ HWC_FRAMEBUFFER_TARGET) →
        ∃ s1, construct env caps (some list) m = some (false, s1) ∧
          s1.mZOrderConfig = [] ∧ s1.planeManager = m ∧
          ∀ l ∈ s1.mLayers, l.mPlane = none ∧ l.mPlaneCandidate = false) ∧
      ((∃ raw ∈ list, raw.compositionType = HWC_FRAMEBUFFER_TARGET) →
        ∃ s1 f, classify caps (emptyList (some list) m) = some (true, s1) ∧
          s1.mFrameBufferTarget = some f ∧
          (∃ raw, list[f]? = some raw ∧ raw.compositionType = HWC_FRAMEBUFFER_TARGET) ∧
          (∀ (j : Nat) (raw : hwc_layer_1_t), f < j → list[j]? = some raw →
            raw.compositionType ≠ HWC_FRAMEBUFFER_TARGET) ∧
          construct env caps (some list) m =
            (allocatePlanesV2 env s1).map (fun r => (true, r.2))) := by
  refine ⟨rfl, rfl, ?_⟩
  intro list hne hrec
  obtain ⟨s1, hloop, hcl, hlast⟩ := classify_some caps list m hne hrec
  constructor
  · intro hno
    have hd : ¬ ∃ raw ∈ list, raw.compositionType = HWC_FRAMEBUFFER_TARGET := by
      rintro ⟨raw, h1, h2⟩; exact hno raw h1 h2
    rw [decide_eq_false hd] at hcl
    obtain ⟨_, hinv, _, hpm, _, _⟩ := classify_inv caps list m false s1 hne hcl
    refine ⟨s1, ?_, hinv.config, hpm, ?_⟩
    · show initializeList env caps (emptyList (some list) m) = _
      unfold initializeList
      rw [hcl]
    · intro l hl
      obtain ⟨p, hp⟩ := List.mem_iff_getElem?.1 hl
      obtain ⟨_, _, h3, h4, _⟩ := hinv.layer p l hp
      exact ⟨h4, h3⟩
  · intro hex
    rw [decide_eq_true hex] at hcl
    obtain ⟨_, _, _, _, _, hb⟩ := classify_inv caps list m true s1 hne hcl
    obtain ⟨f, hf⟩ := Option.ne_none_iff_exists'.1 (hb.1 rfl)
    refine ⟨s1, f, hcl, hf, (hlast f hf).1, (hlast f hf).2, ?_⟩
    show initializeList env caps (emptyList (some list) m) = _
    unfold initializeList
    rw [hcl]
    simp only
    cases allocatePlanesV2 env s1 with
    | none => rfl
    | some r => rfl

theorem initialize_rejects_frame_without_target_witness :
    ∃ s1 f, classify exAllCaps (emptyList (some exBothFrame) ()) = some (true, s1) ∧
      s1.mFrameBufferTarget = some f ∧
      (∃ raw, exBothFrame[f]? = some raw ∧
        raw.compositionType = HWC_FRAMEBUFFER_TARGET) ∧
      (∀ (j : Nat) (raw : hwc_layer_1_t), f < j → exBothFrame[j]? = some raw →
        raw.compositionType ≠ HWC_FRAMEBUFFER_TARGET) ∧
      construct (exEnv 0 0 (fun _ => true)) exAllCaps (some exBothFrame) () =
        (allocatePlanesV2 (exEnv 0 0 (fun _ => true)) s1).map (fun r => (true, r.2)) :=
  ((initialize_rejects_frame_without_target (exEnv 0 0 (fun _ => true)) exAllCaps ()).2.2
    exBothFrame (by decide) (by decide)).2 (by decide)

/-- C14, counterexample: a frame of three layers of which two have the framebuffer-target
composition type is not rejected: `initialize` returns true, with the last of the two as
the framebuffer target. -/
theorem frame_with_two_targets_is_accepted :
    (exTwoTargets.filter
      (fun raw => decide (raw.compositionType = HWC_FRAMEBUFFER_TARGET))).length = 2 ∧
    (construct (exEnv 0 0 (fun _ => true)) exAllCaps (some exTwoTargets) ()).map
      (fun r => (r.1, r.2.mFrameBufferTarget)) = some (true, some 2) := by
  decide

/-! ## Two scenarios -/

theorem allocatePlanesV2_no_planes {σ : Type} (env : Env σ) (s : State σ)
    (ho : env.getFreePlanes PlaneType.PLANE_OVERLAY = 0)
    (hs : env.getFreePlanes PlaneType.PLANE_SPRITE = 0) :
    allocatePlanesV2 env s = assignPrimaryPlane env s := by
  unfold allocatePlanesV2 assignOverlayPlanes assignSpritePlanes
  simp only [ho, hs, if_true, ite_self]

theorem spriteLayerScan_fresh {σ : Type} (s : State σ)
    (hf : ∀ c ∈ s.mSpriteCandidates, Fresh s c) :
    ∀ (i : Nat) (acc : Option Nat), i ≤ s.mSpriteCandidates.length →
      spriteLayerScan s i acc =
        some (match i with
          | 0 => acc
          | _ + 1 => s.mSpriteCandidates[0]?) := by
  intro i
  induction i with
  | zero => intro acc _; rfl
  | succ k ih =>
    intro acc hk
    obtain ⟨c, hc⟩ := getElem?_some_of_lt s.mSpriteCandidates k (by omega)
    obtain ⟨l, hl, hfl⟩ := hf c (List.getElem?_mem hc)
    unfold spriteLayerScan
    simp only [hc, hl, hfl, Bool.false_eq_true, if_false]
    rw [ih (some c) (by omega)]
    cases k with
    | zero => simp [hc]
    | succ j => rfl

theorem primary_alone {σ : Type} {env : Env σ} {p : Nat} {zorder : Int} {s s1 : State σ}
    (hcfg : s.mZOrderConfig = [])
    (h : assignPrimaryPlaneHelper env p zorder s = some (true, s1)) :
    ∃ sp r, addZOrderLayer env PlaneType.PLANE_PRIMARY p zorder s = some (r, sp) ∧
      attachPlanes env sp = some (true, s1) ∧ sp.mZOrderConfig = [r] ∧
      r.planeType = PlaneType.PLANE_PRIMARY ∧ r.hwcLayer = p ∧
      attachedZOrder s1 p = some 0 ∧
      (∀ q, q ≠ p → s1.mLayers[q]? = s.mLayers[q]?) ∧
      (some p ≠ s.mFrameBufferTarget →
        layerTypeAt s1 p = some LayerType.LAYER_OVERLAY) := by
  obtain ⟨r, sp, hadd, hatt⟩ := assignPrimaryPlaneHelper_true h
  obtain ⟨hr1, hr2, _⟩ := addZOrderLayer_record hadd
  have hperm := addZOrderLayer_config hadd
  rw [hcfg] at hperm
  have hsp : sp.mZOrderConfig = [r] := List.perm_singleton.1 hperm
  have hfbt : sp.mFrameBufferTarget = s.mFrameBufferTarget := by
    obtain ⟨l, _, _, hs1⟩ := addZOrderLayer_some hadd
    rw [hs1]
  obtain ⟨_, e2, e3⟩ := attachPlanes_effect hatt (by rw [hsp]; simp)
  have e4 := e3 0 r (by rw [hsp]; rfl)
  rw [hr2] at e4
  refine ⟨sp, r, hadd, hatt, hsp, hr1, hr2, ?_, ?_, ?_⟩
  · simpa using e4.1
  · intro q hq
    rw [e2 q (by rw [hsp]; simp [hr2, hq])]
    exact (addZOrderLayer_layers hadd).2 q hq
  · intro hne
    exact e4.2 (by rw [hfbt]; exact hne)

/-- C15, as the code has it: in a freshly classified list, when the manager reports no
free overlay plane and no free sprite plane and the search succeeds, the committed
configuration is exactly one record, of the primary plane, whose plane gets z-order 0,
and every layer other than the one it carries is left as it was. When the frame has
exactly one GPU layer and that layer is a sprite candidate, the record carries that layer
at its own z-order and the layer becomes a hardware-overlay layer; in every other case
the record carries the framebuffer target at z-order 0. -/
theorem zero_free_planes_commit_one_primary_record {σ : Type} (env : Env σ)
    (s0 s1 : State σ) (hc : Classified s0)
    (ho : env.getFreePlanes PlaneType.PLANE_OVERLAY = 0)
    (hs : env.getFreePlanes PlaneType.PLANE_SPRITE = 0)
    (h : allocatePlanesV2 env s0 = some (true, s1)) :
    ∃ sp r, attachPlanes env sp = some (true, s1) ∧ sp.mZOrderConfig = [r] ∧
      r.planeType = PlaneType.PLANE_PRIMARY ∧
      attachedZOrder s1 r.hwcLayer = some 0 ∧
      (∀ q, q ≠ r.hwcLayer → s1.mLayers[q]? = s0.mLayers[q]?) ∧
      ((s0.mFBLayers.length = 1 ∧ s0.mSpriteCandidates = [r.hwcLayer] ∧
          zorderAt s0 r.hwcLayer = some r.zorder ∧
          layerTypeAt s1 r.hwcLayer = some LayerType.LAYER_OVERLAY) ∨
       (¬ (s0.mFBLayers.length = 1 ∧ s0.mSpriteCandidates ≠ []) ∧
          s0.mFrameBufferTarget = some r.hwcLayer ∧ r.zorder = 0)) := by
  rw [allocatePlanesV2_no_planes env s0 ho hs] at h
  have hfresh : ∀ c ∈ s0.mSpriteCandidates, Fresh s0 c := fun c hcm =>
    hc.fresh c (hc.wf.fb_valid c (hc.wf.sp_sub.subset hcm))
  obtain ⟨f, hf, _, hfnot⟩ := hc.wf.fbt
  unfold assignPrimaryPlane at h
  rw [spriteLayerScan_fresh s0 hfresh _ none (le_refl _)] at h
  simp only [hc.config_empty, List.length_nil, Nat.cast_zero] at h
  by_cases hA : s0.mFBLayers.length = 1 ∧ s0.mSpriteCandidates ≠ []
  · obtain ⟨hA1, hA2⟩ := hA
    obtain ⟨c, cs, hcs⟩ := List.exists_cons_of_ne_nil hA2
    have hsub := hc.wf.sp_sub
    have hcs2 : cs = [] := by
      have := hsub.length_le
      rw [hcs, hA1] at this
      simp at this
      exact this
    subst hcs2
    simp only [hcs, hA1, List.length_cons, List.length_nil] at h
    simp at h
    obtain ⟨sp, r, hadd, hatt, hsp, hr1, hr2, hz, hq, hty⟩ := primary_alone hc.config_empty h
    have hne : some c ≠ s0.mFrameBufferTarget := by
      rw [hf]
      intro hcf
      injection hcf with hcf
      subst hcf
      exact hfnot (hsub.subset (by rw [hcs]; simp))
    refine ⟨sp, r, hatt, hsp, hr1, by rw [hr2]; exact hz, by rw [hr2]; exact hq, Or.inl ?_⟩
    rw [hr2]
    exact ⟨hA1, hcs, (addZOrderLayer_zorder hadd).2 rfl, hty hne⟩
  · have hcond : ¬ ((0 : Int) = (s0.mFBLayers.length : Int) - 1 ∧
        (match s0.mSpriteCandidates.length with
          | 0 => (none : Option Nat)
          | _ + 1 => s0.mSpriteCandidates[0]?) ≠ none) := by
      rintro ⟨h1, h2⟩
      apply hA
      refine ⟨by omega, ?_⟩
      intro hnil
      rw [hnil] at h2
      exact h2 rfl
    rw [if_neg hcond] at h
    simp only [if_true, hf] at h
    obtain ⟨sp, r, hadd, hatt, hsp, hr1, hr2, hz, hq, _⟩ := primary_alone hc.config_empty h
    refine ⟨sp, r, hatt, hsp, hr1, by rw [hr2]; exact hz, by rw [hr2]; exact hq, Or.inr ?_⟩
    rw [hr2]
    exact ⟨hA, hf, (addZOrderLayer_zorder hadd).1 (by decide)⟩

theorem zero_free_planes_commit_one_primary_record_witness :
    ∃ sp r, attachPlanes (exEnv 0 0 (fun _ => true)) sp = some (true, exPairPrimary) ∧
      sp.mZOrderConfig = [r] ∧
      r.planeType = PlaneType.PLANE_PRIMARY ∧
      attachedZOrder exPairPrimary r.hwcLayer = some 0 ∧
      (∀ q, q ≠ r.hwcLayer → exPairPrimary.mLayers[q]? = exPairState.mLayers[q]?) ∧
      ((exPairState.mFBLayers.length = 1 ∧ exPairState.mSpriteCandidates = [r.hwcLayer] ∧
          zorderAt exPairState r.hwcLayer = some r.zorder ∧
          layerTypeAt exPairPrimary r.hwcLayer = some LayerType.LAYER_OVERLAY) ∨
       (¬ (exPairState.mFBLayers.length = 1 ∧ exPairState.mSpriteCandidates ≠ []) ∧
          exPairState.mFrameBufferTarget = some r.hwcLayer ∧ r.zorder = 0)) :=
  zero_free_planes_commit_one_primary_record (exEnv 0 0 (fun _ => true)) exPairState
    exPairPrimary exPairState_classified rfl rfl (by decide)

/-- C15, counterexample: for the frame of one default-GPU layer that is a sprite
candidate and the framebuffer target, with no free overlay plane and no free sprite
plane and a manager that accepts everything, the constructor's search succeeds and the
primary plane carries the default-GPU layer, which becomes a hardware-overlay layer; the
framebuffer target has no plane. -/
theorem zero_free_planes_primary_carries_sprite_layer :
    (exEnv 0 0 (fun _ => true)).getFreePlanes PlaneType.PLANE_OVERLAY = 0 ∧
    (exEnv 0 0 (fun _ => true)).getFreePlanes PlaneType.PLANE_SPRITE = 0 ∧
    (construct (exEnv 0 0 (fun _ => true)) exAllCaps (some exBothFrame) ()).map
      (fun r => (r.1, r.2.mFrameBufferTarget)) = some (true, some 1) ∧
    (construct (exEnv 0 0 (fun _ => true)) exAllCaps (some exBothFrame) ()).map
      (fun r => r.2.mLayers.map (fun l => l.mType)) =
      some [LayerType.LAYER_OVERLAY, LayerType.LAYER_FRAMEBUFFER_TARGET] ∧
    (construct (exEnv 0 0 (fun _ => true)) exAllCaps (some exBothFrame) ()).map
      (fun r => r.2.mLayers.map (fun l => l.mPlane.map (fun p => p.mType))) =
      some [some PlaneType.PLANE_PRIMARY, none] := by
  decide

theorem classify_three {σ : Type} (caps : Caps σ) (m : σ) (skip gpu tgt : hwc_layer_1_t)
    (hskip : skip.compositionType = HWC_OVERLAY)
    (hgpu : gpu.compositionType = HWC_FRAMEBUFFER)
    (htgt : tgt.compositionType = HWC_FRAMEBUFFER_TARGET)
    (hcap : checkSupported caps PlaneType.PLANE_SPRITE
      (setType (newHwcLayer caps 1 gpu) LayerType.LAYER_FB) = true) :
    classify caps (emptyList (some [skip, gpu, tgt]) m) = some (true,
      { mList := some [skip, gpu, tgt], mLayerCount := 3,
        mLayers := [setType (newHwcLayer caps 0 skip) LayerType.LAYER_SKIPPED,
          setType (newHwcLayer caps 1 gpu) LayerType.LAYER_FB,
          setType (newHwcLayer caps 2 tgt) LayerType.LAYER_FRAMEBUFFER_TARGET],
        mFBLayers := [1], mSpriteCandidates := [1], mOverlayCandidates := [],
        mZOrderConfig := [], mFrameBufferTarget := some 2, planeManager := m }) := by
  have c2 : ¬ HWC_FRAMEBUFFER = HWC_FRAMEBUFFER_TARGET := by decide
  have c3 : ¬ HWC_OVERLAY = HWC_FRAMEBUFFER_TARGET := by decide
  have c5 : ¬ HWC_FRAMEBUFFER = HWC_OVERLAY := by decide
  have c6 : ¬ HWC_FRAMEBUFFER = HWC_FORCE_FRAMEBUFFER := by decide
  simp [classify, emptyList, classifyLoop, classifyLayer, hskip, hgpu, htgt, hcap, c2, c3, c5,
    c6]

theorem insertAt_nil {α : Type} (a : α) (k : Nat) : insertAt a k [] = [a] := by
  cases k <;> rfl

/-- C16, as the code has it: for the frame of a pre-skipped layer, a default-GPU layer
that `checkSupported` takes for a sprite plane, and the framebuffer target, with one free
sprite plane, no free overlay plane and a manager that accepts every configuration, the
constructor's search succeeds by committing the configuration that holds one record only:
the sprite record of the sprite-capable layer, with the layer's own z-order 1. That layer
becomes a hardware-overlay layer carrying the plane the manager hands out for the record,
set to z-order 0 (the record's position); the configuration has no record of the primary
plane, and the framebuffer target and the pre-skipped layer are left without a plane. -/
theorem three_layer_scenario_commits_sprite_record_only {σ : Type} (env : Env σ)
    (caps : Caps σ) (m : σ) (skip gpu tgt : hwc_layer_1_t)
    (hskip : skip.compositionType = HWC_OVERLAY)
    (hgpu : gpu.compositionType = HWC_FRAMEBUFFER)
    (htgt : tgt.compositionType = HWC_FRAMEBUFFER_TARGET)
    (hcap : checkSupported caps PlaneType.PLANE_SPRITE
      (setType (newHwcLayer caps 1 gpu) LayerType.LAYER_FB) = true)
    (hs : env.getFreePlanes PlaneType.PLANE_SPRITE = 1)
    (_ho : env.getFreePlanes PlaneType.PLANE_OVERLAY = 0)
    (hv : ∀ m cfg, (env.isValidZOrder m cfg).1 = true)
    (ha : ∀ m cfg, (env.assignPlanes m cfg).1 = true) :
    ∃ (sp s1 : State σ) (m1 : σ),
      sp.mZOrderConfig =
        [{ planeType := PlaneType.PLANE_SPRITE, hwcLayer := 1, zorder := 1, plane := none }] ∧
      attachPlanes env sp = some (true, s1) ∧
      construct env caps (some [skip, gpu, tgt]) m = some (true, s1) ∧
      s1.mLayers =
        [setType (newHwcLayer caps 0 skip) LayerType.LAYER_SKIPPED,
         { (newHwcLayer caps 1 gpu) with
           mType := LayerType.LAYER_OVERLAY, mPlaneCandidate := true,
           mPlane := some { (env.planeAt m1 sp.mZOrderConfig 0) with mZOrder := 0 } },
         setType (newHwcLayer caps 2 tgt) LayerType.LAYER_FRAMEBUFFER_TARGET] ∧
      s1.mFrameBufferTarget = some 2 ∧ attachedZOrder s1 2 = none := by
  have hcl := classify_three caps m skip gpu tgt hskip hgpu htgt hcap
  simp only [emptyList] at hcl
  refine ⟨
    { mList := some [skip, gpu, tgt], mLayerCount := 3,
      mLayers := [setType (newHwcLayer caps 0 skip) LayerType.LAYER_SKIPPED,
        { (newHwcLayer caps 1 gpu) with mPlaneCandidate := true },
        setType (newHwcLayer caps 2 tgt) LayerType.LAYER_FRAMEBUFFER_TARGET],
      mFBLayers := [1], mSpriteCandidates := [1], mOverlayCandidates := [],
      mZOrderConfig :=
        [{ planeType := PlaneType.PLANE_SPRITE, hwcLayer := 1, zorder := 1, plane := none }],
      mFrameBufferTarget := some 2, planeManager := m },
    { mList := some [skip, gpu, tgt], mLayerCount := 3,
      mLayers := [setType (newHwcLayer caps 0 skip) LayerType.LAYER_SKIPPED,
        { (newHwcLayer caps 1 gpu) with
          mType := LayerType.LAYER_OVERLAY, mPlaneCandidate := true,
          mPlane := some
            { (env.planeAt (env.isValidZOrder m
                [{ planeType := PlaneType.PLANE_SPRITE, hwcLayer := 1, zorder := 1,
                   plane := none }]).2
                [{ planeType := PlaneType.PLANE_SPRITE, hwcLayer := 1, zorder := 1,
                   plane := none }] 0) with mZOrder := 0 } },
        setType (newHwcLayer caps 2 tgt) LayerType.LAYER_FRAMEBUFFER_TARGET],
      mFBLayers := [], mSpriteCandidates := [1], mOverlayCandidates := [],
      mZOrderConfig := [],
      mFrameBufferTarget := some 2,
      planeManager := (env.assignPlanes (env.isValidZOrder m
        [{ planeType := PlaneType.PLANE_SPRITE, hwcLayer := 1, zorder := 1,
           plane := none }]).2
        [{ planeType := PlaneType.PLANE_SPRITE, hwcLayer := 1, zorder := 1,
           plane := none }]).2 },
    (env.isValidZOrder m
      [{ planeType := PlaneType.PLANE_SPRITE, hwcLayer := 1, zorder := 1, plane := none }]).2,
    rfl, ?_, ?_, rfl, rfl, rfl⟩
  · simp [attachPlanes, hv, ha, attachLoop, attachOne, setType, newHwcLayer]
  · unfold construct initializeList
    rw [hcl]
    simp [allocatePlanesV2, assignOverlayPlanes, assignSpritePlanes, hs, assignSpritePlanesDown,
      assignSpritePlanesFrom, assignSpritePlanesLoop, addZOrderLayer, assignPrimaryPlane,
      spriteLayerScan, insertAt_nil, attachPlanes, hv, ha, attachLoop, attachOne, setType,
      newHwcLayer]

theorem three_layer_scenario_commits_sprite_record_only_witness :
    ∃ (sp s1 : State Unit) (m1 : Unit),
      sp.mZOrderConfig =
        [{ planeType := PlaneType.PLANE_SPRITE, hwcLayer := 1, zorder := 1, plane := none }] ∧
      attachPlanes (exEnv 1 0 (fun _ => true)) sp = some (true, s1) ∧
      construct (exEnv 1 0 (fun _ => true)) exAllCaps
        (some [exRawLayer HWC_OVERLAY exRect, exRawLayer HWC_FRAMEBUFFER exRect,
          exRawLayer HWC_FRAMEBUFFER_TARGET exRect]) () = some (true, s1) ∧
      s1.mLayers =
        [setType (newHwcLayer exAllCaps 0 (exRawLayer HWC_OVERLAY exRect))
           LayerType.LAYER_SKIPPED,
         { (newHwcLayer exAllCaps 1 (exRawLayer HWC_FRAMEBUFFER exRect)) with
           mType := LayerType.LAYER_OVERLAY, mPlaneCandidate := true,
           mPlane := some
             { ((exEnv 1 0 (fun _ => true)).planeAt m1 sp.mZOrderConfig 0) with
               mZOrder := 0 } },
         setType (newHwcLayer exAllCaps 2 (exRawLayer HWC_FRAMEBUFFER_TARGET exRect))
           LayerType.LAYER_FRAMEBUFFER_TARGET] ∧
      s1.mFrameBufferTarget = some 2 ∧ attachedZOrder s1 2 = none :=
  three_layer_scenario_commits_sprite_record_only (exEnv 1 0 (fun _ => true)) exAllCaps ()
    (exRawLayer HWC_OVERLAY exRect) (exRawLayer HWC_FRAMEBUFFER exRect)
    (exRawLayer HWC_FRAMEBUFFER_TARGET exRect) rfl rfl rfl (by decide) rfl rfl
    (fun _ _ => rfl) (fun _ _ => rfl)

/-- C16, counterexample: for the frame of a pre-skipped layer, a sprite-capable
default-GPU layer and the framebuffer target, with one free sprite plane, no free overlay
plane and a manager that accepts everything, the constructor's search succeeds, the
default-GPU layer carries a sprite plane, and the framebuffer target has no plane: it is
not committed on the primary plane. -/
theorem three_layer_scenario_target_gets_no_plane :
    (construct (exEnv 1 0 (fun _ => true)) exAllCaps (some exThreeFrame) ()).map
      (fun r => (r.1, r.2.mFrameBufferTarget)) = some (true, some 2) ∧
    (construct (exEnv 1 0 (fun _ => true)) exAllCaps (some exThreeFrame) ()).map
      (fun r => r.2.mLayers.map (fun l => l.mType)) =
      some [LayerType.LAYER_SKIPPED, LayerType.LAYER_OVERLAY,
        LayerType.LAYER_FRAMEBUFFER_TARGET] ∧
    (construct (exEnv 1 0 (fun _ => true)) exAllCaps (some exThreeFrame) ()).map
      (fun r => r.2.mLayers.map (fun l => l.mPlane.map (fun p => p.mType))) =
      some [none, some PlaneType.PLANE_SPRITE, none] := by
  decide

/-! ## Smart composition -/

theorem ClassInv.gpuSet {σ : Type} (caps : Caps σ) (list : List hwc_layer_1_t)
    (s : State σ) (hinv : ClassInv caps list s) (hlen : s.mLayers.length = s.mLayerCount) :
    GpuSet s := by
  refine ⟨hlen, hinv.fb_sorted.imp (fun h => Nat.ne_of_lt h), hinv.fb_valid, ?_, hinv.fbt⟩
  intro p l hl
  rw [hinv.fb_role p l hl]
  simp [isGpuRole]

theorem isGpuRole_clearFlag (a b : HwcLayer) (h : clearFlag a = clearFlag b) :
    isGpuRole a = isGpuRole b ∧ a.mType = b.mType := by
  have : a.mType = b.mType := by
    have := congrArg (fun l => l.mType) h
    simpa [clearFlag] using this
  exact ⟨by simp [isGpuRole, this], this⟩

theorem GpuSet.sameFrame {σ : Type} {s s1 : State σ} (h : SameFrame s s1)
    (hg : GpuSet s) : GpuSet s1 := by
  refine ⟨by rw [h.length, h.count]; exact hg.length, by rw [h.fb]; exact hg.nodup, ?_, ?_, ?_⟩
  · intro p hp
    rw [h.fb] at hp
    rw [h.length]
    exact hg.valid p hp
  · intro p l hl
    obtain ⟨l0, hl0, hcl⟩ := h.layer hl
    rw [h.fb, hg.role p l0 hl0, (isGpuRole_clearFlag l0 l hcl).1]
  · intro f hf
    rw [h.fbt] at hf
    obtain ⟨l0, hl0, ht⟩ := hg.target f hf
    obtain ⟨l, hl⟩ := getElem?_some_of_lt s1.mLayers f (by
      rw [h.length]
      by_contra hc
      rw [List.getElem?_eq_none (by omega)] at hl0; cases hl0)
    obtain ⟨l0', hl0', hcl⟩ := h.layer hl
    rw [hl0] at hl0'; injection hl0' with hl0'; subst hl0'
    exact ⟨l, hl, by rw [← (isGpuRole_clearFlag l0 l hcl).2]; exact ht⟩

theorem GpuSet.anyPM {σ : Type} {s : State σ} (hg : GpuSet s) (m : σ) : GpuSet (withPM s m) :=
  ⟨hg.length, hg.nodup, hg.valid, hg.role, hg.target⟩
theorem getElem?_set_some {α : Type} (xs : List α) (p q : Nat) (a b : α)
    (h : (xs.set p a)[q]? = some b) :
    (q = p ∧ b = a ∧ p < xs.length) ∨ (q ≠ p ∧ xs[q]? = some b) := by
  by_cases hqp : q = p
  · subst hqp
    by_cases hlt : q < xs.length
    · rw [List.getElem?_set_self hlt] at h
      injection h with h
      exact Or.inl ⟨rfl, h.symm, hlt⟩
    · rw [List.getElem?_eq_none (by simp; omega)] at h; cases h
  · rw [List.getElem?_set_ne (fun hc => hqp hc.symm)] at h
    exact Or.inr ⟨hqp, h⟩

theorem attachOne_gpuSet {σ : Type} {env : Env σ} {m : σ} {cfg : List ZOrderLayer} {i : Nat}
    {z : ZOrderLayer} {s s1 : State σ} (hg : GpuSet s)
    (h : attachOne env m cfg i z s = some s1) : GpuSet s1 := by
  unfold attachOne at h
  split at h
  · cases h
  · rename_i l hl
    have hlt : z.hwcLayer < s.mLayers.length := by
      by_contra hc
      rw [List.getElem?_eq_none (by omega)] at hl; cases hl
    simp only at h
    split_ifs at h with hne
    · injection h with h; subst h
      refine ⟨by simpa using hg.length, hg.nodup.erase _, ?_, ?_, ?_⟩
      · intro p hp
        simp only [List.length_set]
        exact hg.valid p (List.mem_of_mem_erase hp)
      · intro p l1 hl1
        simp only at hl1
        rw [hg.nodup.mem_erase_iff]
        rcases getElem?_set_some _ _ _ _ _ hl1 with ⟨h1, h2, _⟩ | ⟨h1, h2⟩
        · subst h1; subst h2
          simp [isGpuRole]
        · rw [← hg.role p l1 h2]
          simp [h1]
      · intro f hf
        simp only at hf
        obtain ⟨l0, hl0, ht⟩ := hg.target f hf
        refine ⟨l0, ?_, ht⟩
        simp only
        rw [List.getElem?_set_ne]
        · exact hl0
        · intro hc
          apply hne
          rw [hf, hc]
    · injection h with h; subst h
      have hfbt : s.mFrameBufferTarget = some z.hwcLayer := by
        by_contra hc
        exact hne (fun hcc => hc hcc.symm)
      obtain ⟨l0, hl0, ht⟩ := hg.target _ hfbt
      rw [hl] at hl0; injection hl0 with hl0; subst hl0
      refine ⟨by simpa using hg.length, hg.nodup, ?_, ?_, ?_⟩
      · intro p hp
        simp only [List.length_set]
        exact hg.valid p hp
      · intro p l1 hl1
        simp only at hl1
        rcases getElem?_set_some _ _ _ _ _ hl1 with ⟨h1, h2, _⟩ | ⟨h1, h2⟩
        · subst h1; subst h2
          rw [hg.role _ l hl]
          simp [isGpuRole]
        · exact hg.role p l1 h2
      · intro f hf
        simp only at hf
        rw [hfbt] at hf; injection hf with hf; subst hf
        refine ⟨_, List.getElem?_set_self hlt, ?_⟩
        exact ht

theorem attachLoop_gpuSet {σ : Type} {env : Env σ} {m : σ} {cfg : List ZOrderLayer} :
    ∀ (rest : List ZOrderLayer) (i : Nat) (s s1 : State σ), GpuSet s →
      attachLoop env m cfg i rest s = some s1 → GpuSet s1 := by
  intro rest
  induction rest with
  | nil =>
    intro i s s1 hg h
    simp only [attachLoop, Option.some.injEq] at h
    subst h; exact hg
  | cons z rest ih =>
    intro i s s1 hg h
    unfold attachLoop at h
    split at h
    · cases h
    · rename_i s2 h2
      exact ih (i + 1) s2 s1 (attachOne_gpuSet hg h2) h

theorem attachPlanes_gpuSet {σ : Type} {env : Env σ} {s s1 : State σ} (hg : GpuSet s)
    (h : attachPlanes env s = some (true, s1)) : GpuSet s1 := by
  obtain ⟨m, m2, s2, hloop, hs1⟩ := attachPlanes_true h
  have h2 := attachLoop_gpuSet _ _ _ _ (hg.anyPM m2) hloop
  subst hs1
  exact ⟨h2.length, h2.nodup, h2.valid, h2.role, h2.target⟩

theorem construct_gpuSet {σ : Type} (env : Env σ) (caps : Caps σ)
    (list : Option (List hwc_layer_1_t)) (m : σ) (s : State σ)
    (h : construct env caps list m = some (true, s)) : GpuSet s := by
  have h1 : initializeList env caps (emptyList list m) = some (true, s) := h
  unfold initializeList at h1
  split at h1
  · cases h1
  · simp at h1
  · rename_i s1 hcl
    cases list with
    | none => simp [classify, emptyList] at hcl
    | some frame =>
      have hne : frame ≠ [] := by
        intro hc; subst hc
        simp [classify, emptyList] at hcl
      obtain ⟨_, hinv, hlen, _, hcnt, hb⟩ := classify_inv caps frame m true s1 hne hcl
      obtain ⟨f, hf⟩ := Option.ne_none_iff_exists'.1 (hb.1 rfl)
      have hc : Classified s1 := hinv.classified caps frame s1 f hf
      have hg1 : GpuSet s1 := hinv.gpuSet caps frame s1 (by rw [hlen, hcnt])
      split at h1
      · cases h1
      · rename_i b s2 hsearch
        simp only [Option.some.injEq, Prod.mk.injEq, true_and] at h1
        subst h1
        cases b with
        | false =>
          have hres := (assignOverlayPlanes_result hc.overlayState hc.overlaysFresh hsearch).1 rfl
          rw [hres]
          exact hg1.anyPM _
        | true =>
          obtain ⟨S, T, m1, sS, m2, sT, sp, _, _, hS, hT, hst, hpp, hatt⟩ :=
            search_success hc hsearch
          have hsf := (search_sameFrame hS hT (primaryPlaced_facts hst hpp).1).2
          exact attachPlanes_gpuSet (hg1.sameFrame hsf) hatt
theorem updateLayers_types {σ : Type} (env : Env σ) (list : List hwc_layer_1_t)
    (hty : ∀ l raw, (env.layerUpdate l raw).mType = l.mType) :
    ∀ (cnt i : Nat) (s s1 : State σ), updateLayers env list cnt i s = some s1 →
      s1.mFBLayers = s.mFBLayers ∧ s1.mLayerCount = s.mLayerCount ∧
      s1.mFrameBufferTarget = s.mFrameBufferTarget ∧
      s1.mLayers.length = s.mLayers.length ∧
      ∀ (p : Nat) (l1 : HwcLayer), s1.mLayers[p]? = some l1 →
        ∃ l, s.mLayers[p]? = some l ∧ l1.mType = l.mType := by
  intro cnt
  induction cnt with
  | zero =>
    intro i s s1 h
    simp only [updateLayers, Option.some.injEq] at h
    subst h
    exact ⟨rfl, rfl, rfl, rfl, fun p l1 h1 => ⟨l1, h1, rfl⟩⟩
  | succ cnt ih =>
    intro i s s1 h
    unfold updateLayers at h
    split at h
    · rename_i hwcLayer raw hl hraw
      obtain ⟨r1, r2, r3, r4, r5⟩ := ih _ _ _ h
      refine ⟨r1, r2, r3, by simpa using r4, ?_⟩
      intro p l1 hl1
      obtain ⟨l, hl2, ht⟩ := r5 p l1 hl1
      simp only at hl2
      rcases getElem?_set_some _ _ _ _ _ hl2 with ⟨h1, h2, _⟩ | ⟨h1, h2⟩
      · subst h1; subst h2
        exact ⟨hwcLayer, hl, by rw [ht, hty]⟩
      · exact ⟨l, h2, ht⟩
    · cases h

theorem smartCompositionType_eq {σ : Type} (s : State σ) :
    ∀ (ps : List Nat) (ct0 c : Int), smartCompositionType s ps ct0 = some c →
      ((∃ p ∈ ps, ∃ l, s.mLayers[p]? = some l ∧ l.mUpdated = true) → c = HWC_FRAMEBUFFER) ∧
      ((¬ ∃ p ∈ ps, ∃ l, s.mLayers[p]? = some l ∧ l.mUpdated = true) → c = ct0) := by
  intro ps
  induction ps with
  | nil =>
    intro ct0 c h
    simp only [smartCompositionType, Option.some.injEq] at h
    subst h
    exact ⟨fun ⟨p, hp, _⟩ => absurd hp (List.not_mem_nil p), fun _ => rfl⟩
  | cons q rest ih =>
    intro ct0 c h
    unfold smartCompositionType at h
    split at h
    · cases h
    · rename_i lq hlq
      obtain ⟨h1, h2⟩ := ih _ c h
      by_cases hrest : ∃ p ∈ rest, ∃ l, s.mLayers[p]? = some l ∧ l.mUpdated = true
      · refine ⟨fun _ => h1 hrest, fun hn => ?_⟩
        exfalso
        obtain ⟨p, hp, l, hl, hu⟩ := hrest
        exact hn ⟨p, List.mem_cons_of_mem _ hp, l, hl, hu⟩
      · have hc := h2 hrest
        constructor
        · rintro ⟨p, hp, l, hl, hu⟩
          rcases List.mem_cons.1 hp with hpq | hpr
          · subst hpq
            rw [hlq] at hl; injection hl with hl; subst hl
            rw [hc, if_pos hu]
          · exact absurd ⟨p, hpr, l, hl, hu⟩ hrest
        · intro hn
          have : ¬ lq.mUpdated = true := fun hu =>
            hn ⟨q, List.mem_cons_self _ _, lq, hlq, hu⟩
          rw [hc, if_neg this]

theorem applyCompositionType_effect {σ : Type} (ct : Int) :
    ∀ (ps : List Nat) (s s2 : State σ), ps.Nodup →
      applyCompositionType ct ps s = some s2 →
      s2.mFBLayers = s.mFBLayers ∧ s2.mLayerCount = s.mLayerCount ∧
      s2.mFrameBufferTarget = s.mFrameBufferTarget ∧
      s2.mLayers.length = s.mLayers.length ∧
      ∀ (p : Nat) (l : HwcLayer), s.mLayers[p]? = some l →
        s2.mLayers[p]? =
          some (if p ∈ ps ∧ isGpuRole l = true then setCompositionType l ct else l) := by
  intro ps
  induction ps with
  | nil =>
    intro s s2 _ h
    simp only [applyCompositionType, Option.some.injEq] at h
    subst h
    exact ⟨rfl, rfl, rfl, rfl, fun p l hl => by simpa using hl⟩
  | cons q rest ih =>
    intro s s2 hnd h
    have hq : q ∉ rest := (List.nodup_cons.1 hnd).1
    have hnd2 : rest.Nodup := (List.nodup_cons.1 hnd).2
    unfold applyCompositionType at h
    split at h
    · cases h
    · rename_i lq hlq
      have hqlt : q < s.mLayers.length := by
        by_contra hc
        rw [List.getElem?_eq_none (by omega)] at hlq; cases hlq
      by_cases hgpu : isGpuRole lq = true
      · have h' : applyCompositionType ct rest
            { s with mLayers := s.mLayers.set q (setCompositionType lq ct) } = some s2 := by
          simp only [isGpuRole, Bool.or_eq_true, decide_eq_true_eq] at hgpu
          rcases hgpu with hg | hg <;> simp only [hg] at h <;> exact h
        obtain ⟨r1, r2, r3, r4, r5⟩ := ih _ s2 hnd2 h'
        refine ⟨r1, r2, r3, by simpa using r4, ?_⟩
        intro p l hl
        by_cases hpq : p = q
        · subst hpq
          rw [hlq] at hl; injection hl with hl; subst hl
          rw [r5 p (setCompositionType lq ct) (List.getElem?_set_self hqlt)]
          simp [hq, hgpu]
        · rw [r5 p l (by simp only; rw [List.getElem?_set_ne (fun hc => hpq hc.symm)]; exact hl)]
          simp [hpq]
      · have h' : applyCompositionType ct rest s = some s2 := by
          simp only [isGpuRole, Bool.or_eq_true, decide_eq_true_eq, not_or] at hgpu
          cases hty : lq.mType <;> simp only [hty] at h <;>
            first | exact h | exact absurd hty hgpu.1 | exact absurd hty hgpu.2
        obtain ⟨r1, r2, r3, r4, r5⟩ := ih _ s2 hnd2 h'
        refine ⟨r1, r2, r3, r4, ?_⟩
        intro p l hl
        rw [r5 p l hl]
        by_cases hpq : p = q
        · subst hpq
          rw [hlq] at hl; injection hl with hl; subst hl
          simp [hq, hgpu]
        · simp [hpq]
theorem anyGpuLayerUpdated_iff {σ : Type} (s : State σ) (hg : GpuSet s) :
    anyGpuLayerUpdated s = true ↔
      ∃ p ∈ s.mFBLayers, ∃ l, s.mLayers[p]? = some l ∧ l.mUpdated = true := by
  unfold anyGpuLayerUpdated
  rw [List.any_eq_true]
  constructor
  · rintro ⟨l, hl, hb⟩
    obtain ⟨p, hp⟩ := List.mem_iff_getElem?.1 hl
    simp only [Bool.and_eq_true] at hb
    exact ⟨p, (hg.role p l hp).2 hb.1, l, hp, hb.2⟩
  · rintro ⟨p, hp, l, hl, hu⟩
    exact ⟨l, List.getElem?_mem hl, by simp [(hg.role p l hl).1 hp, hu]⟩

theorem update_smart {σ : Type} (env : Env σ) (frame : List hwc_layer_1_t) (s s2 : State σ)
    (hty : ∀ l raw, (env.layerUpdate l raw).mType = l.mType) (hg : GpuSet s)
    (hu : update env (some frame) s = some (true, s2)) :
    GpuSet s2 ∧
    ∃ s1, updateLayers env frame s.mLayerCount 0 { s with mList := some frame } = some s1 ∧
      setupSmartComposition s1 = some s2 ∧ GpuSet s1 ∧
      s1.mFrameBufferTarget = s.mFrameBufferTarget ∧
      ∀ (p : Nat) (l : HwcLayer), s1.mLayers[p]? = some l →
        s2.mLayers[p]? =
          some (if isGpuRole l = true then setCompositionType l (smartType s1) else l) := by
  unfold update at hu
  simp only at hu
  split_ifs at hu with hlen
  · simp at hu
  · split at hu
    · cases hu
    · rename_i s1 h1
      split at hu
      · cases hu
      · rename_i sfin h2
        simp only [Option.some.injEq, Prod.mk.injEq, true_and] at hu
        subst hu
        obtain ⟨u1, u2, u3, u4, u5⟩ := updateLayers_types env frame hty _ _ _ _ h1
        have hg1 : GpuSet s1 := by
          refine ⟨by rw [u4, u2]; exact hg.length, by rw [u1]; exact hg.nodup, ?_, ?_, ?_⟩
          · intro p hp
            rw [u1] at hp; rw [u4]; exact hg.valid p hp
          · intro p l1 hl1
            obtain ⟨l, hl, ht⟩ := u5 p l1 hl1
            rw [u1]
            have := hg.role p l hl
            simp only at this
            rw [this]
            simp [isGpuRole, ht]
          · intro f hf
            rw [u3] at hf
            obtain ⟨l, hl, ht⟩ := hg.target f hf
            have u4' : s1.mLayers.length = s.mLayers.length := u4
            have hflt : f < s1.mLayers.length := by
              rw [u4']
              by_contra hc
              rw [List.getElem?_eq_none (by omega)] at hl
              cases hl
            obtain ⟨l1, hl1⟩ := getElem?_some_of_lt s1.mLayers f hflt
            obtain ⟨l', hl', ht'⟩ := u5 f l1 hl1
            rw [hl] at hl'; injection hl' with hl'; subst hl'
            exact ⟨l1, hl1, by rw [ht', ht]⟩
        have h2' := h2
        unfold setupSmartComposition at h2
        split at h2
        · cases h2
        · rename_i ct hct
          obtain ⟨c1, c2⟩ := smartCompositionType_eq s1 _ _ _ hct
          have hcteq : ct = smartType s1 := by
            unfold smartType
            by_cases hany : anyGpuLayerUpdated s1 = true
            · rw [if_pos hany]
              exact c1 ((anyGpuLayerUpdated_iff s1 hg1).1 hany)
            · rw [if_neg hany]
              exact c2 (fun hex => hany ((anyGpuLayerUpdated_iff s1 hg1).2 hex))
          obtain ⟨a1, a2, a3, a4, a5⟩ := applyCompositionType_effect ct _ _ _ hg1.nodup h2
          have heff : ∀ (p : Nat) (l : HwcLayer), s1.mLayers[p]? = some l →
              sfin.mLayers[p]? =
                some (if isGpuRole l = true then setCompositionType l (smartType s1)
                  else l) := by
            intro p l hl
            rw [a5 p l hl, ← hcteq]
            by_cases hgp : isGpuRole l = true
            · rw [if_pos ⟨(hg1.role p l hl).2 hgp, hgp⟩, if_pos hgp]
            · rw [if_neg (fun hc => hgp hc.2), if_neg hgp]
          refine ⟨?_, s1, h1, h2', hg1, u3, heff⟩
          refine ⟨by rw [a4, a2]; exact hg1.length, by rw [a1]; exact hg1.nodup, ?_, ?_, ?_⟩
          · intro p hp
            rw [a1] at hp; rw [a4]; exact hg1.valid p hp
          · intro p l2 hl2
            have hplt : p < s1.mLayers.length := by
              rw [← a4]
              by_contra hc
              rw [List.getElem?_eq_none (by omega)] at hl2; cases hl2
            obtain ⟨l1, hl1⟩ := getElem?_some_of_lt s1.mLayers p hplt
            rw [heff p l1 hl1] at hl2
            injection hl2 with hl2
            rw [a1, hg1.role p l1 hl1, ← hl2]
            split_ifs <;> simp [isGpuRole, setCompositionType]
          · intro f hf
            rw [a3] at hf
            obtain ⟨l1, hl1, ht⟩ := hg1.target f hf
            refine ⟨_, heff f l1 hl1, ?_⟩
            split_ifs <;> simp [setCompositionType, ht]
theorem updated_gpuSet {σ : Type} (env : Env σ) (s0 s : State σ)
    (hty : ∀ l raw, (env.layerUpdate l raw).mType = l.mType) (hg : GpuSet s0)
    (hupd : Updated env s0 s) : GpuSet s := by
  induction hupd with
  | start => exact hg
  | step s s1 list _ hu ih => exact (update_smart env list s s1 hty ih hu).1

/-- C11: after a successful construction and any number of successful updates, a
successful `update` (with a `HwcLayer::update` that leaves the roles alone) refreshes the
layers into a list `s1` and then `setupSmartComposition` rewrites it as follows. The
members of `mFBLayers` are exactly the layers whose role is default-GPU or forced-GPU, so
the branch for an invalid layer type is never taken. Every layer with one of these two
roles gets the composition type `smartType s1`: `HWC_OVERLAY` if none of them reports
`isUpdated()`, `HWC_FRAMEBUFFER` for all of them if at least one does. Every other layer,
so every layer committed to a plane (role hardware-overlay) and the framebuffer target,
is left as it is. -/
theorem smart_composition_all_or_nothing {σ : Type} (env : Env σ) (caps : Caps σ)
    (list : Option (List hwc_layer_1_t)) (m : σ) (s0 s s2 : State σ)
    (frame : List hwc_layer_1_t)
    (hty : ∀ l raw, (env.layerUpdate l raw).mType = l.mType)
    (hcons : construct env caps list m = some (true, s0))
    (hupd : Updated env s0 s)
    (hu : update env (some frame) s = some (true, s2)) :
    ∃ s1, updateLayers env frame s.mLayerCount 0 { s with mList := some frame } = some s1 ∧
      setupSmartComposition s1 = some s2 ∧
      (∀ (p : Nat) (l : HwcLayer), s1.mLayers[p]? = some l →
        (p ∈ s1.mFBLayers ↔
          l.mType = LayerType.LAYER_FB ∨ l.mType = LayerType.LAYER_FORCE_FB)) ∧
      (∀ p ∈ s1.mFBLayers, ∃ l, s1.mLayers[p]? = some l ∧
        (l.mType = LayerType.LAYER_FB ∨ l.mType = LayerType.LAYER_FORCE_FB)) ∧
      (∀ (p : Nat) (l : HwcLayer), s1.mLayers[p]? = some l →
        s2.mLayers[p]? =
          some (if l.mType = LayerType.LAYER_FB ∨ l.mType = LayerType.LAYER_FORCE_FB
            then setCompositionType l (smartType s1) else l)) ∧
      (∀ (p : Nat) (l : HwcLayer), s1.mLayers[p]? = some l →
        l.mType = LayerType.LAYER_OVERLAY → s2.mLayers[p]? = some l) ∧
      (∀ f, s.mFrameBufferTarget = some f →
        s2.mLayers[f]? = s1.mLayers[f]? ∧ f ∉ s1.mFBLayers) := by
  have hg : GpuSet s :=
    updated_gpuSet env s0 s hty (construct_gpuSet env caps list m s0 hcons) hupd
  obtain ⟨_, s1, h1, h2, hg1, hfbt, heff⟩ := update_smart env frame s s2 hty hg hu
  have hrole : ∀ l : HwcLayer, isGpuRole l = true ↔
      (l.mType = LayerType.LAYER_FB ∨ l.mType = LayerType.LAYER_FORCE_FB) := by
    intro l; simp [isGpuRole]
  refine ⟨s1, h1, h2, ?_, ?_, ?_, ?_, ?_⟩
  · intro p l hl
    rw [hg1.role p l hl, hrole]
  · intro p hp
    obtain ⟨l, hl⟩ := getElem?_some_of_lt s1.mLayers p (hg1.valid p hp)
    exact ⟨l, hl, (hrole l).1 ((hg1.role p l hl).1 hp)⟩
  · intro p l hl
    rw [heff p l hl]
    by_cases hgp : isGpuRole l = true
    · rw [if_pos hgp, if_pos ((hrole l).1 hgp)]
    · rw [if_neg hgp, if_neg (fun hc => hgp ((hrole l).2 hc))]
  · intro p l hl ht
    rw [heff p l hl, if_neg]
    simp [isGpuRole, ht]
  · intro f hf
    rw [← hfbt] at hf
    obtain ⟨l, hl, ht⟩ := hg1.target f hf
    constructor
    · rw [heff f l hl, hl, if_neg]
      simp [isGpuRole, ht]
    · intro hmem
      have := (hg1.role f l hl).1 hmem
      simp [isGpuRole, ht] at this

theorem smart_composition_all_or_nothing_witness :
    ∃ s1, updateLayers (exEnv 0 0 (fun _ => true)) exThreeFrame exSmartStart.mLayerCount 0
        { exSmartStart with mList := some exThreeFrame } = some s1 ∧
      setupSmartComposition s1 = some exSmartDone ∧
      (∀ (p : Nat) (l : HwcLayer), s1.mLayers[p]? = some l →
        (p ∈ s1.mFBLayers ↔
          l.mType = LayerType.LAYER_FB ∨ l.mType = LayerType.LAYER_FORCE_FB)) ∧
      (∀ p ∈ s1.mFBLayers, ∃ l, s1.mLayers[p]? = some l ∧
        (l.mType = LayerType.LAYER_FB ∨ l.mType = LayerType.LAYER_FORCE_FB)) ∧
      (∀ (p : Nat) (l : HwcLayer), s1.mLayers[p]? = some l →
        exSmartDone.mLayers[p]? =
          some (if l.mType = LayerType.LAYER_FB ∨ l.mType = LayerType.LAYER_FORCE_FB
            then setCompositionType l (smartType s1) else l)) ∧
      (∀ (p : Nat) (l : HwcLayer), s1.mLayers[p]? = some l →
        l.mType = LayerType.LAYER_OVERLAY → exSmartDone.mLayers[p]? = some l) ∧
      (∀ f, exSmartStart.mFrameBufferTarget = some f →
        exSmartDone.mLayers[f]? = s1.mLayers[f]? ∧ f ∉ s1.mFBLayers) :=
  smart_composition_all_or_nothing (exEnv 0 0 (fun _ => true)) exNoCaps (some exThreeFrame) ()
    exSmartStart exSmartStart exSmartDone exThreeFrame (fun _ _ => rfl) (by decide)
    Updated.start (by decide)

/-! ## The internal-consistency branches -/

theorem recordPresent_false (cfg : List ZOrderLayer) (layer : ZOrderLayer)
    (h : layer.zorder ∉ cfg.map (fun r => r.zorder)) : recordPresent cfg layer = false := by
  unfold recordPresent
  rw [Bool.eq_false_iff]
  intro hany
  rw [List.any_eq_true] at hany
  obtain ⟨r, hr, hz⟩ := hany
  exact h (List.mem_map.2 ⟨r, hr, by simpa using hz⟩)

theorem addZOrderLayerChecked_eq {σ : Type} (env : Env σ) (type : PlaneType) (p : Nat)
    (zorder : Int) (s : State σ)
    (hfl : ∀ l, s.mLayers[p]? = some l → l.mPlaneCandidate = false)
    (hz : ∀ r s1, addZOrderLayer env type p zorder s = some (r, s1) →
      r.zorder ∉ s.mZOrderConfig.map (fun r => r.zorder)) :
    addZOrderLayerChecked env type p zorder s =
      Run.ofOption (addZOrderLayer env type p zorder s) := by
  unfold addZOrderLayerChecked
  cases hl : s.mLayers[p]? with
  | none => simp [addZOrderLayer, hl, Run.ofOption]
  | some l =>
    have h1 := hfl l hl
    have h2 := hz _ _ (show addZOrderLayer env type p zorder s = some (_, _) by
      simp only [addZOrderLayer, hl]; rfl)
    simp only [h1, Bool.false_eq_true, if_false, recordPresent_false _ _ h2]
    simp [addZOrderLayer, hl, Run.ofOption]

theorem removeZOrderLayerChecked_eq {σ : Type} (layer : ZOrderLayer) (s : State σ)
    (hmem : layer ∈ s.mZOrderConfig)
    (hfl : ∀ l, s.mLayers[layer.hwcLayer]? = some l → l.mPlaneCandidate = true) :
    removeZOrderLayerChecked layer s = Run.ofOption (removeZOrderLayer layer s) := by
  unfold removeZOrderLayerChecked
  rw [if_neg (by simpa using hmem)]
  cases hl : s.mLayers[layer.hwcLayer]? with
  | none => simp [removeZOrderLayer, hl, Run.ofOption]
  | some l =>
    have h1 := hfl l hl
    simp [h1, removeZOrderLayer, hl, Run.ofOption]

theorem assignPrimaryPlaneHelperChecked_eq {σ : Type} (env : Env σ) (p : Nat) (zorder : Int)
    (s : State σ) (hf : Fresh s p)
    (hz : ∀ r s1, addZOrderLayer env PlaneType.PLANE_PRIMARY p zorder s = some (r, s1) →
      r.zorder ∉ s.mZOrderConfig.map (fun r => r.zorder)) :
    assignPrimaryPlaneHelperChecked env p zorder s =
      Run.ofOption (assignPrimaryPlaneHelper env p zorder s) := by
  obtain ⟨l, hl, hfl⟩ := hf
  unfold assignPrimaryPlaneHelperChecked assignPrimaryPlaneHelper
  rw [addZOrderLayerChecked_eq env _ p zorder s
    (fun l1 hl1 => by rw [hl] at hl1; injection hl1 with hl1; rw [← hl1]; exact hfl) hz]
  cases hadd : addZOrderLayer env PlaneType.PLANE_PRIMARY p zorder s with
  | none => rfl
  | some rs =>
    obtain ⟨r, s1⟩ := rs
    simp only [Run.ofOption, Run.bind]
    cases hatt : attachPlanes env s1 with
    | none => rfl
    | some bs =>
      obtain ⟨b, s2⟩ := bs
      cases b with
      | true => rfl
      | false =>
        simp only
        have hs2 := attachPlanes_false hatt
        have hmem : r ∈ s2.mZOrderConfig := by
          rw [hs2]
          exact (addZOrderLayer_config hadd).symm.subset (List.mem_cons_self _ _)
        obtain ⟨⟨l0, hl0, hl1⟩, _⟩ := addZOrderLayer_layers hadd
        have hr := (addZOrderLayer_record hadd).2.1
        rw [removeZOrderLayerChecked_eq r s2 hmem (by
          intro l2 hl2
          rw [hs2, hr] at hl2
          have : s1.mLayers[p]? = some l2 := hl2
          rw [hl1] at this; injection this with this
          rw [← this])]
        cases removeZOrderLayer r s2 with
        | none => rfl
        | some s3 => rfl
theorem fbTargetScanChecked_eq {σ : Type} (env : Env σ) :
    ∀ (cnt i : Nat) (s : State σ), SearchState s →
      fbTargetScanChecked env cnt i s = Run.ofOption (fbTargetScan env cnt i s) := by
  intro cnt
  induction cnt with
  | zero => intro i s _; rfl
  | succ cnt ih =>
    intro i s hs
    unfold fbTargetScanChecked fbTargetScan
    cases hl : fbLayerAt s i with
    | none => rfl
    | some l =>
      simp only
      by_cases hflag : l.mPlaneCandidate = true
      · rw [if_pos hflag, if_pos hflag]
        exact ih (i + 1) s hs
      · rw [if_neg hflag, if_neg hflag]
        cases hu : useAsFrameBufferTarget s l with
        | none => rfl
        | some b =>
          cases b with
          | false => exact ih (i + 1) s hs
          | true =>
            simp only
            cases hfbt : s.mFrameBufferTarget with
            | none => rfl
            | some f =>
              simp only
              have hff : Fresh s f := hs.fbtFresh f hfbt
              obtain ⟨q, hq, hlq⟩ := fbLayerAt_some hl
              have hfq : Fresh s q := ⟨l, hlq, by simpa using hflag⟩
              have hzq : zorderAt s q = some l.mZOrder := by simp [zorderAt, hlq]
              have hne : l.mZOrder ≠ -1 := by
                intro hc
                exact hs.wf.zorder_ne q hq (by rw [hzq, hc])
              rw [assignPrimaryPlaneHelperChecked_eq env f l.mZOrder s hff (by
                intro r s1 hadd
                rw [(addZOrderLayer_zorder hadd).1 hne]
                exact hs.zorder_free hq hfq hzq)]
              cases hh : assignPrimaryPlaneHelper env f l.mZOrder s with
              | none => rfl
              | some bs =>
                obtain ⟨b, s1⟩ := bs
                cases b with
                | true => rfl
                | false =>
                  simp only [Run.ofOption, Run.bind, Bool.false_eq_true, if_false]
                  have hs1 := assignPrimaryPlaneHelper_false hs.inv hff hh
                  have := ih (i + 1) s1 (by rw [hs1]; exact hs.changePM _)
                  simpa [Run.ofOption] using this

theorem assignPrimaryPlaneChecked_eq {σ : Type} (env : Env σ) (s : State σ)
    (hs : SearchState s) :
    assignPrimaryPlaneChecked env s = Run.ofOption (assignPrimaryPlane env s) := by
  unfold assignPrimaryPlaneChecked assignPrimaryPlane
  cases hscan : spriteLayerScan s s.mSpriteCandidates.length none with
  | none => rfl
  | some spriteLayer =>
    simp only
    split_ifs with hA hB hC
    · cases spriteLayer with
      | none => rfl
      | some p =>
        simp only
        rcases spriteLayerScan_some s p _ none hscan with h | ⟨hp, hf⟩
        · cases h
        · exact assignPrimaryPlaneHelperChecked_eq env p (-1) s hf (by
            intro r s1 hadd
            exact hs.zorder_free (hs.wf.sp_sub.subset hp) hf
              ((addZOrderLayer_zorder hadd).2 rfl))
    · cases hfbt : s.mFrameBufferTarget with
      | none => rfl
      | some f =>
        simp only
        have hnil : s.mZOrderConfig = [] := by
          apply List.length_eq_zero.1
          exact_mod_cast hB
        exact assignPrimaryPlaneHelperChecked_eq env f 0 s (hs.fbtFresh f hfbt) (by
          intro r s1 _
          rw [hnil]; simp)
    · rfl
    · exact fbTargetScanChecked_eq env _ 0 s hs
theorem candLoopChecked_eq {σ : Type} {env : Env σ} {type : PlaneType}
    {cands : State σ → List Nat} {last : State σ → Option (Bool × State σ)}
    {P : State σ → Prop} (ph : Phase env type cands last P)
    (hfree : ∀ s c r s1, P s → c ∈ cands s → Fresh s c →
      addZOrderLayer env type c (-1) s = some (r, s1) →
      r.zorder ∉ s.mZOrderConfig.map (fun r => r.zorder))
    (next : Nat → State σ → Option (Bool × State σ))
    (nextC : Nat → State σ → Run (Bool × State σ))
    (hnextC : ∀ (index : Nat) (s : State σ), P s →
      (∀ c ∈ (cands s).drop index, Fresh s c) → nextC index s = Run.ofOption (next index s))
    (hnext : ∀ (index : Nat) (s s1 : State σ), P s →
      (∀ c ∈ (cands s).drop index, Fresh s c) → next index s = some (false, s1) →
      s1 = withPM s s1.planeManager) :
    ∀ (cnt i : Nat) (s : State σ), P s → (∀ c ∈ (cands s).drop i, Fresh s c) →
      candLoopChecked env type cands nextC cnt i s =
        Run.ofOption (candLoop env type cands next cnt i s) := by
  intro cnt
  induction cnt with
  | zero => intro i s _ _; rfl
  | succ k ih =>
    intro i s hP hfresh
    unfold candLoopChecked candLoop
    cases hc : (cands s)[i]? with
    | none => rfl
    | some c =>
      simp only
      have hi : i < (cands s).length := (List.getElem?_eq_some.mp hc).1
      have hci : (cands s)[i] = c := (List.getElem?_eq_some.mp hc).2
      have hdrop : (cands s).drop i = c :: (cands s).drop (i + 1) := by
        rw [List.drop_eq_getElem_cons hi, hci]
      have hcmem : c ∈ cands s := List.mem_iff_getElem?.mpr ⟨i, hc⟩
      have hcf : Fresh s c := hfresh c (by rw [hdrop]; exact List.mem_cons_self _ _)
      have hnd : (c :: (cands s).drop (i + 1)).Nodup := by
        rw [← hdrop]
        exact (ph.nodup s hP).sublist (List.drop_sublist _ _)
      have hcnot : c ∉ (cands s).drop (i + 1) := (List.nodup_cons.mp hnd).1
      obtain ⟨l, hl, hfl⟩ := hcf
      rw [addZOrderLayerChecked_eq env type c (-1) s
        (fun l1 hl1 => by rw [hl] at hl1; injection hl1 with hl1; rw [← hl1]; exact hfl)
        (fun r s1 hadd => hfree s c r s1 hP hcmem ⟨l, hl, hfl⟩ hadd)]
      cases hadd : addZOrderLayer env type c (-1) s with
      | none => rfl
      | some rs =>
        obtain ⟨zlayer, sa⟩ := rs
        simp only [Run.ofOption, Run.bind]
        have hcf : Fresh s c := ⟨l, hl, hfl⟩
        have hPa : P sa := ph.add s c zlayer sa hP hcmem hcf hadd
        have hca : cands sa = cands s := ph.frame s sa (addZOrderLayer_sameFrame hadd)
        have hfa : ∀ c2 ∈ (cands sa).drop (i + 1), Fresh sa c2 := by
          intro c2 hc2
          rw [hca] at hc2
          have hne : c2 ≠ c := fun e => hcnot (e ▸ hc2)
          exact Fresh.add_ne hadd hne
            (hfresh c2 (by rw [hdrop]; exact List.mem_cons_of_mem _ hc2))
        rw [hnextC (i + 1) sa hPa hfa]
        cases hn : next (i + 1) sa with
        | none => rfl
        | some bs =>
          obtain ⟨b, s2⟩ := bs
          cases b with
          | true => rfl
          | false =>
            simp only [Run.ofOption, Run.bind, Bool.false_eq_true, if_false]
            have hres := hnext (i + 1) sa s2 hPa hfa hn
            have hrem := remove_add_restore (ph.inv s hP) hcf hadd s2.planeManager
            rw [← hres] at hrem
            have hmem : zlayer ∈ s2.mZOrderConfig := by
              rw [hres]
              exact (addZOrderLayer_config hadd).symm.subset (List.mem_cons_self _ _)
            obtain ⟨⟨l0, hl0, hl1⟩, _⟩ := addZOrderLayer_layers hadd
            have hr := (addZOrderLayer_record hadd).2.1
            rw [removeZOrderLayerChecked_eq zlayer s2 hmem (by
              intro l2 hl2
              rw [hres, hr] at hl2
              have : sa.mLayers[c]? = some l2 := hl2
              rw [hl1] at this; injection this with this
              rw [← this]), hrem]
            simp only [Run.ofOption, Run.bind]
            have hcs : cands (withPM s s2.planeManager) = cands s :=
              ph.frame s _ (sameFrame_withPM s _)
            exact ih (i + 1) (withPM s s2.planeManager) (ph.pm s _ hP) (by
              intro c2 hc2
              rw [hcs] at hc2
              exact (hfresh c2 (by rw [hdrop]; exact List.mem_cons_of_mem _ hc2)).atPM _)

theorem candFromChecked_eq {σ : Type} {env : Env σ} {type : PlaneType}
    {cands : State σ → List Nat} {last : State σ → Option (Bool × State σ)}
    {P : State σ → Prop} (ph : Phase env type cands last P)
    (hfree : ∀ s c r s1, P s → c ∈ cands s → Fresh s c →
      addZOrderLayer env type c (-1) s = some (r, s1) →
      r.zorder ∉ s.mZOrderConfig.map (fun r => r.zorder))
    (lastC : State σ → Run (Bool × State σ))
    (hlast : ∀ s, P s → lastC s = Run.ofOption (last s)) :
    ∀ (n index : Nat) (s : State σ), P s → (∀ c ∈ (cands s).drop index, Fresh s c) →
      candFromChecked env type cands lastC index n s =
        Run.ofOption (candFrom env type cands last index n s) := by
  intro n
  induction n with
  | zero =>
    intro index s hP _
    simp only [candFromChecked, candFrom]
    exact hlast s hP
  | succ k ih =>
    intro index s hP hfresh
    simp only [candFromChecked, candFrom]
    exact candLoopChecked_eq ph hfree _ _ ih
      (fun j s' s1 hP' hf' h => (candFrom_result ph k j s' s1 false hP' hf' h).1 rfl)
      _ index s hP hfresh

theorem candDownChecked_eq {σ : Type} {env : Env σ} {type : PlaneType}
    {cands : State σ → List Nat} {last : State σ → Option (Bool × State σ)}
    {P : State σ → Prop} (ph : Phase env type cands last P)
    (hfree : ∀ s c r s1, P s → c ∈ cands s → Fresh s c →
      addZOrderLayer env type c (-1) s = some (r, s1) →
      r.zorder ∉ s.mZOrderConfig.map (fun r => r.zorder))
    (lastC : State σ → Run (Bool × State σ))
    (hlast : ∀ s, P s → lastC s = Run.ofOption (last s)) :
    ∀ (k : Nat) (s : State σ), P s → (∀ c ∈ cands s, Fresh s c) →
      candDownChecked env type cands lastC k s =
        Run.ofOption (candDown env type cands last k s) := by
  intro k
  induction k with
  | zero =>
    intro s hP hfresh
    simp only [candDownChecked, candDown]
    exact candFromChecked_eq ph hfree lastC hlast 0 0 s hP (by simpa using hfresh)
  | succ k ih =>
    intro s hP hfresh
    unfold candDownChecked candDown
    rw [candFromChecked_eq ph hfree lastC hlast (k + 1) 0 s hP (by simpa using hfresh)]
    cases hfrom : candFrom env type cands last 0 (k + 1) s with
    | none => rfl
    | some bs =>
      obtain ⟨b, s2⟩ := bs
      cases b with
      | true => rfl
      | false =>
        simp only [Run.ofOption, Run.bind, Bool.false_eq_true, if_false]
        have hres := (candFrom_result ph (k + 1) 0 s s2 false hP
          (by simpa using hfresh) hfrom).1 rfl
        have hcs : cands (withPM s s2.planeManager) = cands s :=
          ph.frame s _ (sameFrame_withPM s _)
        rw [hres]
        exact ih (withPM s s2.planeManager) (ph.pm s _ hP)
          (by intro c hc; rw [hcs] at hc; exact (hfresh c hc).atPM _)
theorem assignSpritePlanesChecked_eq {σ : Type} (env : Env σ) (s : State σ)
    (hs : SearchState s) (hfresh : ∀ c ∈ s.mSpriteCandidates, Fresh s c) :
    assignSpritePlanesChecked env s = Run.ofOption (assignSpritePlanes env s) := by
  unfold assignSpritePlanesChecked assignSpritePlanes
  simp only
  have hdown : ∀ k, candDownChecked env PlaneType.PLANE_SPRITE (fun s => s.mSpriteCandidates)
      (assignPrimaryPlaneChecked env) k s =
      Run.ofOption (assignSpritePlanesDown env k s) := by
    intro k
    rw [assignSpritePlanesDown_eq]
    exact candDownChecked_eq (spritePhase env)
      (fun s c r s1 hP hc hf hadd =>
        hP.zorder_free (hP.wf.sp_sub.subset hc) hf ((addZOrderLayer_zorder hadd).2 rfl))
      _ (fun s hP => assignPrimaryPlaneChecked_eq env s hP) k s hs hfresh
  split_ifs
  all_goals first
    | exact assignPrimaryPlaneChecked_eq env s hs
    | rfl
    | exact hdown _

theorem assignOverlayPlanesChecked_eq {σ : Type} (env : Env σ) (s : State σ)
    (hs : OverlayState s) (hfresh : ∀ c ∈ s.mOverlayCandidates, Fresh s c) :
    assignOverlayPlanesChecked env s = Run.ofOption (assignOverlayPlanes env s) := by
  unfold assignOverlayPlanesChecked assignOverlayPlanes
  simp only
  have hdown : ∀ k, candDownChecked env PlaneType.PLANE_OVERLAY
      (fun s => s.mOverlayCandidates) (assignSpritePlanesChecked env) k s =
      Run.ofOption (assignOverlayPlanesDown env k s) := by
    intro k
    rw [assignOverlayPlanesDown_eq]
    exact candDownChecked_eq (overlayPhase env)
      (fun s c r s1 hP hc hf hadd =>
        hP.search.zorder_free (hP.search.wf.ov_sub.subset hc) hf
          ((addZOrderLayer_zorder hadd).2 rfl))
      _ (fun s hP => assignSpritePlanesChecked_eq env s hP.search hP.spritesFresh) k s hs
      hfresh
  split_ifs
  all_goals first
    | exact assignSpritePlanesChecked_eq env s hs.search hs.spritesFresh
    | rfl
    | exact hdown _

theorem allocatePlanesV2Checked_eq {σ : Type} (env : Env σ) (s : State σ)
    (hc : Classified s) :
    allocatePlanesV2Checked env s = Run.ofOption (allocatePlanesV2 env s) :=
  assignOverlayPlanesChecked_eq env s hc.overlayState hc.overlaysFresh

/-- C20: for every frame that the classification accepts and every manager, the search
`allocatePlanesV2` in which the four internal-consistency branches are watched
(`addZOrderLayer` on a layer whose flag is already true or with a record found in the
configuration, `removeZOrderLayer` with a record that is not in the configuration or
whose layer's flag is false) runs exactly as the search itself: none of the four branches
is ever taken. -/
theorem consistency_branches_never_taken {σ : Type} (env : Env σ) (caps : Caps σ)
    (list : List hwc_layer_1_t) (m : σ) (s : State σ)
    (h : classify caps (emptyList (some list) m) = some (true, s)) :
    allocatePlanesV2Checked env s = Run.ofOption (allocatePlanesV2 env s) ∧
    allocatePlanesV2Checked env s ≠ Run.inconsistent := by
  have hne : list ≠ [] := by
    intro hc; subst hc
    simp [classify, emptyList] at h
  obtain ⟨_, hinv, _, _, _, hb⟩ := classify_inv caps list m true s hne h
  obtain ⟨f, hf⟩ := Option.ne_none_iff_exists'.1 (hb.1 rfl)
  have hc : Classified s := hinv.classified caps list s f hf
  have heq := allocatePlanesV2Checked_eq env s hc
  refine ⟨heq, ?_⟩
  rw [heq]
  cases allocatePlanesV2 env s <;> simp [Run.ofOption]

theorem consistency_branches_never_taken_witness :
    allocatePlanesV2Checked (exEnv 1 0 (fun _ => true)) exThreeClassified =
      Run.ofOption (allocatePlanesV2 (exEnv 1 0 (fun _ => true)) exThreeClassified) ∧
    allocatePlanesV2Checked (exEnv 1 0 (fun _ => true)) exThreeClassified ≠
      Run.inconsistent :=
  consistency_branches_never_taken (exEnv 1 0 (fun _ => true)) exAllCaps exThreeFrame ()
    exThreeClassified (by decide)

/-! ## The search returns -/

theorem fbLayerAt_total {σ : Type} (s : State σ)
    (hv : ∀ p ∈ s.mFBLayers, p < s.mLayers.length) (j : Nat) (hj : j < s.mFBLayers.length) :
    ∃ l, fbLayerAt s j = some l := by
  obtain ⟨p, hp⟩ := getElem?_some_of_lt s.mFBLayers j hj
  obtain ⟨l, hl⟩ := getElem?_some_of_lt s.mLayers p (hv p (List.getElem?_mem hp))
  exact ⟨l, by simp [fbLayerAt, hp, hl]⟩

theorem intersectScan_total {σ : Type} (s : State σ)
    (hv : ∀ p ∈ s.mFBLayers, p < s.mLayers.length) (test : HwcLayer → Bool) :
    ∀ (cnt j : Nat), cnt = 0 ∨ j + cnt ≤ s.mFBLayers.length →
      ∃ b, intersectScan s test cnt j = some b := by
  intro cnt
  induction cnt with
  | zero => intro j _; exact ⟨true, rfl⟩
  | succ cnt ih =>
    intro j h
    have hle : j + (cnt + 1) ≤ s.mFBLayers.length := by
      rcases h with h | h
      · omega
      · exact h
    obtain ⟨l, hl⟩ := fbLayerAt_total s hv j (by omega)
    obtain ⟨b, hb⟩ := ih (j + 1) (Or.inr (by omega))
    unfold intersectScan
    simp only [hl]
    split_ifs
    · exact ⟨b, hb⟩
    · exact ⟨false, rfl⟩
    · exact ⟨b, hb⟩

theorem belowScan_total {σ : Type} (s : State σ)
    (hv : ∀ p ∈ s.mFBLayers, p < s.mLayers.length) (t : Nat)
    (ht : t ≤ s.mFBLayers.length) :
    ∀ (cnt below : Nat), below + cnt ≤ s.mFBLayers.length →
      ∃ b, belowScan s t cnt below = some b := by
  intro cnt
  induction cnt with
  | zero => intro below _; exact ⟨true, rfl⟩
  | succ cnt ih =>
    intro below h
    obtain ⟨l, hl⟩ := fbLayerAt_total s hv below (by omega)
    obtain ⟨b, hb⟩ := ih (below + 1) (by omega)
    obtain ⟨c, hc⟩ := intersectScan_total s hv (fun la => hasIntersection la l)
      (t - (below + 1)) (below + 1) (by omega)
    unfold belowScan
    simp only [hl, hc]
    split_ifs
    · exact ⟨b, hb⟩
    · cases c with
      | false => exact ⟨false, rfl⟩
      | true => exact ⟨b, hb⟩

theorem aboveScan_total {σ : Type} (s : State σ)
    (hv : ∀ p ∈ s.mFBLayers, p < s.mLayers.length) (t : Nat) :
    ∀ (cnt above : Nat), cnt = 0 ∨ above + cnt ≤ s.mFBLayers.length →
      ∃ b, aboveScan s t cnt above = some b := by
  intro cnt
  induction cnt with
  | zero => intro above _; exact ⟨true, rfl⟩
  | succ cnt ih =>
    intro above h
    have hle : above + (cnt + 1) ≤ s.mFBLayers.length := by
      rcases h with h | h
      · omega
      · exact h
    obtain ⟨l, hl⟩ := fbLayerAt_total s hv above (by omega)
    obtain ⟨b, hb⟩ := ih (above + 1) (Or.inr (by omega))
    obtain ⟨c, hc⟩ := intersectScan_total s hv (fun lb => hasIntersection l lb)
      (above - (t + 1)) (t + 1) (by omega)
    unfold aboveScan
    simp only [hl, hc]
    split_ifs
    · exact ⟨b, hb⟩
    · cases c with
      | false => exact ⟨false, rfl⟩
      | true => exact ⟨b, hb⟩

theorem useAsFrameBufferTarget_total {σ : Type} (s : State σ) (target : HwcLayer)
    (hv : ∀ p ∈ s.mFBLayers, p < s.mLayers.length)
    (hcount : s.mLayerCount - 1 ≤ s.mFBLayers.length)
    (ht : target.mIndex ≤ s.mFBLayers.length) :
    ∃ b, useAsFrameBufferTarget s target = some b := by
  obtain ⟨b1, h1⟩ := belowScan_total s hv target.mIndex ht target.mIndex 0 (by omega)
  obtain ⟨b2, h2⟩ := aboveScan_total s hv target.mIndex
    (s.mLayerCount - 1 - (target.mIndex + 1)) (target.mIndex + 1) (by omega)
  unfold useAsFrameBufferTarget
  simp only [h1]
  cases b1 with
  | false => exact ⟨false, rfl⟩
  | true => exact ⟨b2, h2⟩
theorem attachOne_total {σ : Type} (env : Env σ) (m : σ) (cfg : List ZOrderLayer) (i : Nat)
    (z : ZOrderLayer) (s : State σ) (hz : z.hwcLayer < s.mLayers.length) :
    ∃ s1, attachOne env m cfg i z s = some s1 ∧ s1.mLayers.length = s.mLayers.length := by
  obtain ⟨l, hl⟩ := getElem?_some_of_lt s.mLayers z.hwcLayer hz
  unfold attachOne
  simp only [hl]
  split_ifs
  · exact ⟨_, rfl, by simp⟩
  · exact ⟨_, rfl, by simp⟩

theorem attachLoop_total {σ : Type} (env : Env σ) (m : σ) (cfg : List ZOrderLayer) :
    ∀ (rest : List ZOrderLayer) (i : Nat) (s : State σ),
      (∀ r ∈ rest, r.hwcLayer < s.mLayers.length) →
      ∃ s1, attachLoop env m cfg i rest s = some s1 := by
  intro rest
  induction rest with
  | nil => intro i s _; exact ⟨s, rfl⟩
  | cons z rest ih =>
    intro i s h
    obtain ⟨s1, h1, hlen⟩ := attachOne_total env m cfg i z s (h z (List.mem_cons_self _ _))
    obtain ⟨s2, h2⟩ := ih (i + 1) s1 (fun r hr => by
      rw [hlen]; exact h r (List.mem_cons_of_mem _ hr))
    exact ⟨s2, by simp only [attachLoop, h1]; exact h2⟩

theorem attachPlanes_total {σ : Type} (env : Env σ) (s : State σ)
    (h : ∀ r ∈ s.mZOrderConfig, r.hwcLayer < s.mLayers.length) :
    ∃ r, attachPlanes env s = some r := by
  unfold attachPlanes
  simp only
  split_ifs
  · exact ⟨_, rfl⟩
  · exact ⟨_, rfl⟩
  · obtain ⟨s1, h1⟩ := attachLoop_total env
      (env.isValidZOrder s.planeManager s.mZOrderConfig).2 s.mZOrderConfig s.mZOrderConfig 0
      { s with planeManager := (env.assignPlanes
          (env.isValidZOrder s.planeManager s.mZOrderConfig).2 s.mZOrderConfig).2 } h
    rw [h1]
    exact ⟨_, rfl⟩

theorem assignPrimaryPlaneHelper_total {σ : Type} (env : Env σ) (p : Nat) (zorder : Int)
    (s : State σ) (hf : Fresh s p)
    (h : ∀ r ∈ s.mZOrderConfig, r.hwcLayer < s.mLayers.length) :
    ∃ r, assignPrimaryPlaneHelper env p zorder s = some r := by
  obtain ⟨l, hl, _⟩ := id hf
  have hp : p < s.mLayers.length := by
    by_contra hc
    rw [List.getElem?_eq_none (by omega)] at hl; cases hl
  obtain ⟨r, s1, hadd⟩ := addZOrderLayer_of_layer env PlaneType.PLANE_PRIMARY p zorder s l hl
  have hlen : s1.mLayers.length = s.mLayers.length :=
    (addZOrderLayer_sameFrame hadd).length
  have hr := (addZOrderLayer_record hadd).2.1
  obtain ⟨res, hatt⟩ := attachPlanes_total env s1 (by
    intro r1 hr1
    rw [hlen]
    rcases List.mem_cons.1 ((addZOrderLayer_config hadd).subset hr1) with h1 | h1
    · rw [h1, hr]; exact hp
    · exact h r1 h1)
  unfold assignPrimaryPlaneHelper
  simp only [hadd, hatt]
  obtain ⟨b, s2⟩ := res
  cases b with
  | true => exact ⟨_, rfl⟩
  | false =>
    simp only
    have hs2 := attachPlanes_false hatt
    obtain ⟨l2, hl2⟩ := getElem?_some_of_lt s2.mLayers r.hwcLayer (by
      rw [hs2, hr]
      show p < s1.mLayers.length
      omega)
    have : ∃ s3, removeZOrderLayer r s2 = some s3 := by
      unfold removeZOrderLayer
      simp only [hl2]
      exact ⟨_, rfl⟩
    obtain ⟨s3, h3⟩ := this
    rw [h3]
    exact ⟨_, rfl⟩
theorem SearchState.records_valid {σ : Type} {s : State σ} (hs : SearchState s) :
    ∀ r ∈ s.mZOrderConfig, r.hwcLayer < s.mLayers.length :=
  fun r hr => hs.wf.fb_valid _ (hs.records r hr).2.1

theorem ReadsInRange.frame {σ : Type} {s s1 : State σ} (hsf : SameFrame s s1)
    (h : ReadsInRange s) : ReadsInRange s1 := by
  refine ⟨by rw [hsf.count, hsf.fb]; exact h.1, ?_⟩
  intro p hp l hl
  rw [hsf.fb] at hp ⊢
  obtain ⟨l0, hl0, hcl⟩ := hsf.layer hl
  have : l0.mIndex = l.mIndex := by
    have := congrArg (fun l => l.mIndex) hcl
    simpa [clearFlag] using this
  rw [← this]
  exact h.2 p hp l0 hl0

theorem ReadsInRange.answers {σ : Type} {s : State σ} (hw : WellFormed s)
    (h : ReadsInRange s) : EligibilityAnswers s := by
  intro s1 hsf q hq l hl
  have h1 := h.frame hsf
  exact useAsFrameBufferTarget_total s1 l (hw.of_sameFrame hsf).fb_valid h1.1 (h1.2 q hq l hl)

theorem EligibilityAnswers.transfer {σ : Type} {s s1 : State σ} (hsf : SameFrame s s1)
    (h : EligibilityAnswers s) : EligibilityAnswers s1 :=
  fun s2 hsf2 => h s2 (hsf.trans hsf2)

theorem fbTargetScan_total {σ : Type} (env : Env σ) :
    ∀ (cnt i : Nat) (s : State σ), SearchState s → EligibilityAnswers s →
      i + cnt ≤ s.mFBLayers.length → ∃ r, fbTargetScan env cnt i s = some r := by
  intro cnt
  induction cnt with
  | zero => intro i s _ _ _; exact ⟨_, rfl⟩
  | succ cnt ih =>
    intro i s hs hr hle
    obtain ⟨l, hl⟩ := fbLayerAt_total s hs.wf.fb_valid i (by omega)
    obtain ⟨q, hq, hlq⟩ := fbLayerAt_some hl
    obtain ⟨r1, h1⟩ := ih (i + 1) s hs hr (by omega)
    obtain ⟨b, hb⟩ := hr s (SameFrame.refl s) q hq l hlq
    obtain ⟨f, hf, _, _⟩ := hs.wf.fbt
    obtain ⟨r2, h2⟩ := assignPrimaryPlaneHelper_total env f l.mZOrder s (hs.fbtFresh f hf)
      hs.records_valid
    unfold fbTargetScan
    simp only [hl, hb, hf, h2]
    split_ifs
    · exact ⟨r1, h1⟩
    · cases b with
      | false => exact ⟨r1, h1⟩
      | true =>
        simp only
        obtain ⟨b2, s1⟩ := r2
        cases b2 with
        | true => exact ⟨_, rfl⟩
        | false =>
          simp only
          have hs1 := assignPrimaryPlaneHelper_false hs.inv (hs.fbtFresh f hf) h2
          rw [hs1]
          exact ih (i + 1) _ (hs.changePM _) (hr.transfer (sameFrame_withPM s _)) (by
            show i + 1 + cnt ≤ s.mFBLayers.length
            omega)

theorem spriteLayerScan_total {σ : Type} (s : State σ)
    (hv : ∀ c ∈ s.mSpriteCandidates, c < s.mLayers.length) :
    ∀ (i : Nat) (acc : Option Nat), i ≤ s.mSpriteCandidates.length →
      ∃ r, spriteLayerScan s i acc = some r := by
  intro i
  induction i with
  | zero => intro acc _; exact ⟨acc, rfl⟩
  | succ k ih =>
    intro acc hk
    obtain ⟨c, hc⟩ := getElem?_some_of_lt s.mSpriteCandidates k (by omega)
    obtain ⟨l, hl⟩ := getElem?_some_of_lt s.mLayers c (hv c (List.getElem?_mem hc))
    obtain ⟨r, hr⟩ := ih (some c) (by omega)
    unfold spriteLayerScan
    simp only [hc, hl]
    split_ifs
    · exact ⟨_, rfl⟩
    · exact ⟨r, hr⟩

theorem assignPrimaryPlane_total {σ : Type} (env : Env σ) (s : State σ)
    (hs : SearchState s) (hr : EligibilityAnswers s) :
    ∃ r, assignPrimaryPlane env s = some r := by
  obtain ⟨sl, hsl⟩ := spriteLayerScan_total s
    (fun c hc => hs.wf.fb_valid c (hs.wf.sp_sub.subset hc)) s.mSpriteCandidates.length none
    (le_refl _)
  obtain ⟨f, hf, _, _⟩ := hs.wf.fbt
  unfold assignPrimaryPlane
  simp only [hsl, hf]
  split_ifs with hA hB hC
  · cases sl with
    | none => exact absurd rfl hA.2
    | some p =>
      simp only
      rcases spriteLayerScan_some s p _ none hsl with h | ⟨_, hfp⟩
      · cases h
      · exact assignPrimaryPlaneHelper_total env p (-1) s hfp hs.records_valid
  · exact assignPrimaryPlaneHelper_total env f 0 s (hs.fbtFresh f hf) hs.records_valid
  · exact attachPlanes_total env s hs.records_valid
  · exact fbTargetScan_total env _ 0 s hs hr (by omega)
theorem candLoop_total {σ : Type} {env : Env σ} {type : PlaneType}
    {cands : State σ → List Nat} {last : State σ → Option (Bool × State σ)}
    {P : State σ → Prop} (ph : Phase env type cands last P) (E : State σ → Prop)
    (hE : ∀ s s1, SameFrame s s1 → E s → E s1)
    (next : Nat → State σ → Option (Bool × State σ))
    (hnextT : ∀ (index : Nat) (s : State σ), P s → E s →
      (∀ c ∈ (cands s).drop index, Fresh s c) → ∃ r, next index s = some r)
    (hnext : ∀ (index : Nat) (s s1 : State σ), P s →
      (∀ c ∈ (cands s).drop index, Fresh s c) → next index s = some (false, s1) →
      s1 = withPM s s1.planeManager) :
    ∀ (cnt i : Nat) (s : State σ), P s → E s → (∀ c ∈ (cands s).drop i, Fresh s c) →
      (cnt = 0 ∨ i + cnt ≤ (cands s).length) →
      ∃ r, candLoop env type cands next cnt i s = some r := by
  intro cnt
  induction cnt with
  | zero => intro i s _ _ _ _; exact ⟨_, rfl⟩
  | succ k ih =>
    intro i s hP hEs hfresh hle
    have hi : i < (cands s).length := by omega
    obtain ⟨c, hc⟩ := getElem?_some_of_lt (cands s) i hi
    have hci : (cands s)[i] = c := (List.getElem?_eq_some.mp hc).2
    have hdrop : (cands s).drop i = c :: (cands s).drop (i + 1) := by
      rw [List.drop_eq_getElem_cons hi, hci]
    have hcmem : c ∈ cands s := List.mem_iff_getElem?.mpr ⟨i, hc⟩
    have hcf : Fresh s c := hfresh c (by rw [hdrop]; exact List.mem_cons_self _ _)
    have hnd : (c :: (cands s).drop (i + 1)).Nodup := by
      rw [← hdrop]
      exact (ph.nodup s hP).sublist (List.drop_sublist _ _)
    have hcnot : c ∉ (cands s).drop (i + 1) := (List.nodup_cons.mp hnd).1
    obtain ⟨l, hl, _⟩ := id hcf
    obtain ⟨zlayer, sa, hadd⟩ := addZOrderLayer_of_layer env type c (-1) s l hl
    have hPa : P sa := ph.add s c zlayer sa hP hcmem hcf hadd
    have hEa : E sa := hE s sa (addZOrderLayer_sameFrame hadd) hEs
    have hca : cands sa = cands s := ph.frame s sa (addZOrderLayer_sameFrame hadd)
    have hfa : ∀ c2 ∈ (cands sa).drop (i + 1), Fresh sa c2 := by
      intro c2 hc2
      rw [hca] at hc2
      have hne : c2 ≠ c := fun e => hcnot (e ▸ hc2)
      exact Fresh.add_ne hadd hne
        (hfresh c2 (by rw [hdrop]; exact List.mem_cons_of_mem _ hc2))
    obtain ⟨rn, hn⟩ := hnextT (i + 1) sa hPa hEa hfa
    unfold candLoop
    simp only [hc, hadd, hn]
    obtain ⟨b, s2⟩ := rn
    cases b with
    | true => exact ⟨_, rfl⟩
    | false =>
      simp only
      have hres := hnext (i + 1) sa s2 hPa hfa hn
      have hrem := remove_add_restore (ph.inv s hP) hcf hadd s2.planeManager
      rw [← hres] at hrem
      rw [hrem]
      simp only
      have hcs : cands (withPM s s2.planeManager) = cands s :=
        ph.frame s _ (sameFrame_withPM s _)
      exact ih (i + 1) (withPM s s2.planeManager) (ph.pm s _ hP)
        (hE s _ (sameFrame_withPM s _) hEs)
        (by
          intro c2 hc2
          rw [hcs] at hc2
          exact (hfresh c2 (by rw [hdrop]; exact List.mem_cons_of_mem _ hc2)).atPM _)
        (by rw [hcs]; omega)

theorem candFrom_total {σ : Type} {env : Env σ} {type : PlaneType}
    {cands : State σ → List Nat} {last : State σ → Option (Bool × State σ)}
    {P : State σ → Prop} (ph : Phase env type cands last P) (E : State σ → Prop)
    (hE : ∀ s s1, SameFrame s s1 → E s → E s1)
    (hlastT : ∀ s, P s → E s → ∃ r, last s = some r) :
    ∀ (n index : Nat) (s : State σ), P s → E s →
      (∀ c ∈ (cands s).drop index, Fresh s c) →
      ∃ r, candFrom env type cands last index n s = some r := by
  intro n
  induction n with
  | zero =>
    intro index s hP hEs _
    simp only [candFrom]
    exact hlastT s hP hEs
  | succ k ih =>
    intro index s hP hEs hfresh
    simp only [candFrom]
    exact candLoop_total ph E hE _ ih
      (fun j s' s1 hP' hf' h => (candFrom_result ph k j s' s1 false hP' hf' h).1 rfl)
      _ index s hP hEs hfresh (by omega)

theorem candDown_total {σ : Type} {env : Env σ} {type : PlaneType}
    {cands : State σ → List Nat} {last : State σ → Option (Bool × State σ)}
    {P : State σ → Prop} (ph : Phase env type cands last P) (E : State σ → Prop)
    (hE : ∀ s s1, SameFrame s s1 → E s → E s1)
    (hlastT : ∀ s, P s → E s → ∃ r, last s = some r) :
    ∀ (k : Nat) (s : State σ), P s → E s → (∀ c ∈ cands s, Fresh s c) →
      ∃ r, candDown env type cands last k s = some r := by
  intro k
  induction k with
  | zero =>
    intro s hP hEs hfresh
    simp only [candDown]
    exact candFrom_total ph E hE hlastT 0 0 s hP hEs (by simpa using hfresh)
  | succ k ih =>
    intro s hP hEs hfresh
    obtain ⟨r, hr⟩ := candFrom_total ph E hE hlastT (k + 1) 0 s hP hEs
      (by simpa using hfresh)
    unfold candDown
    simp only [hr]
    obtain ⟨b, s2⟩ := r
    cases b with
    | true => exact ⟨_, rfl⟩
    | false =>
      simp only
      have hres := (candFrom_result ph (k + 1) 0 s s2 false hP
        (by simpa using hfresh) hr).1 rfl
      have hcs : cands (withPM s s2.planeManager) = cands s :=
        ph.frame s _ (sameFrame_withPM s _)
      rw [hres]
      exact ih (withPM s s2.planeManager) (ph.pm s _ hP)
        (hE s _ (sameFrame_withPM s _) hEs)
        (by intro c hc; rw [hcs] at hc; exact (hfresh c hc).atPM _)

theorem assignSpritePlanes_total {σ : Type} (env : Env σ) (s : State σ)
    (hs : SearchState s) (hr : EligibilityAnswers s)
    (hfresh : ∀ c ∈ s.mSpriteCandidates, Fresh s c) :
    ∃ r, assignSpritePlanes env s = some r := by
  have hdown : ∀ k, ∃ r, assignSpritePlanesDown env k s = some r := by
    intro k
    rw [assignSpritePlanesDown_eq]
    exact candDown_total (spritePhase env) EligibilityAnswers
      (fun _ _ hsf h => h.transfer hsf)
      (fun s hP hEs => assignPrimaryPlane_total env s hP hEs) k s hs hr hfresh
  unfold assignSpritePlanes
  simp only
  split_ifs
  all_goals first
    | exact assignPrimaryPlane_total env s hs hr
    | exact ⟨_, rfl⟩
    | exact hdown _

theorem assignOverlayPlanes_total {σ : Type} (env : Env σ) (s : State σ)
    (hs : OverlayState s) (hr : EligibilityAnswers s)
    (hfresh : ∀ c ∈ s.mOverlayCandidates, Fresh s c) :
    ∃ r, assignOverlayPlanes env s = some r := by
  have hdown : ∀ k, ∃ r, assignOverlayPlanesDown env k s = some r := by
    intro k
    rw [assignOverlayPlanesDown_eq]
    exact candDown_total (overlayPhase env) EligibilityAnswers
      (fun _ _ hsf h => h.transfer hsf)
      (fun s hP hEs => assignSpritePlanes_total env s hP.search hEs hP.spritesFresh)
      k s hs hr hfresh
  unfold assignOverlayPlanes
  simp only
  split_ifs
  all_goals first
    | exact assignSpritePlanes_total env s hs.search hr hs.spritesFresh
    | exact ⟨_, rfl⟩
    | exact hdown _

theorem exPairState_readsInRange : ReadsInRange exPairState := by
  refine ⟨by decide, ?_⟩
  intro p hp l hl
  simp only [exPairState, List.mem_singleton] at hp
  subst hp
  simp only [exPairState, List.getElem?_cons_zero, Option.some.injEq] at hl
  subst hl
  decide

/-- C17: the search returns a definite answer whenever the eligibility test does. For
every freshly classified list and every manager, if `useAsFrameBufferTarget` returns an
answer for every GPU layer in the lists of the same frame, then `allocatePlanesV2`
returns true or false: every loop of the model runs for the number of passes fixed on
entry, the recursion of the two candidate functions is on the remaining plane count, and
no read of a candidate set or of `mLayers` is out of range. That condition holds when the
bound `mLayerCount - 1` and the frame index of every GPU layer are at most the size of
`mFBLayers`. It fails for the frame of a pre-skipped layer, three sprite-capable layers
and the framebuffer target with one free sprite plane: the frame is accepted, and the
constructor's search has no result, because the eligibility test reads `mFBLayers` out of
range. -/
theorem search_returns_when_eligibility_reads_in_range :
    (∀ {σ : Type} (env : Env σ) (s : State σ), Classified s → EligibilityAnswers s →
      ∃ b s1, allocatePlanesV2 env s = some (b, s1)) ∧
    (∀ {σ : Type} (s : State σ), WellFormed s → ReadsInRange s → EligibilityAnswers s) ∧
    ((classify exAllCaps (emptyList (some exSkipFrame) ())).map (fun r => r.1) = some true ∧
      construct (exEnv 1 0 (fun _ => true)) exAllCaps (some exSkipFrame) () = none ∧
      allocatePlanesV2 (exEnv 1 0 (fun _ => true)) exSkipStart = none ∧
      useAsFrameBufferTarget exSkipState (exLayer 2 LayerType.LAYER_FB false exRect) =
        none) := by
  refine ⟨?_, ?_, by decide, by decide, by decide, by decide⟩
  · intro σ env s hc he
    obtain ⟨r, hr⟩ := assignOverlayPlanes_total env s hc.overlayState he hc.overlaysFresh
    exact ⟨r.1, r.2, hr⟩
  · intro σ s hw hr
    exact hr.answers hw

theorem search_returns_when_eligibility_reads_in_range_witness :
    ∃ b s1, allocatePlanesV2 (exEnv 1 0 (fun _ => true)) exPairState = some (b, s1) :=
  search_returns_when_eligibility_reads_in_range.1 (exEnv 1 0 (fun _ => true)) exPairState
    exPairState_classified
    (search_returns_when_eligibility_reads_in_range.2.1 exPairState
      exPairState_classified.wf exPairState_readsInRange)

/-! ## Exhaustive enumeration of the selections -/

theorem firstSuccess_append (env : Env Unit) (type : PlaneType)
    (last : State Unit → Option (Bool × State Unit)) (s : State Unit) :
    ∀ (L1 L2 : List (List Nat)), firstSuccess env type last (L1 ++ L2) s =
      match firstSuccess env type last L1 s with
      | none => none
      | some (true, s1) => some (true, s1)
      | some (false, _) => firstSuccess env type last L2 s := by
  intro L1
  induction L1 with
  | nil => intro L2; rfl
  | cons T rest ih =>
    intro L2
    simp only [List.cons_append, firstSuccess]
    cases addCandidates env type T s with
    | none => rfl
    | some sT =>
      simp only
      cases last sT with
      | none => rfl
      | some bs =>
        obtain ⟨b, s1⟩ := bs
        cases b with
        | true => rfl
        | false => exact ih L2

theorem firstSuccess_map_cons (env : Env Unit) (type : PlaneType)
    (last : State Unit → Option (Bool × State Unit)) (s sa : State Unit) (c : Nat)
    (r : ZOrderLayer) (hadd : addZOrderLayer env type c (-1) s = some (r, sa)) :
    ∀ (L : List (List Nat)), firstSuccess env type last (L.map (fun T => c :: T)) s =
      match firstSuccess env type last L sa with
      | none => none
      | some (true, s1) => some (true, s1)
      | some (false, _) => some (false, s) := by
  intro L
  induction L with
  | nil => rfl
  | cons T rest ih =>
    simp only [List.map_cons, firstSuccess, addCandidates, hadd]
    cases addCandidates env type T sa with
    | none => rfl
    | some sT =>
      simp only
      cases last sT with
      | none => rfl
      | some bs =>
        obtain ⟨b, s1⟩ := bs
        cases b with
        | true => rfl
        | false => exact ih

theorem selections_short {α : Type} : ∀ (l : List α) (k : Nat), l.length < k →
    selections k l = [] := by
  intro l
  induction l with
  | nil => intro k hk; cases k with
    | zero => simp at hk
    | succ k => rfl
  | cons c cs ih =>
    intro k hk
    cases k with
    | zero => simp at hk
    | succ k =>
      simp only [selections]
      rw [ih k (by simp at hk; omega), ih (k + 1) (by simp at hk; omega)]
      rfl
theorem candLoop_selections {env : Env Unit} {type : PlaneType}
    {cands : State Unit → List Nat} {last : State Unit → Option (Bool × State Unit)}
    {P : State Unit → Prop} (ph : Phase env type cands last P) (k : Nat)
    (hk : ∀ (j : Nat) (s : State Unit), P s → (∀ c ∈ (cands s).drop j, Fresh s c) →
      candFrom env type cands last j k s =
        firstSuccess env type last (selections k ((cands s).drop j)) s) :
    ∀ (cnt i : Nat) (s : State Unit), P s → (∀ c ∈ (cands s).drop i, Fresh s c) →
      cnt = (cands s).length + 1 - (i + (k + 1)) →
      candLoop env type cands (fun j => candFrom env type cands last j k) cnt i s =
        firstSuccess env type last (selections (k + 1) ((cands s).drop i)) s := by
  intro cnt
  induction cnt with
  | zero =>
    intro i s _ _ hcnt
    rw [selections_short _ _ (by simp; omega)]
    rfl
  | succ n ih =>
    intro i s hP hfresh hcnt
    have hi : i < (cands s).length := by omega
    obtain ⟨c, hc⟩ := getElem?_some_of_lt (cands s) i hi
    have hci : (cands s)[i] = c := (List.getElem?_eq_some.mp hc).2
    have hdrop : (cands s).drop i = c :: (cands s).drop (i + 1) := by
      rw [List.drop_eq_getElem_cons hi, hci]
    have hcmem : c ∈ cands s := List.mem_iff_getElem?.mpr ⟨i, hc⟩
    have hcf : Fresh s c := hfresh c (by rw [hdrop]; exact List.mem_cons_self _ _)
    have hnd : (c :: (cands s).drop (i + 1)).Nodup := by
      rw [← hdrop]
      exact (ph.nodup s hP).sublist (List.drop_sublist _ _)
    have hcnot : c ∉ (cands s).drop (i + 1) := (List.nodup_cons.mp hnd).1
    obtain ⟨l, hl, _⟩ := id hcf
    obtain ⟨zlayer, sa, hadd⟩ := addZOrderLayer_of_layer env type c (-1) s l hl
    have hPa : P sa := ph.add s c zlayer sa hP hcmem hcf hadd
    have hca : cands sa = cands s := ph.frame s sa (addZOrderLayer_sameFrame hadd)
    have hfa : ∀ c2 ∈ (cands sa).drop (i + 1), Fresh sa c2 := by
      intro c2 hc2
      rw [hca] at hc2
      have hne : c2 ≠ c := fun e => hcnot (e ▸ hc2)
      exact Fresh.add_ne hadd hne
        (hfresh c2 (by rw [hdrop]; exact List.mem_cons_of_mem _ hc2))
    have hnext := hk (i + 1) sa hPa hfa
    rw [hca] at hnext
    rw [hdrop]
    simp only [selections]
    rw [firstSuccess_append, firstSuccess_map_cons env type last s sa c zlayer hadd]
    unfold candLoop
    simp only [hc, hadd, hnext]
    cases hfs : firstSuccess env type last (selections k ((cands s).drop (i + 1))) sa with
    | none => rfl
    | some bs =>
      obtain ⟨b, s2⟩ := bs
      cases b with
      | true => rfl
      | false =>
        simp only
        have hres : s2 = sa := by
          have h1 := (candFrom_result ph k (i + 1) sa s2 false hPa hfa
            (by rw [hk (i + 1) sa hPa hfa, hca]; exact hfs)).1 rfl
          rw [h1]; rfl
        have hrem := remove_add_restore (ph.inv s hP) hcf hadd ()
        rw [hres]
        have hrem2 : removeZOrderLayer zlayer sa = some s := hrem
        rw [hrem2]
        simp only
        exact ih (i + 1) s hP
          (fun c2 hc2 => hfresh c2 (by rw [hdrop]; exact List.mem_cons_of_mem _ hc2))
          (by omega)

theorem candFrom_selections {env : Env Unit} {type : PlaneType}
    {cands : State Unit → List Nat} {last : State Unit → Option (Bool × State Unit)}
    {P : State Unit → Prop} (ph : Phase env type cands last P) :
    ∀ (k j : Nat) (s : State Unit), P s → (∀ c ∈ (cands s).drop j, Fresh s c) →
      candFrom env type cands last j k s =
        firstSuccess env type last (selections k ((cands s).drop j)) s := by
  intro k
  induction k with
  | zero =>
    intro j s hP _
    simp only [candFrom, selections, firstSuccess, addCandidates]
    cases hl : last s with
    | none => rfl
    | some bs =>
      obtain ⟨b, s1⟩ := bs
      cases b with
      | true => rfl
      | false =>
        simp only
        have := ph.last_false s s1 hP hl
        rw [this]; rfl
  | succ k ih =>
    intro j s hP hfresh
    simp only [candFrom]
    exact candLoop_selections ph k ih _ j s hP hfresh rfl
theorem selections_sublist {α : Type} : ∀ (l : List α) (k : Nat) (T : List α),
    T ∈ selections k l → T.Sublist l ∧ T.length = k := by
  intro l
  induction l with
  | nil =>
    intro k T h
    cases k with
    | zero => simp [selections] at h; subst h; exact ⟨List.Sublist.refl _, rfl⟩
    | succ k => simp [selections] at h
  | cons c cs ih =>
    intro k T h
    cases k with
    | zero => simp [selections] at h; subst h; exact ⟨List.nil_sublist _, rfl⟩
    | succ k =>
      simp only [selections, List.mem_append, List.mem_map] at h
      rcases h with ⟨T1, h1, h2⟩ | h
      · obtain ⟨h3, h4⟩ := ih k T1 h1
        subst h2
        exact ⟨h3.cons₂ c, by simp [h4]⟩
      · obtain ⟨h3, h4⟩ := ih (k + 1) T h
        exact ⟨h3.cons c, h4⟩

theorem selections_complete {α : Type} : ∀ (l : List α) (k : Nat) (T : List α),
    T.Sublist l → T.length = k → T ∈ selections k l := by
  intro l
  induction l with
  | nil =>
    intro k T h hk
    have := List.eq_nil_of_sublist_nil h
    subst this; subst hk
    simp [selections]
  | cons c cs ih =>
    intro k T h hk
    cases k with
    | zero =>
      have := List.length_eq_zero.1 hk
      subst this
      simp [selections]
    | succ k =>
      simp only [selections, List.mem_append, List.mem_map]
      cases h with
      | cons _ h1 => exact Or.inr (ih (k + 1) T h1 hk)
      | cons₂ _ h1 =>
        rename_i T1
        exact Or.inl ⟨T1, ih k T1 h1 (by simpa using hk), rfl⟩

theorem selections_map {α β : Type} (f : α → β) : ∀ (l : List α) (k : Nat),
    selections k (l.map f) = (selections k l).map (List.map f) := by
  intro l
  induction l with
  | nil => intro k; cases k <;> rfl
  | cons c cs ih =>
    intro k
    cases k with
    | zero => rfl
    | succ k =>
      simp only [List.map_cons, selections, List.map_append, List.map_map, ih]
      rfl

theorem selections_lex : ∀ (l : List Nat) (k : Nat), l.Pairwise (fun a b => a < b) →
    (selections k l).Pairwise (List.Lex (fun a b => a < b)) := by
  intro l
  induction l with
  | nil => intro k _; cases k <;> simp [selections]
  | cons c cs ih =>
    intro k hl
    cases k with
    | zero => simp [selections]
    | succ k =>
      obtain ⟨hc, hcs⟩ := List.pairwise_cons.1 hl
      simp only [selections]
      rw [List.pairwise_append]
      refine ⟨?_, ih (k + 1) hcs, ?_⟩
      · rw [List.pairwise_map]
        exact (ih k hcs).imp (fun h => List.Lex.cons h)
      · intro x hx y hy
        obtain ⟨T, _, hT⟩ := List.mem_map.1 hx
        subst hT
        obtain ⟨hsub, hlen⟩ := selections_sublist cs (k + 1) y hy
        cases y with
        | nil => simp at hlen
        | cons y0 ys =>
          exact List.Lex.rel (hc y0 (hsub.subset (List.mem_cons_self _ _)))

theorem lex_lt_irrefl : ∀ (t : List Nat), ¬ List.Lex (fun a b => a < b) t t := by
  intro t
  induction t with
  | nil => intro h; cases h
  | cons a t ih =>
    intro h
    cases h with
    | cons h1 => exact ih h1
    | rel h1 => exact Nat.lt_irrefl _ h1

theorem indexTuples_mem (k n : Nat) (t : List Nat) :
    t ∈ indexTuples k n ↔
      t.length = k ∧ t.Pairwise (fun a b => a < b) ∧ ∀ i ∈ t, i < n := by
  unfold indexTuples
  constructor
  · intro h
    obtain ⟨hsub, hlen⟩ := selections_sublist _ _ _ h
    exact ⟨hlen, (List.pairwise_lt_range n).sublist hsub,
      fun i hi => List.mem_range.1 (hsub.subset hi)⟩
  · rintro ⟨hlen, hpw, hlt⟩
    refine selections_complete _ _ _ ?_ hlen
    have hnd : t.Nodup := hpw.imp (fun h => Nat.ne_of_lt h)
    have hsubset : t ⊆ List.range n := fun i hi => List.mem_range.2 (hlt i hi)
    exact List.sublist_of_subperm_of_sorted (List.subperm_of_subset hnd hsubset)
      (hpw.imp (fun h => Nat.le_of_lt h))
      ((List.pairwise_lt_range n).imp (fun h => Nat.le_of_lt h))

theorem pick_range (cands : List Nat) : pick cands (List.range cands.length) = cands := by
  unfold pick
  apply List.ext_getElem
  · simp
  · intro i h1 h2
    simp [List.getD_eq_getElem?_getD, List.getElem?_eq_getElem h2]

theorem selections_pick (cands : List Nat) (k : Nat) :
    selections k cands = (indexTuples k cands.length).map (pick cands) := by
  have h := selections_map (fun i => cands.getD i 0) (List.range cands.length) k
  have h2 := pick_range cands
  unfold pick at h2
  rw [h2] at h
  rw [h]
  rfl
theorem firstSuccess_true_iff (env : Env Unit) (type : PlaneType)
    (last : State Unit → Option (Bool × State Unit)) (f : List Nat → List Nat)
    (s s1 : State Unit) :
    ∀ (ts : List (List Nat)),
      firstSuccess env type last (ts.map f) s = some (true, s1) ↔
      ∃ L1 t L2 sT, ts = L1 ++ t :: L2 ∧
        (∀ u ∈ L1, ∃ sU s2, addCandidates env type (f u) s = some sU ∧
          last sU = some (false, s2)) ∧
        addCandidates env type (f t) s = some sT ∧ last sT = some (true, s1) := by
  intro ts
  induction ts with
  | nil =>
    simp only [List.map_nil, firstSuccess]
    constructor
    · intro h; simp at h
    · rintro ⟨L1, t, L2, _, h, _⟩
      exact absurd h (by simp)
  | cons t0 rest ih =>
    simp only [List.map_cons, firstSuccess]
    constructor
    · intro h
      cases hadd : addCandidates env type (f t0) s with
      | none => rw [hadd] at h; cases h
      | some sT =>
        rw [hadd] at h
        simp only at h
        cases hl : last sT with
        | none => rw [hl] at h; cases h
        | some bs =>
          obtain ⟨b, s2⟩ := bs
          rw [hl] at h
          cases b with
          | true =>
            simp only [Option.some.injEq, Prod.mk.injEq, true_and] at h
            subst h
            exact ⟨[], t0, rest, sT, rfl, fun u hu => absurd hu (List.not_mem_nil u), hadd, hl⟩
          | false =>
            simp only at h
            obtain ⟨L1, t, L2, sT1, h1, h2, h3, h4⟩ := ih.1 h
            refine ⟨t0 :: L1, t, L2, sT1, by rw [h1]; rfl, ?_, h3, h4⟩
            intro u hu
            rcases List.mem_cons.1 hu with hu | hu
            · subst hu; exact ⟨sT, s2, hadd, hl⟩
            · exact h2 u hu
    · rintro ⟨L1, t, L2, sT, h1, h2, h3, h4⟩
      cases L1 with
      | nil =>
        simp only [List.nil_append, List.cons.injEq] at h1
        obtain ⟨h1a, _⟩ := h1
        subst h1a
        rw [h3]; simp only; rw [h4]
      | cons u0 L1 =>
        simp only [List.cons_append, List.cons.injEq] at h1
        obtain ⟨h1a, h1b⟩ := h1
        subst h1a
        obtain ⟨sU, s2, hu1, hu2⟩ := h2 t0 (List.mem_cons_self _ _)
        rw [hu1]; simp only; rw [hu2]
        simp only
        exact ih.2 ⟨L1, t, L2, sT, h1b, fun u hu => h2 u (List.mem_cons_of_mem _ hu), h3, h4⟩

theorem firstSuccess_defined_iff (env : Env Unit) (type : PlaneType)
    (last : State Unit → Option (Bool × State Unit)) (f : List Nat → List Nat)
    (s : State Unit) :
    ∀ (ts : List (List Nat)),
      (∀ t ∈ ts, ∃ sT r, addCandidates env type (f t) s = some sT ∧ last sT = some r) →
      ((∃ s1, firstSuccess env type last (ts.map f) s = some (true, s1)) ↔
        ∃ t ∈ ts, ∃ sT s1, addCandidates env type (f t) s = some sT ∧
          last sT = some (true, s1)) := by
  intro ts hdef
  constructor
  · rintro ⟨s1, h⟩
    obtain ⟨L1, t, L2, sT, h1, _, h3, h4⟩ := (firstSuccess_true_iff env type last f s s1 ts).1 h
    exact ⟨t, by rw [h1]; simp, sT, s1, h3, h4⟩
  · rintro ⟨t, ht, sT, s1, h3, h4⟩
    induction ts with
    | nil => exact absurd ht (List.not_mem_nil t)
    | cons t0 rest ih =>
      obtain ⟨sT0, r0, ha0, hl0⟩ := hdef t0 (List.mem_cons_self _ _)
      simp only [List.map_cons, firstSuccess, ha0, hl0]
      obtain ⟨b, s2⟩ := r0
      cases b with
      | true => exact ⟨s2, rfl⟩
      | false =>
        simp only
        rcases List.mem_cons.1 ht with ht | ht
        · subst ht
          rw [ha0] at h3; injection h3 with h3; subst h3
          rw [hl0] at h4; simp at h4
        · exact ih (fun u hu => hdef u (List.mem_cons_of_mem _ hu)) ht

theorem enumerates_of_eq (env : Env Unit) (type : PlaneType)
    (last : State Unit → Option (Bool × State Unit)) (cands : List Nat) (k : Nat)
    (s : State Unit) (result : Option (Bool × State Unit))
    (h : result = firstSuccess env type last (selections k cands) s) :
    Enumerates env type last cands k s result := by
  rw [selections_pick] at h
  refine ⟨h, ?_, ?_⟩
  · intro s1
    rw [h]
    exact firstSuccess_true_iff env type last (pick cands) s s1 _
  · intro hdef
    rw [h]
    exact firstSuccess_defined_iff env type last (pick cands) s _ hdef
theorem addCandidates_phase {σ : Type} {env : Env σ} {type : PlaneType}
    {cands : State σ → List Nat} {last : State σ → Option (Bool × State σ)}
    {P : State σ → Prop} (ph : Phase env type cands last P) :
    ∀ (T : List Nat) (s : State σ), P s → T.Nodup → (∀ c ∈ T, c ∈ cands s ∧ Fresh s c) →
      ∃ sT, addCandidates env type T s = some sT ∧ P sT ∧ SameFrame s sT ∧
        ∀ c, c ∉ T → Fresh s c → Fresh sT c := by
  intro T
  induction T with
  | nil => intro s hP _ _; exact ⟨s, rfl, hP, SameFrame.refl s, fun _ _ h => h⟩
  | cons c T ih =>
    intro s hP hnd hT
    obtain ⟨hcm, hcf⟩ := hT c (List.mem_cons_self _ _)
    obtain ⟨l, hl, _⟩ := id hcf
    obtain ⟨r, sa, hadd⟩ := addZOrderLayer_of_layer env type c (-1) s l hl
    have hPa : P sa := ph.add s c r sa hP hcm hcf hadd
    have hsf : SameFrame s sa := addZOrderLayer_sameFrame hadd
    have hca : cands sa = cands s := ph.frame s sa hsf
    have hcT : c ∉ T := (List.nodup_cons.1 hnd).1
    obtain ⟨sT, h1, h2, h3, h4⟩ := ih sa hPa (List.nodup_cons.1 hnd).2 (by
      intro c2 hc2
      have hne : c2 ≠ c := fun e => hcT (e ▸ hc2)
      obtain ⟨a, b⟩ := hT c2 (List.mem_cons_of_mem _ hc2)
      exact ⟨by rw [hca]; exact a, Fresh.add_ne hadd hne b⟩)
    refine ⟨sT, by simp only [addCandidates, hadd]; exact h1, h2, hsf.trans h3, ?_⟩
    intro c2 hc2 hf2
    have hne : c2 ≠ c := fun e => hc2 (e ▸ List.mem_cons_self _ _)
    exact h4 c2 (fun hm => hc2 (List.mem_cons_of_mem _ hm)) (Fresh.add_ne hadd hne hf2)

theorem pick_mem_sublist (cands : List Nat) (k : Nat) (t : List Nat)
    (ht : t ∈ indexTuples k cands.length) : (pick cands t).Sublist cands := by
  have : pick cands t ∈ selections k cands := by
    rw [selections_pick]
    exact List.mem_map_of_mem _ ht
  exact (selections_sublist cands k _ this).1
theorem enumeration_defined {σ : Type} {env : Env σ} {type : PlaneType}
    {cands : State σ → List Nat} {last : State σ → Option (Bool × State σ)}
    {P : State σ → Prop} (ph : Phase env type cands last P) (k : Nat) (s : State σ)
    (hP : P s) (hfresh : ∀ c ∈ cands s, Fresh s c)
    (hlast : ∀ sT, P sT → SameFrame s sT → ∃ r, last sT = some r) :
    ∀ t ∈ indexTuples k (cands s).length, ∃ sT r,
      addCandidates env type (pick (cands s) t) s = some sT ∧ last sT = some r := by
  intro t ht
  have hsub := pick_mem_sublist (cands s) k t ht
  obtain ⟨sT, h1, h2, h3, _⟩ := addCandidates_phase ph (pick (cands s) t) s hP
    (hsub.nodup (ph.nodup s hP)) (fun c hc => ⟨hsub.subset hc, hfresh c (hsub.subset hc)⟩)
  obtain ⟨r, hr⟩ := hlast sT h2 h3
  exact ⟨sT, r, h1, hr⟩

theorem exWideClassified_classified : Classified exWideClassified :=
  ⟨⟨⟨3, rfl, by decide, by decide⟩, by decide, by decide, by decide, by decide,
    by decide, by decide, by decide, by decide⟩, rfl, by decide⟩

/-- C18: the index tuples tried are exactly the strictly increasing tuples of `k` indices
into the candidate set, so each is order preserving and none is a permutation of another;
they are listed in strictly increasing lexicographic order, so each is tried at most
once. With a manager without state, in every list in which the search calls them,
`assignSpritePlanes(0, k)` (no sprite candidate in use) and `assignOverlayPlanes(0, k)`
(no overlay candidate in use either) try the tuples in this order, each from the list as
it was on entry with exactly its candidates added in order, and return at the first tuple
with which the following phase succeeds: the committed selection is the
lexicographically first one that succeeds. When the eligibility test returns an answer
for every GPU layer of the frame, the function returns true if and only if the following
phase succeeds for some tuple. Without that it need not: for the classified frame of a
pre-skipped layer, four sprite candidates and the framebuffer target, with a manager that
accepts everything, primary placement succeeds with the tuple `[1, 2]`, but
`assignSpritePlanes(0, 2)` has no result, because with the first tuple `[0, 1]` the
eligibility test reads `mFBLayers` out of range. -/
theorem combination_enumeration_is_exhaustive :
    (∀ (k n : Nat) (t : List Nat), t ∈ indexTuples k n ↔
      t.length = k ∧ t.Pairwise (fun a b => a < b) ∧ ∀ i ∈ t, i < n) ∧
    (∀ k n : Nat, (indexTuples k n).Pairwise (List.Lex (fun a b => a < b))) ∧
    (∀ k n : Nat, (indexTuples k n).Nodup) ∧
    (∀ (env : Env Unit) (k : Nat) (s : State Unit), OverlayState s →
      Enumerates env PlaneType.PLANE_SPRITE (assignPrimaryPlane env) s.mSpriteCandidates k s
        (assignSpritePlanesFrom env 0 k s) ∧
      ((∀ c ∈ s.mOverlayCandidates, Fresh s c) →
        Enumerates env PlaneType.PLANE_OVERLAY (assignSpritePlanes env)
          s.mOverlayCandidates k s (assignOverlayPlanesFrom env 0 k s)) ∧
      (EligibilityAnswers s →
        ((∃ s1, assignSpritePlanesFrom env 0 k s = some (true, s1)) ↔
          ∃ t ∈ indexTuples k s.mSpriteCandidates.length, ∃ sT s1,
            addCandidates env PlaneType.PLANE_SPRITE (pick s.mSpriteCandidates t) s =
              some sT ∧ assignPrimaryPlane env sT = some (true, s1)) ∧
        ((∀ c ∈ s.mOverlayCandidates, Fresh s c) →
          ((∃ s1, assignOverlayPlanesFrom env 0 k s = some (true, s1)) ↔
            ∃ t ∈ indexTuples k s.mOverlayCandidates.length, ∃ sT s1,
              addCandidates env PlaneType.PLANE_OVERLAY (pick s.mOverlayCandidates t) s =
                some sT ∧ assignSpritePlanes env sT = some (true, s1))))) ∧
    (classify exAllCaps (emptyList (some exLongFrame) ()) = some (true, exLongClassified) ∧
      [1, 2] ∈ indexTuples 2 exLongClassified.mSpriteCandidates.length ∧
      ((addCandidates (exEnv 2 0 (fun _ => true)) PlaneType.PLANE_SPRITE
          (pick exLongClassified.mSpriteCandidates [1, 2]) exLongClassified).bind
        (assignPrimaryPlane (exEnv 2 0 (fun _ => true)))).map (fun r => r.1) = some true ∧
      (addCandidates (exEnv 2 0 (fun _ => true)) PlaneType.PLANE_SPRITE
          (pick exLongClassified.mSpriteCandidates [0, 1]) exLongClassified).bind
        (assignPrimaryPlane (exEnv 2 0 (fun _ => true))) = none ∧
      assignSpritePlanesFrom (exEnv 2 0 (fun _ => true)) 0 2 exLongClassified = none ∧
      allocatePlanesV2 (exEnv 2 0 (fun _ => true)) exLongClassified = none) := by
  have hlex : ∀ k n : Nat, (indexTuples k n).Pairwise (List.Lex (fun a b => a < b)) :=
    fun k n => selections_lex _ k (List.pairwise_lt_range n)
  refine ⟨fun k n t => indexTuples_mem k n t, hlex, ?_, ?_,
    by decide, by decide, by decide, by decide, by decide, by decide⟩
  · intro k n
    refine List.Pairwise.imp ?_ (hlex k n)
    intro a b h heq
    rw [heq] at h
    exact lex_lt_irrefl _ h
  · intro env k s hs
    have hsp1 : Enumerates env PlaneType.PLANE_SPRITE (assignPrimaryPlane env)
        s.mSpriteCandidates k s (assignSpritePlanesFrom env 0 k s) := by
      apply enumerates_of_eq
      rw [assignSpritePlanesFrom_eq]
      have := candFrom_selections (spritePhase env) k 0 s hs.search
        (by simpa using hs.spritesFresh)
      simpa using this
    have hov1 : (∀ c ∈ s.mOverlayCandidates, Fresh s c) →
        Enumerates env PlaneType.PLANE_OVERLAY (assignSpritePlanes env)
          s.mOverlayCandidates k s (assignOverlayPlanesFrom env 0 k s) := by
      intro hov
      apply enumerates_of_eq
      rw [assignOverlayPlanesFrom_eq]
      have := candFrom_selections (overlayPhase env) k 0 s hs (by simpa using hov)
      simpa using this
    refine ⟨hsp1, hov1, ?_⟩
    intro hE
    refine ⟨hsp1.2.2 ?_, fun hov => (hov1 hov).2.2 ?_⟩
    · exact enumeration_defined (spritePhase env) k s hs.search hs.spritesFresh
        (fun sT hP hsf => assignPrimaryPlane_total env sT hP (hE.transfer hsf))
    · exact enumeration_defined (overlayPhase env) k s hs hov
        (fun sT hP hsf => assignSpritePlanes_total env sT hP.search (hE.transfer hsf)
          hP.spritesFresh)

theorem combination_enumeration_is_exhaustive_witness :
    Enumerates exRejectFirstEnv PlaneType.PLANE_SPRITE (assignPrimaryPlane exRejectFirstEnv)
      exWideClassified.mSpriteCandidates 2 exWideClassified
      (assignSpritePlanesFrom exRejectFirstEnv 0 2 exWideClassified) ∧
    indexTuples 2 exWideClassified.mSpriteCandidates.length = [[0, 1], [0, 2], [1, 2]] ∧
    ((addCandidates exRejectFirstEnv PlaneType.PLANE_SPRITE
        (pick exWideClassified.mSpriteCandidates [0, 1]) exWideClassified).bind
      (assignPrimaryPlane exRejectFirstEnv)).map (fun r => r.1) = some false ∧
    ((addCandidates exRejectFirstEnv PlaneType.PLANE_SPRITE
        (pick exWideClassified.mSpriteCandidates [0, 2]) exWideClassified).bind
      (assignPrimaryPlane exRejectFirstEnv)).map (fun r => r.1) = some false ∧
    ((addCandidates exRejectFirstEnv PlaneType.PLANE_SPRITE
        (pick exWideClassified.mSpriteCandidates [1, 2]) exWideClassified).bind
      (assignPrimaryPlane exRejectFirstEnv)).map (fun r => r.1) = some true ∧
    (assignSpritePlanesFrom exRejectFirstEnv 0 2 exWideClassified).map
      (fun r => (r.1, r.2.mLayers.map (fun l => l.mType))) =
      some (true, [LayerType.LAYER_FB, LayerType.LAYER_OVERLAY, LayerType.LAYER_OVERLAY,
        LayerType.LAYER_FRAMEBUFFER_TARGET]) :=
  ⟨(combination_enumeration_is_exhaustive.2.2.2.1 exRejectFirstEnv 2 exWideClassified
      exWideClassified_classified.overlayState).1,
    by decide, by decide, by decide, by decide, by decide⟩

/-! ## Case C of primary placement -/

theorem fbTargetScan_first (env : Env Unit) :
    ∀ (cnt i : Nat) (s s1 : State Unit), SearchState s →
      i + cnt ≤ s.mFBLayers.length →
      (∀ j l, i ≤ j → j < i + cnt → fbLayerAt s j = some l → l.mPlaneCandidate = false →
        ∃ b, useAsFrameBufferTarget s l = some b) →
      (fbTargetScan env cnt i s = some (true, s1) ↔
        ∃ j, i ≤ j ∧ j < i + cnt ∧ WorkablePosition env s j s1 ∧
          ∀ j2 s2, i ≤ j2 → j2 < j → ¬ WorkablePosition env s j2 s2) := by
  intro cnt
  induction cnt with
  | zero =>
    intro i s s1 _ _ _
    simp only [fbTargetScan]
    constructor
    · intro h; simp at h
    · rintro ⟨j, h1, h2, _⟩; omega
  | succ cnt ih =>
    intro i s s1 hs hle hdef
    obtain ⟨l, hl⟩ := fbLayerAt_total s hs.wf.fb_valid i (by omega)
    obtain ⟨f, hf, _, _⟩ := hs.wf.fbt
    have hih := ih (i + 1) s s1 hs (by omega)
      (fun j l hj1 hj2 => hdef j l (by omega) (by omega))
    have hnotw : (∀ s2, ¬ WorkablePosition env s i s2) →
        ((∃ j, i ≤ j ∧ j < i + (cnt + 1) ∧ WorkablePosition env s j s1 ∧
          ∀ j2 s2, i ≤ j2 → j2 < j → ¬ WorkablePosition env s j2 s2) ↔
        (∃ j, i + 1 ≤ j ∧ j < i + 1 + cnt ∧ WorkablePosition env s j s1 ∧
          ∀ j2 s2, i + 1 ≤ j2 → j2 < j → ¬ WorkablePosition env s j2 s2)) := by
      intro hn
      constructor
      · rintro ⟨j, h1, h2, h3, h4⟩
        have hne : j ≠ i := fun hc => hn s1 (hc ▸ h3)
        exact ⟨j, by omega, by omega, h3, fun j2 s2 a b => h4 j2 s2 (by omega) b⟩
      · rintro ⟨j, h1, h2, h3, h4⟩
        refine ⟨j, by omega, by omega, h3, ?_⟩
        intro j2 s2 a b
        by_cases hj2 : j2 = i
        · subst hj2; exact hn s2
        · exact h4 j2 s2 (by omega) b
    unfold fbTargetScan
    simp only [hl]
    by_cases hflag : l.mPlaneCandidate = true
    · rw [if_pos hflag, hih]
      refine (hnotw ?_).symm
      rintro s2 ⟨l2, f2, h1, h2, _⟩
      rw [hl] at h1; injection h1 with h1; subst h1
      rw [hflag] at h2; cases h2
    · rw [if_neg hflag]
      have hfl : l.mPlaneCandidate = false := by simpa using hflag
      obtain ⟨b, hb⟩ := hdef i l (le_refl _) (by omega) hl hfl
      simp only [hb]
      cases b with
      | false =>
        simp only
        rw [hih]
        refine (hnotw ?_).symm
        rintro s2 ⟨l2, f2, h1, _, h3, _⟩
        rw [hl] at h1; injection h1 with h1; subst h1
        rw [hb] at h3; cases h3
      | true =>
        simp only [hf]
        obtain ⟨r, hr⟩ := assignPrimaryPlaneHelper_total env f l.mZOrder s
          (hs.fbtFresh f hf) hs.records_valid
        simp only [hr]
        obtain ⟨b2, s3⟩ := r
        cases b2 with
        | true =>
          simp only [Option.some.injEq, Prod.mk.injEq, true_and]
          constructor
          · intro h
            subst h
            exact ⟨i, le_refl _, by omega, ⟨l, f, hl, hfl, hb, hf, hr⟩,
              fun j2 s2 a b => by omega⟩
          · rintro ⟨j, h1, h2, ⟨l2, f2, w1, w2, w3, w4, w5⟩, h4⟩
            by_cases hji : j = i
            · subst hji
              rw [hl] at w1; injection w1 with w1; subst w1
              rw [hf] at w4; injection w4 with w4; subst w4
              rw [hr] at w5
              simpa using w5
            · exact absurd ⟨l, f, hl, hfl, hb, hf, hr⟩ (h4 i s3 (le_refl _) (by omega))
        | false =>
          simp only
          have hs3 : s3 = s := by
            have := assignPrimaryPlaneHelper_false hs.inv (hs.fbtFresh f hf) hr
            rw [this]; rfl
          rw [hs3, hih]
          refine (hnotw ?_).symm
          rintro s2 ⟨l2, f2, h1, _, _, h4, h5⟩
          rw [hl] at h1; injection h1 with h1; subst h1
          rw [hf] at h4; injection h4 with h4; subst h4
          rw [hr] at h5; simp at h5

theorem exCaseCState_searchState : SearchState exCaseCState :=
  addCandidates_searchState (by decide) [0] exPickyState exCaseCState
    exPickyState_classified.overlayState.search (by decide)
    (fun c hc => by
      rw [List.mem_singleton] at hc
      subst hc
      exact ⟨by decide, exPickyState_classified.fresh 0 (by decide)⟩)
    (show addCandidates exCaseCEnv PlaneType.PLANE_OVERLAY [0] exPickyState
      = some exCaseCState by decide)

/-- C19: with a manager without state, in a list of the search whose configuration is
neither empty nor of the size of the GPU-layer set and that is not a Case A situation,
and provided the eligibility test returns an answer for the GPU layers that are not in
use: `assignPrimaryPlane` returns true with the committed list `s1` if and only if some
position of `mFBLayers` is workable with `s1` (its layer is not in use, the eligibility
test answers true, and the configuration extended by the primary record of the
framebuffer target at that layer's z-order is accepted) and no lower position is
workable; positions that are eligible but not accepted are passed over. Without the
proviso the claim fails: in the frame of a pre-skipped layer, `a`, `b`, `c` and the
framebuffer target with `a` in use, position 2 (layer `c`) is workable, but
`assignPrimaryPlane` has no result, because the eligibility test for `b` at position 1
reads `mFBLayers` out of range. -/
theorem case_c_takes_first_workable_position :
    (∀ (env : Env Unit) (s s1 : State Unit), SearchState s →
      s.mZOrderConfig ≠ [] → s.mZOrderConfig.length ≠ s.mFBLayers.length →
      ¬ (s.mZOrderConfig.length + 1 = s.mFBLayers.length ∧
        spriteLayerScan s s.mSpriteCandidates.length none ≠ some none) →
      (∀ j l, fbLayerAt s j = some l → l.mPlaneCandidate = false →
        ∃ b, useAsFrameBufferTarget s l = some b) →
      (assignPrimaryPlane env s = some (true, s1) ↔
        ∃ j, WorkablePosition env s j s1 ∧
          ∀ j2 s2, j2 < j → ¬ WorkablePosition env s j2 s2)) ∧
    (assignPrimaryPlane (exEnv 1 0 (fun _ => true)) exSkipState = none ∧
      exSkipState.mZOrderConfig.length = 1 ∧ exSkipState.mFBLayers.length = 3 ∧
      fbLayerAt exSkipState 2 = some (exLayer 3 LayerType.LAYER_FB false exRect) ∧
      useAsFrameBufferTarget exSkipState (exLayer 3 LayerType.LAYER_FB false exRect)
        = some true ∧
      (assignPrimaryPlaneHelper (exEnv 1 0 (fun _ => true)) 4 3 exSkipState).map
        (fun r => r.1) = some true ∧
      fbLayerAt exSkipState 1 = some (exLayer 2 LayerType.LAYER_FB false exRect) ∧
      useAsFrameBufferTarget exSkipState (exLayer 2 LayerType.LAYER_FB false exRect)
        = none) := by
  refine ⟨?_, by decide, by decide, by decide, by decide, by decide, by decide, by decide,
    by decide⟩
  intro env s s1 hs hne hnall hnA hdef
  obtain ⟨sl, hsl⟩ := spriteLayerScan_total s
    (fun c hc => hs.wf.fb_valid c (hs.wf.sp_sub.subset hc)) s.mSpriteCandidates.length none
    (le_refl _)
  have hscan : assignPrimaryPlane env s = fbTargetScan env s.mFBLayers.length 0 s := by
    unfold assignPrimaryPlane
    simp only [hsl]
    have h1 : ¬ (((s.mZOrderConfig.length : Int) = (s.mFBLayers.length : Int) - 1) ∧
        sl ≠ none) := by
      rintro ⟨a, b⟩
      apply hnA
      refine ⟨by omega, ?_⟩
      rw [hsl]
      intro hc
      injection hc with hc
      exact b hc
    have h2 : ¬ ((s.mZOrderConfig.length : Int) = 0) := by
      intro hc
      exact hne (List.length_eq_zero.1 (by exact_mod_cast hc))
    have h3 : ¬ ((s.mZOrderConfig.length : Int) = (s.mFBLayers.length : Int)) := by
      intro hc
      exact hnall (by exact_mod_cast hc)
    rw [if_neg h1, if_neg h2, if_neg h3]
  rw [hscan, fbTargetScan_first env s.mFBLayers.length 0 s s1 hs (by omega)
    (fun j l _ _ => hdef j l)]
  constructor
  · rintro ⟨j, _, _, h3, h4⟩
    exact ⟨j, h3, fun j2 s2 hj => h4 j2 s2 (Nat.zero_le _) hj⟩
  · rintro ⟨j, h3, h4⟩
    refine ⟨j, Nat.zero_le _, ?_, h3, fun j2 s2 _ hj => h4 j2 s2 hj⟩
    obtain ⟨l, f, hl, _⟩ := h3
    by_contra hc
    unfold fbLayerAt at hl
    rw [List.getElem?_eq_none (by omega)] at hl
    cases hl

theorem case_c_takes_first_workable_position_witness :
    assignPrimaryPlane exCaseCEnv exCaseCState = some (true, exCaseCDone) ∧
    (assignPrimaryPlane exCaseCEnv exCaseCState = some (true, exCaseCDone) ↔
      ∃ j, WorkablePosition exCaseCEnv exCaseCState j exCaseCDone ∧
        ∀ j2 s2, j2 < j → ¬ WorkablePosition exCaseCEnv exCaseCState j2 s2) :=
  ⟨by decide,
   case_c_takes_first_workable_position.1 exCaseCEnv exCaseCState exCaseCDone
    exCaseCState_searchState (by decide) (by decide) (by decide)
    (fun j l hl hfl =>
      useAsFrameBufferTarget_total exCaseCState l exCaseCState_searchState.wf.fb_valid
        (by decide)
        (by
          obtain ⟨q, hq, hlq⟩ := fbLayerAt_some hl
          have hq2 : q = 0 ∨ q = 1 ∨ q = 2 := by
            simpa [exCaseCState, exPickyState] using hq
          rcases hq2 with h | h | h <;> subst h <;>
            simp [exCaseCState, exPickyState] at hlq <;> subst hlq <;> decide))⟩
/-! ## Case A of primary placement -/

theorem attachOne_fbLayers {σ : Type} {env : Env σ} {m : σ} {cfg : List ZOrderLayer}
    {i : Nat} {z : ZOrderLayer} {s s1 : State σ}
    (h : attachOne env m cfg i z s = some s1) :
    s1.mFBLayers = (if some z.hwcLayer ≠ s.mFrameBufferTarget
      then s.mFBLayers.erase z.hwcLayer else s.mFBLayers) := by
  unfold attachOne at h
  split at h
  · exact absurd h (by simp)
  · simp only at h
    split_ifs at h with hf
    · simp only [Option.some.injEq] at h
      subst h
      rw [if_pos hf]
    · simp only [Option.some.injEq] at h
      subst h
      rw [if_neg hf]

/-- The loop of `attachPlanes` takes out of `mFBLayers` exactly the layers of the records
that do not carry the framebuffer target. -/
theorem attachLoop_fbLayers {σ : Type} {env : Env σ} {m : σ} {cfg : List ZOrderLayer} :
    ∀ (rest : List ZOrderLayer) (i : Nat) (s s1 : State σ),
      attachLoop env m cfg i rest s = some s1 → s.mFBLayers.Nodup →
      s1.mFBLayers.Nodup ∧
      ∀ q, q ∈ s1.mFBLayers ↔ q ∈ s.mFBLayers ∧
        ¬ ∃ z ∈ rest, z.hwcLayer = q ∧ some q ≠ s.mFrameBufferTarget := by
  intro rest
  induction rest with
  | nil =>
    intro i s s1 h hnd
    simp only [attachLoop, Option.some.injEq] at h
    subst h
    exact ⟨hnd, fun q => by simp⟩
  | cons z0 rest ih =>
    intro i s s1 h hnd
    unfold attachLoop at h
    split at h
    · exact absurd h (by simp)
    · rename_i sa ha
      have hfb := attachOne_fbLayers ha
      obtain ⟨_, _, _, _, _, _, _, hfbt, _, _, _⟩ := attachOne_some ha
      have hnda : sa.mFBLayers.Nodup := by
        rw [hfb]
        split_ifs
        · exact hnd.erase _
        · exact hnd
      obtain ⟨h1, h2⟩ := ih (i + 1) sa s1 h hnda
      refine ⟨h1, ?_⟩
      intro q
      rw [h2 q, hfbt, hfb]
      by_cases hf : some z0.hwcLayer ≠ s.mFrameBufferTarget
      · rw [if_pos hf, hnd.mem_erase_iff]
        constructor
        · rintro ⟨⟨hne, hq⟩, hno⟩
          refine ⟨hq, ?_⟩
          rintro ⟨z, hz, he, hfq⟩
          rcases List.mem_cons.mp hz with e | e
          · subst e
            exact hne he.symm
          · exact hno ⟨z, e, he, hfq⟩
        · rintro ⟨hq, hno⟩
          refine ⟨⟨?_, hq⟩, ?_⟩
          · intro e
            exact hno ⟨z0, List.mem_cons_self _ _, e.symm, e ▸ hf⟩
          · rintro ⟨z, hz, he, hfq⟩
            exact hno ⟨z, List.mem_cons_of_mem _ hz, he, hfq⟩
      · rw [if_neg hf]
        constructor
        · rintro ⟨hq, hno⟩
          refine ⟨hq, ?_⟩
          rintro ⟨z, hz, he, hfq⟩
          rcases List.mem_cons.mp hz with e | e
          · subst e
            exact hf (he ▸ hfq)
          · exact hno ⟨z, e, he, hfq⟩
        · rintro ⟨hq, hno⟩
          refine ⟨hq, ?_⟩
          rintro ⟨z, hz, he, hfq⟩
          exact hno ⟨z, List.mem_cons_of_mem _ hz, he, hfq⟩

theorem attachPlanes_fbLayers {σ : Type} {env : Env σ} {s s1 : State σ}
    (h : attachPlanes env s = some (true, s1)) (hnd : s.mFBLayers.Nodup) :
    ∀ q, q ∈ s1.mFBLayers ↔ q ∈ s.mFBLayers ∧
      ¬ ∃ z ∈ s.mZOrderConfig, z.hwcLayer = q ∧ some q ≠ s.mFrameBufferTarget := by
  obtain ⟨m, m2, s2, hloop, hs1⟩ := attachPlanes_true h
  obtain ⟨_, h2⟩ := attachLoop_fbLayers _ _ _ _ hloop hnd
  subst hs1
  exact h2
/-- In a list of the search whose configuration holds one record less than there are GPU
layers, a GPU layer that is not in use is the only one without a record: the layers of
the records together with it are all the GPU layers. -/
theorem SearchState.left_over {σ : Type} {s : State σ} (hs : SearchState s) {p : Nat}
    (hp : p ∈ s.mFBLayers) (hf : Fresh s p)
    (hsize : s.mZOrderConfig.length + 1 = s.mFBLayers.length) :
    (p :: s.mZOrderConfig.map (fun r => r.hwcLayer)).Perm s.mFBLayers := by
  have hnd : (p :: s.mZOrderConfig.map (fun r => r.hwcLayer)).Nodup := by
    rw [List.nodup_cons]
    refine ⟨?_, hs.inv.nodup⟩
    intro hm
    obtain ⟨r, hr, he⟩ := List.mem_map.mp hm
    exact hf.no_record hs.inv r hr he
  have hsub : (p :: s.mZOrderConfig.map (fun r => r.hwcLayer)) ⊆ s.mFBLayers := by
    intro q hq
    rcases List.mem_cons.mp hq with e | e
    · rw [e]; exact hp
    · obtain ⟨r, hr, he⟩ := List.mem_map.mp e
      rw [← he]
      exact (hs.records r hr).2.1
  exact (List.subperm_of_subset hnd hsub).perm_of_length_le (by simp; omega)

/-- C24: in a list of the search, when `assignPrimaryPlane` takes its first branch (the
configuration holds one record less than there are GPU layers and the backward scan of
the sprite candidates found the candidate `p`), it calls `assignPrimaryPlaneHelper` for
`p`, and `p` is the one member of `mFBLayers` without a record in the configuration.
After a successful commit in this branch the record of class PRIMARY carried `p`,
`mFBLayers` and the configuration are empty, and every layer that was in `mFBLayers` has
the hardware-overlay role and an attached plane. -/
theorem case_a_carries_only_layer_left_over {σ : Type} (env : Env σ) (s : State σ)
    (p : Nat) (hs : SearchState s)
    (hscan : spriteLayerScan s s.mSpriteCandidates.length none = some (some p))
    (hsize : (s.mZOrderConfig.length : Int) = (s.mFBLayers.length : Int) - 1) :
    assignPrimaryPlane env s = assignPrimaryPlaneHelper env p (-1) s ∧
    (p ∈ s.mFBLayers ∧ (∀ r ∈ s.mZOrderConfig, r.hwcLayer ≠ p) ∧
      ∀ q ∈ s.mFBLayers, (∀ r ∈ s.mZOrderConfig, r.hwcLayer ≠ q) → q = p) ∧
    ∀ s1, assignPrimaryPlane env s = some (true, s1) →
      (∃ r sa, addZOrderLayer env PlaneType.PLANE_PRIMARY p (-1) s = some (r, sa) ∧
        r.planeType = PlaneType.PLANE_PRIMARY ∧ r.hwcLayer = p ∧
        attachPlanes env sa = some (true, s1)) ∧
      s1.mFBLayers = [] ∧ s1.mZOrderConfig = [] ∧
      ∀ q ∈ s.mFBLayers, layerTypeAt s1 q = some LayerType.LAYER_OVERLAY ∧
        ∃ z, attachedZOrder s1 q = some z := by
  have hbranch : assignPrimaryPlane env s = assignPrimaryPlaneHelper env p (-1) s := by
    unfold assignPrimaryPlane
    simp only [hscan]
    rw [if_pos ⟨hsize, by simp⟩]
  have hp : p ∈ s.mSpriteCandidates ∧ Fresh s p := by
    rcases spriteLayerScan_some s p _ _ hscan with h1 | h1
    · exact absurd h1 (by simp)
    · exact h1
  have hpfb : p ∈ s.mFBLayers := hs.wf.sp_sub.subset hp.1
  have hperm := hs.left_over hpfb hp.2 (by omega)
  refine ⟨hbranch, ⟨hpfb, hp.2.no_record hs.inv, ?_⟩, ?_⟩
  · intro q hq hno
    rcases List.mem_cons.mp (hperm.mem_iff.mpr hq) with e | e
    · exact e
    · obtain ⟨r, hr, he⟩ := List.mem_map.mp e
      exact absurd he (hno r hr)
  · intro s1 h1
    rw [hbranch] at h1
    obtain ⟨r, sa, hadd, hatt⟩ := assignPrimaryPlaneHelper_true h1
    have hrec := addZOrderLayer_record hadd
    have hcfg := addZOrderLayer_config hadd
    have hsf := addZOrderLayer_sameFrame hadd
    have hinva : InUseInv sa := hs.inv.add hp.2 hadd
    have hnda : sa.mFBLayers.Nodup := by rw [hsf.fb]; exact hs.wf.fb_nodup
    obtain ⟨f, hf, _, hfn⟩ := hs.wf.fbt
    have hcover : ∀ q ∈ s.mFBLayers, ∃ z ∈ sa.mZOrderConfig, z.hwcLayer = q ∧
        some z.hwcLayer ≠ sa.mFrameBufferTarget := by
      intro q hq
      have hne : some q ≠ sa.mFrameBufferTarget := by
        rw [hsf.fbt, hf]
        intro e
        exact hfn (Option.some.inj e ▸ hq)
      rcases List.mem_cons.mp (hperm.mem_iff.mpr hq) with e | e
      · exact ⟨r, hcfg.mem_iff.mpr (List.mem_cons_self _ _), e ▸ hrec.2.1,
          by rw [hrec.2.1, ← e]; exact hne⟩
      · obtain ⟨z, hz, he⟩ := List.mem_map.mp e
        exact ⟨z, hcfg.mem_iff.mpr (List.mem_cons_of_mem _ hz), he, by rw [he]; exact hne⟩
    obtain ⟨⟨_, _, _, hnil⟩, _, hlay⟩ := attachPlanes_effect hatt hinva.nodup
    refine ⟨⟨r, sa, hadd, hrec.1, hrec.2.1, hatt⟩, ?_, hnil, ?_⟩
    · rw [List.eq_nil_iff_forall_not_mem]
      intro q hq
      obtain ⟨hq1, hq2⟩ := (attachPlanes_fbLayers hatt hnda q).mp hq
      rw [hsf.fb] at hq1
      obtain ⟨z, hz, he, hne⟩ := hcover q hq1
      exact hq2 ⟨z, hz, he, he ▸ hne⟩
    · intro q hq
      obtain ⟨z, hz, he, hne⟩ := hcover q hq
      obtain ⟨j, hj⟩ := List.mem_iff_getElem?.mp hz
      obtain ⟨h2, h3⟩ := hlay j z hj
      rw [he] at h2 h3
      exact ⟨h3 (he ▸ hne), _, h2⟩

theorem exPickyBoth_searchState : SearchState exPickyBoth := by
  obtain ⟨sT, h1, h2, _⟩ := addCandidates_phase (overlayPhase (exEnv 0 2 (fun _ => true)))
    [0, 1] exPickyState exPickyState_classified.overlayState (by decide)
    (fun c hc => ⟨hc, exPickyState_classified.overlaysFresh c hc⟩)
  have h3 : addCandidates (exEnv 0 2 (fun _ => true)) PlaneType.PLANE_OVERLAY [0, 1]
      exPickyState = some exPickyBoth := by decide
  rw [h3] at h1
  injection h1 with h1
  rw [h1]
  exact h2.search

theorem case_a_carries_only_layer_left_over_witness :
    assignPrimaryPlane (exEnv 0 2 (fun _ => true)) exPickyBoth =
      assignPrimaryPlaneHelper (exEnv 0 2 (fun _ => true)) 2 (-1) exPickyBoth ∧
    (2 ∈ exPickyBoth.mFBLayers ∧ (∀ r ∈ exPickyBoth.mZOrderConfig, r.hwcLayer ≠ 2) ∧
      ∀ q ∈ exPickyBoth.mFBLayers,
        (∀ r ∈ exPickyBoth.mZOrderConfig, r.hwcLayer ≠ q) → q = 2) ∧
    exPickyBoth.mZOrderConfig.length = 2 ∧
    assignPrimaryPlane (exEnv 0 2 (fun _ => true)) exPickyBoth =
      some (true, exPickyBothDone) ∧
    exPickyBothDone.mFBLayers = [] ∧ exPickyBothDone.mZOrderConfig = [] ∧
    ∀ q ∈ exPickyBoth.mFBLayers,
      layerTypeAt exPickyBothDone q = some LayerType.LAYER_OVERLAY ∧
      ∃ z, attachedZOrder exPickyBothDone q = some z :=
  have h := case_a_carries_only_layer_left_over (exEnv 0 2 (fun _ => true)) exPickyBoth 2
    exPickyBoth_searchState (by decide) (by decide)
  ⟨h.1, h.2.1, by decide, by decide, (h.2.2 exPickyBothDone (by decide)).2.1,
    (h.2.2 exPickyBothDone (by decide)).2.2.1, (h.2.2 exPickyBothDone (by decide)).2.2.2⟩
/-! ## The all-GPU fallback -/

/-- The countdown of a candidate function returns true when the following phase succeeds
in the list as it is on entry, whatever the manager's state, provided every call on the
way returns. -/
theorem candDown_reaches_last {σ : Type} {env : Env σ} {type : PlaneType}
    {cands : State σ → List Nat} {last : State σ → Option (Bool × State σ)}
    {P : State σ → Prop} (ph : Phase env type cands last P) (E : State σ → Prop)
    (hE : ∀ s s1, SameFrame s s1 → E s → E s1)
    (hlastT : ∀ s, P s → E s → ∃ r, last s = some r) :
    ∀ (k : Nat) (s : State σ), P s → E s → (∀ c ∈ cands s, Fresh s c) →
      (∀ m, ∃ s1, last (withPM s m) = some (true, s1)) →
      ∃ s1, candDown env type cands last k s = some (true, s1) := by
  intro k
  induction k with
  | zero =>
    intro s _ _ _ hlast
    simp only [candDown, candFrom]
    exact hlast s.planeManager
  | succ k ih =>
    intro s hP hEs hfresh hlast
    obtain ⟨r, hr⟩ := candFrom_total ph E hE hlastT (k + 1) 0 s hP hEs
      (by simpa using hfresh)
    unfold candDown
    simp only [hr]
    obtain ⟨b, s2⟩ := r
    cases b with
    | true => exact ⟨_, rfl⟩
    | false =>
      simp only
      have hres := (candFrom_result ph (k + 1) 0 s s2 false hP
        (by simpa using hfresh) hr).1 rfl
      have hcs : cands (withPM s s2.planeManager) = cands s :=
        ph.frame s _ (sameFrame_withPM s _)
      rw [hres]
      exact ih (withPM s s2.planeManager) (ph.pm s _ hP)
        (hE s _ (sameFrame_withPM s _) hEs)
        (by intro c hc; rw [hcs] at hc; exact (hfresh c hc).atPM _)
        (fun m => hlast m)

theorem assignSpritePlanes_reaches_primary {σ : Type} (env : Env σ) (s : State σ)
    (hs : SearchState s) (hr : EligibilityAnswers s)
    (hfresh : ∀ c ∈ s.mSpriteCandidates, Fresh s c)
    (hn : 0 ≤ env.getFreePlanes PlaneType.PLANE_SPRITE)
    (hlast : ∀ m, ∃ s1, assignPrimaryPlane env (withPM s m) = some (true, s1)) :
    ∃ s1, assignSpritePlanes env s = some (true, s1) := by
  have hdown : ∀ k, ∃ s1, assignSpritePlanesDown env k s = some (true, s1) := by
    intro k
    rw [assignSpritePlanesDown_eq]
    exact candDown_reaches_last (spritePhase env) EligibilityAnswers
      (fun _ _ hsf h => h.transfer hsf)
      (fun s hP hEs => assignPrimaryPlane_total env s hP hEs) k s hs hr hfresh hlast
  unfold assignSpritePlanes
  simp only
  split_ifs with h1 h2 h3 h4 h5
  all_goals first
    | exact hlast s.planeManager
    | exact hdown _
    | (exfalso; omega)

theorem assignOverlayPlanes_reaches_primary {σ : Type} (env : Env σ) (s : State σ)
    (hs : OverlayState s) (hr : EligibilityAnswers s)
    (hfresh : ∀ c ∈ s.mOverlayCandidates, Fresh s c)
    (hn : 0 ≤ env.getFreePlanes PlaneType.PLANE_SPRITE)
    (ho : 0 ≤ env.getFreePlanes PlaneType.PLANE_OVERLAY)
    (hlast : ∀ m, ∃ s1, assignPrimaryPlane env (withPM s m) = some (true, s1)) :
    ∃ s1, assignOverlayPlanes env s = some (true, s1) := by
  have hsprite : ∀ m, ∃ s1, assignSpritePlanes env (withPM s m) = some (true, s1) :=
    fun m => assignSpritePlanes_reaches_primary env (withPM s m) (hs.search.changePM m)
      (hr.transfer (sameFrame_withPM s m)) (fun c hc => (hs.spritesFresh c hc).atPM m) hn
      (fun m1 => hlast m1)
  have hdown : ∀ k, ∃ s1, assignOverlayPlanesDown env k s = some (true, s1) := by
    intro k
    rw [assignOverlayPlanesDown_eq]
    exact candDown_reaches_last (overlayPhase env) EligibilityAnswers
      (fun _ _ hsf h => h.transfer hsf)
      (fun s hP hEs => assignSpritePlanes_total env s hP.search hEs hP.spritesFresh)
      k s hs hr hfresh hsprite
  unfold assignOverlayPlanes
  simp only
  split_ifs with h1 h2 h3 h4 h5
  all_goals first
    | exact hsprite s.planeManager
    | exact hdown _
    | (exfalso; omega)
/-- Case B of primary placement: with an empty configuration, unless the frame has one
GPU layer only and the sprite scan found a candidate, the single primary record of the
framebuffer target at z-order 0 is handed to the manager and, when it is accepted,
committed. -/
theorem assignPrimaryPlane_fallback {σ : Type} (env : Env σ) (s : State σ)
    (hw : WellFormed s) (hcfg : s.mZOrderConfig = [])
    (hA : ¬ (s.mFBLayers.length = 1 ∧ s.mSpriteCandidates ≠ []))
    (hacc : AcceptsFallback env s) :
    ∃ s1, assignPrimaryPlane env s = some (true, s1) := by
  obtain ⟨f, hf, hok⟩ := hacc
  obtain ⟨f0, hf0, hlt, _⟩ := hw.fbt
  have hff : f0 = f := Option.some.inj (hf0.symm.trans hf)
  subst hff
  obtain ⟨sl, hsl⟩ := spriteLayerScan_total s
    (fun c hc => hw.fb_valid c (hw.sp_sub.subset hc)) s.mSpriteCandidates.length none
    (le_refl _)
  obtain ⟨l, hl⟩ := getElem?_some_of_lt s.mLayers f0 hlt
  have hnotA : ¬ (((s.mZOrderConfig.length : Int) = (s.mFBLayers.length : Int) - 1) ∧
      sl ≠ none) := by
    rintro ⟨h1, h2⟩
    apply hA
    rw [hcfg] at h1
    simp only [List.length_nil, Nat.cast_zero] at h1
    refine ⟨by omega, ?_⟩
    cases sl with
    | none => exact absurd rfl h2
    | some p =>
      rcases spriteLayerScan_some s p _ _ hsl with h3 | h3
      · exact absurd h3 (by simp)
      · exact List.ne_nil_of_mem h3.1
  have hzero : (s.mZOrderConfig.length : Int) = 0 := by rw [hcfg]; rfl
  unfold assignPrimaryPlane
  simp only [hsl]
  rw [if_neg hnotA, if_pos hzero]
  simp only [hf]
  have hadd : addZOrderLayer env PlaneType.PLANE_PRIMARY f0 0 s =
      some (fallbackRecord f0,
        { s with
          mLayers := s.mLayers.set f0 { l with mPlaneCandidate := true },
          mZOrderConfig := [fallbackRecord f0] }) := by
    unfold addZOrderLayer
    simp only [hl, hcfg, insertAt_nil]
    rfl
  obtain ⟨s2, h2, _⟩ := attachOne_total env
    (env.isValidZOrder s.planeManager [fallbackRecord f0]).2 [fallbackRecord f0] 0
    (fallbackRecord f0)
    { s with
      mLayers := s.mLayers.set f0 { l with mPlaneCandidate := true },
      mZOrderConfig := [fallbackRecord f0],
      planeManager := (env.assignPlanes
        (env.isValidZOrder s.planeManager [fallbackRecord f0]).2 [fallbackRecord f0]).2 }
    (by simpa [fallbackRecord] using hlt)
  have hatt : attachPlanes env
      { s with
        mLayers := s.mLayers.set f0 { l with mPlaneCandidate := true },
        mZOrderConfig := [fallbackRecord f0] } =
      some (true, { s2 with mZOrderConfig := [] }) := by
    unfold attachPlanes
    simp only [(hok _).1, (hok _).2, attachLoop, h2]
    simp
  unfold assignPrimaryPlaneHelper
  simp only [hadd, hatt]
  exact ⟨_, rfl⟩

theorem exOvState_readsInRange : ReadsInRange exOvState := by
  refine ⟨by decide, ?_⟩
  intro p hp l hl
  simp only [exOvState, List.mem_singleton] at hp
  subst hp
  simp only [exOvState, List.getElem?_cons_zero, Option.some.injEq] at hl
  subst hl
  decide

theorem exPickyState_readsInRange : ReadsInRange exPickyState := by
  refine ⟨by decide, ?_⟩
  intro p hp l hl
  simp only [exPickyState, List.mem_cons, List.mem_singleton, List.not_mem_nil,
    or_false] at hp
  rcases hp with rfl | rfl | rfl <;>
    simp only [exPickyState, List.getElem?_cons_zero, List.getElem?_cons_succ,
      Option.some.injEq] at hl <;> subst hl <;> decide

/-- With an empty configuration and a sprite candidate, when there is one GPU layer only,
primary placement takes its first branch, for the first sprite candidate. -/
theorem assignPrimaryPlane_first_branch {σ : Type} (env : Env σ) (s : State σ)
    (hs : SearchState s) (hcfg : s.mZOrderConfig = []) (hone : s.mFBLayers.length = 1)
    (hsp : s.mSpriteCandidates ≠ []) :
    ∃ p ∈ s.mSpriteCandidates,
      assignPrimaryPlane env s = assignPrimaryPlaneHelper env p (-1) s := by
  have hfresh : ∀ c ∈ s.mSpriteCandidates, Fresh s c := by
    intro c hc
    obtain ⟨l, hl⟩ := getElem?_some_of_lt s.mLayers c
      (hs.wf.fb_valid c (hs.wf.sp_sub.subset hc))
    refine ⟨l, hl, ?_⟩
    cases hfl : l.mPlaneCandidate with
    | false => rfl
    | true =>
      obtain ⟨r, hr, _⟩ := (hs.inv.flag_iff c l hl).mp hfl
      rw [hcfg] at hr
      cases hr
  obtain ⟨p, hp⟩ : ∃ p, s.mSpriteCandidates[0]? = some p := by
    cases hl : s.mSpriteCandidates with
    | nil => exact absurd hl hsp
    | cons a t => exact ⟨a, List.getElem?_cons_zero⟩
  have hscan : spriteLayerScan s s.mSpriteCandidates.length none = some (some p) := by
    rw [spriteLayerScan_fresh s hfresh _ none (le_refl _)]
    cases hl : s.mSpriteCandidates.length with
    | zero => exact absurd (List.length_eq_zero.mp hl) hsp
    | succ k => simp only [hp]
  refine ⟨p, List.getElem?_mem hp, ?_⟩
  unfold assignPrimaryPlane
  simp only [hscan]
  rw [if_pos ⟨by rw [hcfg, hone]; rfl, by simp⟩]

/-- C22, as the code has it: for every freshly classified list in which the eligibility
test returns an answer for every GPU layer, every manager with non-negative numbers of
free sprite and overlay planes that accepts, in whatever state it is, the single primary
record carrying the framebuffer target at z-order 0: `allocatePlanesV2` returns true,
unless the frame has exactly one GPU layer and that layer is a sprite candidate. In that
case primary placement, in every list of the search that holds the frame with an empty
configuration, takes its first branch, for a sprite candidate: the record of the
framebuffer target at z-order 0 is never tried. -/
theorem fallback_reached_unless_first_branch_shadows {σ : Type} (env : Env σ)
    (s : State σ) (hc : Classified s) (hr : EligibilityAnswers s)
    (hn : 0 ≤ env.getFreePlanes PlaneType.PLANE_SPRITE)
    (ho : 0 ≤ env.getFreePlanes PlaneType.PLANE_OVERLAY)
    (hacc : AcceptsFallback env s) :
    (¬ (s.mFBLayers.length = 1 ∧ s.mSpriteCandidates ≠ []) →
      ∃ s1, allocatePlanesV2 env s = some (true, s1)) ∧
    (s.mFBLayers.length = 1 ∧ s.mSpriteCandidates ≠ [] →
      ∀ sT, SameFrame s sT → SearchState sT → sT.mZOrderConfig = [] →
        ∃ p ∈ s.mSpriteCandidates,
          assignPrimaryPlane env sT = assignPrimaryPlaneHelper env p (-1) sT) := by
  constructor
  · intro hA
    unfold allocatePlanesV2
    exact assignOverlayPlanes_reaches_primary env s hc.overlayState hr hc.overlaysFresh hn ho
      (fun m => assignPrimaryPlane_fallback env (withPM s m)
        (hc.wf.of_sameFrame (sameFrame_withPM s m)) hc.config_empty hA hacc)
  · rintro ⟨hone, hsp⟩ sT hsf hsT hcfg
    obtain ⟨p, hp, h⟩ := assignPrimaryPlane_first_branch env sT hsT hcfg
      (by rw [hsf.fb]; exact hone) (by rw [hsf.sp]; exact hsp)
    exact ⟨p, by rw [← hsf.sp]; exact hp, h⟩

theorem fallback_reached_unless_first_branch_shadows_witness :
    ∃ s1, allocatePlanesV2 (exFallbackEnv 1 1 3) exPickyState = some (true, s1) :=
  (fallback_reached_unless_first_branch_shadows (exFallbackEnv 1 1 3) exPickyState
    exPickyState_classified (exPickyState_readsInRange.answers exPickyState_classified.wf)
    (by decide) (by decide) ⟨3, rfl, fun _ => ⟨rfl, rfl⟩⟩).1 (by decide)

/-- C22, counterexample: the frame of one default-GPU layer that `checkSupported` takes
for a sprite plane and the framebuffer target is accepted by the classifier; the manager
accepts the single primary record carrying the framebuffer target at z-order 0 and
nothing else; with no free plane and with one free sprite plane the search returns
false. For the frame of a pre-skipped layer, three sprite candidates and the framebuffer
target, with one free sprite plane and such a manager, the search has no result: the
eligibility test reads `mFBLayers` out of range. -/
theorem fallback_not_reached_for_single_sprite_layer :
    classify exAllCaps (emptyList (some exBothFrame) ()) = some (true, exBothClassified) ∧
    AcceptsFallback (exFallbackEnv 0 0 1) exBothClassified ∧
    AcceptsFallback (exFallbackEnv 1 0 1) exBothClassified ∧
    allocatePlanesV2 (exFallbackEnv 0 0 1) exBothClassified =
      some (false, exBothClassified) ∧
    allocatePlanesV2 (exFallbackEnv 1 0 1) exBothClassified =
      some (false, exBothClassified) ∧
    AcceptsFallback (exFallbackEnv 1 0 4) exSkipStart ∧
    allocatePlanesV2 (exFallbackEnv 1 0 4) exSkipStart = none :=
  ⟨by decide, ⟨1, rfl, fun _ => ⟨rfl, rfl⟩⟩, ⟨1, rfl, fun _ => ⟨rfl, rfl⟩⟩,
    by decide, by decide, ⟨4, rfl, fun _ => ⟨rfl, rfl⟩⟩, by decide⟩
/-! ## The reads of the eligibility test -/

theorem intersectScanReads_bound {σ : Type} (s : State σ) (test : HwcLayer → Bool) :
    ∀ (cnt j i : Nat), i ∈ intersectScanReads s test cnt j → j ≤ i ∧ i < j + cnt := by
  intro cnt
  induction cnt with
  | zero => intro j i h; simp [intersectScanReads] at h
  | succ cnt ih =>
    intro j i h
    unfold intersectScanReads at h
    rcases List.mem_cons.mp h with e | e
    · omega
    · split at e
      · simp at e
      · split_ifs at e
        · have := ih (j + 1) i e; omega
        · simp at e
        · have := ih (j + 1) i e; omega

theorem belowScanReads_bound {σ : Type} (s : State σ) (t : Nat) :
    ∀ (cnt below i : Nat), below + cnt ≤ t → i ∈ belowScanReads s t cnt below → i < t := by
  intro cnt
  induction cnt with
  | zero => intro below i _ h; simp [belowScanReads] at h
  | succ cnt ih =>
    intro below i hle h
    unfold belowScanReads at h
    rcases List.mem_cons.mp h with e | e
    · omega
    · split at e
      · simp at e
      · split_ifs at e
        · exact ih (below + 1) i (by omega) e
        · rcases List.mem_append.mp e with e1 | e1
          · have := intersectScanReads_bound s _ _ _ _ e1; omega
          · split at e1
            · exact ih (below + 1) i (by omega) e1
            · simp at e1

theorem aboveScanReads_bound {σ : Type} (s : State σ) (t : Nat) :
    ∀ (cnt above i : Nat), t < above → i ∈ aboveScanReads s t cnt above →
      t < i ∧ i < above + cnt := by
  intro cnt
  induction cnt with
  | zero => intro above i _ h; simp [aboveScanReads] at h
  | succ cnt ih =>
    intro above i hlt h
    unfold aboveScanReads at h
    rcases List.mem_cons.mp h with e | e
    · omega
    · split at e
      · simp at e
      · split_ifs at e
        · have := ih (above + 1) i (by omega) e; omega
        · rcases List.mem_append.mp e with e1 | e1
          · have := intersectScanReads_bound s _ _ _ _ e1; omega
          · split at e1
            · have := ih (above + 1) i (by omega) e1; omega
            · simp at e1

/-- The positions read by the eligibility test are positions below the frame index of
the target or between it and `mLayerCount - 1`. -/
theorem useAsFrameBufferTargetReads_bound {σ : Type} (s : State σ) (target : HwcLayer)
    (i : Nat) (h : i ∈ useAsFrameBufferTargetReads s target) :
    i < target.mIndex ∨ (target.mIndex < i ∧ i < s.mLayerCount - 1) := by
  unfold useAsFrameBufferTargetReads at h
  simp only at h
  rcases List.mem_append.mp h with e | e
  · exact Or.inl (belowScanReads_bound s _ _ _ _ (by omega) e)
  · split at e
    · have := aboveScanReads_bound s _ _ _ _ (Nat.lt_succ_self _) e
      right; omega
    · simp at e

theorem fbLayerAt_none_iff {σ : Type} (s : State σ)
    (hv : ∀ p ∈ s.mFBLayers, p < s.mLayers.length) (j : Nat) :
    fbLayerAt s j = none ↔ s.mFBLayers.length ≤ j := by
  constructor
  · intro h
    by_contra hc
    obtain ⟨l, hl⟩ := fbLayerAt_total s hv j (by omega)
    rw [hl] at h; cases h
  · intro h
    unfold fbLayerAt
    rw [List.getElem?_eq_none h]

theorem intersectScan_none_iff {σ : Type} (s : State σ)
    (hv : ∀ p ∈ s.mFBLayers, p < s.mLayers.length) (test : HwcLayer → Bool) :
    ∀ (cnt j : Nat), intersectScan s test cnt j = none ↔
      ∃ i ∈ intersectScanReads s test cnt j, s.mFBLayers.length ≤ i := by
  intro cnt
  induction cnt with
  | zero => intro j; simp [intersectScan, intersectScanReads]
  | succ cnt ih =>
    intro j
    unfold intersectScan intersectScanReads
    cases hl : fbLayerAt s j with
    | none =>
      have := (fbLayerAt_none_iff s hv j).mp hl
      simp only [List.mem_singleton, exists_eq_left, true_iff]
      exact this
    | some lj =>
      have hj : ¬ s.mFBLayers.length ≤ j := by
        intro hc
        rw [(fbLayerAt_none_iff s hv j).mpr hc] at hl; cases hl
      simp only [List.mem_cons, exists_eq_or_imp, hj, false_or]
      split_ifs
      · exact ih (j + 1)
      · simp
      · exact ih (j + 1)
theorem belowScan_none_iff {σ : Type} (s : State σ)
    (hv : ∀ p ∈ s.mFBLayers, p < s.mLayers.length) (t : Nat) :
    ∀ (cnt below : Nat), belowScan s t cnt below = none ↔
      ∃ i ∈ belowScanReads s t cnt below, s.mFBLayers.length ≤ i := by
  intro cnt
  induction cnt with
  | zero => intro below; simp [belowScan, belowScanReads]
  | succ cnt ih =>
    intro below
    unfold belowScan belowScanReads
    cases hl : fbLayerAt s below with
    | none =>
      have := (fbLayerAt_none_iff s hv below).mp hl
      simp only [List.mem_singleton, exists_eq_left, true_iff]
      exact this
    | some lb =>
      have hj : ¬ s.mFBLayers.length ≤ below := by
        intro hc
        rw [(fbLayerAt_none_iff s hv below).mpr hc] at hl; cases hl
      simp only [List.mem_cons, exists_eq_or_imp, hj, false_or]
      split_ifs
      · exact ih (below + 1)
      · have hin := intersectScan_none_iff s hv (fun la => hasIntersection la lb)
          (t - (below + 1)) (below + 1)
        cases hc : intersectScan s (fun la => hasIntersection la lb)
            (t - (below + 1)) (below + 1) with
        | none =>
          simp only [true_iff]
          obtain ⟨i, hi, hle⟩ := hin.mp hc
          exact ⟨i, List.mem_append_left _ hi, hle⟩
        | some b =>
          have hno : ¬ ∃ i ∈ intersectScanReads s (fun la => hasIntersection la lb)
              (t - (below + 1)) (below + 1), s.mFBLayers.length ≤ i := by
            intro hex
            rw [hin.mpr hex] at hc; cases hc
          cases b with
          | false =>
            simp only [List.append_nil]
            constructor
            · intro h; cases h
            · intro h; exact absurd h hno
          | true =>
            simp only
            rw [ih (below + 1)]
            constructor
            · rintro ⟨i, hi, hle⟩
              exact ⟨i, List.mem_append_right _ hi, hle⟩
            · rintro ⟨i, hi, hle⟩
              rcases List.mem_append.mp hi with e | e
              · exact absurd ⟨i, e, hle⟩ hno
              · exact ⟨i, e, hle⟩

theorem aboveScan_none_iff {σ : Type} (s : State σ)
    (hv : ∀ p ∈ s.mFBLayers, p < s.mLayers.length) (t : Nat) :
    ∀ (cnt above : Nat), aboveScan s t cnt above = none ↔
      ∃ i ∈ aboveScanReads s t cnt above, s.mFBLayers.length ≤ i := by
  intro cnt
  induction cnt with
  | zero => intro above; simp [aboveScan, aboveScanReads]
  | succ cnt ih =>
    intro above
    unfold aboveScan aboveScanReads
    cases hl : fbLayerAt s above with
    | none =>
      have := (fbLayerAt_none_iff s hv above).mp hl
      simp only [List.mem_singleton, exists_eq_left, true_iff]
      exact this
    | some la =>
      have hj : ¬ s.mFBLayers.length ≤ above := by
        intro hc
        rw [(fbLayerAt_none_iff s hv above).mpr hc] at hl; cases hl
      simp only [List.mem_cons, exists_eq_or_imp, hj, false_or]
      split_ifs
      · exact ih (above + 1)
      · have hin := intersectScan_none_iff s hv (fun lb => hasIntersection la lb)
          (above - (t + 1)) (t + 1)
        cases hc : intersectScan s (fun lb => hasIntersection la lb)
            (above - (t + 1)) (t + 1) with
        | none =>
          simp only [true_iff]
          obtain ⟨i, hi, hle⟩ := hin.mp hc
          exact ⟨i, List.mem_append_left _ hi, hle⟩
        | some b =>
          have hno : ¬ ∃ i ∈ intersectScanReads s (fun lb => hasIntersection la lb)
              (above - (t + 1)) (t + 1), s.mFBLayers.length ≤ i := by
            intro hex
            rw [hin.mpr hex] at hc; cases hc
          cases b with
          | false =>
            simp only [List.append_nil]
            constructor
            · intro h; cases h
            · intro h; exact absurd h hno
          | true =>
            simp only
            rw [ih (above + 1)]
            constructor
            · rintro ⟨i, hi, hle⟩
              exact ⟨i, List.mem_append_right _ hi, hle⟩
            · rintro ⟨i, hi, hle⟩
              rcases List.mem_append.mp hi with e | e
              · exact absurd ⟨i, e, hle⟩ hno
              · exact ⟨i, e, hle⟩

/-- The eligibility test has no answer exactly when one of the positions it reads is not
a position of `mFBLayers`. -/
theorem useAsFrameBufferTarget_none_iff {σ : Type} (s : State σ)
    (hv : ∀ p ∈ s.mFBLayers, p < s.mLayers.length) (target : HwcLayer) :
    useAsFrameBufferTarget s target = none ↔
      ∃ i ∈ useAsFrameBufferTargetReads s target, s.mFBLayers.length ≤ i := by
  unfold useAsFrameBufferTarget useAsFrameBufferTargetReads
  simp only
  have hb := belowScan_none_iff s hv target.mIndex target.mIndex 0
  cases hc : belowScan s target.mIndex target.mIndex 0 with
  | none =>
    simp only [true_iff]
    obtain ⟨i, hi, hle⟩ := hb.mp hc
    exact ⟨i, List.mem_append_left _ hi, hle⟩
  | some b =>
    have hno : ¬ ∃ i ∈ belowScanReads s target.mIndex target.mIndex 0,
        s.mFBLayers.length ≤ i := by
      intro hex
      rw [hb.mpr hex] at hc; cases hc
    cases b with
    | false =>
      simp only [List.append_nil]
      constructor
      · intro h; cases h
      · intro h; exact absurd h hno
    | true =>
      simp only
      rw [aboveScan_none_iff s hv]
      constructor
      · rintro ⟨i, hi, hle⟩
        exact ⟨i, List.mem_append_right _ hi, hle⟩
      · rintro ⟨i, hi, hle⟩
        rcases List.mem_append.mp hi with e | e
        · exact absurd ⟨i, e, hle⟩ hno
        · exact ⟨i, e, hle⟩

theorem layerObject_type {σ : Type} (caps : Caps σ) (p : Nat) (raw : hwc_layer_1_t) :
    (raw.compositionType = HWC_FRAMEBUFFER_TARGET →
      (layerObject caps p raw).mType = LayerType.LAYER_FRAMEBUFFER_TARGET) ∧
    (raw.compositionType ≠ HWC_FRAMEBUFFER_TARGET → raw.compositionType ≠ HWC_OVERLAY →
      (layerObject caps p raw).mType = LayerType.LAYER_FB ∨
      (layerObject caps p raw).mType = LayerType.LAYER_FORCE_FB) := by
  constructor
  · intro h
    unfold layerObject
    rw [if_pos h]
    rfl
  · intro h1 h2
    unfold layerObject
    rw [if_neg h1, if_neg h2]
    split_ifs
    · right; rfl
    · left; rfl

/-- The frame `front ++ tgt :: back` has no pre-skipped layer and its one framebuffer
target is `tgt`: once it is classified, the list holds one object for each layer, and the
GPU-layer set holds every position but the one of the framebuffer target. -/
theorem classify_gpu_positions {σ : Type} (caps : Caps σ)
    (front back : List hwc_layer_1_t) (tgt : hwc_layer_1_t) (m : σ) (s0 : State σ)
    (hfront : ∀ raw ∈ front, raw.compositionType ≠ HWC_OVERLAY ∧
      raw.compositionType ≠ HWC_FRAMEBUFFER_TARGET)
    (hback : ∀ raw ∈ back, raw.compositionType ≠ HWC_OVERLAY ∧
      raw.compositionType ≠ HWC_FRAMEBUFFER_TARGET)
    (htgt : tgt.compositionType = HWC_FRAMEBUFFER_TARGET)
    (hcl : classify caps (emptyList (some (front ++ tgt :: back)) m) = some (true, s0)) :
    ClassInv caps (front ++ tgt :: back) s0 ∧
    s0.mLayers.length = front.length + 1 + back.length ∧
    s0.mLayerCount = front.length + 1 + back.length ∧
    (∀ p, p ∈ s0.mFBLayers ↔ p < front.length + 1 + back.length ∧ p ≠ front.length) ∧
    s0.mFrameBufferTarget = some front.length := by
  have hne : front ++ tgt :: back ≠ [] := by simp
  obtain ⟨_, hinv, hlen, _, hcount, hfbt⟩ := classify_inv caps _ m true s0 hne hcl
  have hL : (front ++ tgt :: back).length = front.length + 1 + back.length := by
    simp only [List.length_append, List.length_cons]; omega
  rw [hL] at hlen hcount
  have hraw : ∀ (p : Nat) (raw : hwc_layer_1_t), (front ++ tgt :: back)[p]? = some raw →
      (p = front.length ∧ raw = tgt) ∨
      (p ≠ front.length ∧ raw.compositionType ≠ HWC_OVERLAY ∧
        raw.compositionType ≠ HWC_FRAMEBUFFER_TARGET) := by
    intro p raw h
    rcases Nat.lt_trichotomy p front.length with hp | hp | hp
    · rw [List.getElem?_append_left hp] at h
      exact Or.inr ⟨by omega, hfront raw (List.getElem?_mem h)⟩
    · subst hp
      rw [List.getElem?_append_right (le_refl _)] at h
      simp only [Nat.sub_self, List.getElem?_cons_zero, Option.some.injEq] at h
      exact Or.inl ⟨rfl, h.symm⟩
    · rw [List.getElem?_append_right (by omega)] at h
      obtain ⟨k, hk⟩ : ∃ k, p - front.length = k + 1 := ⟨p - front.length - 1, by omega⟩
      rw [hk, List.getElem?_cons_succ] at h
      exact Or.inr ⟨by omega, hback raw (List.getElem?_mem h)⟩
  have hmem : ∀ p, p ∈ s0.mFBLayers ↔ p < front.length + 1 + back.length ∧
      p ≠ front.length := by
    intro p
    constructor
    · intro hp
      have hlt := hinv.fb_valid p hp
      refine ⟨by omega, ?_⟩
      obtain ⟨l, hl⟩ := getElem?_some_of_lt s0.mLayers p hlt
      obtain ⟨_, _, _, _, _, raw, hr, _, hobj⟩ := hinv.layer p l hl
      rcases hraw p raw hr with ⟨_, e⟩ | ⟨hne1, _⟩
      · exfalso
        subst e
        have ht := (layerObject_type caps p raw).1 htgt
        rw [← hobj] at ht
        rcases (hinv.fb_role p l hl).1 hp with h | h <;> rw [ht] at h <;> cases h
      · exact hne1
    · rintro ⟨hlt, hne1⟩
      obtain ⟨l, hl⟩ := getElem?_some_of_lt s0.mLayers p (by omega)
      obtain ⟨_, _, _, _, _, raw, hr, _, hobj⟩ := hinv.layer p l hl
      rcases hraw p raw hr with ⟨e, _⟩ | ⟨_, h1, h2⟩
      · exact absurd e hne1
      · have ht := (layerObject_type caps p raw).2 h2 h1
        rw [← hobj] at ht
        exact (hinv.fb_role p l hl).2 ht
  refine ⟨hinv, hlen, hcount, hmem, ?_⟩
  cases hf : s0.mFrameBufferTarget with
  | none => exact absurd hf (hfbt.mp rfl)
  | some f =>
    obtain ⟨l, hl, ht⟩ := hinv.fbt f hf
    obtain ⟨_, _, _, _, _, raw, hr, _, hobj⟩ := hinv.layer f l hl
    rcases hraw f raw hr with ⟨e, _⟩ | ⟨_, h1, h2⟩
    · rw [e]
    · exfalso
      have ht2 := (layerObject_type caps f raw).2 h2 h1
      rw [← hobj, ht] at ht2
      rcases ht2 with h | h <;> cases h

/-- In a classified frame without pre-skipped layer and with one framebuffer target the
eligibility test reads `mFBLayers` in range. -/
theorem classify_readsInRange {σ : Type} (caps : Caps σ)
    (front back : List hwc_layer_1_t) (tgt : hwc_layer_1_t) (m : σ) (s0 : State σ)
    (hfront : ∀ raw ∈ front, raw.compositionType ≠ HWC_OVERLAY ∧
      raw.compositionType ≠ HWC_FRAMEBUFFER_TARGET)
    (hback : ∀ raw ∈ back, raw.compositionType ≠ HWC_OVERLAY ∧
      raw.compositionType ≠ HWC_FRAMEBUFFER_TARGET)
    (htgt : tgt.compositionType = HWC_FRAMEBUFFER_TARGET)
    (hcl : classify caps (emptyList (some (front ++ tgt :: back)) m) = some (true, s0)) :
    ReadsInRange s0 := by
  obtain ⟨hinv, hlen, hcount, hmem, _⟩ :=
    classify_gpu_positions caps front back tgt m s0 hfront hback htgt hcl
  have hsize : front.length + back.length ≤ s0.mFBLayers.length := by
    have hnd : ((List.range (front.length + 1 + back.length)).erase front.length).Nodup :=
      (List.nodup_range _).erase _
    have hsub : (List.range (front.length + 1 + back.length)).erase front.length ⊆
        s0.mFBLayers := by
      intro p hp
      rw [(List.nodup_range _).mem_erase_iff, List.mem_range] at hp
      exact (hmem p).2 ⟨hp.2, hp.1⟩
    have hle := (List.subperm_of_subset hnd hsub).length_le
    rw [List.length_erase_of_mem (List.mem_range.2 (by omega)), List.length_range] at hle
    omega
  refine ⟨by rw [hcount]; omega, ?_⟩
  intro p hp l hl
  rw [(hinv.layer p l hl).1]
  have := (hmem p).1 hp
  omega

theorem exWideMarked_sameFrame : SameFrame exWideClassified exWideMarked :=
  ⟨rfl, rfl, by decide, rfl, rfl, rfl, rfl⟩

theorem exWideMarked_added :
    (addZOrderLayer (exEnv 1 0 (fun _ => true)) PlaneType.PLANE_SPRITE 1 (-1)
      exWideClassified).map (fun r => r.2) = some exWideMarked := by
  decide

/-- C21: the positions of `mFBLayers` that `useAsFrameBufferTarget(target)` reads lie
below the frame index of the target or between it and `mLayerCount - 1`, and the test has
no answer exactly when one of them is not a position of `mFBLayers`. In every list that
holds a classified frame without pre-skipped layer and with one framebuffer target,
wherever that target stands, every position read for a GPU layer is smaller than the size
of `mFBLayers`, whatever the in-use marking. With a pre-skipped layer this fails: the
frame of a pre-skipped layer, three sprite candidates and the framebuffer target is
accepted; after the search with one free sprite plane added the first candidate, the test
for the second GPU layer reads position 3 of the three-element `mFBLayers`, and the
search has no result. -/
theorem eligibility_reads_in_range_without_skipped_layer :
    (∀ {σ : Type} (s : State σ) (target : HwcLayer) (i : Nat),
      i ∈ useAsFrameBufferTargetReads s target →
      i < target.mIndex ∨ (target.mIndex < i ∧ i < s.mLayerCount - 1)) ∧
    (∀ {σ : Type} (s : State σ) (target : HwcLayer),
      (∀ p ∈ s.mFBLayers, p < s.mLayers.length) →
      (useAsFrameBufferTarget s target = none ↔
        ∃ i ∈ useAsFrameBufferTargetReads s target, s.mFBLayers.length ≤ i)) ∧
    (∀ {σ : Type} (caps : Caps σ) (front back : List hwc_layer_1_t) (tgt : hwc_layer_1_t)
      (m : σ) (s0 s : State σ),
      (∀ raw ∈ front, raw.compositionType ≠ HWC_OVERLAY ∧
        raw.compositionType ≠ HWC_FRAMEBUFFER_TARGET) →
      (∀ raw ∈ back, raw.compositionType ≠ HWC_OVERLAY ∧
        raw.compositionType ≠ HWC_FRAMEBUFFER_TARGET) →
      tgt.compositionType = HWC_FRAMEBUFFER_TARGET →
      classify caps (emptyList (some (front ++ tgt :: back)) m) = some (true, s0) →
      SameFrame s0 s →
      ∀ q ∈ s.mFBLayers, ∀ l, s.mLayers[q]? = some l →
        ∀ i ∈ useAsFrameBufferTargetReads s l, i < s.mFBLayers.length) ∧
    (classify exAllCaps (emptyList (some exSkipFrame) ()) = some (true, exSkipClassified) ∧
      (addZOrderLayer (exEnv 1 0 (fun _ => true)) PlaneType.PLANE_SPRITE 1 (-1)
          exSkipClassified).bind
        (fun r => r.2.mLayers[2]?.map (fun l => useAsFrameBufferTargetReads r.2 l)) =
        some [0, 1, 3] ∧
      (addZOrderLayer (exEnv 1 0 (fun _ => true)) PlaneType.PLANE_SPRITE 1 (-1)
          exSkipClassified).map (fun r => r.2.mFBLayers.length) = some 3 ∧
      (addZOrderLayer (exEnv 1 0 (fun _ => true)) PlaneType.PLANE_SPRITE 1 (-1)
          exSkipClassified).bind
        (fun r => r.2.mLayers[2]?.map (fun l => useAsFrameBufferTarget r.2 l)) =
        some none ∧
      allocatePlanesV2 (exEnv 1 0 (fun _ => true)) exSkipClassified = none) := by
  refine ⟨?_, ?_, ?_, by decide, by decide, by decide, by decide, by decide⟩
  · intro σ s target i h
    exact useAsFrameBufferTargetReads_bound s target i h
  · intro σ s target hv
    exact useAsFrameBufferTarget_none_iff s hv target
  · intro σ caps front back tgt m s0 s hfront hback htgt hcl hsf q hq l hl i hi
    have hr := (classify_readsInRange caps front back tgt m s0 hfront hback htgt hcl).frame hsf
    have h1 := hr.1
    have h2 := hr.2 q hq l hl
    rcases useAsFrameBufferTargetReads_bound s l i hi with h | h <;> omega

theorem eligibility_reads_in_range_without_skipped_layer_witness :
    exWideMarked.mLayers[2]? = some exWideLayerC ∧
    ∀ i ∈ useAsFrameBufferTargetReads exWideMarked exWideLayerC,
      i < exWideMarked.mFBLayers.length :=
  ⟨by decide, eligibility_reads_in_range_without_skipped_layer.2.2.1 exAllCaps
    [exRawLayer HWC_FRAMEBUFFER { left := 0, top := 0, right := 10, bottom := 10 },
     exRawLayer HWC_FRAMEBUFFER { left := 5, top := 0, right := 15, bottom := 10 },
     exRawLayer HWC_FRAMEBUFFER { left := 20, top := 0, right := 30, bottom := 10 }]
    [] (exRawLayer HWC_FRAMEBUFFER_TARGET exRect) ()
    exWideClassified exWideMarked (by decide) (by decide) (by decide) (by decide)
    exWideMarked_sameFrame 2 (by decide) exWideLayerC (by decide)⟩
/-! ## The eligibility test on well-shaped frames -/

theorem forall_from_succ (Q : Nat → Prop) (j cnt : Nat) :
    (∀ i, j ≤ i → i < j + (cnt + 1) → Q i) ↔
      (Q j ∧ ∀ i, j + 1 ≤ i → i < j + 1 + cnt → Q i) := by
  constructor
  · intro h
    exact ⟨h j (le_refl _) (by omega), fun i h1 h2 => h i (by omega) (by omega)⟩
  · rintro ⟨h0, h⟩ i h1 h2
    rcases Nat.eq_or_lt_of_le h1 with e | e
    · rw [← e]; exact h0
    · exact h i e (by omega)

/-- An inner loop of the eligibility test, when its reads are in range: it answers true
exactly when `test` is false for every layer in use among the positions it visits. -/
theorem intersectScan_spec {σ : Type} (s : State σ) (test : HwcLayer → Bool) :
    ∀ (cnt j : Nat), (∀ i, j ≤ i → i < j + cnt → ∃ l, fbLayerAt s i = some l) →
      ∃ b, intersectScan s test cnt j = some b ∧
        (b = true ↔ ∀ i, j ≤ i → i < j + cnt →
          ∀ l, fbLayerAt s i = some l → l.mPlaneCandidate = true → test l = false) := by
  intro cnt
  induction cnt with
  | zero =>
    intro j _
    exact ⟨true, rfl, by simp only [true_iff]; intro i h1 h2; omega⟩
  | succ cnt ih =>
    intro j hdef
    obtain ⟨lj, hlj⟩ := hdef j (le_refl _) (by omega)
    obtain ⟨b, hb, hiff⟩ := ih (j + 1) (fun i h1 h2 => hdef i (by omega) (by omega))
    rw [forall_from_succ (fun i => ∀ l, fbLayerAt s i = some l →
      l.mPlaneCandidate = true → test l = false)]
    have hq : (∀ l, fbLayerAt s j = some l → l.mPlaneCandidate = true → test l = false) ↔
        (lj.mPlaneCandidate = true → test lj = false) := by
      constructor
      · intro h; exact h lj hlj
      · intro h l hl; rw [hlj] at hl; injection hl with hl; subst hl; exact h
    rw [hq]
    unfold intersectScan
    simp only [hlj]
    split_ifs with h1 h2
    · exact ⟨b, hb, by rw [hiff]; simp [h1]⟩
    · refine ⟨false, rfl, ?_⟩
      have hflag : lj.mPlaneCandidate = true := by simpa using h1
      simp [hflag, h2]
    · refine ⟨b, hb, ?_⟩
      have h3 : test lj = false := by simpa using h2
      rw [hiff]; simp [h3]

/-- The first outer loop of the eligibility test, when its reads are in range: it answers
true exactly when no layer in use strictly between a visited layer that is not in use and
the target intersects that layer. -/
theorem belowScan_spec {σ : Type} (s : State σ) (t : Nat)
    (hdef : ∀ i, i < t → ∃ l, fbLayerAt s i = some l) :
    ∀ (cnt below : Nat), below + cnt ≤ t →
      ∃ b, belowScan s t cnt below = some b ∧
        (b = true ↔ ∀ i, below ≤ i → i < below + cnt →
          ∀ lb, fbLayerAt s i = some lb → lb.mPlaneCandidate = false →
            ∀ c, i + 1 ≤ c → c < t → ∀ lc, fbLayerAt s c = some lc →
              lc.mPlaneCandidate = true → hasIntersection lc lb = false) := by
  intro cnt
  induction cnt with
  | zero =>
    intro below _
    exact ⟨true, rfl, by simp only [true_iff]; intro i h1 h2; omega⟩
  | succ cnt ih =>
    intro below hle
    obtain ⟨l0, hl0⟩ := hdef below (by omega)
    obtain ⟨b, hb, hiff⟩ := ih (below + 1) (by omega)
    obtain ⟨bi, hbi, hbiff⟩ := intersectScan_spec s (fun la => hasIntersection la l0)
      (t - (below + 1)) (below + 1) (fun i h1 h2 => hdef i (by omega))
    rw [forall_from_succ (fun i => ∀ lb, fbLayerAt s i = some lb →
      lb.mPlaneCandidate = false → ∀ c, i + 1 ≤ c → c < t → ∀ lc, fbLayerAt s c = some lc →
        lc.mPlaneCandidate = true → hasIntersection lc lb = false)]
    have hq : (∀ lb, fbLayerAt s below = some lb → lb.mPlaneCandidate = false →
        ∀ c, below + 1 ≤ c → c < t → ∀ lc, fbLayerAt s c = some lc →
          lc.mPlaneCandidate = true → hasIntersection lc lb = false) ↔
        (l0.mPlaneCandidate = false → bi = true) := by
      rw [hbiff]
      constructor
      · intro h hf c h1 h2 lc hlc hflag
        exact h l0 hl0 hf c h1 (by omega) lc hlc hflag
      · intro h lb hlb hf c h1 h2 lc hlc hflag
        rw [hl0] at hlb; injection hlb with hlb; subst hlb
        exact h hf c h1 (by omega) lc hlc hflag
    rw [hq]
    unfold belowScan
    simp only [hl0, hbi]
    cases hflag : l0.mPlaneCandidate with
    | true =>
      simp only [if_true]
      exact ⟨b, hb, by rw [hiff]; simp⟩
    | false =>
      simp only [Bool.false_eq_true, if_false]
      cases bi with
      | false => exact ⟨false, rfl, by simp⟩
      | true => exact ⟨b, hb, by rw [hiff]; simp⟩

/-- The second outer loop of the eligibility test, when its reads are in range: it
answers true exactly when no layer in use strictly between the target and a visited layer
that is not in use intersects that layer. -/
theorem aboveScan_spec {σ : Type} (s : State σ) (t : Nat) :
    ∀ (cnt above : Nat), t < above →
      (∀ i, t < i → i < above + cnt → ∃ l, fbLayerAt s i = some l) →
      ∃ b, aboveScan s t cnt above = some b ∧
        (b = true ↔ ∀ i, above ≤ i → i < above + cnt →
          ∀ la, fbLayerAt s i = some la → la.mPlaneCandidate = false →
            ∀ c, t + 1 ≤ c → c < i → ∀ lc, fbLayerAt s c = some lc →
              lc.mPlaneCandidate = true → hasIntersection la lc = false) := by
  intro cnt
  induction cnt with
  | zero =>
    intro above _ _
    exact ⟨true, rfl, by simp only [true_iff]; intro i h1 h2; omega⟩
  | succ cnt ih =>
    intro above hlt hdef
    obtain ⟨l0, hl0⟩ := hdef above hlt (by omega)
    obtain ⟨b, hb, hiff⟩ := ih (above + 1) (by omega)
      (fun i h1 h2 => hdef i h1 (by omega))
    obtain ⟨bi, hbi, hbiff⟩ := intersectScan_spec s (fun lb => hasIntersection l0 lb)
      (above - (t + 1)) (t + 1) (fun i h1 h2 => hdef i (by omega) (by omega))
    rw [forall_from_succ (fun i => ∀ la, fbLayerAt s i = some la →
      la.mPlaneCandidate = false → ∀ c, t + 1 ≤ c → c < i → ∀ lc, fbLayerAt s c = some lc →
        lc.mPlaneCandidate = true → hasIntersection la lc = false)]
    have hq : (∀ la, fbLayerAt s above = some la → la.mPlaneCandidate = false →
        ∀ c, t + 1 ≤ c → c < above → ∀ lc, fbLayerAt s c = some lc →
          lc.mPlaneCandidate = true → hasIntersection la lc = false) ↔
        (l0.mPlaneCandidate = false → bi = true) := by
      rw [hbiff]
      constructor
      · intro h hf c h1 h2 lc hlc hflag
        exact h l0 hl0 hf c h1 (by omega) lc hlc hflag
      · intro h la hla hf c h1 h2 lc hlc hflag
        rw [hl0] at hla; injection hla with hla; subst hla
        exact h hf c h1 (by omega) lc hlc hflag
    rw [hq]
    unfold aboveScan
    simp only [hl0, hbi]
    cases hflag : l0.mPlaneCandidate with
    | true =>
      simp only [if_true]
      exact ⟨b, hb, by rw [hiff]; simp⟩
    | false =>
      simp only [Bool.false_eq_true, if_false]
      cases bi with
      | false => exact ⟨false, rfl, by simp⟩
      | true => exact ⟨b, hb, by rw [hiff]; simp⟩
/-- The eligibility of the specification, as a statement about pairs of positions. -/
theorem eligibleByPosition_iff {σ : Type} (s : State σ) (p : Nat) :
    eligibleByPosition s p = true ↔
      ∀ b c lb lc, s.mLayers[b]? = some lb → s.mLayers[c]? = some lc →
        b ∈ s.mFBLayers → lb.mPlaneCandidate = false → lc.mPlaneCandidate = true →
        (b < c ∧ c < p ∨ p < c ∧ c < b) → hasIntersection lc lb = false := by
  unfold eligibleByPosition
  simp only [List.all_eq_true, List.mem_range]
  constructor
  · intro h b c lb lc hb hc hmem hf1 hf2 hbet
    have hbl : b < s.mLayers.length := (List.getElem?_eq_some.mp hb).1
    have hcl : c < s.mLayers.length := (List.getElem?_eq_some.mp hc).1
    have := h b hbl c hcl
    rw [hb, hc] at this
    simp only [hmem, hf1, hf2, decide_True, Bool.not_false, Bool.and_self, Bool.true_and,
      Bool.not_eq_true', Bool.and_eq_false_iff, Bool.or_eq_false_iff,
      decide_eq_false_iff_not] at this
    rcases this with h1 | h1
    · rcases hbet with h2 | h2
      · exact absurd h2 h1.1
      · exact absurd h2 h1.2
    · exact h1
  · intro h b hb c hc
    cases hlb : s.mLayers[b]? with
    | none => rfl
    | some lb =>
      cases hlc : s.mLayers[c]? with
      | none => rfl
      | some lc =>
        simp only
        rw [Bool.not_eq_true']
        by_contra hcon
        rw [Bool.not_eq_false] at hcon
        simp only [Bool.and_eq_true, decide_eq_true_eq, Bool.or_eq_true,
          Bool.not_eq_true'] at hcon
        obtain ⟨⟨⟨⟨h1, h2⟩, h3⟩, h4⟩, h5⟩ := hcon
        have := h b c lb lc hlb hlc h1 h2 h3 h4
        rw [h5] at this
        cases this

/-- The eligibility test, when its reads are in range: it answers true exactly when no
layer in use strictly between a layer that is not in use and the target, on either side
of the target, intersects that layer; positions are positions of `mFBLayers`. -/
theorem useAsFrameBufferTarget_spec {σ : Type} (s : State σ) (target : HwcLayer)
    (hdef : ∀ i, i < target.mIndex ∨ (target.mIndex < i ∧ i < s.mLayerCount - 1) →
      ∃ l, fbLayerAt s i = some l) :
    ∃ b, useAsFrameBufferTarget s target = some b ∧
      (b = true ↔
        (∀ i, i < target.mIndex →
          ∀ lb, fbLayerAt s i = some lb → lb.mPlaneCandidate = false →
            ∀ c, i + 1 ≤ c → c < target.mIndex → ∀ lc, fbLayerAt s c = some lc →
              lc.mPlaneCandidate = true → hasIntersection lc lb = false) ∧
        (∀ i, target.mIndex < i → i < s.mLayerCount - 1 →
          ∀ la, fbLayerAt s i = some la → la.mPlaneCandidate = false →
            ∀ c, target.mIndex + 1 ≤ c → c < i → ∀ lc, fbLayerAt s c = some lc →
              lc.mPlaneCandidate = true → hasIntersection la lc = false)) := by
  obtain ⟨b1, h1, hiff1⟩ := belowScan_spec s target.mIndex
    (fun i hi => hdef i (Or.inl hi)) target.mIndex 0 (by omega)
  obtain ⟨b2, h2, hiff2⟩ := aboveScan_spec s target.mIndex
    (s.mLayerCount - 1 - (target.mIndex + 1)) (target.mIndex + 1) (Nat.lt_succ_self _)
    (fun i hi1 hi2 => hdef i (Or.inr ⟨hi1, by omega⟩))
  have e1 : b1 = true ↔ (∀ i, i < target.mIndex →
      ∀ lb, fbLayerAt s i = some lb → lb.mPlaneCandidate = false →
        ∀ c, i + 1 ≤ c → c < target.mIndex → ∀ lc, fbLayerAt s c = some lc →
          lc.mPlaneCandidate = true → hasIntersection lc lb = false) := by
    rw [hiff1]
    constructor
    · intro h i hi; exact h i (Nat.zero_le _) (by omega)
    · intro h i _ hi; exact h i (by omega)
  have e2 : b2 = true ↔ (∀ i, target.mIndex < i → i < s.mLayerCount - 1 →
      ∀ la, fbLayerAt s i = some la → la.mPlaneCandidate = false →
        ∀ c, target.mIndex + 1 ≤ c → c < i → ∀ lc, fbLayerAt s c = some lc →
          lc.mPlaneCandidate = true → hasIntersection la lc = false) := by
    rw [hiff2]
    constructor
    · intro h i hi1 hi2; exact h i (by omega) (by omega)
    · intro h i hi1 hi2; exact h i (by omega) (by omega)
  rw [← e1, ← e2]
  unfold useAsFrameBufferTarget
  simp only [h1]
  cases b1 with
  | false => exact ⟨false, rfl, by simp⟩
  | true => exact ⟨b2, h2, by simp⟩

theorem sorted_eq_range (L : List Nat) (n : Nat) (hs : L.Pairwise (fun a b => a < b))
    (hm : ∀ p, p ∈ L ↔ p < n) : L = List.range n := by
  have hnd : L.Nodup := hs.imp (fun h => Nat.ne_of_lt h)
  have hperm : L.Perm (List.range n) :=
    (List.perm_ext_iff_of_nodup hnd (List.nodup_range n)).2
      (fun a => by rw [hm a, List.mem_range])
  exact List.eq_of_perm_of_sorted hperm hs (List.pairwise_lt_range n)

/-- A list that holds a classified frame without pre-skipped layer whose one framebuffer
target is the last layer: position `j` of `mFBLayers` is the layer of index `j`. -/
theorem wellShaped_positions {σ : Type} (caps : Caps σ) (front : List hwc_layer_1_t)
    (tgt : hwc_layer_1_t) (m : σ) (s0 s : State σ)
    (hfront : ∀ raw ∈ front, raw.compositionType ≠ HWC_OVERLAY ∧
      raw.compositionType ≠ HWC_FRAMEBUFFER_TARGET)
    (htgt : tgt.compositionType = HWC_FRAMEBUFFER_TARGET)
    (hcl : classify caps (emptyList (some (front ++ [tgt])) m) = some (true, s0))
    (hsf : SameFrame s0 s) :
    s.mLayerCount = front.length + 1 ∧ s.mLayers.length = front.length + 1 ∧
    s.mFBLayers = List.range front.length ∧ s.mFrameBufferTarget = some front.length ∧
    (∀ (p : Nat) (l : HwcLayer), s.mLayers[p]? = some l → l.mIndex = p) ∧
    (∀ j, j < front.length → fbLayerAt s j = s.mLayers[j]?) := by
  obtain ⟨hinv, hlen, hcount, hmem, hfbt⟩ :=
    classify_gpu_positions caps front [] tgt m s0 hfront (by simp) htgt hcl
  simp only [List.length_nil, Nat.add_zero] at hlen hcount hmem
  have hfb0 : s0.mFBLayers = List.range front.length :=
    sorted_eq_range _ _ hinv.fb_sorted (fun p => by rw [hmem p]; omega)
  have hfb : s.mFBLayers = List.range front.length := by rw [hsf.fb, hfb0]
  refine ⟨by rw [hsf.count, hcount], by rw [hsf.length, hlen], hfb,
    by rw [hsf.fbt, hfbt], ?_, ?_⟩
  · intro p l hl
    obtain ⟨l0, hl0, hcf⟩ := hsf.layer hl
    rw [← (clearFlag_fields hcf).2.2.1]
    exact (hinv.layer p l0 hl0).1
  · intro j hj
    unfold fbLayerAt
    rw [hfb, List.getElem?_range hj]

/-- C23: for every frame that contains no pre-skipped layer and whose one framebuffer
target is the last layer, once the classifier accepted it, in every list that holds this
frame, whatever the in-use marking: `mFBLayers` is the list of the positions below
`mLayerCount - 1`, so that position `j` of `mFBLayers` is the layer of original index
`j`; and for every GPU layer `L`, in use or not, `useAsFrameBufferTarget(L)` returns an
answer, which is the eligibility of the specification evaluated over original z-order
positions. -/
theorem eligibility_agrees_with_definition_on_well_shaped_frames {σ : Type}
    (caps : Caps σ) (front : List hwc_layer_1_t) (tgt : hwc_layer_1_t) (m : σ)
    (s0 s : State σ)
    (hfront : ∀ raw ∈ front, raw.compositionType ≠ HWC_OVERLAY ∧
      raw.compositionType ≠ HWC_FRAMEBUFFER_TARGET)
    (htgt : tgt.compositionType = HWC_FRAMEBUFFER_TARGET)
    (hcl : classify caps (emptyList (some (front ++ [tgt])) m) = some (true, s0))
    (hsf : SameFrame s0 s) :
    (s.mLayerCount = front.length + 1 ∧ s.mFBLayers = List.range front.length ∧
      s.mFrameBufferTarget = some front.length) ∧
    (∀ j, j < s.mLayerCount - 1 →
      ∃ l, fbLayerAt s j = some l ∧ s.mLayers[j]? = some l ∧ l.mIndex = j) ∧
    (∀ (p : Nat) (l : HwcLayer), p ∈ s.mFBLayers → s.mLayers[p]? = some l →
      useAsFrameBufferTarget s l = some (eligibleByPosition s p)) := by
  obtain ⟨hcount, hlen, hfb, hfbt, hidx, hat⟩ :=
    wellShaped_positions caps front tgt m s0 s hfront htgt hcl hsf
  have hsome : ∀ j, j < front.length → ∃ l, s.mLayers[j]? = some l :=
    fun j hj => getElem?_some_of_lt s.mLayers j (by omega)
  refine ⟨⟨hcount, hfb, hfbt⟩, ?_, ?_⟩
  · intro j hj
    have hj2 : j < front.length := by omega
    obtain ⟨l, hl⟩ := hsome j hj2
    exact ⟨l, by rw [hat j hj2]; exact hl, hl, hidx j l hl⟩
  · intro p l hp hl
    have hpn : p < front.length := by rw [hfb] at hp; exact List.mem_range.mp hp
    have ht : l.mIndex = p := hidx p l hl
    obtain ⟨b, hb, hiff⟩ := useAsFrameBufferTarget_spec s l (by
      intro i hi
      have hin : i < front.length := by omega
      obtain ⟨li, hli⟩ := hsome i hin
      exact ⟨li, by rw [hat i hin]; exact hli⟩)
    rw [hb]
    congr 1
    rw [Bool.eq_iff_iff, hiff, eligibleByPosition_iff, ht, hcount]
    constructor
    · rintro ⟨hbelow, habove⟩ b c lb lc hlb hlc hmem hf1 hf2 hbet
      have hbn : b < front.length := by rw [hfb] at hmem; exact List.mem_range.mp hmem
      rcases hbet with ⟨h1, h2⟩ | ⟨h1, h2⟩
      · exact hbelow b (by omega) lb (by rw [hat b hbn]; exact hlb) hf1 c (by omega) h2 lc
          (by rw [hat c (by omega)]; exact hlc) hf2
      · rw [hasIntersection_symmetric]
        exact habove b (by omega) (by omega) lb (by rw [hat b hbn]; exact hlb) hf1 c
          (by omega) h2 lc (by rw [hat c (by omega)]; exact hlc) hf2
    · intro h
      constructor
      · intro i hi lb hlb hf1 c h1 h2 lc hlc hf2
        have hin : i < front.length := by omega
        rw [hat i hin] at hlb
        rw [hat c (by omega)] at hlc
        exact h i c lb lc hlb hlc (by rw [hfb]; exact List.mem_range.mpr hin) hf1 hf2
          (Or.inl ⟨by omega, h2⟩)
      · intro i hi1 hi2 la hla hf1 c h1 h2 lc hlc hf2
        have hin : i < front.length := by omega
        rw [hat i hin] at hla
        rw [hat c (by omega)] at hlc
        rw [hasIntersection_symmetric]
        exact h i c la lc hla hlc (by rw [hfb]; exact List.mem_range.mpr hin) hf1 hf2
          (Or.inr ⟨by omega, h2⟩)

theorem eligibility_agrees_with_definition_on_well_shaped_frames_witness :
    exWideMarked.mLayers[2]? = some exWideLayerC ∧
    useAsFrameBufferTarget exWideMarked exWideLayerC =
      some (eligibleByPosition exWideMarked 2) ∧
    eligibleByPosition exWideMarked 2 = false ∧ eligibleByPosition exWideMarked 0 = true :=
  ⟨by decide, (eligibility_agrees_with_definition_on_well_shaped_frames exAllCaps
    [exRawLayer HWC_FRAMEBUFFER { left := 0, top := 0, right := 10, bottom := 10 },
     exRawLayer HWC_FRAMEBUFFER { left := 5, top := 0, right := 15, bottom := 10 },
     exRawLayer HWC_FRAMEBUFFER { left := 20, top := 0, right := 30, bottom := 10 }]
    (exRawLayer HWC_FRAMEBUFFER_TARGET exRect) () exWideClassified exWideMarked
    (by decide) (by decide) (by decide) exWideMarked_sameFrame).2.2 2 exWideLayerC
    (by decide) (by decide), by decide, by decide⟩

end HwcLayerList
